import Mathlib

/-!
Collateralize executor: shallow embedding and verified properties

Embedding of `plugin/dapp/collateralize/executor/collateralizedb.go`.

Modelling conventions
* `int64` quantities are `Int` (no wrap-around is modelled); `float64` prices and ratios are
  exact rationals `ℚ`, and `math.Trunc` is truncation towards zero.  The values of `float64`
  that are not numbers (NaN, the infinities) are modelled for the risk parameters that
  `CollateralizeManage` checks and stores, in `CollateralizeManageF64`.
* The state KV is typed: a stored value is the decoded message, a missing key is `ErrNotFound`.
* The account ledger (`account.DB` of the host chain) is not part of this package: its four
  operations are fields of `Ledger`, so every result holds for any ledger behaviour; ledger
  receipts (their own logs) are not recorded, the log list holds the collateralize logs only.
* Constants and helpers of the `types` packages that the executor uses are fields of `Ext`.
* A Go run-time panic (slice bounds, nil dereference) is the error `Err.goPanic`.
-/

namespace Executor

/-! ## Errors and data model -/

/-- Error values returned by the handlers, plus the run-time panic. -/
inductive Err where
  | ErrPermissionDeny
  | ErrRiskParam
  | ErrInvalidParam
  | ErrAmount
  | ErrPriceInvalid
  | ErrCollateralizeStatus
  | ErrRecordNotExist
  | ErrCollateralizeLowBalance
  | ErrCollateralizeExceedDebtCeiling
  | ErrNoBalance
  | ErrInsufficientBalance
  | ErrNotFound
  | ErrOther (code : Nat)
  | goPanic
deriving DecidableEq, Repr

/-- Decidable equality of handler results. -/
instance instDecidableEqExcept {ε α : Type} [DecidableEq ε] [DecidableEq α] :
    DecidableEq (Except ε α)
  | .ok a, .ok b =>
    if h : a = b then isTrue (congrArg Except.ok h) else isFalse (fun h' => h (Except.ok.inj h'))
  | .error a, .error b =>
    if h : a = b then isTrue (congrArg Except.error h)
    else isFalse (fun h' => h (Except.error.inj h'))
  | .ok _, .error _ => isFalse (fun h => Except.noConfusion h)
  | .error _, .ok _ => isFalse (fun h => Except.noConfusion h)

end Executor

namespace pty

/-- Message `pty.BorrowRecord`. -/
structure BorrowRecord where
  RecordId : String
  CollateralizeId : String
  AccountAddr : String
  CollateralValue : Int
  StartTime : Int
  CollateralPrice : ℚ
  DebtValue : Int
  LiquidationPrice : ℚ
  Status : Int
  LiquidateTime : Int
  ExpireTime : Int
  PreStatus : Int
  Index : Int
  PreIndex : Int
deriving DecidableEq, Repr, Inhabited

/-- Message `pty.Collateralize` (the vault aggregate). -/
structure Collateralize where
  CollateralizeId : String
  TotalBalance : Int
  DebtCeiling : Int
  LiquidationRatio : ℚ
  StabilityFeeRatio : ℚ
  CreateAddr : String
  Balance : Int
  BorrowRecords : List BorrowRecord
  InvalidRecords : List BorrowRecord
  Status : Int
  LatestLiquidationPrice : ℚ
  Period : Int
  LatestExpireTime : Int
  CollBalance : Int
  PreStatus : Int
  Index : Int
  PreIndex : Int
deriving DecidableEq, Repr, Inhabited

/-- Message `pty.CollateralizeManage` (payload of Manage and the stored global config). -/
structure CollateralizeManage where
  DebtCeiling : Int
  LiquidationRatio : ℚ
  StabilityFeeRatio : ℚ
  Period : Int
  TotalBalance : Int
  CurrentTime : Int
deriving DecidableEq, Repr, Inhabited

/-- Message `pty.AssetPriceRecord`. -/
structure AssetPriceRecord where
  BtyPrice : ℚ
  RecordTime : Int
deriving DecidableEq, Repr, Inhabited

/-- Payload `pty.CollateralizeCreate`. -/
structure CollateralizeCreate where
  TotalBalance : Int
deriving DecidableEq, Repr

/-- Payload `pty.CollateralizeBorrow`. -/
structure CollateralizeBorrow where
  CollateralizeId : String
  Value : Int
deriving DecidableEq, Repr

/-- Payload `pty.CollateralizeRepay`. -/
structure CollateralizeRepay where
  CollateralizeId : String
  RecordId : String
deriving DecidableEq, Repr

/-- Payload `pty.CollateralizeAppend`. -/
structure CollateralizeAppend where
  CollateralizeId : String
  RecordId : String
  CollateralValue : Int
deriving DecidableEq, Repr

/-- Payload `pty.CollateralizeFeed`. -/
structure CollateralizeFeed where
  Price : List ℚ
  Volume : List Int
deriving DecidableEq, Repr

/-- Payload `pty.CollateralizeRetrieve`. -/
structure CollateralizeRetrieve where
  CollateralizeId : String
  Balance : Int
deriving DecidableEq, Repr

/-- Message `pty.ReceiptCollateralize`, the body of a collateralize receipt log. -/
structure ReceiptCollateralize where
  CollateralizeId : String
  CreateAddr : String
  AccountAddr : String
  RecordId : String
  Status : Int
  PreStatus : Int
  Index : Int
  PreIndex : Int
deriving DecidableEq, Repr, Inhabited

/-- A receipt log: integer tag and decoded body. -/
structure ReceiptLog where
  Ty : Int
  Log : ReceiptCollateralize
deriving DecidableEq, Repr, Inhabited

/-- Message `pty.CollateralizeRecord`, the value stored under a secondary-index key. -/
structure CollateralizeRecord where
  CollateralizeId : String
  Addr : String
  RecordId : String
  Index : Int
  Status : Int
deriving DecidableEq, Repr, Inhabited

end pty

namespace Executor

/-- An exec account of the ledger: active balance and frozen balance. -/
structure Account where
  Balance : Int
  Frozen : Int
deriving DecidableEq, Repr, Inhabited

/-- Exec accounts of one asset under this executor, as an association list. -/
abbrev Accounts := List (String × Account)

/-- Typed key-value read: the first binding of the key. -/
def kvGet {α : Type} : List (String × α) → String → Option α
  | [], _ => none
  | (k, v) :: t, key => if k = key then some v else kvGet t key

/-- Typed key-value write: the new binding shadows the older ones. -/
def kvSet {α : Type} (db : List (String × α)) (key : String) (v : α) : List (String × α) :=
  (key, v) :: db

/-- The host's `LoadExecAccount`: a missing account reads as the zero account. -/
def loadExecAccount (db : Accounts) (addr : String) : Account :=
  (kvGet db addr).getD { Balance := 0, Frozen := 0 }

/-- The four mutating operations of the host ledger `account.DB` that the executor calls.
The executor address argument is the same in every call and is left out. -/
structure Ledger where
  ExecTransfer : Accounts → String → String → Int → Except Err Accounts
  ExecFrozen : Accounts → String → Int → Except Err Accounts
  ExecActive : Accounts → String → Int → Except Err Accounts
  ExecTransferFrozen : Accounts → String → String → Int → Except Err Accounts

/-- Constants and helpers that the executor takes from packages outside this file
(`pty`, `types`, `common`, `account`). -/
structure Ext where
  CollateralizePreLiquidationRatio : ℚ
  MaxTxsPerBlock : Int
  CollateralizeActionCreate : Int
  CollateralizeStatusCreated : Int
  CollateralizeStatusClose : Int
  CollateralizeUserStatusCreate : Int
  CollateralizeUserStatusWarning : Int
  CollateralizeUserStatusSystemLiquidate : Int
  CollateralizeUserStatusExpire : Int
  CollateralizeUserStatusExpireLiquidate : Int
  CollateralizeUserStatusClose : Int
  TyLogCollateralizeCreate : Int
  TyLogCollateralizeBorrow : Int
  TyLogCollateralizeRepay : Int
  TyLogCollateralizeAppend : Int
  TyLogCollateralizeFeed : Int
  TyLogCollateralizeRetrieve : Int
  ToHex : List UInt8 → String
  account : Ledger
  CollateralizeX : String

/-- The part of the state database the executor reads and writes. -/
structure State where
  vaults : List (String × pty.Collateralize)
  config : Option pty.CollateralizeManage
  price : Option pty.AssetPriceRecord
  manageKey : Option (List String)
  priceFeedKey : Option (List String)
  guarantorKey : Option (List String)
  superAddr : Option (List String)
  coins : Accounts
  token : Accounts
deriving DecidableEq, Repr, Inhabited

/-- Kinds of secondary-index listing (the key layouts are chosen outside this file). -/
inductive ListKind where
  | status (status : Int)
  | addr (addr : String)
  | recordStatus (statusKey : Option Int)
  | recordAddr (addr : String)
deriving DecidableEq, Repr

/-- The host's `dbm.Lister` over the local database: the decoded values under a listing kind,
for a count and a direction, from the newest key. -/
structure Lister where
  List : ListKind → Int → Int → Except Err (List pty.CollateralizeRecord)

/-- The transaction context `Action`. -/
structure Action where
  txhash : List UInt8
  fromaddr : String
  blocktime : Int
  height : Int
  execaddr : String
  index : Int
deriving DecidableEq, Repr

/-! ## Constants of the executor -/

def ListDESC : Int := 0
def ListASC : Int := 1
def DefultCount : Int := 20
def MaxCount : Int := 100

def Coin : Int := 100000000
def DefaultDebtCeiling : Int := 10000 * Coin
def DefaultLiquidationRatio : ℚ := 4 / 10
def DefaultStabilityFeeRation : ℚ := 8 / 100
def DefaultPeriod : Int := 3600 * 24 * 365
def DefaultTotalBalance : Int := 0
def PriceWarningRate : ℚ := 13 / 10
def ExpireWarningTime : Int := 3600 * 24 * 10

/-! ## Receipt logs -/

def GetCreateReceiptLog (X : Ext) (action : Action) (c : pty.Collateralize) : pty.ReceiptLog :=
  { Ty := X.TyLogCollateralizeCreate
    Log := { CollateralizeId := c.CollateralizeId, CreateAddr := action.fromaddr,
             AccountAddr := "", RecordId := "", Status := c.Status, PreStatus := c.PreStatus,
             Index := c.Index, PreIndex := c.PreIndex } }

def GetBorrowReceiptLog (X : Ext) (action : Action) (c : pty.Collateralize) (record : pty.BorrowRecord) :
    pty.ReceiptLog :=
  { Ty := X.TyLogCollateralizeBorrow
    Log := { CollateralizeId := c.CollateralizeId, CreateAddr := "",
             AccountAddr := action.fromaddr, RecordId := record.RecordId,
             Status := record.Status, PreStatus := 0, Index := record.Index, PreIndex := 0 } }

def GetRepayReceiptLog (X : Ext) (action : Action) (c : pty.Collateralize) (record : pty.BorrowRecord) :
    pty.ReceiptLog :=
  { Ty := X.TyLogCollateralizeRepay
    Log := { CollateralizeId := c.CollateralizeId, CreateAddr := "",
             AccountAddr := action.fromaddr, RecordId := record.RecordId,
             Status := record.Status, PreStatus := record.PreStatus, Index := record.Index,
             PreIndex := record.PreIndex } }

def GetAppendReceiptLog (X : Ext) (action : Action) (c : pty.Collateralize) (record : pty.BorrowRecord) :
    pty.ReceiptLog :=
  { Ty := X.TyLogCollateralizeAppend
    Log := { CollateralizeId := c.CollateralizeId, CreateAddr := "",
             AccountAddr := action.fromaddr, RecordId := record.RecordId,
             Status := record.Status, PreStatus := record.PreStatus, Index := record.Index,
             PreIndex := record.PreIndex } }

def GetFeedReceiptLog (X : Ext) (collateralizeId : String) (record : pty.BorrowRecord) : pty.ReceiptLog :=
  { Ty := X.TyLogCollateralizeFeed
    Log := { CollateralizeId := collateralizeId, CreateAddr := "",
             AccountAddr := record.AccountAddr, RecordId := record.RecordId,
             Status := record.Status, PreStatus := record.PreStatus, Index := record.Index,
             PreIndex := record.PreIndex } }

def GetRetrieveReceiptLog (X : Ext) (action : Action) (c : pty.Collateralize) : pty.ReceiptLog :=
  { Ty := X.TyLogCollateralizeRetrieve
    Log := { CollateralizeId := c.CollateralizeId, CreateAddr := action.fromaddr,
             AccountAddr := "", RecordId := "", Status := c.Status, PreStatus := c.PreStatus,
             Index := c.Index, PreIndex := c.PreIndex } }

/-- The per-event ordering key `height * MaxTxsPerBlock + index`. -/
def GetIndex (X : Ext) (action : Action) : Int :=
  action.height * X.MaxTxsPerBlock + action.index

/-! ## Derived caches -/

def getLatestLiquidationPrice (coll : pty.Collateralize) : ℚ :=
  coll.BorrowRecords.foldl
    (fun latest collRecord =>
      if collRecord.LiquidationPrice > latest then collRecord.LiquidationPrice else latest) 0

def getLatestExpireTime (coll : pty.Collateralize) : Int :=
  coll.BorrowRecords.foldl
    (fun latest collRecord =>
      if collRecord.ExpireTime < latest then collRecord.ExpireTime else latest)
    0x7fffffffffffffff

/-! ## Store access and permission tables -/

def getCollateralizeConfig (st : State) : Except Err pty.CollateralizeManage :=
  match st.config with
  | none => .error .ErrNotFound
  | some cfg => .ok cfg

def isSuperAddr (addr : String) (st : State) : Bool :=
  match st.superAddr with
  | none => false
  | some arr => arr.any (fun op => op = addr)

/-- The three tables of the manage-key registry that the executor reads. -/
inductive ManageTable where
  | ManageKey
  | PriceFeedKey
  | GuarantorKey
deriving DecidableEq, Repr

def getManageKey (key : ManageTable) (st : State) : Except Err (List String) :=
  let value :=
    match key with
    | .ManageKey => st.manageKey
    | .PriceFeedKey => st.priceFeedKey
    | .GuarantorKey => st.guarantorKey
  match value with
  | none => .error .ErrNotFound
  | some arr => .ok arr

def isRightAddr (key : ManageTable) (addr : String) (st : State) : Bool :=
  match getManageKey key st with
  | .error _ => false
  | .ok arr => arr.any (fun op => op = addr)

/-- The first address of the guarantor table; indexing an empty table panics. -/
def getGuarantorAddr (st : State) : Except Err String :=
  match getManageKey .GuarantorKey st with
  | .error e => .error e
  | .ok [] => .error .goPanic
  | .ok (g :: _) => .ok g

def queryCollateralizeByID (st : State) (collateralizeID : String) : Except Err pty.Collateralize :=
  match kvGet st.vaults collateralizeID with
  | none => .error .ErrNotFound
  | some coll => .ok coll

def queryCollateralizeByStatus (localdb : Lister) (status : Int) : Except Err (List String) :=
  match localdb.List (.status status) DefultCount ListDESC with
  | .error e => .error e
  | .ok data => .ok (data.map (fun coll => coll.CollateralizeId))

def queryCollateralizeByAddr (localdb : Lister) (addr : String) (status : Int) :
    Except Err (List String) :=
  match localdb.List (.addr addr) DefultCount ListDESC with
  | .error e => .error e
  | .ok data =>
    .ok ((data.filter (fun coll => status = 0 ∨ coll.Status = status)).map
      (fun coll => coll.CollateralizeId))

/-- State key of the vault with the given id; the store `State.vaults` is indexed by the id. -/
def Key (X : Ext) (id : String) : String :=
  "mavl-" ++ X.CollateralizeX ++ "-" ++ id

/-- Writes the vault under the key of its own id (`coll.Save`). -/
def Save (coll : pty.Collateralize) (st : State) : State :=
  { st with vaults := kvSet st.vaults coll.CollateralizeId coll }

/-! ## Fixed-point helpers -/

/-- Truncation towards zero (`math.Trunc` followed by the conversion to `int64`). -/
def truncQ (q : ℚ) : Int :=
  if 0 ≤ q then Int.floor q else Int.ceil q

def getBtyNumToFrozen (value : Int) (price : ℚ) (ratio : ℚ) : Except Err Int :=
  if price = 0 then .error .ErrPriceInvalid
  else
    let valueReal := (value : ℚ) / 100000000
    let btyValue := valueReal / (price * ratio)
    .ok (truncQ ((btyValue + 1 / 10000000) * 10000) * 10000)

def calcLiquidationPrice (X : Ext) (value : Int) (colValue : Int) : ℚ :=
  let liquidationRation := (value : ℚ) / (colValue : ℚ)
  liquidationRation * X.CollateralizePreLiquidationRatio

def getLatestPrice (st : State) : Except Err ℚ :=
  match st.price with
  | none => .error .ErrNotFound
  | some price => .ok price.BtyPrice

def CheckExecAccountBalance (st : State) (fromAddr : String) (ToFrozen ToActive : Int) : Bool :=
  let acc := loadExecAccount st.coins fromAddr
  decide (acc.Balance ≥ ToFrozen ∧ acc.Frozen ≥ ToActive)

def CheckExecTokenAccount (st : State) (addr : String) (amount : Int) (isFrozen : Bool) : Bool :=
  let acc := loadExecAccount st.token addr
  if isFrozen then decide (acc.Frozen ≥ amount) else decide (acc.Balance ≥ amount)

/-! ## CollateralizeManage -/

/-- The handler on numeric ratios: the finite values of `float64`, taken exactly.  The same
handler with NaN and the infinities among the ratios is `CollateralizeManageF64`. -/
def CollateralizeManage (action : Action) (st : State) (manage : pty.CollateralizeManage) :
    Except Err (State × List pty.ReceiptLog) :=
  if !isRightAddr .ManageKey action.fromaddr st then .error .ErrPermissionDeny
  else if manage.DebtCeiling < 0 ∨ manage.LiquidationRatio < 0 ∨ manage.LiquidationRatio ≥ 1 ∨
      manage.StabilityFeeRatio < 0 ∨ manage.StabilityFeeRatio ≥ 1 then .error .ErrRiskParam
  else
    let manConfig : pty.CollateralizeManage :=
      match getCollateralizeConfig st with
      | .ok cfg => cfg
      | .error _ =>
        { DebtCeiling := DefaultDebtCeiling, LiquidationRatio := DefaultLiquidationRatio,
          StabilityFeeRatio := DefaultStabilityFeeRation, Period := DefaultPeriod,
          TotalBalance := DefaultTotalBalance, CurrentTime := 0 }
    let collConfig : pty.CollateralizeManage :=
      { StabilityFeeRatio :=
          if manage.StabilityFeeRatio ≠ 0 then manage.StabilityFeeRatio
          else manConfig.StabilityFeeRatio
        Period := if manage.Period ≠ 0 then manage.Period else manConfig.Period
        LiquidationRatio :=
          if manage.LiquidationRatio ≠ 0 then manage.LiquidationRatio
          else manConfig.LiquidationRatio
        DebtCeiling := if manage.DebtCeiling ≠ 0 then manage.DebtCeiling else manConfig.DebtCeiling
        TotalBalance :=
          if manage.TotalBalance ≠ 0 then manage.TotalBalance else manConfig.TotalBalance
        CurrentTime := action.blocktime }
    .ok ({ st with config := some collConfig }, [])

/-! ## CollateralizeCreate -/

/-- Remaining lendable amount: the configured total minus the totals of the listed vaults. -/
def getCollBalanceLoop (st : State) : List String → Int → Except Err Int
  | [], balance => .ok balance
  | id :: ids, balance =>
    match queryCollateralizeByID st id with
    | .error e => .error e
    | .ok coll => getCollBalanceLoop st ids (balance - coll.TotalBalance)

def getCollBalance (X : Ext) (totalBalance : Int) (localdb : Lister) (st : State) :
    Except Err Int :=
  let collIDRecords :=
    match queryCollateralizeByStatus localdb X.CollateralizeStatusCreated with
    | .ok ids => ids
    | .error _ => []
  getCollBalanceLoop st collIDRecords totalBalance

/-- The vault built by a Create of an address without a created vault. -/
def createVault (X : Ext) (action : Action) (collcfg : pty.CollateralizeManage)
    (create : pty.CollateralizeCreate) : pty.Collateralize :=
  { CollateralizeId := X.ToHex action.txhash
    LiquidationRatio := collcfg.LiquidationRatio
    TotalBalance := create.TotalBalance
    DebtCeiling := collcfg.DebtCeiling
    StabilityFeeRatio := collcfg.StabilityFeeRatio
    Period := collcfg.Period
    Balance := create.TotalBalance
    CreateAddr := action.fromaddr
    Status := X.CollateralizeActionCreate
    Index := GetIndex X action
    CollBalance := 0
    BorrowRecords := []
    InvalidRecords := []
    LatestLiquidationPrice := 0
    LatestExpireTime := 0
    PreStatus := 0
    PreIndex := 0 }

/-- The vault after a Create that tops up the existing vault of the address. -/
def topUpVault (X : Ext) (action : Action) (collateralize : pty.Collateralize)
    (create : pty.CollateralizeCreate) : pty.Collateralize :=
  { collateralize with
    TotalBalance := collateralize.TotalBalance + create.TotalBalance
    Balance := collateralize.Balance + create.TotalBalance
    PreIndex := collateralize.Index
    PreStatus := collateralize.Status
    Index := GetIndex X action }

def CollateralizeCreate (X : Ext) (action : Action) (localdb : Lister) (st : State)
    (create : pty.CollateralizeCreate) : Except Err (State × List pty.ReceiptLog) :=
  if !isSuperAddr action.fromaddr st then .error .ErrPermissionDeny
  else if create.TotalBalance ≤ 0 then .error .ErrAmount
  else
    match getCollateralizeConfig st with
    | .error e => .error e
    | .ok collcfg =>
    match getCollBalance X collcfg.TotalBalance localdb st with
    | .error e => .error e
    | .ok reBalance =>
    if reBalance < create.TotalBalance then .error .ErrCollateralizeLowBalance
    else if !CheckExecTokenAccount st action.fromaddr create.TotalBalance false then
      .error .ErrInsufficientBalance
    else
      let found : Except Err (List String) :=
        match queryCollateralizeByAddr localdb action.fromaddr X.CollateralizeStatusCreated with
        | .ok ids => .ok ids
        | .error e => if e = .ErrNotFound then .ok [] else .error e
      match found with
      | .error e => .error e
      | .ok collateralizeIDs =>
      match X.account.ExecFrozen st.token action.fromaddr create.TotalBalance with
      | .error e => .error e
      | .ok token1 =>
      let st1 : State := { st with token := token1 }
      match collateralizeIDs with
      | [] =>
        let coll := createVault X action collcfg create
        .ok (Save coll st1, [GetCreateReceiptLog X action coll])
      | id0 :: _ =>
        match queryCollateralizeByID st1 id0 with
        | .error e => .error e
        | .ok collateralize =>
          let coll := topUpVault X action collateralize create
          .ok (Save coll st1, [GetCreateReceiptLog X action coll])

/-! ## CollateralizeBorrow -/

/-- The loan record built by Borrow. -/
def newBorrowRecord (X : Ext) (action : Action) (coll : pty.Collateralize)
    (borrow : pty.CollateralizeBorrow) (lastPrice : ℚ) (btyFrozen : Int) : pty.BorrowRecord :=
  { RecordId := X.ToHex action.txhash
    CollateralizeId := coll.CollateralizeId
    AccountAddr := action.fromaddr
    CollateralValue := btyFrozen
    StartTime := action.blocktime
    CollateralPrice := lastPrice
    DebtValue := borrow.Value
    LiquidationPrice := coll.LiquidationRatio * lastPrice * X.CollateralizePreLiquidationRatio
    Status := X.CollateralizeUserStatusCreate
    ExpireTime := action.blocktime + coll.Period
    Index := GetIndex X action
    LiquidateTime := 0
    PreStatus := 0
    PreIndex := 0 }

/-- The vault as Borrow saves it. -/
def borrowVault (X : Ext) (coll : pty.Collateralize) (borrow : pty.CollateralizeBorrow)
    (borrowRecord : pty.BorrowRecord) (btyFrozen : Int) : pty.Collateralize :=
  let coll1 : pty.Collateralize :=
    if coll.LatestLiquidationPrice < borrowRecord.LiquidationPrice then
      { coll with LatestLiquidationPrice := borrowRecord.LiquidationPrice }
    else coll
  let coll2 : pty.Collateralize :=
    { coll1 with
      BorrowRecords := coll1.BorrowRecords ++ [borrowRecord]
      Status := X.CollateralizeStatusCreated
      Balance := coll1.Balance - borrow.Value
      CollBalance := coll1.CollBalance + btyFrozen }
  { coll2 with LatestExpireTime := getLatestExpireTime coll2 }

def CollateralizeBorrow (X : Ext) (action : Action) (st : State)
    (borrow : pty.CollateralizeBorrow) : Except Err (State × List pty.ReceiptLog) :=
  match queryCollateralizeByID st borrow.CollateralizeId with
  | .error e => .error e
  | .ok coll =>
  if coll.Status = X.CollateralizeStatusClose then .error .ErrCollateralizeStatus
  else if borrow.Value ≤ 0 then .error .ErrAmount
  else if borrow.Value > coll.DebtCeiling then .error .ErrCollateralizeExceedDebtCeiling
  else if borrow.Value > coll.Balance then .error .ErrCollateralizeLowBalance
  else
    match getLatestPrice st with
    | .error e => .error e
    | .ok lastPrice =>
    match getBtyNumToFrozen borrow.Value lastPrice coll.LiquidationRatio with
    | .error e => .error e
    | .ok btyFrozen =>
    if !CheckExecAccountBalance st action.fromaddr btyFrozen 0 then .error .ErrNoBalance
    else
      match X.account.ExecTransfer st.coins action.fromaddr coll.CreateAddr btyFrozen with
      | .error e => .error e
      | .ok coins1 =>
      match X.account.ExecFrozen coins1 coll.CreateAddr btyFrozen with
      | .error e => .error e
      | .ok coins2 =>
      match X.account.ExecTransferFrozen st.token coll.CreateAddr action.fromaddr borrow.Value with
      | .error e => .error e
      | .ok token1 =>
        let borrowRecord := newBorrowRecord X action coll borrow lastPrice btyFrozen
        let coll3 := borrowVault X coll borrow borrowRecord btyFrozen
        .ok (Save coll3 { st with coins := coins2, token := token1 },
             [GetBorrowReceiptLog X action coll3 borrowRecord])

/-! ## CollateralizeRepay -/

/-- Index of the first record with the given id (the loop with `break`). -/
def findRecord : List pty.BorrowRecord → String → Option Nat
  | [], _ => none
  | record :: rest, recordId =>
    if record.RecordId = recordId then some 0
    else (findRecord rest recordId).map (fun i => i + 1)

/-- Principal plus interest charged by Repay. -/
def realRepay (debtValue : Int) (stabilityFeeRatio : ℚ) : Int :=
  let fee := ((debtValue : ℚ) / 100000000) * stabilityFeeRatio
  debtValue + truncQ ((fee + 1 / 10000000) * 10000) * 10000

/-- The loan record as Repay closes it. -/
def closeRecord (X : Ext) (action : Action) (borrowRecord : pty.BorrowRecord) :
    pty.BorrowRecord :=
  { borrowRecord with
    PreStatus := borrowRecord.Status
    Status := X.CollateralizeUserStatusClose
    PreIndex := borrowRecord.Index
    Index := GetIndex X action }

/-- The vault as Repay saves it: the loan at `index` moves to the invalid records. -/
def repayVault (coll : pty.Collateralize) (index : Nat) (closed : pty.BorrowRecord) :
    pty.Collateralize :=
  let coll1 : pty.Collateralize :=
    { coll with
      Balance := coll.Balance + closed.DebtValue
      CollBalance := coll.CollBalance - closed.CollateralValue
      BorrowRecords := coll.BorrowRecords.eraseIdx index
      InvalidRecords := coll.InvalidRecords ++ [closed] }
  let coll2 : pty.Collateralize :=
    { coll1 with LatestLiquidationPrice := getLatestLiquidationPrice coll1 }
  { coll2 with LatestExpireTime := getLatestExpireTime coll2 }

def CollateralizeRepay (X : Ext) (action : Action) (st : State)
    (repay : pty.CollateralizeRepay) : Except Err (State × List pty.ReceiptLog) :=
  match queryCollateralizeByID st repay.CollateralizeId with
  | .error e => .error e
  | .ok coll =>
  if coll.Status ≠ X.CollateralizeStatusCreated then .error .ErrCollateralizeStatus
  else
    match findRecord coll.BorrowRecords repay.RecordId with
    | none => .error .ErrRecordNotExist
    | some index =>
    match coll.BorrowRecords[index]? with
    | none => .error .goPanic
    | some borrowRecord =>
    let realRepay := realRepay borrowRecord.DebtValue coll.StabilityFeeRatio
    if !CheckExecTokenAccount st action.fromaddr realRepay false then .error .ErrNoBalance
    else
      match X.account.ExecTransfer st.token action.fromaddr coll.CreateAddr realRepay with
      | .error e => .error e
      | .ok token1 =>
      match X.account.ExecFrozen token1 coll.CreateAddr borrowRecord.DebtValue with
      | .error e => .error e
      | .ok token2 =>
      match X.account.ExecTransferFrozen st.coins coll.CreateAddr action.fromaddr
          borrowRecord.CollateralValue with
      | .error e => .error e
      | .ok coins1 =>
        let closed := closeRecord X action borrowRecord
        let coll3 := repayVault coll index closed
        .ok (Save coll3 { st with coins := coins1, token := token2 },
             [GetRepayReceiptLog X action coll3 closed])

/-! ## CollateralizeAppend -/

/-- Index of the last record with the given id (the loop without `break`). -/
def findLastRecord : List pty.BorrowRecord → String → Option Nat
  | [], _ => none
  | record :: rest, recordId =>
    match findLastRecord rest recordId with
    | some i => some (i + 1)
    | none => if record.RecordId = recordId then some 0 else none

/-- The loan record as Append rewrites it. -/
def appendRecord (X : Ext) (action : Action) (borrowRecord : pty.BorrowRecord)
    (cAppend : pty.CollateralizeAppend) (lastPrice : ℚ) : pty.BorrowRecord :=
  let record1 : pty.BorrowRecord :=
    { borrowRecord with
      CollateralValue := borrowRecord.CollateralValue + cAppend.CollateralValue
      CollateralPrice := lastPrice
      LiquidationPrice :=
        calcLiquidationPrice X borrowRecord.DebtValue
          (borrowRecord.CollateralValue + cAppend.CollateralValue) }
  if record1.LiquidationPrice * PriceWarningRate < lastPrice then
    if record1.Status = X.CollateralizeUserStatusWarning then
      { record1 with
        PreStatus := record1.Status
        Status := X.CollateralizeStatusCreated
        PreIndex := record1.Index
        Index := GetIndex X action }
    else record1
  else record1

/-- The vault as Append saves it: the loan at `index` is rewritten in place. -/
def appendVault (coll : pty.Collateralize) (index : Nat) (record : pty.BorrowRecord)
    (cAppend : pty.CollateralizeAppend) : pty.Collateralize :=
  let coll1 : pty.Collateralize :=
    { coll with
      BorrowRecords := coll.BorrowRecords.set index record
      CollBalance := coll.CollBalance + cAppend.CollateralValue }
  let coll2 : pty.Collateralize :=
    { coll1 with LatestLiquidationPrice := getLatestLiquidationPrice coll1 }
  { coll2 with LatestExpireTime := getLatestExpireTime coll2 }

def CollateralizeAppend (X : Ext) (action : Action) (st : State)
    (cAppend : pty.CollateralizeAppend) : Except Err (State × List pty.ReceiptLog) :=
  if cAppend.CollateralValue ≤ 0 then .error .ErrAmount
  else
    match queryCollateralizeByID st cAppend.CollateralizeId with
    | .error e => .error e
    | .ok coll =>
    if coll.Status ≠ X.CollateralizeStatusCreated then .error .ErrCollateralizeStatus
    else
      match findLastRecord coll.BorrowRecords cAppend.RecordId with
      | none => .error .ErrRecordNotExist
      | some index =>
      match coll.BorrowRecords[index]? with
      | none => .error .goPanic
      | some borrowRecord =>
      match getLatestPrice st with
      | .error e => .error e
      | .ok lastPrice =>
      if !CheckExecAccountBalance st action.fromaddr cAppend.CollateralValue 0 then
        .error .ErrNoBalance
      else
        match X.account.ExecTransfer st.coins action.fromaddr coll.CreateAddr
            cAppend.CollateralValue with
        | .error e => .error e
        | .ok coins1 =>
        match X.account.ExecFrozen coins1 coll.CreateAddr cAppend.CollateralValue with
        | .error e => .error e
        | .ok coins2 =>
          let record2 := appendRecord X action borrowRecord cAppend lastPrice
          let coll3 := appendVault coll index record2 cAppend
          .ok (Save coll3 { st with coins := coins2 },
               [GetAppendReceiptLog X action coll3 record2])

/-! ## CollateralizeRetrieve -/

/-- The vault as Retrieve saves it. -/
def retrieveVault (X : Ext) (action : Action) (collateralize : pty.Collateralize)
    (retrieve : pty.CollateralizeRetrieve) : pty.Collateralize :=
  let coll1 : pty.Collateralize :=
    { collateralize with
      TotalBalance := collateralize.TotalBalance - retrieve.Balance
      Balance := collateralize.Balance - retrieve.Balance
      PreStatus := collateralize.Status }
  let coll2 : pty.Collateralize :=
    if coll1.TotalBalance = 0 then { coll1 with Status := X.CollateralizeStatusClose }
    else coll1
  { coll2 with PreIndex := coll2.Index, Index := GetIndex X action }

def CollateralizeRetrieve (X : Ext) (action : Action) (st : State)
    (retrieve : pty.CollateralizeRetrieve) : Except Err (State × List pty.ReceiptLog) :=
  match queryCollateralizeByID st retrieve.CollateralizeId with
  | .error e => .error e
  | .ok collateralize =>
  if action.fromaddr ≠ collateralize.CreateAddr then .error .ErrPermissionDeny
  else if retrieve.Balance > collateralize.Balance then .error .ErrAmount
  else
    match X.account.ExecActive st.token action.fromaddr retrieve.Balance with
    | .error e => .error e
    | .ok token1 =>
      let coll3 := retrieveVault X action collateralize retrieve
      .ok (Save coll3 { st with token := token1 }, [GetRetrieveReceiptLog X action coll3])

/-! ## Liquidation sweeps

The sweeps range over `coll.BorrowRecords` while the loop body re-slices it.  The range
expression is evaluated once, so the loop visits the positions `0 .. n-1` of the backing array,
reading the element stored there at the time of the visit; the removal
`append(s[:index], s[index+1:]...)` shifts the live part of the same backing array to the left
and shortens the slice, and panics when `index + 1` exceeds the current length.  Records are
pointers, so the memory of a sweep is a heap of records, the backing array of pointers and the
current slice length. -/

/-- Memory of a running sweep. -/
structure SweepMem where
  heap : Nat → pty.BorrowRecord
  arr : List Nat
  len : Nat
  invalid : List Nat
  CollBalance : Int
  coins : Accounts
  logs : List pty.ReceiptLog

/-- The in-place removal `coll.BorrowRecords = append(s[:index], s[index+1:]...)` on the backing
array: the live part loses position `index`, the cells from the old last live cell on keep their
content. -/
def removeAt (arr : List Nat) (len : Nat) (index : Nat) : Except Err (List Nat × Nat) :=
  if index + 1 ≤ len then .ok ((arr.take len).eraseIdx index ++ arr.drop (len - 1), len - 1)
  else .error .goPanic

/-- Seizure of the record at pointer `p` read at position `index`: the collateral goes to the
guarantor; a failed lookup or transfer skips the record. -/
def seize (X : Ext) (action : Action) (st : State) (coll : pty.Collateralize) (status : Int)
    (index : Nat) (p : Nat) (m : SweepMem) : Except Err SweepMem :=
  let borrowRecord := m.heap p
  match getGuarantorAddr st with
  | .error e => if e = .goPanic then .error .goPanic else .ok m
  | .ok guarantor =>
    match X.account.ExecTransferFrozen m.coins coll.CreateAddr guarantor
        borrowRecord.CollateralValue with
    | .error e => if e = .goPanic then .error .goPanic else .ok m
    | .ok coins1 =>
      let seized : pty.BorrowRecord :=
        { borrowRecord with
          LiquidateTime := action.blocktime
          PreStatus := borrowRecord.Status
          Status := status
          PreIndex := borrowRecord.Index
          Index := GetIndex X action }
      match removeAt m.arr m.len index with
      | .error e => .error e
      | .ok (arr1, len1) =>
        .ok { heap := Function.update m.heap p seized
              arr := arr1
              len := len1
              invalid := m.invalid ++ [p]
              CollBalance := m.CollBalance - seized.CollateralValue
              coins := coins1
              logs := m.logs ++ [GetFeedReceiptLog X coll.CollateralizeId seized] }

/-- Body of the loop of `systemLiquidation` for one position of the range. -/
def systemLiquidationStep (X : Ext) (action : Action) (st : State) (coll : pty.Collateralize)
    (price : ℚ) (index : Nat) (m : SweepMem) : Except Err SweepMem :=
  match m.arr[index]? with
  | none => .error .goPanic
  | some p =>
    let borrowRecord := m.heap p
    if borrowRecord.LiquidationPrice * PriceWarningRate < price then
      if borrowRecord.Status = X.CollateralizeUserStatusWarning then
        .ok { m with
              heap := Function.update m.heap p
                { borrowRecord with
                  PreStatus := borrowRecord.Status
                  Status := X.CollateralizeUserStatusCreate } }
      else .ok m
    else if borrowRecord.LiquidationPrice ≥ price then
      seize X action st coll X.CollateralizeUserStatusSystemLiquidate index p m
    else
      let warned : pty.BorrowRecord :=
        { borrowRecord with
          PreStatus := borrowRecord.Status
          Status := X.CollateralizeUserStatusWarning
          PreIndex := borrowRecord.Index
          Index := GetIndex X action }
      .ok { m with
            heap := Function.update m.heap p warned
            logs := m.logs ++ [GetFeedReceiptLog X coll.CollateralizeId warned] }

/-- Body of the loop of `expireLiquidation` for one position of the range. -/
def expireLiquidationStep (X : Ext) (action : Action) (st : State) (coll : pty.Collateralize)
    (index : Nat) (m : SweepMem) : Except Err SweepMem :=
  match m.arr[index]? with
  | none => .error .goPanic
  | some p =>
    let borrowRecord := m.heap p
    if borrowRecord.ExpireTime - ExpireWarningTime > action.blocktime then .ok m
    else if borrowRecord.ExpireTime ≤ action.blocktime then
      seize X action st coll X.CollateralizeUserStatusExpireLiquidate index p m
    else
      let expiring : pty.BorrowRecord :=
        { borrowRecord with
          PreIndex := borrowRecord.Index
          Index := GetIndex X action
          PreStatus := borrowRecord.Status
          Status := X.CollateralizeUserStatusExpire }
      .ok { m with
            heap := Function.update m.heap p expiring
            logs := m.logs ++ [GetFeedReceiptLog X coll.CollateralizeId expiring] }

/-- Runs a loop body over the positions of the range, stopping at a panic. -/
def sweepLoop (step : Nat → SweepMem → Except Err SweepMem) :
    List Nat → SweepMem → Except Err SweepMem
  | [], m => .ok m
  | index :: rest, m =>
    match step index m with
    | .error e => .error e
    | .ok m1 => sweepLoop step rest m1

/-- Memory at the start of a sweep: fresh records at pointers `0 .. n-1`. -/
def sweepInit (st : State) (coll : pty.Collateralize) : SweepMem :=
  { heap := fun p => coll.BorrowRecords.getD p default
    arr := List.range coll.BorrowRecords.length
    len := coll.BorrowRecords.length
    invalid := []
    CollBalance := coll.CollBalance
    coins := st.coins
    logs := [] }

/-- End of a sweep: the vault read back from memory, caches recomputed, vault saved. -/
def sweepFinish (st : State) (coll : pty.Collateralize) (m : SweepMem) :
    State × pty.Collateralize × List pty.ReceiptLog :=
  let coll1 : pty.Collateralize :=
    { coll with
      BorrowRecords := (m.arr.take m.len).map m.heap
      InvalidRecords := coll.InvalidRecords ++ m.invalid.map m.heap
      CollBalance := m.CollBalance }
  let coll2 : pty.Collateralize :=
    { coll1 with LatestLiquidationPrice := getLatestLiquidationPrice coll1 }
  let coll3 : pty.Collateralize :=
    { coll2 with LatestExpireTime := getLatestExpireTime coll2 }
  (Save coll3 { st with coins := m.coins }, coll3, m.logs)

def systemLiquidation (X : Ext) (action : Action) (st : State) (coll : pty.Collateralize)
    (price : ℚ) : Except Err (State × pty.Collateralize × List pty.ReceiptLog) :=
  match sweepLoop (systemLiquidationStep X action st coll price)
      (List.range coll.BorrowRecords.length) (sweepInit st coll) with
  | .error e => .error e
  | .ok m => .ok (sweepFinish st coll m)

def expireLiquidation (X : Ext) (action : Action) (st : State) (coll : pty.Collateralize) :
    Except Err (State × pty.Collateralize × List pty.ReceiptLog) :=
  match sweepLoop (expireLiquidationStep X action st coll)
      (List.range coll.BorrowRecords.length) (sweepInit st coll) with
  | .error e => .error e
  | .ok m => .ok (sweepFinish st coll m)

/-! ## CollateralizeFeed -/

/-- The weighted sum of `pricePolicy`, position by position. -/
def pricePolicyLoop (volume : List Int) (totalVolume : Int) :
    List ℚ → Nat → ℚ → Except Err ℚ
  | [], _, totalPrice => .ok totalPrice
  | price :: rest, i, totalPrice =>
    match volume[i]? with
    | none => .error .goPanic
    | some v =>
      pricePolicyLoop volume totalVolume rest (i + 1)
        (totalPrice + price * ((v : ℚ) / (totalVolume : ℚ)))

def pricePolicy (feed : pty.CollateralizeFeed) : Except Err ℚ :=
  let totalVolume := feed.Volume.foldl (fun acc volume => acc + volume) 0
  if totalVolume = 0 then .ok 0
  else pricePolicyLoop feed.Volume totalVolume feed.Price 0 0

/-- One round of the loop of `CollateralizeFeed` over the listed vault ids. -/
def feedVault (X : Ext) (action : Action) (price : ℚ) (collID : String)
    (acc : State × List pty.ReceiptLog) : Except Err (State × List pty.ReceiptLog) :=
  match queryCollateralizeByID acc.1 collID with
  | .error _ => .error .goPanic
  | .ok coll =>
    let expired : Except Err (State × pty.Collateralize × List pty.ReceiptLog) :=
      if coll.LatestExpireTime - ExpireWarningTime ≤ action.blocktime then
        expireLiquidation X action acc.1 coll
      else .ok (acc.1, coll, [])
    match expired with
    | .error e => .error e
    | .ok (st1, coll1, logs1) =>
      match systemLiquidation X action st1 coll1 price with
      | .error e => .error e
      | .ok (st2, _, logs2) => .ok (st2, acc.2 ++ logs1 ++ logs2)

def feedLoop (X : Ext) (action : Action) (price : ℚ) :
    List String → State × List pty.ReceiptLog → Except Err (State × List pty.ReceiptLog)
  | [], acc => .ok acc
  | collID :: ids, acc =>
    match feedVault X action price collID acc with
    | .error e => .error e
    | .ok acc1 => feedLoop X action price ids acc1

def CollateralizeFeed (X : Ext) (action : Action) (localdb : Lister) (st : State)
    (feed : pty.CollateralizeFeed) : Except Err (State × List pty.ReceiptLog) :=
  if feed.Price.length = 0 ∨ feed.Price.length ≠ feed.Volume.length then .error .ErrInvalidParam
  else if !isRightAddr .PriceFeedKey action.fromaddr st then .error .ErrPermissionDeny
  else
    match pricePolicy feed with
    | .error e => .error e
    | .ok price =>
    if price ≤ 0 then .error .ErrPriceInvalid
    else
      let ids :=
        match queryCollateralizeByStatus localdb X.CollateralizeStatusCreated with
        | .ok ids => ids
        | .error _ => []
      match feedLoop X action price ids (st, []) with
      | .error e => .error e
      | .ok (st1, logs) =>
        .ok ({ st1 with price := some { BtyPrice := price, RecordTime := action.blocktime } },
             logs)

/-! ## Two-pass reference sweeps

The reference the in-place sweeps are compared with: the per-loan rule is applied to every loan of
a snapshot of `borrow_records`, in list order, and the seized loans are taken out afterwards. -/

/-- Result of the per-loan rule: the updated loan, whether it was seized, the ledger, new logs. -/
abbrev RuleResult := pty.BorrowRecord × Bool × Accounts × List pty.ReceiptLog

/-- Reference seizure of one loan; a failed guarantor lookup or transfer leaves it as it was. -/
def seizeRule (X : Ext) (action : Action) (st : State) (coll : pty.Collateralize) (status : Int)
    (record : pty.BorrowRecord) (coins : Accounts) : Except Err RuleResult :=
  match getGuarantorAddr st with
  | .error e => if e = .goPanic then .error .goPanic else .ok (record, false, coins, [])
  | .ok guarantor =>
    match X.account.ExecTransferFrozen coins coll.CreateAddr guarantor record.CollateralValue with
    | .error e => if e = .goPanic then .error .goPanic else .ok (record, false, coins, [])
    | .ok coins1 =>
      let seized : pty.BorrowRecord :=
        { record with
          LiquidateTime := action.blocktime
          PreStatus := record.Status
          Status := status
          PreIndex := record.Index
          Index := GetIndex X action }
      .ok (seized, true, coins1, [GetFeedReceiptLog X coll.CollateralizeId seized])

/-- Reference price rule for one loan. -/
def systemRule (X : Ext) (action : Action) (st : State) (coll : pty.Collateralize) (price : ℚ)
    (record : pty.BorrowRecord) (coins : Accounts) : Except Err RuleResult :=
  if record.LiquidationPrice * PriceWarningRate < price then
    if record.Status = X.CollateralizeUserStatusWarning then
      .ok ({ record with PreStatus := record.Status, Status := X.CollateralizeUserStatusCreate },
           false, coins, [])
    else .ok (record, false, coins, [])
  else if record.LiquidationPrice ≥ price then
    seizeRule X action st coll X.CollateralizeUserStatusSystemLiquidate record coins
  else
    let warned : pty.BorrowRecord :=
      { record with
        PreStatus := record.Status
        Status := X.CollateralizeUserStatusWarning
        PreIndex := record.Index
        Index := GetIndex X action }
    .ok (warned, false, coins, [GetFeedReceiptLog X coll.CollateralizeId warned])

/-- Reference expiry rule for one loan. -/
def expireRule (X : Ext) (action : Action) (st : State) (coll : pty.Collateralize)
    (record : pty.BorrowRecord) (coins : Accounts) : Except Err RuleResult :=
  if record.ExpireTime - ExpireWarningTime > action.blocktime then .ok (record, false, coins, [])
  else if record.ExpireTime ≤ action.blocktime then
    seizeRule X action st coll X.CollateralizeUserStatusExpireLiquidate record coins
  else
    let expiring : pty.BorrowRecord :=
      { record with
        PreIndex := record.Index
        Index := GetIndex X action
        PreStatus := record.Status
        Status := X.CollateralizeUserStatusExpire }
    .ok (expiring, false, coins, [GetFeedReceiptLog X coll.CollateralizeId expiring])

/-- First pass: the rule on each loan of the snapshot, in order. -/
def classifyPass (rule : pty.BorrowRecord → Accounts → Except Err RuleResult) :
    List pty.BorrowRecord → Accounts → List pty.ReceiptLog →
      Except Err (List (pty.BorrowRecord × Bool) × Accounts × List pty.ReceiptLog)
  | [], coins, logs => .ok ([], coins, logs)
  | record :: rest, coins, logs =>
    match rule record coins with
    | .error e => .error e
    | .ok (record1, seized, coins1, logs1) =>
      match classifyPass rule rest coins1 (logs ++ logs1) with
      | .error e => .error e
      | .ok (out, coins2, logs2) => .ok ((record1, seized) :: out, coins2, logs2)

/-- Second pass: the seized loans leave `borrow_records` for `invalid_records`; then the caches
are recomputed and the vault is saved. -/
def twoPassSweep (rule : pty.BorrowRecord → Accounts → Except Err RuleResult) (st : State)
    (coll : pty.Collateralize) : Except Err (State × pty.Collateralize × List pty.ReceiptLog) :=
  match classifyPass rule coll.BorrowRecords st.coins [] with
  | .error e => .error e
  | .ok (out, coins1, logs) =>
    let seized := (out.filter (fun x => x.2)).map (fun x => x.1)
    let coll1 : pty.Collateralize :=
      { coll with
        BorrowRecords := (out.filter (fun x => !x.2)).map (fun x => x.1)
        InvalidRecords := coll.InvalidRecords ++ seized
        CollBalance := coll.CollBalance - (seized.map (fun r => r.CollateralValue)).sum }
    let coll2 : pty.Collateralize :=
      { coll1 with LatestLiquidationPrice := getLatestLiquidationPrice coll1 }
    let coll3 : pty.Collateralize :=
      { coll2 with LatestExpireTime := getLatestExpireTime coll2 }
    .ok (Save coll3 { st with coins := coins1 }, coll3, logs)

def systemLiquidationTwoPass (X : Ext) (action : Action) (st : State) (coll : pty.Collateralize)
    (price : ℚ) : Except Err (State × pty.Collateralize × List pty.ReceiptLog) :=
  twoPassSweep (systemRule X action st coll price) st coll

def expireLiquidationTwoPass (X : Ext) (action : Action) (st : State)
    (coll : pty.Collateralize) : Except Err (State × pty.Collateralize × List pty.ReceiptLog) :=
  twoPassSweep (expireRule X action st coll) st coll

/-! ## A concrete ledger, concrete constants and sample states

Used to instantiate the parameters at concrete inputs.  The ledger moves amounts between the
active and frozen balances of exec accounts and refuses a transfer to the sender itself, a
non-positive amount and an amount above the source balance. -/

def stdExecTransfer (db : Accounts) (src dst : String) (amount : Int) : Except Err Accounts :=
  if src = dst then .error (.ErrOther 1)
  else if amount ≤ 0 then .error .ErrAmount
  else
    let accFrom := loadExecAccount db src
    let accTo := loadExecAccount db dst
    if accFrom.Balance - amount < 0 then .error .ErrNoBalance
    else
      .ok (kvSet (kvSet db src { accFrom with Balance := accFrom.Balance - amount }) dst
        { accTo with Balance := accTo.Balance + amount })

def stdExecFrozen (db : Accounts) (addr : String) (amount : Int) : Except Err Accounts :=
  if amount ≤ 0 then .error .ErrAmount
  else
    let acc := loadExecAccount db addr
    if acc.Balance - amount < 0 then .error .ErrNoBalance
    else .ok (kvSet db addr { Balance := acc.Balance - amount, Frozen := acc.Frozen + amount })

def stdExecActive (db : Accounts) (addr : String) (amount : Int) : Except Err Accounts :=
  if amount ≤ 0 then .error .ErrAmount
  else
    let acc := loadExecAccount db addr
    if acc.Frozen - amount < 0 then .error .ErrNoBalance
    else .ok (kvSet db addr { Balance := acc.Balance + amount, Frozen := acc.Frozen - amount })

def stdExecTransferFrozen (db : Accounts) (src dst : String) (amount : Int) :
    Except Err Accounts :=
  if src = dst then .error (.ErrOther 1)
  else if amount ≤ 0 then .error .ErrAmount
  else
    let accFrom := loadExecAccount db src
    let accTo := loadExecAccount db dst
    if accFrom.Frozen - amount < 0 then .error .ErrNoBalance
    else
      .ok (kvSet (kvSet db src { accFrom with Frozen := accFrom.Frozen - amount }) dst
        { accTo with Balance := accTo.Balance + amount })

def stdLedger : Ledger :=
  { ExecTransfer := stdExecTransfer
    ExecFrozen := stdExecFrozen
    ExecActive := stdExecActive
    ExecTransferFrozen := stdExecTransferFrozen }

def hexDigit (n : Nat) : Char :=
  if n < 10 then Char.ofNat (48 + n) else Char.ofNat (87 + n)

def stdToHex (bs : List UInt8) : String :=
  "0x" ++ String.mk (bs.flatMap (fun b => [hexDigit (b.toNat / 16), hexDigit (b.toNat % 16)]))

/-- Concrete constants: distinct status codes and log tags, a pre-liquidation ratio of 1.1. -/
def X0 : Ext :=
  { CollateralizePreLiquidationRatio := 11 / 10
    MaxTxsPerBlock := 100000
    CollateralizeActionCreate := 1
    CollateralizeStatusCreated := 1
    CollateralizeStatusClose := 2
    CollateralizeUserStatusCreate := 1
    CollateralizeUserStatusWarning := 2
    CollateralizeUserStatusSystemLiquidate := 3
    CollateralizeUserStatusExpire := 4
    CollateralizeUserStatusExpireLiquidate := 5
    CollateralizeUserStatusClose := 6
    TyLogCollateralizeCreate := 731
    TyLogCollateralizeBorrow := 732
    TyLogCollateralizeRepay := 733
    TyLogCollateralizeAppend := 734
    TyLogCollateralizeFeed := 735
    TyLogCollateralizeRetrieve := 736
    ToHex := stdToHex
    account := stdLedger
    CollateralizeX := "collateralize" }

/-- State of a handler result, the input default on error. -/
def resultState (r : Except Err (State × List pty.ReceiptLog)) : State :=
  match r with
  | .ok (st, _) => st
  | .error _ => default

/-- Logs of a handler result. -/
def resultLogs (r : Except Err (State × List pty.ReceiptLog)) : List pty.ReceiptLog :=
  match r with
  | .ok (_, logs) => logs
  | .error _ => []

/-- A sample loan of vault `v` by `bob`: debt 1,000 and collateral 2,500 units. -/
def sampleLoan (id : String) (liquidationPrice : ℚ) : pty.BorrowRecord :=
  { RecordId := id, CollateralizeId := "v", AccountAddr := "bob",
    CollateralValue := 250000000000, StartTime := 0, CollateralPrice := 1,
    DebtValue := 100000000000, LiquidationPrice := liquidationPrice, Status := 1,
    LiquidateTime := 0, ExpireTime := 31536000, PreStatus := 0, Index := 7, PreIndex := 0 }

/-- A sample vault `v` of `alice` holding the given active loans. -/
def sampleVault (loans : List pty.BorrowRecord) : pty.Collateralize :=
  { CollateralizeId := "v", TotalBalance := 1000000000000, DebtCeiling := 1000000000000,
    LiquidationRatio := 4 / 10, StabilityFeeRatio := 8 / 100, CreateAddr := "alice",
    Balance := 1000000000000 - (loans.map (fun r => r.DebtValue)).sum,
    BorrowRecords := loans, InvalidRecords := [], Status := 1,
    LatestLiquidationPrice :=
      loans.foldl (fun m r => if r.LiquidationPrice > m then r.LiquidationPrice else m) 0,
    Period := 31536000, LatestExpireTime := 31536000,
    CollBalance := (loans.map (fun r => r.CollateralValue)).sum,
    PreStatus := 0, Index := 5, PreIndex := 0 }

/-- A sample state holding vault `v` with the given loans, price 1, and funded accounts. -/
def sampleState (loans : List pty.BorrowRecord) : State :=
  { vaults := [("v", sampleVault loans)]
    config := some { DebtCeiling := 1000000000000, LiquidationRatio := 4 / 10,
                     StabilityFeeRatio := 8 / 100, Period := 31536000,
                     TotalBalance := 10000000000000, CurrentTime := 0 }
    price := some { BtyPrice := 1, RecordTime := 0 }
    manageKey := some ["admin"]
    priceFeedKey := some ["oracle"]
    guarantorKey := some ["guard"]
    superAddr := some ["alice"]
    coins := [("alice", { Balance := 0,
                          Frozen := (loans.map (fun r => r.CollateralValue)).sum }),
              ("bob", { Balance := 500000000000, Frozen := 0 }),
              ("carol", { Balance := 0, Frozen := 0 })]
    token := [("alice", { Balance := 100000000000,
                          Frozen := 1000000000000 - (loans.map (fun r => r.DebtValue)).sum }),
              ("bob", { Balance := 200000000000, Frozen := 0 }),
              ("carol", { Balance := 200000000000, Frozen := 0 })] }

/-- A sample transaction context of the given sender at block time 1000. -/
def sampleAction (sender : String) (txhash : List UInt8) : Action :=
  { txhash := txhash, fromaddr := sender, blocktime := 1000, height := 10, execaddr := "exec",
    index := 3 }

/-- A sample local index that lists vault `v` as created, owned by `alice`. -/
def sampleLister : Lister :=
  { List := fun kind _ _ =>
      match kind with
      | .status _ =>
        .ok [{ CollateralizeId := "v", Addr := "alice", RecordId := "", Index := 5, Status := 1 }]
      | .addr _ =>
        .ok [{ CollateralizeId := "v", Addr := "alice", RecordId := "", Index := 5, Status := 1 }]
      | _ => .error .ErrNotFound }

/-- Three loans: `A` and `B` at liquidation price 1, `C` at liquidation price 0.1. -/
def threeLoans : List pty.BorrowRecord :=
  [sampleLoan "A" 1, sampleLoan "B" 1, sampleLoan "C" (1 / 10)]

/-- A sample Borrow of 1,000 units from vault `v`. -/
def sampleBorrow : pty.CollateralizeBorrow :=
  { CollateralizeId := "v", Value := 100000000000 }

/-- Result of the sample Borrow sent by `bob` on the vault without loans. -/
def sampleBorrowResult : Except Err (State × List pty.ReceiptLog) :=
  CollateralizeBorrow X0 (sampleAction "bob" [1]) (sampleState []) sampleBorrow

/-- A Repay of the loan opened by the sample Borrow. -/
def sampleRepay : pty.CollateralizeRepay :=
  { CollateralizeId := "v", RecordId := X0.ToHex [1] }

/-- Result of the sample Repay sent by `bob` right after the sample Borrow. -/
def sampleRepayResult : Except Err (State × List pty.ReceiptLog) :=
  CollateralizeRepay X0 (sampleAction "bob" [2]) (resultState sampleBorrowResult) sampleRepay

/-- Result of a Repay of loan `A` of `bob`, sent by `carol`. -/
def thirdPartyRepayResult : Except Err (State × List pty.ReceiptLog) :=
  CollateralizeRepay X0 (sampleAction "carol" [2]) (sampleState [sampleLoan "A" 1])
    { CollateralizeId := "v", RecordId := "A" }

/-- A feed of the single price 0.5. -/
def sampleFeed : pty.CollateralizeFeed :=
  { Price := [1 / 2], Volume := [1] }

/-- Result of the sample feed sent by `oracle` on the vault with the three loans. -/
def sampleFeedResult : Except Err (State × List pty.ReceiptLog) :=
  CollateralizeFeed X0 (sampleAction "oracle" [3]) sampleLister (sampleState threeLoans)
    sampleFeed

/-- Three loans at liquidation price 0.1: `A` and `B` expired at time 500, `C` expires late. -/
def expiringLoans : List pty.BorrowRecord :=
  [{ sampleLoan "A" (1 / 10) with ExpireTime := 500 },
   { sampleLoan "B" (1 / 10) with ExpireTime := 500 }, sampleLoan "C" (1 / 10)]

/-! ## Vault invariants -/

/-- Sum of an integer field over a list of loans. -/
def fieldSum (f : pty.BorrowRecord → Int) (records : List pty.BorrowRecord) : Int :=
  (records.map f).sum

/-- Total debt of a list of loans. -/
def debtSum (records : List pty.BorrowRecord) : Int :=
  fieldSum (fun r => r.DebtValue) records

/-- Total collateral of a list of loans. -/
def collateralSum (records : List pty.BorrowRecord) : Int :=
  fieldSum (fun r => r.CollateralValue) records

/-- Vault invariant 1: `balance + Σ(active loan debt) = total_balance`. -/
def BalanceInv (c : pty.Collateralize) : Prop :=
  c.Balance + debtSum c.BorrowRecords = c.TotalBalance

/-- Vault invariant 2: `coll_balance = Σ(active loan collateral)`. -/
def CollBalanceInv (c : pty.Collateralize) : Prop :=
  c.CollBalance = collateralSum c.BorrowRecords

instance (c : pty.Collateralize) : Decidable (BalanceInv c) :=
  inferInstanceAs (Decidable (c.Balance + debtSum c.BorrowRecords = c.TotalBalance))

instance (c : pty.Collateralize) : Decidable (CollBalanceInv c) :=
  inferInstanceAs (Decidable (c.CollBalance = collateralSum c.BorrowRecords))

/-- A property holds of every vault in the store. -/
def AllVaults (P : pty.Collateralize → Prop) (st : State) : Prop :=
  ∀ id c, kvGet st.vaults id = some c → P c

/-- What a Feed does to one vault as far as invariant 1 is concerned: balance and total balance
stay, the loans `seized` are appended to the invalid records, and the debt they carried is no
longer counted among the active loans. -/
def FeedDebtStep (c c' : pty.Collateralize) : Prop :=
  c'.CollateralizeId = c.CollateralizeId ∧ c'.Balance = c.Balance ∧
  c'.TotalBalance = c.TotalBalance ∧
  ∃ seized, c'.InvalidRecords = c.InvalidRecords ++ seized ∧
    debtSum c'.BorrowRecords + debtSum seized = debtSum c.BorrowRecords

/-- Invariant of the memory of a running sweep over the loans `recs` of a vault whose
`CollBalance` was `cb0` at the start: the live part of the backing array and the pointers moved
to the invalid records are together a permutation of the initial pointers, debt and collateral of
every heap record are those of the initial loan, and `CollBalance` has lost exactly the
collateral of the loans moved. -/
structure SweepInv (recs : List pty.BorrowRecord) (cb0 : Int) (m : SweepMem) : Prop where
  len_le : m.len ≤ m.arr.length
  perm : (m.arr.take m.len ++ m.invalid).Perm (List.range recs.length)
  debt : ∀ p, (m.heap p).DebtValue = (recs.getD p default).DebtValue
  coll : ∀ p, (m.heap p).CollateralValue = (recs.getD p default).CollateralValue
  bal : m.CollBalance +
      (m.invalid.map (fun p => (recs.getD p default).CollateralValue)).sum = cb0

/-! ## Contract of the ledger -/

/-- Effect contract of the host ledger on success: a transfer between two different addresses
moves the amount from the active (or frozen) balance of the source to the active balance of the
destination, freezing and activating move it between the two balances of one address, and no
other account changes.  Nothing is assumed about when an operation fails. -/
structure LedgerLaws (L : Ledger) : Prop where
  transfer : ∀ db src dst amount db', L.ExecTransfer db src dst amount = .ok db' → src ≠ dst →
    loadExecAccount db' src =
      { Balance := (loadExecAccount db src).Balance - amount,
        Frozen := (loadExecAccount db src).Frozen } ∧
    loadExecAccount db' dst =
      { Balance := (loadExecAccount db dst).Balance + amount,
        Frozen := (loadExecAccount db dst).Frozen } ∧
    ∀ a, a ≠ src → a ≠ dst → loadExecAccount db' a = loadExecAccount db a
  frozen : ∀ db addr amount db', L.ExecFrozen db addr amount = .ok db' →
    loadExecAccount db' addr =
      { Balance := (loadExecAccount db addr).Balance - amount,
        Frozen := (loadExecAccount db addr).Frozen + amount } ∧
    ∀ a, a ≠ addr → loadExecAccount db' a = loadExecAccount db a
  active : ∀ db addr amount db', L.ExecActive db addr amount = .ok db' →
    loadExecAccount db' addr =
      { Balance := (loadExecAccount db addr).Balance + amount,
        Frozen := (loadExecAccount db addr).Frozen - amount } ∧
    ∀ a, a ≠ addr → loadExecAccount db' a = loadExecAccount db a
  transferFrozen : ∀ db src dst amount db',
    L.ExecTransferFrozen db src dst amount = .ok db' → src ≠ dst →
    loadExecAccount db' src =
      { Balance := (loadExecAccount db src).Balance,
        Frozen := (loadExecAccount db src).Frozen - amount } ∧
    loadExecAccount db' dst =
      { Balance := (loadExecAccount db dst).Balance + amount,
        Frozen := (loadExecAccount db dst).Frozen } ∧
    ∀ a, a ≠ src → a ≠ dst → loadExecAccount db' a = loadExecAccount db a

/-! ## Cache invariants and loan partition -/

/-- Vault invariant 3: the cached latest liquidation price is the recomputed one. -/
def PriceCacheInv (c : pty.Collateralize) : Prop :=
  c.LatestLiquidationPrice = getLatestLiquidationPrice c

/-- Vault invariant 4: the cached latest expire time is the recomputed one. -/
def ExpireCacheInv (c : pty.Collateralize) : Prop :=
  c.LatestExpireTime = getLatestExpireTime c

instance (c : pty.Collateralize) : Decidable (PriceCacheInv c) :=
  inferInstanceAs (Decidable (c.LatestLiquidationPrice = getLatestLiquidationPrice c))

instance (c : pty.Collateralize) : Decidable (ExpireCacheInv c) :=
  inferInstanceAs (Decidable (c.LatestExpireTime = getLatestExpireTime c))

/-- Record ids of all loans of a vault, active ones first. -/
def recordIds (c : pty.Collateralize) : List String :=
  (c.BorrowRecords ++ c.InvalidRecords).map (fun r => r.RecordId)

/-- Loan partition: no record id occurs twice among the active and the invalid records. -/
def LoanPartition (c : pty.Collateralize) : Prop :=
  (recordIds c).Nodup

/-- Vault invariant 4 as the code keeps it: the cache is the recomputed minimum, or the vault
has no active loan and the cache still holds the 0 it was created with. -/
def ExpireCacheOrFresh (c : pty.Collateralize) : Prop :=
  ExpireCacheInv c ∨ (c.BorrowRecords = [] ∧ c.LatestExpireTime = 0)

/-- A local index without entries. -/
def emptyLister : Lister :=
  { List := fun _ _ _ => .error .ErrNotFound }

/-- Result of a Create of 500 units sent by `alice` while the index lists no vault of hers. -/
def sampleCreateResult : Except Err (State × List pty.ReceiptLog) :=
  CollateralizeCreate X0 (sampleAction "alice" [5]) emptyLister
    (sampleState [sampleLoan "A" 1]) { TotalBalance := 50000000000 }

/-- Sum of the total balances of the vaults stored under the given ids (a missing id counts 0):
what `getCollBalance` subtracts from the configured total. -/
def listedTotal (st : State) (ids : List String) : Int :=
  (ids.map (fun id =>
    match kvGet st.vaults id with
    | some coll => coll.TotalBalance
    | none => 0)).sum

/-- A Manage payload that only sets the total balance, to 1. -/
def sampleManage : pty.CollateralizeManage :=
  { DebtCeiling := 0, LiquidationRatio := 0, StabilityFeeRatio := 0, Period := 0,
    TotalBalance := 1, CurrentTime := 0 }

/-- Result of the sample Manage sent by `admin` on the state holding vault `v` without loans. -/
def sampleManageResult : Except Err (State × List pty.ReceiptLog) :=
  CollateralizeManage (sampleAction "admin" [6]) (sampleState []) sampleManage

/-! ## Samples for the sweeps -/

/-- Loan `A` at liquidation price 0.1, in status Warning. -/
def warnedLoan : pty.BorrowRecord :=
  { sampleLoan "A" (1 / 10) with Status := 2 }

/-- Result of the sample feed (price 0.5) on the vault whose only loan is the warned loan. -/
def recoveryFeedResult : Except Err (State × List pty.ReceiptLog) :=
  CollateralizeFeed X0 (sampleAction "oracle" [3]) sampleLister (sampleState [warnedLoan])
    sampleFeed

/-- A feed of the single price 1. -/
def unitFeed : pty.CollateralizeFeed :=
  { Price := [1], Volume := [1] }

/-- The sample state without a guarantor key: every guarantor lookup fails. -/
def noGuarantorState (loans : List pty.BorrowRecord) : State :=
  { sampleState loans with guarantorKey := none }

/-- Result of a feed of price 1, after the expiry time of loan `A` (liquidation price 0.9), on
the state without a guarantor key. -/
def skippedSeizureResult : Except Err (State × List pty.ReceiptLog) :=
  CollateralizeFeed X0 { sampleAction "oracle" [3] with blocktime := 40000000 } sampleLister
    (noGuarantorState [sampleLoan "A" (9 / 10)]) unitFeed

/-- Second invariant of the memory of a running sweep: every heap record keeps the record id
of the initial loan at its pointer. -/
def SweepIdInv (recs : List pty.BorrowRecord) (m : SweepMem) : Prop :=
  ∀ p, (m.heap p).RecordId = (recs.getD p default).RecordId

/-- What a Feed does to the loans of one vault: the record ids of the active and invalid
records together are those of before, in some order, and the invalid records are the old ones
followed by the loans seized. -/
def FeedIdStep (c c' : pty.Collateralize) : Prop :=
  (recordIds c').Perm (recordIds c) ∧ ∃ seized, c'.InvalidRecords = c.InvalidRecords ++ seized

/-! ## Samples for Create, Append, Manage, Feed and Borrow -/

/-- Result of a Create of 500 units sent by `alice` while the index lists her vault `v`. -/
def sampleTopUpResult : Except Err (State × List pty.ReceiptLog) :=
  CollateralizeCreate X0 (sampleAction "alice" [5]) sampleLister
    (sampleState [sampleLoan "A" 1]) { TotalBalance := 50000000000 }

/-- An Append of 1,000 units of collateral to loan `A` of vault `v`. -/
def sampleAppend : pty.CollateralizeAppend :=
  { CollateralizeId := "v", RecordId := "A", CollateralValue := 100000000000 }

/-- Result of the sample Append sent by `bob` on loan `A` at liquidation price 1. -/
def sampleAppendResult : Except Err (State × List pty.ReceiptLog) :=
  CollateralizeAppend X0 (sampleAction "bob" [4]) (sampleState [sampleLoan "A" 1]) sampleAppend

/-- Result of the sample Append sent by `bob` on the warned loan. -/
def recoveryAppendResult : Except Err (State × List pty.ReceiptLog) :=
  CollateralizeAppend X0 (sampleAction "bob" [4]) (sampleState [warnedLoan]) sampleAppend

/-- Result of the sample Manage sent again, on the state the first one left. -/
def secondManageResult : Except Err (State × List pty.ReceiptLog) :=
  CollateralizeManage (sampleAction "admin" [6]) (resultState sampleManageResult) sampleManage

/-- Two loans `A` and `B`, both at liquidation price 1. -/
def twoDueLoans : List pty.BorrowRecord :=
  [sampleLoan "A" 1, sampleLoan "B" 1]

/-- Result of the sample feed (price 0.5) sent by `oracle` on the vault with the two loans. -/
def twoDueFeedResult : Except Err (State × List pty.ReceiptLog) :=
  CollateralizeFeed X0 (sampleAction "oracle" [3]) sampleLister (sampleState twoDueLoans)
    sampleFeed

/-- The sample state before any feed: no price record is stored. -/
def noPriceState : State :=
  { sampleState [] with price := none }

/-- Result of the sample Borrow sent by `bob` while no price record is stored. -/
def noPriceBorrowResult : Except Err (State × List pty.ReceiptLog) :=
  CollateralizeBorrow X0 (sampleAction "bob" [1]) noPriceState sampleBorrow

/-! ## Sweep safety and expiry gate -/

/-- Two loans `A` and `B` at liquidation price 0.1, both expired at time 500. -/
def twoExpiredLoans : List pty.BorrowRecord :=
  [{ sampleLoan "A" (1 / 10) with ExpireTime := 500 },
   { sampleLoan "B" (1 / 10) with ExpireTime := 500 }]

/-- The cached latest expire time is not after the expire time of any active loan. -/
def ExpireLe (c : pty.Collateralize) : Prop :=
  ∀ r ∈ c.BorrowRecords, c.LatestExpireTime ≤ r.ExpireTime

/-- The vault as a sweep that changes no loan saves it: the two caches recomputed. -/
def recomputeCaches (coll : pty.Collateralize) : pty.Collateralize :=
  { coll with
    LatestLiquidationPrice := getLatestLiquidationPrice coll
    LatestExpireTime := getLatestExpireTime coll }

/-! ## Secondary index maintenance (`exec_local.go`) -/

/-- A receipt log as the receipt carries it: the type tag and the encoded body. -/
structure RawLog (β : Type) where
  Ty : Int
  Log : β

/-- What `execLocal` takes from outside the file: the decoder of a log body (`types.Decode`)
and the seven helper methods that build the key/value deltas of the secondary indexes. -/
structure LocalOps (β κ : Type) where
  Decode : β → Except Err pty.ReceiptCollateralize
  deleteCollateralizeStatus : Int → Int → List κ
  deleteCollateralizeAddr : String → Int → List κ
  addCollateralizeStatus : Int → String → Int → List κ
  addCollateralizeAddr : String → String → Int → Int → List κ
  addCollateralizeRecordStatus : Int → String → String → Int → List κ
  addCollateralizeRecordAddr : String → String → String → Int → List κ
  deleteCollateralizeRecordStatus : Int → Int → List κ

/-- The loop of `execLocal` over the logs of a receipt, with the delta set built so far. -/
def execLocalLoop {β κ : Type} (X : Ext) (O : LocalOps β κ) :
    List (RawLog β) → List κ → Except Err (List κ)
  | [], kv => .ok kv
  | item :: rest, kv =>
    if item.Ty = X.TyLogCollateralizeCreate ∨ item.Ty = X.TyLogCollateralizeBorrow ∨
        item.Ty = X.TyLogCollateralizeAppend ∨ item.Ty = X.TyLogCollateralizeRepay ∨
        item.Ty = X.TyLogCollateralizeFeed ∨ item.Ty = X.TyLogCollateralizeRetrieve then
      match O.Decode item.Log with
      | .error e => .error e
      | .ok collateralizeLog =>
        if item.Ty = X.TyLogCollateralizeCreate then
          execLocalLoop X O rest
            (kv ++
              O.deleteCollateralizeStatus collateralizeLog.PreStatus collateralizeLog.PreIndex ++
              O.deleteCollateralizeAddr collateralizeLog.CreateAddr collateralizeLog.PreIndex ++
              O.addCollateralizeStatus collateralizeLog.Status collateralizeLog.CollateralizeId
                collateralizeLog.Index ++
              O.addCollateralizeAddr collateralizeLog.CreateAddr
                collateralizeLog.CollateralizeId collateralizeLog.Status collateralizeLog.Index)
        else if item.Ty = X.TyLogCollateralizeBorrow then
          execLocalLoop X O rest
            (kv ++
              O.addCollateralizeRecordStatus collateralizeLog.Status
                collateralizeLog.CollateralizeId collateralizeLog.RecordId
                collateralizeLog.Index ++
              O.addCollateralizeRecordAddr collateralizeLog.AccountAddr
                collateralizeLog.CollateralizeId collateralizeLog.RecordId
                collateralizeLog.Index)
        else if item.Ty = X.TyLogCollateralizeAppend then
          if collateralizeLog.Status = X.CollateralizeUserStatusWarning then
            execLocalLoop X O rest
              (kv ++
                O.deleteCollateralizeRecordStatus collateralizeLog.PreStatus
                  collateralizeLog.PreIndex ++
                O.addCollateralizeRecordStatus collateralizeLog.Status
                  collateralizeLog.CollateralizeId collateralizeLog.RecordId
                  collateralizeLog.Index)
          else execLocalLoop X O rest kv
        else if item.Ty = X.TyLogCollateralizeRepay then
          execLocalLoop X O rest
            (kv ++
              O.deleteCollateralizeRecordStatus collateralizeLog.PreStatus
                collateralizeLog.PreIndex ++
              O.addCollateralizeRecordStatus collateralizeLog.Status
                collateralizeLog.CollateralizeId collateralizeLog.RecordId
                collateralizeLog.Index)
        else if item.Ty = X.TyLogCollateralizeFeed then
          execLocalLoop X O rest
            (kv ++
              O.deleteCollateralizeRecordStatus collateralizeLog.PreStatus
                collateralizeLog.PreIndex ++
              O.addCollateralizeRecordStatus collateralizeLog.Status
                collateralizeLog.CollateralizeId collateralizeLog.RecordId
                collateralizeLog.Index)
        else if item.Ty = X.TyLogCollateralizeRetrieve then
          execLocalLoop X O rest
            (kv ++
              O.deleteCollateralizeStatus collateralizeLog.PreStatus collateralizeLog.PreIndex ++
              O.deleteCollateralizeAddr collateralizeLog.CreateAddr collateralizeLog.PreIndex ++
              O.addCollateralizeStatus collateralizeLog.Status collateralizeLog.CollateralizeId
                collateralizeLog.Index ++
              O.addCollateralizeAddr collateralizeLog.CreateAddr
                collateralizeLog.CollateralizeId collateralizeLog.Status collateralizeLog.Index)
        else execLocalLoop X O rest kv
    else execLocalLoop X O rest kv

def execLocal {β κ : Type} (X : Ext) (O : LocalOps β κ) (logs : List (RawLog β)) :
    Except Err (List κ) :=
  execLocalLoop X O logs []

/-- The six log tags of the collateralize executor, in the order of the `switch`. -/
def collateralizeLogTags (X : Ext) : List Int :=
  [X.TyLogCollateralizeCreate, X.TyLogCollateralizeBorrow, X.TyLogCollateralizeAppend,
   X.TyLogCollateralizeRepay, X.TyLogCollateralizeFeed, X.TyLogCollateralizeRetrieve]

/-- The delta list of one decoded log, as the index rules state it: a Create or Retrieve log
rewrites the vault-status and vault-addr entries; a Borrow log adds a record-status and a
record-addr entry; a Repay or Feed log rewrites the record-status entry; an Append log does so
only when its status is Warning; any other log gives nothing. -/
def ruleDelta {β κ : Type} (X : Ext) (O : LocalOps β κ) (ty : Int)
    (log : pty.ReceiptCollateralize) : List κ :=
  if ty = X.TyLogCollateralizeCreate ∨ ty = X.TyLogCollateralizeRetrieve then
    O.deleteCollateralizeStatus log.PreStatus log.PreIndex ++
      O.deleteCollateralizeAddr log.CreateAddr log.PreIndex ++
      O.addCollateralizeStatus log.Status log.CollateralizeId log.Index ++
      O.addCollateralizeAddr log.CreateAddr log.CollateralizeId log.Status log.Index
  else if ty = X.TyLogCollateralizeBorrow then
    O.addCollateralizeRecordStatus log.Status log.CollateralizeId log.RecordId log.Index ++
      O.addCollateralizeRecordAddr log.AccountAddr log.CollateralizeId log.RecordId log.Index
  else if ty = X.TyLogCollateralizeRepay ∨ ty = X.TyLogCollateralizeFeed then
    O.deleteCollateralizeRecordStatus log.PreStatus log.PreIndex ++
      O.addCollateralizeRecordStatus log.Status log.CollateralizeId log.RecordId log.Index
  else if ty = X.TyLogCollateralizeAppend then
    if log.Status = X.CollateralizeUserStatusWarning then
      O.deleteCollateralizeRecordStatus log.PreStatus log.PreIndex ++
        O.addCollateralizeRecordStatus log.Status log.CollateralizeId log.RecordId log.Index
    else []
  else []

/-- The delta list of one log of the receipt: collateralize logs are decoded and follow the
rules, other logs give nothing, an undecodable collateralize log is an error. -/
def ruleItem {β κ : Type} (X : Ext) (O : LocalOps β κ) (item : RawLog β) :
    Except Err (List κ) :=
  if item.Ty ∈ collateralizeLogTags X then
    match O.Decode item.Log with
    | .error e => .error e
    | .ok log => .ok (ruleDelta X O item.Ty log)
  else .ok []

/-- The delta set of a receipt by the rules: the per-log lists concatenated in log order, or
the error of the first undecodable collateralize log. -/
def ruleExecLocal {β κ : Type} (X : Ext) (O : LocalOps β κ) :
    List (RawLog β) → Except Err (List κ)
  | [] => .ok []
  | item :: rest =>
    match ruleItem X O item with
    | .error e => .error e
    | .ok delta =>
      match ruleExecLocal X O rest with
      | .error e => .error e
      | .ok deltas => .ok (delta ++ deltas)

/-! ## The record-status index -/

/-- Modelled from the spec: a key/value delta of the local database, as the helper methods of
the index maintainer produce it.  The helpers (`addCollateralizeRecordStatus`,
`deleteCollateralizeRecordStatus` and the five others) and the key layouts they use are not in
the two source files; the spec gives the keys as `(status, index)`, `(addr, index)`,
`(record-status, index)` and `(record-addr, index)`, and the calls give what is stored. -/
inductive IndexDelta where
  | delStatus (status index : Int)
  | delAddr (addr : String) (index : Int)
  | addStatus (status : Int) (id : String) (index : Int)
  | addAddr (addr id : String) (status index : Int)
  | addRecordStatus (status : Int) (id recordId : String) (index : Int)
  | addRecordAddr (addr id recordId : String) (index : Int)
  | delRecordStatus (status index : Int)
deriving DecidableEq, Repr

/-- Modelled from the spec: the helper methods of the index maintainer, each giving the one
delta its name and arguments say, over log bodies that are already decoded. -/
def specOps : LocalOps pty.ReceiptCollateralize IndexDelta :=
  { Decode := fun log => .ok log
    deleteCollateralizeStatus := fun status index => [.delStatus status index]
    deleteCollateralizeAddr := fun addr index => [.delAddr addr index]
    addCollateralizeStatus := fun status id index => [.addStatus status id index]
    addCollateralizeAddr := fun addr id status index => [.addAddr addr id status index]
    addCollateralizeRecordStatus := fun status id recordId index =>
      [.addRecordStatus status id recordId index]
    addCollateralizeRecordAddr := fun addr id recordId index =>
      [.addRecordAddr addr id recordId index]
    deleteCollateralizeRecordStatus := fun status index => [.delRecordStatus status index] }

/-- Modelled from the spec: the record-status index, at most one entry (vault id, record id)
under each key `(status, index)`. -/
abbrev RecordStatusIndex : Type := Int × Int → Option (String × String)

/-- Modelled from the spec: what one delta does to the record-status index; a put replaces
what the key held, and the deltas of the other three indexes leave this one alone. -/
def applyDelta (idx : RecordStatusIndex) : IndexDelta → RecordStatusIndex
  | .addRecordStatus status id recordId index =>
    Function.update idx (status, index) (some (id, recordId))
  | .delRecordStatus status index => Function.update idx (status, index) none
  | _ => idx

/-- The deltas of a receipt applied in order. -/
def applyDeltas (idx : RecordStatusIndex) (deltas : List IndexDelta) : RecordStatusIndex :=
  deltas.foldl applyDelta idx

/-- The logs of a handler result as the receipt carries them. -/
def rawLogs (logs : List pty.ReceiptLog) : List (RawLog pty.ReceiptCollateralize) :=
  logs.map (fun l => { Ty := l.Ty, Log := l.Log })

/-- The record-status index after `execLocal` has processed the logs of a receipt. -/
def indexAfter (X : Ext) (idx : RecordStatusIndex) (logs : List pty.ReceiptLog) :
    Except Err RecordStatusIndex :=
  match execLocal X specOps (rawLogs logs) with
  | .error e => .error e
  | .ok deltas => .ok (applyDeltas idx deltas)

/-- All loans of a vault, active ones first. -/
def loansOf (c : pty.Collateralize) : List pty.BorrowRecord :=
  c.BorrowRecords ++ c.InvalidRecords

/-- Index consistency for one vault: every loan of the vault has its entry under the key of
its stored `(status, index)`, and every entry of the vault is the entry of one of its loans
under that key. -/
def IndexConsistent (idx : RecordStatusIndex) (c : pty.Collateralize) : Prop :=
  (∀ r ∈ loansOf c, idx (r.Status, r.Index) = some (c.CollateralizeId, r.RecordId)) ∧
  (∀ k recordId, idx k = some (c.CollateralizeId, recordId) →
    ∃ r ∈ loansOf c, r.RecordId = recordId ∧ k = (r.Status, r.Index))

/-- Two loans at liquidation price 0.9: `A` last stamped with index 7, `B` with index 8. -/
def pairLoans : List pty.BorrowRecord :=
  [sampleLoan "A" (9 / 10), { sampleLoan "B" (9 / 10) with Index := 8 }]

/-- The record-status index holding the entries of the two loans. -/
def pairIndex : RecordStatusIndex :=
  fun k =>
    if k = (1, 7) then some ("v", "A")
    else if k = (1, 8) then some ("v", "B")
    else none

/-- Result of a feed of price 1 sent by `oracle` on the vault with the two loans. -/
def pairFeedResult : Except Err (State × List pty.ReceiptLog) :=
  CollateralizeFeed X0 (sampleAction "oracle" [3]) sampleLister (sampleState pairLoans) unitFeed

/-- The deltas `execLocal` derives from the receipt of that feed. -/
def pairFeedDeltas : List IndexDelta :=
  [.delRecordStatus 1 7, .addRecordStatus 2 "v" "A" 1000003,
   .delRecordStatus 1 8, .addRecordStatus 2 "v" "B" 1000003]

/-- The record-status index holding the entry of the warned loan under (Warning, 7). -/
def warnedIndex : RecordStatusIndex :=
  fun k => if k = (2, 7) then some ("v", "A") else none

/-! ## Samples and relations for the loan and vault frames -/

/-- An Append of 1,000 units of collateral to loan `B` of vault `v`. -/
def sampleAppendB : pty.CollateralizeAppend :=
  { CollateralizeId := "v", RecordId := "B", CollateralValue := 100000000000 }

/-- Result of that Append sent by `bob` on the vault with the loans `A`, `B`, `C`. -/
def middleAppendResult : Except Err (State × List pty.ReceiptLog) :=
  CollateralizeAppend X0 (sampleAction "bob" [4]) (sampleState threeLoans) sampleAppendB

/-- Every vault of the store is stored under the key of its own id.  `Save` writes a vault
under its own id and nothing else writes a vault, so this holds of every store the handlers
build from the empty one. -/
def KeysOk (st : State) : Prop :=
  ∀ k c, kvGet st.vaults k = some c → c.CollateralizeId = k

/-- Key by key: `st'` holds a vault exactly under the keys under which `st` holds one, and the
two vaults under a key are related by `R`. -/
def VaultsRel (R : pty.Collateralize → pty.Collateralize → Prop) (st st' : State) : Prop :=
  ∀ k, (kvGet st.vaults k = none ∧ kvGet st'.vaults k = none) ∨
    ∃ c c', kvGet st.vaults k = some c ∧ kvGet st'.vaults k = some c' ∧ R c c'

/-- What the sweeps of one transaction may do to the stamp of a loan record: the record keeps
its id, and either it carries the index of the transaction, or it keeps `Index` and `PreIndex`
with its old status or with status Create. -/
def StampRel (X : Ext) (action : Action) (r r' : pty.BorrowRecord) : Prop :=
  r'.RecordId = r.RecordId ∧
  (r'.Index = GetIndex X action ∨
    (r'.Index = r.Index ∧ r'.PreIndex = r.PreIndex ∧
      (r'.Status = r.Status ∨ r'.Status = X.CollateralizeUserStatusCreate)))

/-- Third invariant of the memory of a running sweep: every heap record is related to the
initial loan at its pointer by `StampRel`, and every record moved to the invalid records
carries the index of the transaction. -/
def SweepStampInv (X : Ext) (action : Action) (recs : List pty.BorrowRecord)
    (m : SweepMem) : Prop :=
  (∀ p, StampRel X action (recs.getD p default) (m.heap p)) ∧
  (∀ p ∈ m.invalid, (m.heap p).Index = GetIndex X action)

/-- What a Feed does to the stamps of one vault: `Index` and `PreIndex` of the vault stay, the
loans `seized` are appended to the invalid records with the index of the transaction, and
every loan of afterwards is a loan of before, related to it by `StampRel`. -/
def FeedStampStep (X : Ext) (action : Action) (c c' : pty.Collateralize) : Prop :=
  c'.Index = c.Index ∧ c'.PreIndex = c.PreIndex ∧
  ∃ seized, c'.InvalidRecords = c.InvalidRecords ++ seized ∧
    (∀ r' ∈ seized, r'.Index = GetIndex X action) ∧
    ∀ r' ∈ c'.BorrowRecords ++ seized, ∃ r ∈ c.BorrowRecords, StampRel X action r r'

/-! ## The risk parameters of Manage as float64 values -/

/-- A `float64` as far as `CollateralizeManage` looks at it: not-a-number, an infinity, or a
finite value, given by the rational it denotes (both zeros are the value 0). -/
inductive F64 where
  | nan
  | inf (negative : Bool)
  | fin (q : ℚ)
deriving DecidableEq, Repr

/-- The comparison `x < y` of Go on `float64`: false as soon as an operand is NaN. -/
def F64.lt : F64 → F64 → Bool
  | .fin a, .fin b => decide (a < b)
  | .inf true, .fin _ => true
  | .inf true, .inf false => true
  | .fin _, .inf false => true
  | _, _ => false

/-- The comparison `x >= y` of Go on `float64`: false as soon as an operand is NaN. -/
def F64.ge : F64 → F64 → Bool
  | .fin a, .fin b => decide (a ≥ b)
  | .inf false, .fin _ => true
  | .inf false, .inf _ => true
  | .fin _, .inf true => true
  | .inf true, .inf true => true
  | _, _ => false

/-- The comparison `x != y` of Go on `float64`: true as soon as an operand is NaN. -/
def F64.ne : F64 → F64 → Bool
  | .nan, _ => true
  | _, .nan => true
  | .inf a, .inf b => decide (a ≠ b)
  | .fin a, .fin b => decide (a ≠ b)
  | _, _ => true

/-- Message `pty.CollateralizeManage` with its two ratios as `float64` values. -/
structure ManageF64 where
  DebtCeiling : Int
  LiquidationRatio : F64
  StabilityFeeRatio : F64
  Period : Int
  TotalBalance : Int
  CurrentTime : Int
deriving DecidableEq, Repr

/-- The message with numeric ratios as a message with `float64` ratios. -/
def ManageF64.ofConfig (c : pty.CollateralizeManage) : ManageF64 :=
  { DebtCeiling := c.DebtCeiling, LiquidationRatio := .fin c.LiquidationRatio,
    StabilityFeeRatio := .fin c.StabilityFeeRatio, Period := c.Period,
    TotalBalance := c.TotalBalance, CurrentTime := c.CurrentTime }

/-- `CollateralizeManage` with the ratios of the payload and of the stored configuration as
`float64` values: `stored` is the configuration under `ConfigKey()`, the result is the
configuration written there.  The permission table is read from `st`. -/
def CollateralizeManageF64 (action : Action) (st : State) (stored : Option ManageF64)
    (manage : ManageF64) : Except Err ManageF64 :=
  if !isRightAddr .ManageKey action.fromaddr st then .error .ErrPermissionDeny
  else if manage.DebtCeiling < 0 ∨ F64.lt manage.LiquidationRatio (.fin 0) = true ∨
      F64.ge manage.LiquidationRatio (.fin 1) = true ∨
      F64.lt manage.StabilityFeeRatio (.fin 0) = true ∨
      F64.ge manage.StabilityFeeRatio (.fin 1) = true then .error .ErrRiskParam
  else
    let manConfig : ManageF64 :=
      match stored with
      | some cfg => cfg
      | none =>
        { DebtCeiling := DefaultDebtCeiling, LiquidationRatio := .fin DefaultLiquidationRatio,
          StabilityFeeRatio := .fin DefaultStabilityFeeRation, Period := DefaultPeriod,
          TotalBalance := DefaultTotalBalance, CurrentTime := 0 }
    .ok
      { StabilityFeeRatio :=
          if F64.ne manage.StabilityFeeRatio (.fin 0) = true then manage.StabilityFeeRatio
          else manConfig.StabilityFeeRatio
        Period := if manage.Period ≠ 0 then manage.Period else manConfig.Period
        LiquidationRatio :=
          if F64.ne manage.LiquidationRatio (.fin 0) = true then manage.LiquidationRatio
          else manConfig.LiquidationRatio
        DebtCeiling := if manage.DebtCeiling ≠ 0 then manage.DebtCeiling else manConfig.DebtCeiling
        TotalBalance :=
          if manage.TotalBalance ≠ 0 then manage.TotalBalance else manConfig.TotalBalance
        CurrentTime := action.blocktime }

/-- A sequence of Manage transactions run in order on the stored configuration; the first
failure ends the run. -/
def manageSeqF64 (st : State) :
    List (Action × ManageF64) → Option ManageF64 → Except Err (Option ManageF64)
  | [], stored => .ok stored
  | (action, manage) :: rest, stored =>
    match CollateralizeManageF64 action st stored manage with
    | .error e => .error e
    | .ok cfg => manageSeqF64 st rest (some cfg)

/-- Range of the risk parameters of a stored configuration, in the comparisons of
`float64`. -/
def ConfigInRange (cfg : ManageF64) : Prop :=
  F64.lt (.fin 0) cfg.LiquidationRatio = true ∧ F64.lt cfg.LiquidationRatio (.fin 1) = true ∧
  F64.lt (.fin 0) cfg.StabilityFeeRatio = true ∧
  F64.lt cfg.StabilityFeeRatio (.fin 1) = true ∧ 0 < cfg.DebtCeiling

/-- A Manage payload that sets nothing but a liquidation ratio that is not a number. -/
def nanManage : ManageF64 :=
  { DebtCeiling := 0, LiquidationRatio := .nan, StabilityFeeRatio := .fin 0, Period := 0,
    TotalBalance := 0, CurrentTime := 0 }

/-- Two Manage transactions of `admin`: one that only sets the total balance to 1, then one
that also sets the liquidation ratio to 0.5. -/
def sampleManageSeq : List (Action × ManageF64) :=
  [(sampleAction "admin" [6], ManageF64.ofConfig sampleManage),
   (sampleAction "admin" [7],
     ManageF64.ofConfig { sampleManage with LiquidationRatio := 1 / 2 })]

end Executor

namespace Executor

set_option maxRecDepth 100000

/-! ## Fixed-point results -/

lemma truncQ_of_nonneg {q : ℚ} (h : 0 ≤ q) : truncQ q = ⌊q⌋ := by
  simp [truncQ, h]

/-- C6: `getBtyNumToFrozen v p r` returns an error exactly when `p = 0`, and the error is
`ErrPriceInvalid`; otherwise it returns a multiple of `10^4`; for `v ≥ 0`, `p > 0`, `r > 0` the
result is `⌊((v / 1e8) / (p * r) + 1e-7) * 1e4⌋ * 1e4`; borrowing `1,000 * 1e8` at price `1.0`
and ratio `0.4` requires `2,500 * 1e8`. -/
theorem getBtyNumToFrozen_spec (v : Int) (p r : ℚ) :
    (getBtyNumToFrozen v p r = .error .ErrPriceInvalid ↔ p = 0) ∧
    (∀ e, getBtyNumToFrozen v p r = .error e → e = .ErrPriceInvalid ∧ p = 0) ∧
    (p ≠ 0 → ∃ c, getBtyNumToFrozen v p r = .ok c ∧ (10000 : Int) ∣ c) ∧
    (0 ≤ v → 0 < p → 0 < r →
      getBtyNumToFrozen v p r =
        .ok (⌊(((v : ℚ) / 100000000) / (p * r) + 1 / 10000000) * 10000⌋ * 10000)) ∧
    getBtyNumToFrozen (1000 * 100000000) 1 (4 / 10) = .ok (2500 * 100000000) := by
  refine ⟨?_, ?_, ?_, ?_, ?_⟩
  · by_cases hp : p = 0 <;> simp [getBtyNumToFrozen, hp]
  · intro e he
    by_cases hp : p = 0
    · simp [getBtyNumToFrozen, hp] at he
      exact ⟨he.symm, hp⟩
    · simp [getBtyNumToFrozen, hp] at he
  · intro hp
    exact ⟨truncQ ((((v : ℚ) / 100000000) / (p * r) + 1 / 10000000) * 10000) * 10000,
      by simp only [getBtyNumToFrozen, hp, if_false], Dvd.intro_left _ rfl⟩
  · intro hv hp hr
    have hv' : (0 : ℚ) ≤ (v : ℚ) := by exact_mod_cast hv
    have hq : (0 : ℚ) ≤ (((v : ℚ) / 100000000) / (p * r) + 1 / 10000000) * 10000 := by
      have : (0 : ℚ) ≤ ((v : ℚ) / 100000000) / (p * r) := by positivity
      positivity
    simp only [getBtyNumToFrozen, ne_of_gt hp, if_false]
    rw [truncQ_of_nonneg hq]
  · with_unfolding_all decide

theorem getBtyNumToFrozen_spec_witness :
    (0 : Int) ≤ 300000000 ∧ (0 : ℚ) < 2 ∧ (0 : ℚ) < 1 / 2 ∧ (2 : ℚ) ≠ 0 ∧
    (∃ c, getBtyNumToFrozen 300000000 2 (1 / 2) = .ok c ∧ (10000 : Int) ∣ c) ∧
    getBtyNumToFrozen 300000000 2 (1 / 2) =
      .ok (⌊(((300000000 : Int) : ℚ) / 100000000 / (2 * (1 / 2)) + 1 / 10000000) * 10000⌋
        * 10000) :=
  ⟨by decide, by norm_num, by norm_num, by norm_num,
   (getBtyNumToFrozen_spec 300000000 2 (1 / 2)).2.2.1 (by norm_num),
   (getBtyNumToFrozen_spec 300000000 2 (1 / 2)).2.2.2.1 (by decide) (by norm_num)
     (by norm_num)⟩

/-- C7: for a Repay that reaches the balance check, the amount charged to the caller is
`realRepay d s`, which for `d ≥ 0` and `s ≥ 0` is `d + ⌊((d / 1e8) * s + 1e-7) * 1e4⌋ * 1e4`;
a caller balance below it gives `ErrNoBalance`; with a sufficient balance the first ledger call
is the transfer of exactly that amount from the caller to the creator, and any error returned is
the error of one of the three ledger calls; a debt of `1,000 * 1e8` at ratio `0.08` costs
`1,080 * 1e8`. -/
theorem repay_charge (X : Ext) (action : Action) (st : State) (repay : pty.CollateralizeRepay)
    (coll : pty.Collateralize) (index : Nat) (borrowRecord : pty.BorrowRecord)
    (hq : queryCollateralizeByID st repay.CollateralizeId = .ok coll)
    (hs : coll.Status = X.CollateralizeStatusCreated)
    (hf : findRecord coll.BorrowRecords repay.RecordId = some index)
    (hr : coll.BorrowRecords[index]? = some borrowRecord) :
    (0 ≤ borrowRecord.DebtValue → 0 ≤ coll.StabilityFeeRatio →
      realRepay borrowRecord.DebtValue coll.StabilityFeeRatio =
        borrowRecord.DebtValue +
          ⌊(((borrowRecord.DebtValue : ℚ) / 100000000) * coll.StabilityFeeRatio
              + 1 / 10000000) * 10000⌋ * 10000) ∧
    ((loadExecAccount st.token action.fromaddr).Balance <
        realRepay borrowRecord.DebtValue coll.StabilityFeeRatio →
      CollateralizeRepay X action st repay = .error .ErrNoBalance) ∧
    (¬ (loadExecAccount st.token action.fromaddr).Balance <
        realRepay borrowRecord.DebtValue coll.StabilityFeeRatio →
      (∀ e, X.account.ExecTransfer st.token action.fromaddr coll.CreateAddr
            (realRepay borrowRecord.DebtValue coll.StabilityFeeRatio) = .error e →
          CollateralizeRepay X action st repay = .error e) ∧
      (∀ r, CollateralizeRepay X action st repay = .ok r →
          ∃ token1, X.account.ExecTransfer st.token action.fromaddr coll.CreateAddr
            (realRepay borrowRecord.DebtValue coll.StabilityFeeRatio) = .ok token1) ∧
      (∀ e, CollateralizeRepay X action st repay = .error e →
          X.account.ExecTransfer st.token action.fromaddr coll.CreateAddr
            (realRepay borrowRecord.DebtValue coll.StabilityFeeRatio) = .error e ∨
          (∃ token1, X.account.ExecTransfer st.token action.fromaddr coll.CreateAddr
              (realRepay borrowRecord.DebtValue coll.StabilityFeeRatio) = .ok token1 ∧
            X.account.ExecFrozen token1 coll.CreateAddr borrowRecord.DebtValue = .error e) ∨
          X.account.ExecTransferFrozen st.coins coll.CreateAddr action.fromaddr
            borrowRecord.CollateralValue = .error e)) ∧
    realRepay (1000 * 100000000) (8 / 100) = 1080 * 100000000 := by
  refine ⟨?_, ?_, ?_, ?_⟩
  · intro hd hsf
    have hd' : (0 : ℚ) ≤ (borrowRecord.DebtValue : ℚ) := by exact_mod_cast hd
    have hq' : (0 : ℚ) ≤ (((borrowRecord.DebtValue : ℚ) / 100000000) * coll.StabilityFeeRatio
        + 1 / 10000000) * 10000 := by positivity
    simp only [realRepay]
    rw [truncQ_of_nonneg hq']
  · intro hlt
    simp [CollateralizeRepay, hq, hs, hf, hr, CheckExecTokenAccount, hlt]
  · intro hge
    have hge' : realRepay borrowRecord.DebtValue coll.StabilityFeeRatio ≤
        (loadExecAccount st.token action.fromaddr).Balance := not_lt.mp hge
    refine ⟨?_, ?_, ?_⟩
    · intro e he
      simp [CollateralizeRepay, hq, hs, hf, hr, CheckExecTokenAccount, hge', he]
    · intro r hok
      simp only [CollateralizeRepay, hq, hs, hf, hr, CheckExecTokenAccount] at hok
      simp [hge'] at hok
      cases h1 : X.account.ExecTransfer st.token action.fromaddr coll.CreateAddr
          (realRepay borrowRecord.DebtValue coll.StabilityFeeRatio) with
      | error e => simp [h1] at hok
      | ok token1 => exact ⟨token1, rfl⟩
    · intro e herr
      simp only [CollateralizeRepay, hq, hs, hf, hr, CheckExecTokenAccount] at herr
      simp [hge'] at herr
      cases h1 : X.account.ExecTransfer st.token action.fromaddr coll.CreateAddr
          (realRepay borrowRecord.DebtValue coll.StabilityFeeRatio) with
      | error e1 =>
        simp [h1] at herr
        exact Or.inl (by rw [herr])
      | ok token1 =>
        simp [h1] at herr
        cases h2 : X.account.ExecFrozen token1 coll.CreateAddr borrowRecord.DebtValue with
        | error e2 =>
          simp [h2] at herr
          exact Or.inr (Or.inl ⟨token1, rfl, by rw [h2, herr]⟩)
        | ok token2 =>
          simp [h2] at herr
          cases h3 : X.account.ExecTransferFrozen st.coins coll.CreateAddr action.fromaddr
              borrowRecord.CollateralValue with
          | error e3 =>
            simp [h3] at herr
            exact Or.inr (Or.inr (by rw [herr]))
          | ok coins1 => simp [h3] at herr
  · with_unfolding_all decide



theorem repay_charge_witness :
    queryCollateralizeByID (sampleState [sampleLoan "A" 1]) "v" =
      .ok (sampleVault [sampleLoan "A" 1]) ∧
    (sampleVault [sampleLoan "A" 1]).Status = X0.CollateralizeStatusCreated ∧
    findRecord (sampleVault [sampleLoan "A" 1]).BorrowRecords "A" = some 0 ∧
    (sampleVault [sampleLoan "A" 1]).BorrowRecords[0]? = some (sampleLoan "A" 1) ∧
    (0 : Int) ≤ (sampleLoan "A" 1).DebtValue ∧
    (0 : ℚ) ≤ (sampleVault [sampleLoan "A" 1]).StabilityFeeRatio ∧
    realRepay (sampleLoan "A" 1).DebtValue (sampleVault [sampleLoan "A" 1]).StabilityFeeRatio =
      (sampleLoan "A" 1).DebtValue +
        ⌊((((sampleLoan "A" 1).DebtValue : ℚ) / 100000000) *
            (sampleVault [sampleLoan "A" 1]).StabilityFeeRatio + 1 / 10000000) * 10000⌋ * 10000 :=
  ⟨by decide!, by decide, by decide, by decide, by decide,
   by decide!,
   (repay_charge X0 (sampleAction "bob" [2]) (sampleState [sampleLoan "A" 1])
      { CollateralizeId := "v", RecordId := "A" } (sampleVault [sampleLoan "A" 1]) 0
      (sampleLoan "A" 1) (by decide!) (by decide) (by decide) (by decide)).1
      (by decide) (by decide!)⟩

/-! ## Borrow -/

/-- Everything a successful Borrow went through. -/
lemma borrow_ok_inv {X : Ext} {action : Action} {st : State} {borrow : pty.CollateralizeBorrow}
    {r : State × List pty.ReceiptLog} (h : CollateralizeBorrow X action st borrow = .ok r) :
    ∃ coll lastPrice btyFrozen coins1 coins2 token1,
      queryCollateralizeByID st borrow.CollateralizeId = .ok coll ∧
      coll.Status ≠ X.CollateralizeStatusClose ∧
      0 < borrow.Value ∧ borrow.Value ≤ coll.DebtCeiling ∧ borrow.Value ≤ coll.Balance ∧
      getLatestPrice st = .ok lastPrice ∧
      getBtyNumToFrozen borrow.Value lastPrice coll.LiquidationRatio = .ok btyFrozen ∧
      CheckExecAccountBalance st action.fromaddr btyFrozen 0 = true ∧
      X.account.ExecTransfer st.coins action.fromaddr coll.CreateAddr btyFrozen = .ok coins1 ∧
      X.account.ExecFrozen coins1 coll.CreateAddr btyFrozen = .ok coins2 ∧
      X.account.ExecTransferFrozen st.token coll.CreateAddr action.fromaddr borrow.Value
        = .ok token1 ∧
      r = (Save (borrowVault X coll borrow
                  (newBorrowRecord X action coll borrow lastPrice btyFrozen) btyFrozen)
                { st with coins := coins2, token := token1 },
           [GetBorrowReceiptLog X action
              (borrowVault X coll borrow
                (newBorrowRecord X action coll borrow lastPrice btyFrozen) btyFrozen)
              (newBorrowRecord X action coll borrow lastPrice btyFrozen)]) := by
  unfold CollateralizeBorrow at h
  cases hq : queryCollateralizeByID st borrow.CollateralizeId with
  | error e => simp [hq] at h
  | ok coll =>
    simp only [hq] at h
    split_ifs at h with h1 h2 h3 h4
    cases hp : getLatestPrice st with
    | error e => simp [hp] at h
    | ok lastPrice =>
      simp only [hp] at h
      cases hb : getBtyNumToFrozen borrow.Value lastPrice coll.LiquidationRatio with
      | error e => simp [hb] at h
      | ok btyFrozen =>
        simp only [hb] at h
        split_ifs at h with h5
        cases ht1 : X.account.ExecTransfer st.coins action.fromaddr coll.CreateAddr btyFrozen with
        | error e => simp [ht1] at h
        | ok coins1 =>
          simp only [ht1] at h
          cases ht2 : X.account.ExecFrozen coins1 coll.CreateAddr btyFrozen with
          | error e => simp [ht2] at h
          | ok coins2 =>
            simp only [ht2] at h
            cases ht3 : X.account.ExecTransferFrozen st.token coll.CreateAddr action.fromaddr
                borrow.Value with
            | error e => simp [ht3] at h
            | ok token1 =>
              simp only [ht3] at h
              refine ⟨coll, lastPrice, btyFrozen, coins1, coins2, token1, rfl, h1,
                not_le.mp h2, not_lt.mp h3, not_lt.mp h4, rfl, hb, ?_, ht1, ht2, ht3, ?_⟩
              · simpa using h5
              · exact (Except.ok.inj h).symm


/-- C5: a successful Borrow of value `v` at latest price `p` saves the vault with exactly one
loan appended at the end of `BorrowRecords`, whose record id is the hex of the tx hash, account
the caller, status Create, debt `v`, collateral the required collateral `c`, collateral price `p`,
start time the block time, expire time block time plus the vault period and liquidation price
`LiquidationRatio * p * PreLiquidationRatio`; the vault balance decreases by `v`, `CollBalance`
increases by `c`, the status becomes Created, `TotalBalance` and `InvalidRecords` are unchanged. -/
theorem borrow_effect (X : Ext) (action : Action) (st st' : State)
    (borrow : pty.CollateralizeBorrow) (coll : pty.Collateralize) (logs : List pty.ReceiptLog)
    (hq : queryCollateralizeByID st borrow.CollateralizeId = .ok coll)
    (hb : CollateralizeBorrow X action st borrow = .ok (st', logs)) :
    ∃ p c record coll',
      getLatestPrice st = .ok p ∧
      getBtyNumToFrozen borrow.Value p coll.LiquidationRatio = .ok c ∧
      st'.vaults = kvSet st.vaults coll.CollateralizeId coll' ∧
      coll'.BorrowRecords = coll.BorrowRecords ++ [record] ∧
      record.RecordId = X.ToHex action.txhash ∧
      record.AccountAddr = action.fromaddr ∧
      record.Status = X.CollateralizeUserStatusCreate ∧
      record.DebtValue = borrow.Value ∧
      record.CollateralValue = c ∧
      record.CollateralPrice = p ∧
      record.StartTime = action.blocktime ∧
      record.ExpireTime = action.blocktime + coll.Period ∧
      record.LiquidationPrice =
        coll.LiquidationRatio * p * X.CollateralizePreLiquidationRatio ∧
      coll'.Balance = coll.Balance - borrow.Value ∧
      coll'.CollBalance = coll.CollBalance + c ∧
      coll'.Status = X.CollateralizeStatusCreated ∧
      coll'.TotalBalance = coll.TotalBalance ∧
      coll'.InvalidRecords = coll.InvalidRecords ∧
      coll'.CollateralizeId = coll.CollateralizeId := by
  obtain ⟨coll0, p, c, coins1, coins2, token1, hq0, -, -, -, -, hp, hc, -, -, -, -, hr⟩ :=
    borrow_ok_inv hb
  rw [hq] at hq0
  cases Except.ok.inj hq0
  refine ⟨p, c, newBorrowRecord X action coll borrow p c,
    borrowVault X coll borrow (newBorrowRecord X action coll borrow p c) c, hp, hc, ?_⟩
  have hst : st' = Save (borrowVault X coll borrow (newBorrowRecord X action coll borrow p c) c)
      { st with coins := coins2, token := token1 } := congrArg Prod.fst hr
  subst hst
  by_cases hlt : coll.LatestLiquidationPrice
      < coll.LiquidationRatio * p * X.CollateralizePreLiquidationRatio <;>
    simp [Save, borrowVault, newBorrowRecord, hlt]

theorem borrow_effect_witness :
    queryCollateralizeByID (sampleState []) sampleBorrow.CollateralizeId =
      .ok (sampleVault []) ∧
    CollateralizeBorrow X0 (sampleAction "bob" [1]) (sampleState []) sampleBorrow =
      .ok (resultState sampleBorrowResult, resultLogs sampleBorrowResult) ∧
    ∃ p c record coll',
      getLatestPrice (sampleState []) = .ok p ∧
      getBtyNumToFrozen sampleBorrow.Value p (sampleVault []).LiquidationRatio = .ok c ∧
      (resultState sampleBorrowResult).vaults =
        kvSet (sampleState []).vaults (sampleVault []).CollateralizeId coll' ∧
      coll'.BorrowRecords = (sampleVault []).BorrowRecords ++ [record] ∧
      record.DebtValue = sampleBorrow.Value ∧ record.CollateralValue = c :=
  ⟨by decide!, by decide!,
   by
    obtain ⟨p, c, record, coll', h1, h2, h3, h4, -, -, -, h5, h6, -⟩ :=
      borrow_effect X0 (sampleAction "bob" [1]) (sampleState [])
        (resultState sampleBorrowResult) sampleBorrow (sampleVault [])
        (resultLogs sampleBorrowResult) (by decide!) (by decide!)
    exact ⟨p, c, record, coll', h1, h2, h3, h4, h5, h6⟩⟩


/-- C10: Borrow rejects in this order: the store error when the vault is missing;
`ErrCollateralizeStatus` when the vault is closed; `ErrAmount` when the value is not positive;
`ErrCollateralizeExceedDebtCeiling` when the value exceeds the debt ceiling;
`ErrCollateralizeLowBalance` when it exceeds the vault balance; `ErrNoBalance` when the caller's
BTY balance is below the required collateral.  A request for `10,001 * 1e8` against a ceiling and
balance of `10,000 * 1e8` fails with `ErrCollateralizeExceedDebtCeiling`, and a Borrow that
succeeds has `0 < value ≤ DebtCeiling` and `value ≤ Balance`. -/
theorem borrow_rejects (X : Ext) (action : Action) (st : State)
    (borrow : pty.CollateralizeBorrow) :
    (kvGet st.vaults borrow.CollateralizeId = none →
      CollateralizeBorrow X action st borrow = .error .ErrNotFound) ∧
    (∀ coll, queryCollateralizeByID st borrow.CollateralizeId = .ok coll →
      (coll.Status = X.CollateralizeStatusClose →
        CollateralizeBorrow X action st borrow = .error .ErrCollateralizeStatus) ∧
      (coll.Status ≠ X.CollateralizeStatusClose → borrow.Value ≤ 0 →
        CollateralizeBorrow X action st borrow = .error .ErrAmount) ∧
      (coll.Status ≠ X.CollateralizeStatusClose → 0 < borrow.Value →
        borrow.Value > coll.DebtCeiling →
        CollateralizeBorrow X action st borrow = .error .ErrCollateralizeExceedDebtCeiling) ∧
      (coll.Status ≠ X.CollateralizeStatusClose → 0 < borrow.Value →
        borrow.Value ≤ coll.DebtCeiling → borrow.Value > coll.Balance →
        CollateralizeBorrow X action st borrow = .error .ErrCollateralizeLowBalance) ∧
      (coll.Status ≠ X.CollateralizeStatusClose → 0 < borrow.Value →
        borrow.Value ≤ coll.DebtCeiling → borrow.Value ≤ coll.Balance →
        ∀ p c, getLatestPrice st = .ok p →
          getBtyNumToFrozen borrow.Value p coll.LiquidationRatio = .ok c →
          (loadExecAccount st.coins action.fromaddr).Balance < c →
          CollateralizeBorrow X action st borrow = .error .ErrNoBalance) ∧
      (coll.Status ≠ X.CollateralizeStatusClose → coll.DebtCeiling = 10000 * 100000000 →
        coll.Balance = 10000 * 100000000 → borrow.Value = 10001 * 100000000 →
        CollateralizeBorrow X action st borrow = .error .ErrCollateralizeExceedDebtCeiling)) ∧
    (∀ r, CollateralizeBorrow X action st borrow = .ok r →
      ∃ coll, queryCollateralizeByID st borrow.CollateralizeId = .ok coll ∧
        coll.Status ≠ X.CollateralizeStatusClose ∧ 0 < borrow.Value ∧
        borrow.Value ≤ coll.DebtCeiling ∧ borrow.Value ≤ coll.Balance) := by
  refine ⟨?_, ?_, ?_⟩
  · intro hnone
    simp [CollateralizeBorrow, queryCollateralizeByID, hnone]
  · intro coll hq
    refine ⟨?_, ?_, ?_, ?_, ?_, ?_⟩
    · intro h1
      simp [CollateralizeBorrow, hq, h1]
    · intro h1 h2
      simp [CollateralizeBorrow, hq, h1, h2]
    · intro h1 h2 h3
      simp [CollateralizeBorrow, hq, h1, not_le.mpr h2, h3]
    · intro h1 h2 h3 h4
      simp [CollateralizeBorrow, hq, h1, not_le.mpr h2, not_lt.mpr h3, h4]
    · intro h1 h2 h3 h4 p c hp hc hbal
      simp [CollateralizeBorrow, hq, h1, not_le.mpr h2, not_lt.mpr h3, not_lt.mpr h4, hp, hc,
        CheckExecAccountBalance, hbal]
    · intro h1 h2 h3 h4
      have hv : ¬ borrow.Value ≤ 0 := by rw [h4]; decide
      have hc : borrow.Value > coll.DebtCeiling := by rw [h4, h2]; decide
      simp [CollateralizeBorrow, hq, h1, hv, hc]
  · intro r hr
    obtain ⟨coll, p, c, coins1, coins2, token1, hq, h1, h2, h3, h4, -⟩ := borrow_ok_inv hr
    exact ⟨coll, hq, h1, h2, h3, h4⟩

theorem borrow_rejects_witness :
    queryCollateralizeByID (sampleState []) "v" = .ok (sampleVault []) ∧
    (sampleVault []).Status ≠ X0.CollateralizeStatusClose ∧
    (sampleVault []).DebtCeiling = 10000 * 100000000 ∧
    (sampleVault []).Balance = 10000 * 100000000 ∧
    CollateralizeBorrow X0 (sampleAction "bob" [1]) (sampleState [])
        { CollateralizeId := "v", Value := 10001 * 100000000 } =
      .error .ErrCollateralizeExceedDebtCeiling ∧
    (∃ coll, queryCollateralizeByID (sampleState []) sampleBorrow.CollateralizeId = .ok coll ∧
      coll.Status ≠ X0.CollateralizeStatusClose ∧ 0 < sampleBorrow.Value ∧
      sampleBorrow.Value ≤ coll.DebtCeiling ∧ sampleBorrow.Value ≤ coll.Balance) :=
  ⟨by decide!, by decide, by decide, by decide,
   ((borrow_rejects X0 (sampleAction "bob" [1]) (sampleState [])
      { CollateralizeId := "v", Value := 10001 * 100000000 }).2.1 (sampleVault [])
      (by decide!)).2.2.2.2.2 (by decide) (by decide) (by decide) (by decide),
   (borrow_rejects X0 (sampleAction "bob" [1]) (sampleState []) sampleBorrow).2.2
      (resultState sampleBorrowResult, resultLogs sampleBorrowResult) (by decide!)⟩


/-! ## Evaluations of the in-place sweeps and of Repay -/

/-- C3 (evaluation at the failing input): on the vault with loans `A`, `B`, `C`, where `A` and
`B` are due for seizure and `C` is not, the in-place price sweep at price 0.5 seizes `A` only and
leaves `B` in `BorrowRecords`, while the two-pass reference seizes `A` and `B`; the in-place
expiry sweep at block time 1000 does the same on loans where `A` and `B` are expired. -/
theorem sweep_differs_from_two_pass :
    (systemLiquidation X0 (sampleAction "oracle" [3]) (sampleState threeLoans)
        (sampleVault threeLoans) (1 / 2)).toOption.map
      (fun r => (r.2.1.BorrowRecords.map (fun x => x.RecordId),
                 r.2.1.InvalidRecords.map (fun x => x.RecordId), r.2.2.length))
      = some (["B", "C"], ["A"], 1) ∧
    (systemLiquidationTwoPass X0 (sampleAction "oracle" [3]) (sampleState threeLoans)
        (sampleVault threeLoans) (1 / 2)).toOption.map
      (fun r => (r.2.1.BorrowRecords.map (fun x => x.RecordId),
                 r.2.1.InvalidRecords.map (fun x => x.RecordId), r.2.2.length))
      = some (["C"], ["A", "B"], 2) ∧
    systemLiquidation X0 (sampleAction "oracle" [3]) (sampleState threeLoans)
        (sampleVault threeLoans) (1 / 2) ≠
      systemLiquidationTwoPass X0 (sampleAction "oracle" [3]) (sampleState threeLoans)
        (sampleVault threeLoans) (1 / 2) ∧
    (expireLiquidation X0 (sampleAction "oracle" [3]) (sampleState expiringLoans)
        (sampleVault expiringLoans)).toOption.map
      (fun r => (r.2.1.BorrowRecords.map (fun x => x.RecordId),
                 r.2.1.InvalidRecords.map (fun x => x.RecordId), r.2.2.length))
      = some (["B", "C"], ["A"], 1) ∧
    (expireLiquidationTwoPass X0 (sampleAction "oracle" [3]) (sampleState expiringLoans)
        (sampleVault expiringLoans)).toOption.map
      (fun r => (r.2.1.BorrowRecords.map (fun x => x.RecordId),
                 r.2.1.InvalidRecords.map (fun x => x.RecordId), r.2.2.length))
      = some (["C"], ["A", "B"], 2) ∧
    expireLiquidation X0 (sampleAction "oracle" [3]) (sampleState expiringLoans)
        (sampleVault expiringLoans) ≠
      expireLiquidationTwoPass X0 (sampleAction "oracle" [3]) (sampleState expiringLoans)
        (sampleVault expiringLoans) := by
  refine ⟨?_, ?_, ?_, ?_, ?_, ?_⟩ <;> decide!

/-- C4 (evaluation at the failing input): the feed of price 0.5 at block time 1000 on the vault
with loans `A`, `B` (liquidation price 1) and `C` (liquidation price 0.1) succeeds, the guarantor
lookup and the only transfer attempted succeed, and loan `B`, whose liquidation price 1 is at
least the fed price, is still in `BorrowRecords`, untouched; only `A` is in `InvalidRecords`. -/
theorem feed_leaves_due_loan :
    pricePolicy sampleFeed = .ok (1 / 2) ∧
    getGuarantorAddr (sampleState threeLoans) = .ok "guard" ∧
    sampleFeedResult = .ok (resultState sampleFeedResult, resultLogs sampleFeedResult) ∧
    (kvGet (resultState sampleFeedResult).vaults "v").map (fun c => c.BorrowRecords) =
      some [sampleLoan "B" 1, sampleLoan "C" (1 / 10)] ∧
    (kvGet (resultState sampleFeedResult).vaults "v").map
        (fun c => c.InvalidRecords.map (fun x => (x.RecordId, x.Status))) =
      some [("A", X0.CollateralizeUserStatusSystemLiquidate)] ∧
    (sampleLoan "B" 1).LiquidationPrice ≥ 1 / 2 ∧
    (loadExecAccount (resultState sampleFeedResult).coins "guard").Balance =
      (sampleLoan "A" 1).CollateralValue := by
  refine ⟨?_, ?_, ?_, ?_, ?_, ?_, ?_⟩ <;> decide!

/-- C9 (evaluation at the failing input): `carol` repays loan `A`, which `bob` opened; the Repay
succeeds, the collateral of the loan is credited to `carol`, the sender, and the balance of
`bob`, the loan's `AccountAddr`, is unchanged. -/
theorem repay_collateral_goes_to_sender :
    (sampleLoan "A" 1).AccountAddr = "bob" ∧
    thirdPartyRepayResult =
      .ok (resultState thirdPartyRepayResult, resultLogs thirdPartyRepayResult) ∧
    loadExecAccount (resultState thirdPartyRepayResult).coins "bob" =
      loadExecAccount (sampleState [sampleLoan "A" 1]).coins "bob" ∧
    (loadExecAccount (resultState thirdPartyRepayResult).coins "carol").Balance =
      (loadExecAccount (sampleState [sampleLoan "A" 1]).coins "carol").Balance +
        (sampleLoan "A" 1).CollateralValue ∧
    (loadExecAccount (resultState thirdPartyRepayResult).coins "alice").Frozen =
      (loadExecAccount (sampleState [sampleLoan "A" 1]).coins "alice").Frozen -
        (sampleLoan "A" 1).CollateralValue := by
  refine ⟨?_, ?_, ?_, ?_, ?_⟩ <;> decide!


/-! ## Sums over loan lists and the typed store -/

lemma fieldSum_append (f : pty.BorrowRecord → Int) (l₁ l₂ : List pty.BorrowRecord) :
    fieldSum f (l₁ ++ l₂) = fieldSum f l₁ + fieldSum f l₂ := by
  simp [fieldSum]

lemma fieldSum_nil (f : pty.BorrowRecord → Int) : fieldSum f [] = 0 := rfl

lemma fieldSum_singleton (f : pty.BorrowRecord → Int) (r : pty.BorrowRecord) :
    fieldSum f [r] = f r := by
  simp [fieldSum]

lemma fieldSum_eraseIdx (f : pty.BorrowRecord → Int) :
    ∀ (l : List pty.BorrowRecord) (i : Nat) (r : pty.BorrowRecord), l[i]? = some r →
      fieldSum f (l.eraseIdx i) + f r = fieldSum f l
  | [], i, r, h => by simp at h
  | x :: l, 0, r, h => by
    simp at h
    subst h
    simp [fieldSum]
    ring
  | x :: l, i + 1, r, h => by
    simp at h
    have ih := fieldSum_eraseIdx f l i r h
    simp [fieldSum] at ih ⊢
    linarith

lemma fieldSum_set (f : pty.BorrowRecord → Int) :
    ∀ (l : List pty.BorrowRecord) (i : Nat) (r r' : pty.BorrowRecord), l[i]? = some r →
      fieldSum f (l.set i r') = fieldSum f l - f r + f r'
  | [], i, r, r', h => by simp at h
  | x :: l, 0, r, r', h => by
    simp at h
    subst h
    simp [fieldSum]
    ring
  | x :: l, i + 1, r, r', h => by
    simp at h
    have ih := fieldSum_set f l i r r' h
    simp [fieldSum] at ih ⊢
    linarith

lemma kvGet_kvSet {α : Type} (db : List (String × α)) (key key' : String) (v : α) :
    kvGet (kvSet db key v) key' = if key = key' then some v else kvGet db key' := by
  simp [kvSet, kvGet]

lemma allVaults_save {P : pty.Collateralize → Prop} {st st1 : State} {c : pty.Collateralize}
    (hst : st1.vaults = st.vaults) (hP : P c) (h : AllVaults P st) :
    AllVaults P (Save c st1) := by
  intro id c' hget
  simp only [Save, kvGet_kvSet, hst] at hget
  split_ifs at hget with hk
  · cases hget
    exact hP
  · exact h id c' hget

lemma query_ok_iff {st : State} {id : String} {c : pty.Collateralize} :
    queryCollateralizeByID st id = .ok c ↔ kvGet st.vaults id = some c := by
  unfold queryCollateralizeByID
  cases h : kvGet st.vaults id <;> simp


/-! ## What a successful handler went through -/

lemma repay_ok_inv {X : Ext} {action : Action} {st : State} {repay : pty.CollateralizeRepay}
    {r : State × List pty.ReceiptLog} (h : CollateralizeRepay X action st repay = .ok r) :
    ∃ coll index borrowRecord token1 token2 coins1,
      queryCollateralizeByID st repay.CollateralizeId = .ok coll ∧
      coll.Status = X.CollateralizeStatusCreated ∧
      findRecord coll.BorrowRecords repay.RecordId = some index ∧
      coll.BorrowRecords[index]? = some borrowRecord ∧
      CheckExecTokenAccount st action.fromaddr
        (realRepay borrowRecord.DebtValue coll.StabilityFeeRatio) false = true ∧
      X.account.ExecTransfer st.token action.fromaddr coll.CreateAddr
        (realRepay borrowRecord.DebtValue coll.StabilityFeeRatio) = .ok token1 ∧
      X.account.ExecFrozen token1 coll.CreateAddr borrowRecord.DebtValue = .ok token2 ∧
      X.account.ExecTransferFrozen st.coins coll.CreateAddr action.fromaddr
        borrowRecord.CollateralValue = .ok coins1 ∧
      r = (Save (repayVault coll index (closeRecord X action borrowRecord))
                { st with coins := coins1, token := token2 },
           [GetRepayReceiptLog X action
              (repayVault coll index (closeRecord X action borrowRecord))
              (closeRecord X action borrowRecord)]) := by
  unfold CollateralizeRepay at h
  cases hq : queryCollateralizeByID st repay.CollateralizeId with
  | error e => simp [hq] at h
  | ok coll =>
    simp only [hq] at h
    split_ifs at h with h1
    cases hf : findRecord coll.BorrowRecords repay.RecordId with
    | none => simp [hf] at h
    | some index =>
      simp only [hf] at h
      cases hr : coll.BorrowRecords[index]? with
      | none => simp [hr] at h
      | some borrowRecord =>
        simp only [hr] at h
        split_ifs at h with h5
        cases ht1 : X.account.ExecTransfer st.token action.fromaddr coll.CreateAddr
            (realRepay borrowRecord.DebtValue coll.StabilityFeeRatio) with
        | error e => simp [ht1] at h
        | ok token1 =>
          simp only [ht1] at h
          cases ht2 : X.account.ExecFrozen token1 coll.CreateAddr borrowRecord.DebtValue with
          | error e => simp [ht2] at h
          | ok token2 =>
            simp only [ht2] at h
            cases ht3 : X.account.ExecTransferFrozen st.coins coll.CreateAddr action.fromaddr
                borrowRecord.CollateralValue with
            | error e => simp [ht3] at h
            | ok coins1 =>
              simp only [ht3] at h
              refine ⟨coll, index, borrowRecord, token1, token2, coins1, rfl, not_not.mp h1, hf,
                hr, ?_, ht1, ht2, ht3, (Except.ok.inj h).symm⟩
              simpa using h5

lemma append_ok_inv {X : Ext} {action : Action} {st : State} {cAppend : pty.CollateralizeAppend}
    {r : State × List pty.ReceiptLog} (h : CollateralizeAppend X action st cAppend = .ok r) :
    ∃ coll index borrowRecord lastPrice coins1 coins2,
      0 < cAppend.CollateralValue ∧
      queryCollateralizeByID st cAppend.CollateralizeId = .ok coll ∧
      coll.Status = X.CollateralizeStatusCreated ∧
      findLastRecord coll.BorrowRecords cAppend.RecordId = some index ∧
      coll.BorrowRecords[index]? = some borrowRecord ∧
      getLatestPrice st = .ok lastPrice ∧
      CheckExecAccountBalance st action.fromaddr cAppend.CollateralValue 0 = true ∧
      X.account.ExecTransfer st.coins action.fromaddr coll.CreateAddr cAppend.CollateralValue
        = .ok coins1 ∧
      X.account.ExecFrozen coins1 coll.CreateAddr cAppend.CollateralValue = .ok coins2 ∧
      r = (Save (appendVault coll index (appendRecord X action borrowRecord cAppend lastPrice)
                  cAppend) { st with coins := coins2 },
           [GetAppendReceiptLog X action
              (appendVault coll index (appendRecord X action borrowRecord cAppend lastPrice)
                cAppend)
              (appendRecord X action borrowRecord cAppend lastPrice)]) := by
  unfold CollateralizeAppend at h
  cases h5 : CheckExecAccountBalance st action.fromaddr cAppend.CollateralValue 0
  · exfalso
    simp only [h5, Bool.not_false, if_true] at h
    repeat' split at h
    all_goals simp at h
  simp only [h5, Bool.not_true, Bool.false_eq_true, if_false] at h
  split_ifs at h with h0
  cases hq : queryCollateralizeByID st cAppend.CollateralizeId with
  | error e => simp [hq] at h
  | ok coll =>
    simp only [hq] at h
    split_ifs at h with h1
    cases hf : findLastRecord coll.BorrowRecords cAppend.RecordId with
    | none => simp [hf] at h
    | some index =>
      simp only [hf] at h
      cases hr : coll.BorrowRecords[index]? with
      | none => simp [hr] at h
      | some borrowRecord =>
        simp only [hr] at h
        cases hp : getLatestPrice st with
        | error e => simp [hp] at h
        | ok lastPrice =>
          simp only [hp] at h
          cases ht1 : X.account.ExecTransfer st.coins action.fromaddr coll.CreateAddr
              cAppend.CollateralValue with
          | error e => simp [ht1] at h
          | ok coins1 =>
            simp only [ht1] at h
            cases ht2 : X.account.ExecFrozen coins1 coll.CreateAddr cAppend.CollateralValue with
            | error e => simp [ht2] at h
            | ok coins2 =>
              simp only [ht2] at h
              refine ⟨coll, index, borrowRecord, lastPrice, coins1, coins2, not_le.mp h0, rfl,
                not_not.mp h1, hf, hr, rfl, rfl, ht1, ht2, (Except.ok.inj h).symm⟩

lemma retrieve_ok_inv {X : Ext} {action : Action} {st : State}
    {retrieve : pty.CollateralizeRetrieve} {r : State × List pty.ReceiptLog}
    (h : CollateralizeRetrieve X action st retrieve = .ok r) :
    ∃ collateralize token1,
      queryCollateralizeByID st retrieve.CollateralizeId = .ok collateralize ∧
      action.fromaddr = collateralize.CreateAddr ∧
      retrieve.Balance ≤ collateralize.Balance ∧
      X.account.ExecActive st.token action.fromaddr retrieve.Balance = .ok token1 ∧
      r = (Save (retrieveVault X action collateralize retrieve) { st with token := token1 },
           [GetRetrieveReceiptLog X action (retrieveVault X action collateralize retrieve)]) := by
  unfold CollateralizeRetrieve at h
  cases hq : queryCollateralizeByID st retrieve.CollateralizeId with
  | error e => simp [hq] at h
  | ok collateralize =>
    simp only [hq] at h
    split_ifs at h with h1 h2
    cases ht1 : X.account.ExecActive st.token action.fromaddr retrieve.Balance with
    | error e => simp [ht1] at h
    | ok token1 =>
      simp only [ht1] at h
      exact ⟨collateralize, token1, rfl, not_not.mp h1, not_lt.mp h2, rfl,
        (Except.ok.inj h).symm⟩

lemma create_ok_inv {X : Ext} {action : Action} {localdb : Lister} {st : State}
    {create : pty.CollateralizeCreate} {r : State × List pty.ReceiptLog}
    (h : CollateralizeCreate X action localdb st create = .ok r) :
    ∃ collcfg token1,
      isSuperAddr action.fromaddr st = true ∧ 0 < create.TotalBalance ∧
      getCollateralizeConfig st = .ok collcfg ∧
      X.account.ExecFrozen st.token action.fromaddr create.TotalBalance = .ok token1 ∧
      (r = (Save (createVault X action collcfg create) { st with token := token1 },
            [GetCreateReceiptLog X action (createVault X action collcfg create)]) ∨
       ∃ id0 collateralize,
         queryCollateralizeByID st id0 = .ok collateralize ∧
         r = (Save (topUpVault X action collateralize create) { st with token := token1 },
              [GetCreateReceiptLog X action (topUpVault X action collateralize create)])) := by
  unfold CollateralizeCreate at h
  cases h0 : isSuperAddr action.fromaddr st
  · simp [h0] at h
  cases h3 : CheckExecTokenAccount st action.fromaddr create.TotalBalance false
  · exfalso
    simp only [h0, h3, Bool.not_true, Bool.not_false, Bool.false_eq_true, if_false,
      if_true] at h
    repeat' split at h
    all_goals simp at h
  simp only [h0, h3, Bool.not_true, Bool.false_eq_true, if_false] at h
  split_ifs at h with h1
  cases hc : getCollateralizeConfig st with
  | error e => simp [hc] at h
  | ok collcfg =>
    simp only [hc] at h
    cases hb : getCollBalance X collcfg.TotalBalance localdb st with
    | error e => simp [hb] at h
    | ok reBalance =>
      simp only [hb] at h
      split_ifs at h with h2
      have key : ∀ ids : List String,
          (match X.account.ExecFrozen st.token action.fromaddr create.TotalBalance with
            | .error e => (Except.error e : Except Err (State × List pty.ReceiptLog))
            | .ok token1 =>
              match ids with
              | [] =>
                .ok (Save (createVault X action collcfg create) { st with token := token1 },
                     [GetCreateReceiptLog X action (createVault X action collcfg create)])
              | id0 :: _ =>
                match queryCollateralizeByID { st with token := token1 } id0 with
                | .error e => .error e
                | .ok collateralize =>
                  .ok (Save (topUpVault X action collateralize create)
                        { st with token := token1 },
                       [GetCreateReceiptLog X action
                          (topUpVault X action collateralize create)])) = .ok r →
          ∃ token1,
            X.account.ExecFrozen st.token action.fromaddr create.TotalBalance = .ok token1 ∧
            (r = (Save (createVault X action collcfg create) { st with token := token1 },
                  [GetCreateReceiptLog X action (createVault X action collcfg create)]) ∨
             ∃ id0 collateralize,
               queryCollateralizeByID st id0 = .ok collateralize ∧
               r = (Save (topUpVault X action collateralize create)
                      { st with token := token1 },
                    [GetCreateReceiptLog X action
                       (topUpVault X action collateralize create)])) := by
        intro ids hk
        cases ht1 : X.account.ExecFrozen st.token action.fromaddr create.TotalBalance with
        | error e => simp [ht1] at hk
        | ok token1 =>
          simp only [ht1] at hk
          refine ⟨token1, rfl, ?_⟩
          cases ids with
          | nil => exact Or.inl (Except.ok.inj hk).symm
          | cons id0 rest =>
            simp only at hk
            cases hq : queryCollateralizeByID { st with token := token1 } id0 with
            | error e => simp [hq] at hk
            | ok collateralize =>
              simp only [hq] at hk
              exact Or.inr ⟨id0, collateralize, hq, (Except.ok.inj hk).symm⟩
      cases hfa : queryCollateralizeByAddr localdb action.fromaddr
          X.CollateralizeStatusCreated with
      | ok ids =>
        simp only [hfa] at h
        obtain ⟨token1, ht1, hr⟩ := key ids h
        exact ⟨collcfg, token1, rfl, not_le.mp h1, rfl, ht1, hr⟩
      | error e =>
        simp only [hfa] at h
        split_ifs at h with h4
        obtain ⟨token1, ht1, hr⟩ := key [] h
        exact ⟨collcfg, token1, rfl, not_le.mp h1, rfl, ht1, hr⟩


/-! ## The in-place sweeps keep the books -/

lemma perm_eraseIdx_append {α : Type} :
    ∀ (l : List α) (i : Nat) (p : α), l[i]? = some p → (l.eraseIdx i ++ [p]).Perm l
  | [], i, p, h => by simp at h
  | x :: l, 0, p, h => by
    simp at h
    subst h
    simp
  | x :: l, i + 1, p, h => by
    simp at h
    simpa using (perm_eraseIdx_append l i p h).cons x

lemma range_map_getD {α : Type} (l : List α) (d : α) :
    (List.range l.length).map (fun p => l.getD p d) = l := by
  apply List.ext_getElem
  · simp
  · intro i h1 h2
    simp [List.getD_eq_getElem?_getD, List.getElem?_eq_getElem h2]

lemma removeAt_ok {arr : List Nat} {len index : Nat} {arr1 : List Nat} {len1 : Nat}
    (h : removeAt arr len index = .ok (arr1, len1)) :
    index + 1 ≤ len ∧ arr1 = (arr.take len).eraseIdx index ++ arr.drop (len - 1) ∧
      len1 = len - 1 := by
  unfold removeAt at h
  split_ifs at h with h1
  have := Except.ok.inj h
  simp only [Prod.mk.injEq] at this
  exact ⟨h1, this.1.symm, this.2.symm⟩

lemma removeAt_take {arr : List Nat} {len index : Nat} (hlen : len ≤ arr.length)
    (hi : index + 1 ≤ len) :
    ((arr.take len).eraseIdx index ++ arr.drop (len - 1)).take (len - 1) =
      (arr.take len).eraseIdx index := by
  have hl : ((arr.take len).eraseIdx index).length = len - 1 := by
    simp only [List.length_eraseIdx, List.length_take, Nat.min_eq_left hlen]
    split_ifs <;> omega
  rw [← hl, List.take_left']
  rfl

lemma removeAt_length {arr : List Nat} {len index : Nat} (hlen : len ≤ arr.length)
    (hi : index + 1 ≤ len) :
    ((arr.take len).eraseIdx index ++ arr.drop (len - 1)).length = arr.length := by
  simp only [List.length_append, List.length_eraseIdx, List.length_take, List.length_drop,
    Nat.min_eq_left hlen]
  split_ifs <;> omega


lemma sweepInv_update {recs : List pty.BorrowRecord} {cb0 : Int} {m : SweepMem}
    (hm : SweepInv recs cb0 m) (p : Nat) (r : pty.BorrowRecord) (logs : List pty.ReceiptLog)
    (hd : r.DebtValue = (m.heap p).DebtValue)
    (hc : r.CollateralValue = (m.heap p).CollateralValue) :
    SweepInv recs cb0 { m with heap := Function.update m.heap p r, logs := logs } := by
  refine ⟨hm.len_le, hm.perm, ?_, ?_, hm.bal⟩
  · intro q
    by_cases hq : q = p
    · subst hq
      simp [hd, hm.debt]
    · simp [Function.update_noteq hq, hm.debt]
  · intro q
    by_cases hq : q = p
    · subst hq
      simp [hc, hm.coll]
    · simp [Function.update_noteq hq, hm.coll]

lemma seize_inv {X : Ext} {action : Action} {st : State} {coll : pty.Collateralize}
    {status : Int} {index p : Nat} {m m' : SweepMem} {recs : List pty.BorrowRecord} {cb0 : Int}
    (h : seize X action st coll status index p m = .ok m') (hp : m.arr[index]? = some p)
    (hm : SweepInv recs cb0 m) : SweepInv recs cb0 m' := by
  unfold seize at h
  cases hg : getGuarantorAddr st with
  | error e =>
    simp only [hg] at h
    split_ifs at h
    cases Except.ok.inj h
    exact hm
  | ok guarantor =>
    simp only [hg] at h
    cases ht : X.account.ExecTransferFrozen m.coins coll.CreateAddr guarantor
        (m.heap p).CollateralValue with
    | error e =>
      simp only [ht] at h
      split_ifs at h
      cases Except.ok.inj h
      exact hm
    | ok coins1 =>
      simp only [ht] at h
      cases hr : removeAt m.arr m.len index with
      | error e => simp [hr] at h
      | ok res =>
        obtain ⟨arr1, len1⟩ := res
        simp only [hr] at h
        obtain ⟨hi, harr, hlen⟩ := removeAt_ok hr
        have hlive : (m.arr.take m.len)[index]? = some p := by
          rw [List.getElem?_take_of_lt (by omega)]
          exact hp
        cases Except.ok.inj h
        subst harr hlen
        refine ⟨?_, ?_, ?_, ?_, ?_⟩
        · show m.len - 1 ≤ _
          rw [removeAt_length hm.len_le hi]
          have := hm.len_le
          omega
        · show (List.take (m.len - 1) _ ++ (m.invalid ++ [p])).Perm _
          rw [removeAt_take hm.len_le hi]
          have h1 : ((m.arr.take m.len).eraseIdx index ++ (m.invalid ++ [p])).Perm
              ((m.arr.take m.len).eraseIdx index ++ [p] ++ m.invalid) := by
            rw [List.append_assoc]
            exact List.Perm.append_left _ List.perm_append_comm
          exact h1.trans (((perm_eraseIdx_append _ _ _ hlive).append_right _).trans hm.perm)
        · intro q
          by_cases hq : q = p
          · subst hq
            simp [hm.debt]
          · simp [Function.update_noteq hq, hm.debt]
        · intro q
          by_cases hq : q = p
          · subst hq
            simp [hm.coll]
          · simp [Function.update_noteq hq, hm.coll]
        · have := hm.bal
          have hc := hm.coll p
          simp only [List.map_append, List.sum_append, List.map_cons, List.map_nil,
            List.sum_cons, List.sum_nil]
          linarith

lemma systemLiquidationStep_inv {X : Ext} {action : Action} {st : State}
    {coll : pty.Collateralize} {price : ℚ} {index : Nat} {m m' : SweepMem}
    {recs : List pty.BorrowRecord} {cb0 : Int}
    (h : systemLiquidationStep X action st coll price index m = .ok m')
    (hm : SweepInv recs cb0 m) : SweepInv recs cb0 m' := by
  unfold systemLiquidationStep at h
  cases hp : m.arr[index]? with
  | none => simp [hp] at h
  | some p =>
    simp only [hp] at h
    split_ifs at h with h1 h2 h3
    · cases Except.ok.inj h
      exact sweepInv_update hm p _ m.logs rfl rfl
    · cases Except.ok.inj h
      exact hm
    · exact seize_inv h hp hm
    · cases Except.ok.inj h
      exact sweepInv_update hm p _ _ rfl rfl

lemma expireLiquidationStep_inv {X : Ext} {action : Action} {st : State}
    {coll : pty.Collateralize} {index : Nat} {m m' : SweepMem}
    {recs : List pty.BorrowRecord} {cb0 : Int}
    (h : expireLiquidationStep X action st coll index m = .ok m')
    (hm : SweepInv recs cb0 m) : SweepInv recs cb0 m' := by
  unfold expireLiquidationStep at h
  cases hp : m.arr[index]? with
  | none => simp [hp] at h
  | some p =>
    simp only [hp] at h
    split_ifs at h with h1 h2
    · cases Except.ok.inj h
      exact hm
    · exact seize_inv h hp hm
    · cases Except.ok.inj h
      exact sweepInv_update hm p _ _ rfl rfl

lemma sweepLoop_inv {step : Nat → SweepMem → Except Err SweepMem} {P : SweepMem → Prop}
    (hstep : ∀ index m m', step index m = .ok m' → P m → P m') :
    ∀ (range : List Nat) (m m' : SweepMem), sweepLoop step range m = .ok m' → P m → P m'
  | [], m, m', h, hm => by
    cases Except.ok.inj h
    exact hm
  | index :: rest, m, m', h, hm => by
    unfold sweepLoop at h
    cases hs : step index m with
    | error e => simp [hs] at h
    | ok m1 =>
      simp only [hs] at h
      exact sweepLoop_inv hstep rest m1 m' h (hstep index m m1 hs hm)

lemma sweepInit_inv (st : State) (coll : pty.Collateralize) :
    SweepInv coll.BorrowRecords coll.CollBalance (sweepInit st coll) := by
  refine ⟨?_, ?_, ?_, ?_, ?_⟩
  · simp [sweepInit]
  · have : List.take coll.BorrowRecords.length (List.range coll.BorrowRecords.length) =
        List.range coll.BorrowRecords.length := List.take_of_length_le (by simp)
    simp [sweepInit, this]
  · simp [sweepInit]
  · simp [sweepInit]
  · simp [sweepInit]


lemma sweepInv_sum {recs : List pty.BorrowRecord} {cb0 : Int} {m : SweepMem}
    (hm : SweepInv recs cb0 m) (f : pty.BorrowRecord → Int)
    (hf : ∀ p, f (m.heap p) = f (recs.getD p default)) :
    fieldSum f ((m.arr.take m.len).map m.heap) + fieldSum f (m.invalid.map m.heap) =
      fieldSum f recs := by
  have h1 : ((m.arr.take m.len ++ m.invalid).map (fun p => f (recs.getD p default))).sum =
      ((List.range recs.length).map (fun p => f (recs.getD p default))).sum :=
    (hm.perm.map _).sum_eq
  have h2 : (List.range recs.length).map (fun p => f (recs.getD p default)) = recs.map f := by
    conv_rhs => rw [← range_map_getD recs default]
    simp [Function.comp_def]
  rw [h2] at h1
  have hfun : (fun p => f (m.heap p)) = (fun p => f (recs.getD p default)) := funext hf
  simp only [fieldSum, List.map_map, Function.comp_def, hfun]
  simpa using h1

lemma sweepFinish_spec {st : State} {coll : pty.Collateralize} {m : SweepMem}
    (hm : SweepInv coll.BorrowRecords coll.CollBalance m) :
    FeedDebtStep coll (sweepFinish st coll m).2.1 ∧
    (CollBalanceInv coll → CollBalanceInv (sweepFinish st coll m).2.1) ∧
    (sweepFinish st coll m).1.vaults =
      kvSet st.vaults coll.CollateralizeId (sweepFinish st coll m).2.1 := by
  have hd := sweepInv_sum hm (fun r => r.DebtValue) hm.debt
  have hc := sweepInv_sum hm (fun r => r.CollateralValue) hm.coll
  refine ⟨⟨rfl, rfl, rfl, m.invalid.map m.heap, rfl, hd⟩, ?_, rfl⟩
  intro hinv
  have hb := hm.bal
  have hfun : (fun p => (m.heap p).CollateralValue) =
      (fun p => (coll.BorrowRecords.getD p default).CollateralValue) := funext hm.coll
  simp only [CollBalanceInv, collateralSum] at hinv ⊢
  simp only [fieldSum, List.map_map, Function.comp_def, hfun] at hc
  show m.CollBalance = fieldSum _ ((m.arr.take m.len).map m.heap)
  simp only [fieldSum, List.map_map, Function.comp_def, hfun]
  simp only [fieldSum] at hinv
  linarith

lemma systemLiquidation_spec {X : Ext} {action : Action} {st st' : State}
    {coll coll' : pty.Collateralize} {price : ℚ} {logs : List pty.ReceiptLog}
    (h : systemLiquidation X action st coll price = .ok (st', coll', logs)) :
    FeedDebtStep coll coll' ∧ (CollBalanceInv coll → CollBalanceInv coll') ∧
      st'.vaults = kvSet st.vaults coll.CollateralizeId coll' := by
  unfold systemLiquidation at h
  cases hl : sweepLoop (systemLiquidationStep X action st coll price)
      (List.range coll.BorrowRecords.length) (sweepInit st coll) with
  | error e => simp [hl] at h
  | ok m =>
    simp only [hl] at h
    have hm : SweepInv coll.BorrowRecords coll.CollBalance m :=
      @sweepLoop_inv _ (SweepInv coll.BorrowRecords coll.CollBalance)
        (fun _ _ _ hs hP => systemLiquidationStep_inv hs hP) _ _ _ hl (sweepInit_inv st coll)
    have hf := @sweepFinish_spec st coll m hm
    rw [Except.ok.inj h] at hf
    exact hf

lemma expireLiquidation_spec {X : Ext} {action : Action} {st st' : State}
    {coll coll' : pty.Collateralize} {logs : List pty.ReceiptLog}
    (h : expireLiquidation X action st coll = .ok (st', coll', logs)) :
    FeedDebtStep coll coll' ∧ (CollBalanceInv coll → CollBalanceInv coll') ∧
      st'.vaults = kvSet st.vaults coll.CollateralizeId coll' := by
  unfold expireLiquidation at h
  cases hl : sweepLoop (expireLiquidationStep X action st coll)
      (List.range coll.BorrowRecords.length) (sweepInit st coll) with
  | error e => simp [hl] at h
  | ok m =>
    simp only [hl] at h
    have hm : SweepInv coll.BorrowRecords coll.CollBalance m :=
      @sweepLoop_inv _ (SweepInv coll.BorrowRecords coll.CollBalance)
        (fun _ _ _ hs hP => expireLiquidationStep_inv hs hP) _ _ _ hl (sweepInit_inv st coll)
    have hf := @sweepFinish_spec st coll m hm
    rw [Except.ok.inj h] at hf
    exact hf

lemma feedDebtStep_refl (c : pty.Collateralize) : FeedDebtStep c c :=
  ⟨rfl, rfl, rfl, [], by simp, by simp [debtSum, fieldSum]⟩

lemma feedDebtStep_trans {a b c : pty.Collateralize} (h1 : FeedDebtStep a b)
    (h2 : FeedDebtStep b c) : FeedDebtStep a c := by
  obtain ⟨hi1, hb1, ht1, s1, hs1, hd1⟩ := h1
  obtain ⟨hi2, hb2, ht2, s2, hs2, hd2⟩ := h2
  refine ⟨hi2.trans hi1, hb2.trans hb1, ht2.trans ht1, s1 ++ s2, ?_, ?_⟩
  · rw [hs2, hs1, List.append_assoc]
  · simp only [debtSum] at hd1 hd2 ⊢
    rw [fieldSum_append]
    linarith


lemma feedVault_spec {X : Ext} {action : Action} {price : ℚ} {collID : String}
    {acc acc' : State × List pty.ReceiptLog}
    (h : feedVault X action price collID acc = .ok acc') :
    ∃ coll coll', kvGet acc.1.vaults collID = some coll ∧ FeedDebtStep coll coll' ∧
      (CollBalanceInv coll → CollBalanceInv coll') ∧
      ∀ k, kvGet acc'.1.vaults k =
        if coll.CollateralizeId = k then some coll' else kvGet acc.1.vaults k := by
  unfold feedVault at h
  cases hq : queryCollateralizeByID acc.1 collID with
  | error e => simp [hq] at h
  | ok coll =>
    simp only [hq] at h
    have hget := query_ok_iff.mp hq
    by_cases hgate : coll.LatestExpireTime - ExpireWarningTime ≤ action.blocktime
    · simp only [hgate, if_true] at h
      cases he : expireLiquidation X action acc.1 coll with
      | error e => simp [he] at h
      | ok r1 =>
        obtain ⟨st1, coll1, logs1⟩ := r1
        simp only [he] at h
        cases hs : systemLiquidation X action st1 coll1 price with
        | error e => simp [hs] at h
        | ok r2 =>
          obtain ⟨st2, coll2, logs2⟩ := r2
          simp only [hs] at h
          cases Except.ok.inj h
          obtain ⟨hd1, hc1, hv1⟩ := expireLiquidation_spec he
          obtain ⟨hd2, hc2, hv2⟩ := systemLiquidation_spec hs
          refine ⟨coll, coll2, hget, feedDebtStep_trans hd1 hd2, fun hi => hc2 (hc1 hi), ?_⟩
          intro k
          show kvGet st2.vaults k = _
          rw [hv2, kvGet_kvSet, hv1, kvGet_kvSet, hd1.1]
          split_ifs <;> rfl
    · simp only [hgate, if_false] at h
      cases hs : systemLiquidation X action acc.1 coll price with
      | error e => simp [hs] at h
      | ok r2 =>
        obtain ⟨st2, coll2, logs2⟩ := r2
        simp only [hs] at h
        cases Except.ok.inj h
        obtain ⟨hd2, hc2, hv2⟩ := systemLiquidation_spec hs
        refine ⟨coll, coll2, hget, hd2, hc2, ?_⟩
        intro k
        show kvGet st2.vaults k = _
        rw [hv2, kvGet_kvSet]

lemma feedLoop_collBalance {X : Ext} {action : Action} {price : ℚ} :
    ∀ (ids : List String) (acc acc' : State × List pty.ReceiptLog),
      feedLoop X action price ids acc = .ok acc' → AllVaults CollBalanceInv acc.1 →
      AllVaults CollBalanceInv acc'.1
  | [], acc, acc', h, hinv => by
    cases Except.ok.inj h
    exact hinv
  | collID :: ids, acc, acc', h, hinv => by
    unfold feedLoop at h
    cases hv : feedVault X action price collID acc with
    | error e => simp [hv] at h
    | ok acc1 =>
      simp only [hv] at h
      refine feedLoop_collBalance ids acc1 acc' h ?_
      obtain ⟨coll, coll', hget, -, hc, hk⟩ := feedVault_spec hv
      intro k c hkc
      rw [hk] at hkc
      split_ifs at hkc with hid
      · cases hkc
        exact hc (hinv _ _ hget)
      · exact hinv _ _ hkc

lemma feedLoop_debt {X : Ext} {action : Action} {price : ℚ} :
    ∀ (ids : List String) (acc acc' : State × List pty.ReceiptLog),
      feedLoop X action price ids acc = .ok acc' →
      ∀ k c', kvGet acc'.1.vaults k = some c' →
        ∃ k0 c, kvGet acc.1.vaults k0 = some c ∧ FeedDebtStep c c'
  | [], acc, acc', h, k, c', hk => by
    cases Except.ok.inj h
    exact ⟨k, c', hk, feedDebtStep_refl c'⟩
  | collID :: ids, acc, acc', h, k, c', hk => by
    unfold feedLoop at h
    cases hv : feedVault X action price collID acc with
    | error e => simp [hv] at h
    | ok acc1 =>
      simp only [hv] at h
      obtain ⟨k1, c1, hk1, hstep1⟩ := feedLoop_debt ids acc1 acc' h k c' hk
      obtain ⟨coll, coll', hget, hd, -, hkv⟩ := feedVault_spec hv
      rw [hkv] at hk1
      split_ifs at hk1 with hid
      · cases hk1
        exact ⟨collID, coll, hget, feedDebtStep_trans hd hstep1⟩
      · exact ⟨k1, c1, hk1, hstep1⟩

lemma feed_ok_inv {X : Ext} {action : Action} {localdb : Lister} {st : State}
    {feed : pty.CollateralizeFeed} {r : State × List pty.ReceiptLog}
    (h : CollateralizeFeed X action localdb st feed = .ok r) :
    ∃ price ids acc,
      pricePolicy feed = .ok price ∧ 0 < price ∧
      isRightAddr .PriceFeedKey action.fromaddr st = true ∧
      feedLoop X action price ids (st, []) = .ok acc ∧
      r = ({ acc.1 with price := some { BtyPrice := price, RecordTime := action.blocktime } },
           acc.2) := by
  unfold CollateralizeFeed at h
  cases hr : isRightAddr .PriceFeedKey action.fromaddr st
  · exfalso
    simp only [hr, Bool.not_false, if_true] at h
    split_ifs at h
  simp only [Bool.not_true, Bool.false_eq_true, if_false] at h
  split_ifs at h with h1
  cases hp : pricePolicy feed with
  | error e => simp [hp] at h
  | ok price =>
    simp only [hp] at h
    split_ifs at h with h2
    generalize (match queryCollateralizeByStatus localdb X.CollateralizeStatusCreated with
      | .ok ids => ids
      | .error _ => []) = ids at h
    cases hl : feedLoop X action price ids (st, []) with
    | error e => simp [hl] at h
    | ok acc =>
      simp only [hl] at h
      exact ⟨price, ids, acc, rfl, not_le.mp h2, rfl, hl, (Except.ok.inj h).symm⟩


/-! ## The vault invariants through the handlers -/

lemma borrowVault_fields (X : Ext) (coll : pty.Collateralize) (borrow : pty.CollateralizeBorrow)
    (record : pty.BorrowRecord) (c : Int) :
    (borrowVault X coll borrow record c).BorrowRecords = coll.BorrowRecords ++ [record] ∧
    (borrowVault X coll borrow record c).Balance = coll.Balance - borrow.Value ∧
    (borrowVault X coll borrow record c).CollBalance = coll.CollBalance + c ∧
    (borrowVault X coll borrow record c).TotalBalance = coll.TotalBalance ∧
    (borrowVault X coll borrow record c).InvalidRecords = coll.InvalidRecords ∧
    (borrowVault X coll borrow record c).Status = X.CollateralizeStatusCreated ∧
    (borrowVault X coll borrow record c).CollateralizeId = coll.CollateralizeId ∧
    (borrowVault X coll borrow record c).CreateAddr = coll.CreateAddr ∧
    (borrowVault X coll borrow record c).StabilityFeeRatio = coll.StabilityFeeRatio := by
  by_cases hlt : coll.LatestLiquidationPrice < record.LiquidationPrice <;>
    simp [borrowVault, hlt]

lemma balanceInv_borrowVault {X : Ext} {coll : pty.Collateralize}
    {borrow : pty.CollateralizeBorrow} {record : pty.BorrowRecord} {c : Int}
    (hr : record.DebtValue = borrow.Value) (h : BalanceInv coll) :
    BalanceInv (borrowVault X coll borrow record c) := by
  obtain ⟨h1, h2, -, h4, -⟩ := borrowVault_fields X coll borrow record c
  simp only [BalanceInv, debtSum] at h ⊢
  rw [h1, h2, h4, fieldSum_append, fieldSum_singleton, hr]
  linarith

lemma collBalanceInv_borrowVault {X : Ext} {coll : pty.Collateralize}
    {borrow : pty.CollateralizeBorrow} {record : pty.BorrowRecord} {c : Int}
    (hr : record.CollateralValue = c) (h : CollBalanceInv coll) :
    CollBalanceInv (borrowVault X coll borrow record c) := by
  obtain ⟨h1, -, h3, -⟩ := borrowVault_fields X coll borrow record c
  simp only [CollBalanceInv, collateralSum] at h ⊢
  rw [h1, h3, fieldSum_append, fieldSum_singleton, hr, h]

lemma balanceInv_repayVault {X : Ext} {action : Action} {coll : pty.Collateralize}
    {index : Nat} {r : pty.BorrowRecord} (hr : coll.BorrowRecords[index]? = some r)
    (h : BalanceInv coll) : BalanceInv (repayVault coll index (closeRecord X action r)) := by
  have hs := fieldSum_eraseIdx (fun r => r.DebtValue) _ _ _ hr
  simp only [BalanceInv, debtSum] at h ⊢
  simp only [repayVault, closeRecord]
  linarith

lemma collBalanceInv_repayVault {X : Ext} {action : Action} {coll : pty.Collateralize}
    {index : Nat} {r : pty.BorrowRecord} (hr : coll.BorrowRecords[index]? = some r)
    (h : CollBalanceInv coll) :
    CollBalanceInv (repayVault coll index (closeRecord X action r)) := by
  have hs := fieldSum_eraseIdx (fun r => r.CollateralValue) _ _ _ hr
  simp only [CollBalanceInv, collateralSum] at h ⊢
  simp only [repayVault, closeRecord]
  linarith

lemma appendRecord_fields (X : Ext) (action : Action) (r : pty.BorrowRecord)
    (cAppend : pty.CollateralizeAppend) (lastPrice : ℚ) :
    (appendRecord X action r cAppend lastPrice).DebtValue = r.DebtValue ∧
    (appendRecord X action r cAppend lastPrice).CollateralValue =
      r.CollateralValue + cAppend.CollateralValue := by
  unfold appendRecord
  simp only
  split_ifs <;> simp

lemma balanceInv_appendVault {X : Ext} {action : Action} {coll : pty.Collateralize}
    {index : Nat} {r : pty.BorrowRecord} {cAppend : pty.CollateralizeAppend} {lastPrice : ℚ}
    (hr : coll.BorrowRecords[index]? = some r) (h : BalanceInv coll) :
    BalanceInv (appendVault coll index (appendRecord X action r cAppend lastPrice) cAppend) := by
  have hs := fieldSum_set (fun r => r.DebtValue) _ _ _
    (appendRecord X action r cAppend lastPrice) hr
  have hf := (appendRecord_fields X action r cAppend lastPrice).1
  simp only [BalanceInv, debtSum] at h ⊢
  simp only [appendVault]
  simp only at hs
  linarith

lemma collBalanceInv_appendVault {X : Ext} {action : Action} {coll : pty.Collateralize}
    {index : Nat} {r : pty.BorrowRecord} {cAppend : pty.CollateralizeAppend} {lastPrice : ℚ}
    (hr : coll.BorrowRecords[index]? = some r) (h : CollBalanceInv coll) :
    CollBalanceInv
      (appendVault coll index (appendRecord X action r cAppend lastPrice) cAppend) := by
  have hs := fieldSum_set (fun r => r.CollateralValue) _ _ _
    (appendRecord X action r cAppend lastPrice) hr
  have hf := (appendRecord_fields X action r cAppend lastPrice).2
  simp only [CollBalanceInv, collateralSum] at h ⊢
  simp only [appendVault]
  simp only at hs
  linarith

lemma retrieveVault_fields (X : Ext) (action : Action) (coll : pty.Collateralize)
    (retrieve : pty.CollateralizeRetrieve) :
    (retrieveVault X action coll retrieve).BorrowRecords = coll.BorrowRecords ∧
    (retrieveVault X action coll retrieve).Balance = coll.Balance - retrieve.Balance ∧
    (retrieveVault X action coll retrieve).TotalBalance =
      coll.TotalBalance - retrieve.Balance ∧
    (retrieveVault X action coll retrieve).CollBalance = coll.CollBalance ∧
    (retrieveVault X action coll retrieve).InvalidRecords = coll.InvalidRecords := by
  unfold retrieveVault
  simp only
  split_ifs <;> simp

lemma balanceInv_retrieveVault {X : Ext} {action : Action} {coll : pty.Collateralize}
    {retrieve : pty.CollateralizeRetrieve} (h : BalanceInv coll) :
    BalanceInv (retrieveVault X action coll retrieve) := by
  obtain ⟨h1, h2, h3, -⟩ := retrieveVault_fields X action coll retrieve
  simp only [BalanceInv] at h ⊢
  rw [h1, h2, h3]
  linarith

lemma collBalanceInv_retrieveVault {X : Ext} {action : Action} {coll : pty.Collateralize}
    {retrieve : pty.CollateralizeRetrieve} (h : CollBalanceInv coll) :
    CollBalanceInv (retrieveVault X action coll retrieve) := by
  obtain ⟨h1, -, -, h4, -⟩ := retrieveVault_fields X action coll retrieve
  simp only [CollBalanceInv] at h ⊢
  rw [h1, h4, h]

lemma balanceInv_createVault (X : Ext) (action : Action) (collcfg : pty.CollateralizeManage)
    (create : pty.CollateralizeCreate) : BalanceInv (createVault X action collcfg create) := by
  simp [BalanceInv, createVault, debtSum, fieldSum]

lemma collBalanceInv_createVault (X : Ext) (action : Action)
    (collcfg : pty.CollateralizeManage) (create : pty.CollateralizeCreate) :
    CollBalanceInv (createVault X action collcfg create) := by
  simp [CollBalanceInv, createVault, collateralSum, fieldSum]

lemma balanceInv_topUpVault {X : Ext} {action : Action} {coll : pty.Collateralize}
    {create : pty.CollateralizeCreate} (h : BalanceInv coll) :
    BalanceInv (topUpVault X action coll create) := by
  simp only [BalanceInv, topUpVault] at h ⊢
  linarith

lemma collBalanceInv_topUpVault {X : Ext} {action : Action} {coll : pty.Collateralize}
    {create : pty.CollateralizeCreate} (h : CollBalanceInv coll) :
    CollBalanceInv (topUpVault X action coll create) := by
  simpa [CollBalanceInv, topUpVault] using h

/-- Each of Create, Borrow, Repay, Append and Retrieve keeps a property of all stored vaults
that its own vault update keeps. -/
lemma handlers_preserve (X : Ext) (P : pty.Collateralize → Prop)
    (hcreate : ∀ action collcfg create, P (createVault X action collcfg create))
    (htopup : ∀ action coll create, P coll → P (topUpVault X action coll create))
    (hborrow : ∀ action coll borrow p c, P coll →
      P (borrowVault X coll borrow (newBorrowRecord X action coll borrow p c) c))
    (hrepay : ∀ action coll index r, coll.BorrowRecords[index]? = some r → P coll →
      P (repayVault coll index (closeRecord X action r)))
    (happend : ∀ action coll index r cAppend p, coll.BorrowRecords[index]? = some r → P coll →
      P (appendVault coll index (appendRecord X action r cAppend p) cAppend))
    (hretrieve : ∀ action coll retrieve, P coll → P (retrieveVault X action coll retrieve)) :
    (∀ action localdb st create r, CollateralizeCreate X action localdb st create = .ok r →
      AllVaults P st → AllVaults P r.1) ∧
    (∀ action st borrow r, CollateralizeBorrow X action st borrow = .ok r →
      AllVaults P st → AllVaults P r.1) ∧
    (∀ action st repay r, CollateralizeRepay X action st repay = .ok r →
      AllVaults P st → AllVaults P r.1) ∧
    (∀ action st cAppend r, CollateralizeAppend X action st cAppend = .ok r →
      AllVaults P st → AllVaults P r.1) ∧
    (∀ action st retrieve r, CollateralizeRetrieve X action st retrieve = .ok r →
      AllVaults P st → AllVaults P r.1) := by
  refine ⟨?_, ?_, ?_, ?_, ?_⟩
  · intro action localdb st create r h hinv
    obtain ⟨collcfg, token1, -, -, -, -, hr | ⟨id0, coll, hq, hr⟩⟩ := create_ok_inv h
    · subst hr
      exact allVaults_save rfl (hcreate _ _ _) hinv
    · subst hr
      exact allVaults_save rfl (htopup _ _ _ (hinv _ _ (query_ok_iff.mp hq))) hinv
  · intro action st borrow r h hinv
    obtain ⟨coll, p, c, coins1, coins2, token1, hq, -, -, -, -, -, -, -, -, -, -, hr⟩ :=
      borrow_ok_inv h
    subst hr
    exact allVaults_save rfl (hborrow _ _ _ _ _ (hinv _ _ (query_ok_iff.mp hq))) hinv
  · intro action st repay r h hinv
    obtain ⟨coll, index, rec, token1, token2, coins1, hq, -, -, hrec, -, -, -, -, hr⟩ :=
      repay_ok_inv h
    subst hr
    exact allVaults_save rfl (hrepay _ _ _ _ hrec (hinv _ _ (query_ok_iff.mp hq))) hinv
  · intro action st cAppend r h hinv
    obtain ⟨coll, index, rec, p, coins1, coins2, -, hq, -, -, hrec, -, -, -, -, hr⟩ :=
      append_ok_inv h
    subst hr
    exact allVaults_save rfl (happend _ _ _ _ _ _ hrec (hinv _ _ (query_ok_iff.mp hq))) hinv
  · intro action st retrieve r h hinv
    obtain ⟨coll, token1, hq, -, -, -, hr⟩ := retrieve_ok_inv h
    subst hr
    exact allVaults_save rfl (hretrieve _ _ _ (hinv _ _ (query_ok_iff.mp hq))) hinv


lemma allVaults_sampleState {P : pty.Collateralize → Prop} {loans : List pty.BorrowRecord}
    (h : P (sampleVault loans)) : AllVaults P (sampleState loans) := by
  intro id c hget
  simp only [sampleState, kvGet] at hget
  split_ifs at hget
  cases hget
  exact h

/-- C1 (counterexample): the vault with the single loan `A` (debt 1,000 units, liquidation
price 1) satisfies invariant 1; the feed of price 0.5 succeeds and seizes `A`; afterwards the
vault has balance 9,000, no active loan and total balance 10,000 units, so invariant 1 fails. -/
theorem feed_breaks_balanceInv :
    BalanceInv (sampleVault [sampleLoan "A" 1]) ∧
    CollateralizeFeed X0 (sampleAction "oracle" [3]) sampleLister
        (sampleState [sampleLoan "A" 1]) sampleFeed =
      .ok (resultState (CollateralizeFeed X0 (sampleAction "oracle" [3]) sampleLister
              (sampleState [sampleLoan "A" 1]) sampleFeed),
           resultLogs (CollateralizeFeed X0 (sampleAction "oracle" [3]) sampleLister
              (sampleState [sampleLoan "A" 1]) sampleFeed)) ∧
    (kvGet (resultState (CollateralizeFeed X0 (sampleAction "oracle" [3]) sampleLister
        (sampleState [sampleLoan "A" 1]) sampleFeed)).vaults "v").map
      (fun c => (c.Balance, c.BorrowRecords, c.TotalBalance, decide (BalanceInv c))) =
      some (900000000000, [], 1000000000000, false) := by
  refine ⟨?_, ?_, ?_⟩ <;> decide!

/-- C1 (amended): invariant 1, `Balance + Σ(debt of BorrowRecords) = TotalBalance`, is kept for
every stored vault by every successful Create (new vault or top-up), Borrow, Repay, Append and
Retrieve.  A successful Feed leaves `Balance` and `TotalBalance` of every vault unchanged and
moves the loans it seizes from `BorrowRecords` to the end of `InvalidRecords`, so afterwards
`Balance + Σ(debt of BorrowRecords) + Σ(debt of the loans seized by this Feed) = TotalBalance`;
in particular the invariant is kept when the seized loans carry no debt (none is seized). -/
theorem balanceInv_preserved (X : Ext) :
    (∀ action localdb st create r, CollateralizeCreate X action localdb st create = .ok r →
      AllVaults BalanceInv st → AllVaults BalanceInv r.1) ∧
    (∀ action st borrow r, CollateralizeBorrow X action st borrow = .ok r →
      AllVaults BalanceInv st → AllVaults BalanceInv r.1) ∧
    (∀ action st repay r, CollateralizeRepay X action st repay = .ok r →
      AllVaults BalanceInv st → AllVaults BalanceInv r.1) ∧
    (∀ action st cAppend r, CollateralizeAppend X action st cAppend = .ok r →
      AllVaults BalanceInv st → AllVaults BalanceInv r.1) ∧
    (∀ action st retrieve r, CollateralizeRetrieve X action st retrieve = .ok r →
      AllVaults BalanceInv st → AllVaults BalanceInv r.1) ∧
    (∀ action localdb st feed r, CollateralizeFeed X action localdb st feed = .ok r →
      AllVaults BalanceInv st →
      ∀ k c', kvGet r.1.vaults k = some c' →
        ∃ k0 c seized, kvGet st.vaults k0 = some c ∧
          c'.CollateralizeId = c.CollateralizeId ∧
          c'.Balance = c.Balance ∧ c'.TotalBalance = c.TotalBalance ∧
          c'.InvalidRecords = c.InvalidRecords ++ seized ∧
          debtSum c'.BorrowRecords + debtSum seized = debtSum c.BorrowRecords ∧
          c'.Balance + debtSum c'.BorrowRecords + debtSum seized = c'.TotalBalance ∧
          (debtSum seized = 0 → BalanceInv c')) := by
  obtain ⟨h1, h2, h3, h4, h5⟩ := handlers_preserve X BalanceInv
    (fun action collcfg create => balanceInv_createVault X action collcfg create)
    (fun _ _ _ h => balanceInv_topUpVault h)
    (fun _ _ _ _ _ h => balanceInv_borrowVault rfl h)
    (fun _ _ _ _ hr h => balanceInv_repayVault hr h)
    (fun _ _ _ _ _ _ hr h => balanceInv_appendVault hr h)
    (fun _ _ _ h => balanceInv_retrieveVault h)
  refine ⟨h1, h2, h3, h4, h5, ?_⟩
  intro action localdb st feed r h hinv k c' hk
  obtain ⟨price, ids, acc, -, -, -, hl, hr⟩ := feed_ok_inv h
  subst hr
  obtain ⟨k0, c, hk0, hid, hb, ht, seized, hs, hd⟩ := feedLoop_debt ids _ _ hl k c' hk
  have hc : BalanceInv c := hinv _ _ hk0
  simp only [BalanceInv] at hc
  refine ⟨k0, c, seized, hk0, hid, hb, ht, hs, hd, ?_, ?_⟩
  · rw [hb, ht]
    linarith
  · intro hz
    simp only [BalanceInv]
    rw [hb, ht]
    linarith

theorem balanceInv_preserved_witness :
    AllVaults BalanceInv (sampleState []) ∧
    sampleBorrowResult = .ok (resultState sampleBorrowResult, resultLogs sampleBorrowResult) ∧
    AllVaults BalanceInv (resultState sampleBorrowResult) ∧
    AllVaults BalanceInv (sampleState threeLoans) ∧
    sampleFeedResult = .ok (resultState sampleFeedResult, resultLogs sampleFeedResult) ∧
    (∀ k c', kvGet (resultState sampleFeedResult).vaults k = some c' →
      ∃ k0 c seized, kvGet (sampleState threeLoans).vaults k0 = some c ∧
        c'.InvalidRecords = c.InvalidRecords ++ seized ∧
        c'.Balance + debtSum c'.BorrowRecords + debtSum seized = c'.TotalBalance) :=
  ⟨allVaults_sampleState (by decide!), by decide!,
   (balanceInv_preserved X0).2.1 (sampleAction "bob" [1]) (sampleState []) sampleBorrow
     (resultState sampleBorrowResult, resultLogs sampleBorrowResult) (by decide!)
     (allVaults_sampleState (by decide!)),
   allVaults_sampleState (by decide!), by decide!,
   fun k c' hk => by
    obtain ⟨k0, c, seized, h1, -, -, -, h2, -, h3, -⟩ :=
      (balanceInv_preserved X0).2.2.2.2.2 (sampleAction "oracle" [3]) sampleLister
        (sampleState threeLoans) sampleFeed
        (resultState sampleFeedResult, resultLogs sampleFeedResult) (by decide!)
        (allVaults_sampleState (by decide!)) k c' hk
    exact ⟨k0, c, seized, h1, h2, h3⟩⟩


/-- C2: invariant 2, `CollBalance = Σ(collateral of BorrowRecords)`, is kept for every stored
vault by every successful Create, Borrow, Repay, Append, Retrieve and Feed, whatever the ledger
does (whatever loans of the swept vaults are seized, warned, or skipped after a failed guarantor
lookup or transfer). -/
theorem collBalanceInv_preserved (X : Ext) :
    (∀ action localdb st create r, CollateralizeCreate X action localdb st create = .ok r →
      AllVaults CollBalanceInv st → AllVaults CollBalanceInv r.1) ∧
    (∀ action st borrow r, CollateralizeBorrow X action st borrow = .ok r →
      AllVaults CollBalanceInv st → AllVaults CollBalanceInv r.1) ∧
    (∀ action st repay r, CollateralizeRepay X action st repay = .ok r →
      AllVaults CollBalanceInv st → AllVaults CollBalanceInv r.1) ∧
    (∀ action st cAppend r, CollateralizeAppend X action st cAppend = .ok r →
      AllVaults CollBalanceInv st → AllVaults CollBalanceInv r.1) ∧
    (∀ action st retrieve r, CollateralizeRetrieve X action st retrieve = .ok r →
      AllVaults CollBalanceInv st → AllVaults CollBalanceInv r.1) ∧
    (∀ action localdb st feed r, CollateralizeFeed X action localdb st feed = .ok r →
      AllVaults CollBalanceInv st → AllVaults CollBalanceInv r.1) := by
  obtain ⟨h1, h2, h3, h4, h5⟩ := handlers_preserve X CollBalanceInv
    (fun action collcfg create => collBalanceInv_createVault X action collcfg create)
    (fun _ _ _ h => collBalanceInv_topUpVault h)
    (fun _ _ _ _ _ h => collBalanceInv_borrowVault rfl h)
    (fun _ _ _ _ hr h => collBalanceInv_repayVault hr h)
    (fun _ _ _ _ _ _ hr h => collBalanceInv_appendVault hr h)
    (fun _ _ _ h => collBalanceInv_retrieveVault h)
  refine ⟨h1, h2, h3, h4, h5, ?_⟩
  intro action localdb st feed r h hinv
  obtain ⟨price, ids, acc, -, -, -, hl, hr⟩ := feed_ok_inv h
  subst hr
  have hacc := feedLoop_collBalance ids _ _ hl hinv
  intro k c hk
  exact hacc k c hk

theorem collBalanceInv_preserved_witness :
    AllVaults CollBalanceInv (sampleState []) ∧
    sampleBorrowResult = .ok (resultState sampleBorrowResult, resultLogs sampleBorrowResult) ∧
    AllVaults CollBalanceInv (resultState sampleBorrowResult) ∧
    sampleRepayResult = .ok (resultState sampleRepayResult, resultLogs sampleRepayResult) ∧
    AllVaults CollBalanceInv (resultState sampleRepayResult) ∧
    AllVaults CollBalanceInv (sampleState threeLoans) ∧
    sampleFeedResult = .ok (resultState sampleFeedResult, resultLogs sampleFeedResult) ∧
    AllVaults CollBalanceInv (resultState sampleFeedResult) :=
  have hb : AllVaults CollBalanceInv (resultState sampleBorrowResult) :=
    (collBalanceInv_preserved X0).2.1 (sampleAction "bob" [1]) (sampleState []) sampleBorrow
      (resultState sampleBorrowResult, resultLogs sampleBorrowResult) (by decide!)
      (allVaults_sampleState (by decide!))
  ⟨allVaults_sampleState (by decide!), by decide!, hb, by decide!,
   (collBalanceInv_preserved X0).2.2.1 (sampleAction "bob" [2])
     (resultState sampleBorrowResult) sampleRepay
     (resultState sampleRepayResult, resultLogs sampleRepayResult) (by decide!) hb,
   allVaults_sampleState (by decide!), by decide!,
   (collBalanceInv_preserved X0).2.2.2.2.2 (sampleAction "oracle" [3]) sampleLister
     (sampleState threeLoans) sampleFeed
     (resultState sampleFeedResult, resultLogs sampleFeedResult) (by decide!)
     (allVaults_sampleState (by decide!))⟩


/-! ## Borrow followed by Repay -/

lemma load_kvSet (db : Accounts) (key addr : String) (acc : Account) :
    loadExecAccount (kvSet db key acc) addr =
      if key = addr then acc else loadExecAccount db addr := by
  simp only [loadExecAccount, kvGet_kvSet]
  split_ifs <;> rfl

lemma stdLedger_laws : LedgerLaws stdLedger := by
  refine ⟨?_, ?_, ?_, ?_⟩
  · intro db src dst amount db' h hne
    simp only [stdLedger, stdExecTransfer] at h
    split_ifs at h
    cases Except.ok.inj h
    refine ⟨?_, ?_, ?_⟩
    · simp [load_kvSet, hne, Ne.symm hne]
    · simp [load_kvSet]
    · intro a h1 h2
      simp [load_kvSet, Ne.symm h1, Ne.symm h2]
  · intro db addr amount db' h
    simp only [stdLedger, stdExecFrozen] at h
    split_ifs at h
    cases Except.ok.inj h
    refine ⟨?_, ?_⟩
    · simp [load_kvSet]
    · intro a h1
      simp [load_kvSet, Ne.symm h1]
  · intro db addr amount db' h
    simp only [stdLedger, stdExecActive] at h
    split_ifs at h
    cases Except.ok.inj h
    refine ⟨?_, ?_⟩
    · simp [load_kvSet]
    · intro a h1
      simp [load_kvSet, Ne.symm h1]
  · intro db src dst amount db' h hne
    simp only [stdLedger, stdExecTransferFrozen] at h
    split_ifs at h
    cases Except.ok.inj h
    refine ⟨?_, ?_, ?_⟩
    · simp [load_kvSet, hne, Ne.symm hne]
    · simp [load_kvSet]
    · intro a h1 h2
      simp [load_kvSet, Ne.symm h1, Ne.symm h2]

lemma findRecord_append_fresh :
    ∀ (l : List pty.BorrowRecord) (r : pty.BorrowRecord) (id : String),
      findRecord l id = none → r.RecordId = id → findRecord (l ++ [r]) id = some l.length
  | [], r, id, _, hr => by simp [findRecord, hr]
  | x :: l, r, id, h, hr => by
    simp only [findRecord] at h
    split_ifs at h with hx
    simp only [Option.map_eq_none'] at h
    simp [findRecord, hx, findRecord_append_fresh l r id h hr]

lemma eraseIdx_append_length {α : Type} (l : List α) (r : α) :
    (l ++ [r]).eraseIdx l.length = l := by
  induction l with
  | nil => rfl
  | cons x l ih => simp [ih]


/-- C8: a successful Borrow of value `v` on a vault stored under its own id, by a borrower other
than the creator and with a fresh record id, followed at once by a successful Repay of that loan
by the same borrower, leaves the vault with its pre-borrow `Balance`, `CollBalance` and
`BorrowRecords`; the loan is appended to `InvalidRecords` with status Close; under the effect
contract of the ledger the borrower's BTY balance is its pre-borrow value and the creator's CCNY
(active plus frozen) has grown by `realRepay v s - v`. -/
theorem borrow_repay_roundtrip (X : Ext) (hL : LedgerLaws X.account) (a1 a2 : Action)
    (st st1 st2 : State) (borrow : pty.CollateralizeBorrow) (coll : pty.Collateralize)
    (logs1 logs2 : List pty.ReceiptLog)
    (hq : queryCollateralizeByID st borrow.CollateralizeId = .ok coll)
    (hid : coll.CollateralizeId = borrow.CollateralizeId)
    (hfresh : findRecord coll.BorrowRecords (X.ToHex a1.txhash) = none)
    (hne : a1.fromaddr ≠ coll.CreateAddr)
    (hb : CollateralizeBorrow X a1 st borrow = .ok (st1, logs1))
    (hsame : a2.fromaddr = a1.fromaddr)
    (hr : CollateralizeRepay X a2 st1
        { CollateralizeId := borrow.CollateralizeId, RecordId := X.ToHex a1.txhash }
          = .ok (st2, logs2)) :
    ∃ coll2 closed,
      queryCollateralizeByID st2 borrow.CollateralizeId = .ok coll2 ∧
      coll2.Balance = coll.Balance ∧ coll2.CollBalance = coll.CollBalance ∧
      coll2.BorrowRecords = coll.BorrowRecords ∧
      coll2.InvalidRecords = coll.InvalidRecords ++ [closed] ∧
      closed.RecordId = X.ToHex a1.txhash ∧ closed.AccountAddr = a1.fromaddr ∧
      closed.DebtValue = borrow.Value ∧
      closed.Status = X.CollateralizeUserStatusClose ∧
      (loadExecAccount st2.coins a1.fromaddr).Balance =
        (loadExecAccount st.coins a1.fromaddr).Balance ∧
      (loadExecAccount st2.token coll.CreateAddr).Balance +
          (loadExecAccount st2.token coll.CreateAddr).Frozen =
        (loadExecAccount st.token coll.CreateAddr).Balance +
          (loadExecAccount st.token coll.CreateAddr).Frozen +
          (realRepay borrow.Value coll.StabilityFeeRatio - borrow.Value) := by
  obtain ⟨coll0, p, c, coins1, coins2, token1, hq0, -, -, -, -, -, -, -, hc1, hc2, ht1, hres1⟩ :=
    borrow_ok_inv hb
  rw [hq] at hq0
  cases Except.ok.inj hq0
  obtain ⟨hst1, -⟩ := Prod.mk.inj hres1
  obtain ⟨fb1, fb2, fb3, fb4, fb5, fb6, fb7, fb8, fb9⟩ :=
    borrowVault_fields X coll borrow (newBorrowRecord X a1 coll borrow p c) c
  obtain ⟨collR, index, rec, tokenA, tokenB, coinsA, hqR, -, hfind, hrec, -, htA, htB, hcA,
    hres2⟩ := repay_ok_inv hr
  -- the vault Repay loads is the one Borrow saved
  have hload : collR = borrowVault X coll borrow (newBorrowRecord X a1 coll borrow p c) c := by
    rw [hst1] at hqR
    simp only [queryCollateralizeByID, Save, kvGet_kvSet, fb7, hid, if_true] at hqR
    exact (Except.ok.inj hqR).symm
  subst hload
  -- the loan Repay finds is the one Borrow appended
  have hidx : index = coll.BorrowRecords.length := by
    simp only [fb1] at hfind
    rw [findRecord_append_fresh _ _ _ hfresh rfl] at hfind
    exact (Option.some.inj hfind).symm
  subst hidx
  have hrec' : rec = newBorrowRecord X a1 coll borrow p c := by
    simp only [fb1] at hrec
    simpa using hrec.symm
  subst hrec'
  obtain ⟨hst2, -⟩ := Prod.mk.inj hres2
  simp only [fb8, fb9, hsame] at htA htB hcA
  have hne' : coll.CreateAddr ≠ a1.fromaddr := Ne.symm hne
  -- ledger bookkeeping
  obtain ⟨lc1s, -, -⟩ := hL.transfer _ _ _ _ _ hc1 hne
  obtain ⟨-, lc2o⟩ := hL.frozen _ _ _ _ hc2
  have hst1coins : st1.coins = coins2 := by rw [hst1]; rfl
  have hst1token : st1.token = token1 := by rw [hst1]; rfl
  rw [hst1coins] at hcA
  rw [hst1token] at htA
  obtain ⟨-, lcAd, -⟩ := hL.transferFrozen _ _ _ _ _ hcA hne'
  obtain ⟨lt1s, -, -⟩ := hL.transferFrozen _ _ _ _ _ ht1 hne'
  obtain ⟨-, ltAd, -⟩ := hL.transfer _ _ _ _ _ htA hne
  obtain ⟨ltBs, -⟩ := hL.frozen _ _ _ _ htB
  have hst2coins : st2.coins = coinsA := by rw [hst2]; rfl
  have hst2token : st2.token = tokenB := by rw [hst2]; rfl
  refine ⟨repayVault (borrowVault X coll borrow (newBorrowRecord X a1 coll borrow p c) c)
      coll.BorrowRecords.length (closeRecord X a2 (newBorrowRecord X a1 coll borrow p c)),
    closeRecord X a2 (newBorrowRecord X a1 coll borrow p c), ?_, ?_, ?_, ?_, ?_, rfl, rfl, rfl,
    rfl, ?_, ?_⟩
  · rw [hst2]
    simp [queryCollateralizeByID, Save, kvGet_kvSet, repayVault, fb7, hid]
  · show (borrowVault X coll borrow (newBorrowRecord X a1 coll borrow p c) c).Balance +
        borrow.Value = coll.Balance
    rw [fb2]
    ring
  · show (borrowVault X coll borrow (newBorrowRecord X a1 coll borrow p c) c).CollBalance - c
        = coll.CollBalance
    rw [fb3]
    ring
  · show (borrowVault X coll borrow (newBorrowRecord X a1 coll borrow p c) c).BorrowRecords.eraseIdx
        coll.BorrowRecords.length = coll.BorrowRecords
    rw [fb1, eraseIdx_append_length]
  · show (borrowVault X coll borrow (newBorrowRecord X a1 coll borrow p c) c).InvalidRecords ++
        [closeRecord X a2 (newBorrowRecord X a1 coll borrow p c)] = _
    rw [fb5]
  · rw [hst2coins, lcAd, lc2o _ hne, lc1s]
    simp only [newBorrowRecord]
    ring
  · rw [hst2token, ltBs, ltAd, lt1s]
    simp only [newBorrowRecord]
    ring

theorem borrow_repay_roundtrip_witness :
    queryCollateralizeByID (sampleState []) sampleBorrow.CollateralizeId =
      .ok (sampleVault []) ∧
    (sampleVault []).CollateralizeId = sampleBorrow.CollateralizeId ∧
    findRecord (sampleVault []).BorrowRecords (X0.ToHex (sampleAction "bob" [1]).txhash) = none ∧
    (sampleAction "bob" [1]).fromaddr ≠ (sampleVault []).CreateAddr ∧
    CollateralizeBorrow X0 (sampleAction "bob" [1]) (sampleState []) sampleBorrow =
      .ok (resultState sampleBorrowResult, resultLogs sampleBorrowResult) ∧
    (sampleAction "bob" [2]).fromaddr = (sampleAction "bob" [1]).fromaddr ∧
    CollateralizeRepay X0 (sampleAction "bob" [2]) (resultState sampleBorrowResult)
        { CollateralizeId := sampleBorrow.CollateralizeId,
          RecordId := X0.ToHex (sampleAction "bob" [1]).txhash } =
      .ok (resultState sampleRepayResult, resultLogs sampleRepayResult) ∧
    ∃ coll2 closed,
      queryCollateralizeByID (resultState sampleRepayResult) sampleBorrow.CollateralizeId
        = .ok coll2 ∧
      coll2.Balance = (sampleVault []).Balance ∧
      coll2.CollBalance = (sampleVault []).CollBalance ∧
      coll2.BorrowRecords = (sampleVault []).BorrowRecords ∧
      coll2.InvalidRecords = (sampleVault []).InvalidRecords ++ [closed] ∧
      closed.Status = X0.CollateralizeUserStatusClose ∧
      (loadExecAccount (resultState sampleRepayResult).coins "bob").Balance =
        (loadExecAccount (sampleState []).coins "bob").Balance ∧
      (loadExecAccount (resultState sampleRepayResult).token "alice").Balance +
          (loadExecAccount (resultState sampleRepayResult).token "alice").Frozen =
        (loadExecAccount (sampleState []).token "alice").Balance +
          (loadExecAccount (sampleState []).token "alice").Frozen +
          (realRepay sampleBorrow.Value (sampleVault []).StabilityFeeRatio
            - sampleBorrow.Value) :=
  ⟨by decide!, by decide, by decide!, by decide, by decide!, by decide, by decide!,
   by
    obtain ⟨coll2, closed, h1, h2, h3, h4, h5, -, -, -, h6, h7, h8⟩ :=
      borrow_repay_roundtrip X0 stdLedger_laws (sampleAction "bob" [1])
        (sampleAction "bob" [2]) (sampleState []) (resultState sampleBorrowResult)
        (resultState sampleRepayResult) sampleBorrow (sampleVault [])
        (resultLogs sampleBorrowResult) (resultLogs sampleRepayResult)
        (by decide!) (by decide) (by decide!) (by decide) (by decide!) (by decide)
        (by decide!)
    exact ⟨coll2, closed, h1, h2, h3, h4, h5, h6, h7, h8⟩⟩


/-! ## Retrieve -/

lemma retrieveVault_stamp (X : Ext) (action : Action) (coll : pty.Collateralize)
    (retrieve : pty.CollateralizeRetrieve) :
    (retrieveVault X action coll retrieve).CollateralizeId = coll.CollateralizeId ∧
    (retrieveVault X action coll retrieve).PreStatus = coll.Status ∧
    (retrieveVault X action coll retrieve).PreIndex = coll.Index ∧
    (retrieveVault X action coll retrieve).Index = GetIndex X action ∧
    (retrieveVault X action coll retrieve).Status =
      (if coll.TotalBalance - retrieve.Balance = 0 then X.CollateralizeStatusClose
       else coll.Status) := by
  unfold retrieveVault
  simp only
  split_ifs <;> simp

/-- C20: on an existing vault, Retrieve returns `ErrPermissionDeny` when the caller is not the
vault's `CreateAddr`; otherwise `ErrAmount` when the requested balance exceeds the vault
balance; otherwise its outcome is that of the ledger's `ExecActive` (so an idle balance can be
retrieved while loans exist).  On success `TotalBalance` and `Balance` each decrease by the
requested balance, `PreStatus` and `PreIndex` take the old status and index, `Index` is the
index of the transaction, the status is Close when the new `TotalBalance` is 0 and the old
status otherwise, and `CollBalance`, `BorrowRecords` and `InvalidRecords` are unchanged; a
vault whose total and balance both equal the requested amount ends in Close with zero
balances. -/
theorem retrieve_spec (X : Ext) (action : Action) (st : State)
    (retrieve : pty.CollateralizeRetrieve) (coll : pty.Collateralize)
    (hq : queryCollateralizeByID st retrieve.CollateralizeId = .ok coll) :
    (action.fromaddr ≠ coll.CreateAddr →
      CollateralizeRetrieve X action st retrieve = .error .ErrPermissionDeny) ∧
    (action.fromaddr = coll.CreateAddr → retrieve.Balance > coll.Balance →
      CollateralizeRetrieve X action st retrieve = .error .ErrAmount) ∧
    (action.fromaddr = coll.CreateAddr → retrieve.Balance ≤ coll.Balance →
      (∀ e, X.account.ExecActive st.token action.fromaddr retrieve.Balance = .error e →
        CollateralizeRetrieve X action st retrieve = .error e) ∧
      (∀ token1, X.account.ExecActive st.token action.fromaddr retrieve.Balance = .ok token1 →
        ∃ coll', CollateralizeRetrieve X action st retrieve =
            .ok (Save coll' { st with token := token1 },
                 [GetRetrieveReceiptLog X action coll']) ∧
          coll'.CollateralizeId = coll.CollateralizeId ∧
          coll'.TotalBalance = coll.TotalBalance - retrieve.Balance ∧
          coll'.Balance = coll.Balance - retrieve.Balance ∧
          coll'.PreStatus = coll.Status ∧ coll'.PreIndex = coll.Index ∧
          coll'.Index = GetIndex X action ∧
          coll'.Status =
            (if coll.TotalBalance - retrieve.Balance = 0 then X.CollateralizeStatusClose
             else coll.Status) ∧
          (coll.Status ≠ X.CollateralizeStatusClose →
            (coll'.Status = X.CollateralizeStatusClose ↔ coll'.TotalBalance = 0)) ∧
          coll'.CollBalance = coll.CollBalance ∧
          coll'.BorrowRecords = coll.BorrowRecords ∧
          coll'.InvalidRecords = coll.InvalidRecords ∧
          (coll.TotalBalance = retrieve.Balance → coll.Balance = retrieve.Balance →
            coll'.Status = X.CollateralizeStatusClose ∧ coll'.TotalBalance = 0 ∧
              coll'.Balance = 0))) := by
  refine ⟨?_, ?_, ?_⟩
  · intro h1
    simp [CollateralizeRetrieve, hq, h1]
  · intro h1 h2
    simp [CollateralizeRetrieve, hq, h1, h2]
  · intro h1 h2
    refine ⟨?_, ?_⟩
    · intro e he
      rw [h1] at he
      simp [CollateralizeRetrieve, hq, h1, not_lt.mpr h2, he]
    · intro token1 ht
      rw [h1] at ht
      refine ⟨retrieveVault X action coll retrieve, ?_, ?_⟩
      · simp [CollateralizeRetrieve, hq, h1, not_lt.mpr h2, ht]
      · obtain ⟨f1, f2, f3, f4, f5⟩ := retrieveVault_fields X action coll retrieve
        obtain ⟨g1, g2, g3, g4, g5⟩ := retrieveVault_stamp X action coll retrieve
        refine ⟨g1, f3, f2, g2, g3, g4, g5, ?_, f4, f1, f5, ?_⟩
        · intro hs
          rw [g5, f3]
          split_ifs with hz
          · exact ⟨fun _ => hz, fun _ => rfl⟩
          · exact ⟨fun h => absurd h hs, fun h => absurd h hz⟩
        · intro ht' hb
          rw [g5, f3, f2, ht', hb]
          simp

theorem retrieve_spec_witness :
    queryCollateralizeByID (sampleState [sampleLoan "A" 1]) "v" =
      .ok (sampleVault [sampleLoan "A" 1]) ∧
    (sampleAction "bob" [4]).fromaddr ≠ (sampleVault [sampleLoan "A" 1]).CreateAddr ∧
    CollateralizeRetrieve X0 (sampleAction "bob" [4]) (sampleState [sampleLoan "A" 1])
        { CollateralizeId := "v", Balance := 300000000000 } = .error .ErrPermissionDeny ∧
    (sampleAction "alice" [4]).fromaddr = (sampleVault [sampleLoan "A" 1]).CreateAddr ∧
    (950000000000 : Int) > (sampleVault [sampleLoan "A" 1]).Balance ∧
    CollateralizeRetrieve X0 (sampleAction "alice" [4]) (sampleState [sampleLoan "A" 1])
        { CollateralizeId := "v", Balance := 950000000000 } = .error .ErrAmount ∧
    (300000000000 : Int) ≤ (sampleVault [sampleLoan "A" 1]).Balance ∧
    X0.account.ExecActive (sampleState [sampleLoan "A" 1]).token "alice" 300000000000 =
      .ok (kvSet (sampleState [sampleLoan "A" 1]).token "alice"
            { Balance := 400000000000, Frozen := 600000000000 }) ∧
    (∃ coll', CollateralizeRetrieve X0 (sampleAction "alice" [4])
          (sampleState [sampleLoan "A" 1])
          { CollateralizeId := "v", Balance := 300000000000 } =
        .ok (Save coll'
              { sampleState [sampleLoan "A" 1] with
                token := kvSet (sampleState [sampleLoan "A" 1]).token "alice"
                  { Balance := 400000000000, Frozen := 600000000000 } },
             [GetRetrieveReceiptLog X0 (sampleAction "alice" [4]) coll']) ∧
      coll'.TotalBalance = 700000000000 ∧ coll'.Balance = 600000000000 ∧
      coll'.BorrowRecords = [sampleLoan "A" 1]) :=
  have hq : queryCollateralizeByID (sampleState [sampleLoan "A" 1]) "v" =
      .ok (sampleVault [sampleLoan "A" 1]) := by decide!
  ⟨hq, by decide,
   (retrieve_spec X0 (sampleAction "bob" [4]) (sampleState [sampleLoan "A" 1])
      { CollateralizeId := "v", Balance := 300000000000 } _ hq).1 (by decide),
   by decide, by decide!,
   (retrieve_spec X0 (sampleAction "alice" [4]) (sampleState [sampleLoan "A" 1])
      { CollateralizeId := "v", Balance := 950000000000 } _ hq).2.1 (by decide) (by decide!),
   by decide!, by decide!,
   by
    obtain ⟨coll', h1, -, h2, h3, -, -, -, -, -, -, h4, -⟩ :=
      ((retrieve_spec X0 (sampleAction "alice" [4]) (sampleState [sampleLoan "A" 1])
        { CollateralizeId := "v", Balance := 300000000000 } _ hq).2.2 (by decide)
        (by decide!)).2
        (kvSet (sampleState [sampleLoan "A" 1]).token "alice"
          { Balance := 400000000000, Frozen := 600000000000 }) (by decide!)
    exact ⟨coll', h1, by rw [h2]; decide!, by rw [h3]; decide!, h4⟩⟩


/-! ## The cached extrema -/

lemma foldl_max_spec :
    ∀ (l : List pty.BorrowRecord) (a : ℚ),
      a ≤ l.foldl (fun latest r =>
          if r.LiquidationPrice > latest then r.LiquidationPrice else latest) a ∧
      (∀ r ∈ l, r.LiquidationPrice ≤ l.foldl (fun latest r =>
          if r.LiquidationPrice > latest then r.LiquidationPrice else latest) a) ∧
      (l.foldl (fun latest r =>
          if r.LiquidationPrice > latest then r.LiquidationPrice else latest) a = a ∨
        ∃ r ∈ l, l.foldl (fun latest r =>
          if r.LiquidationPrice > latest then r.LiquidationPrice else latest) a
            = r.LiquidationPrice)
  | [], a => by simp
  | x :: l, a => by
    simp only [List.foldl_cons, List.mem_cons, forall_eq_or_imp]
    by_cases hx : x.LiquidationPrice > a
    · simp only [hx, if_true]
      obtain ⟨h1, h2, h3⟩ := foldl_max_spec l x.LiquidationPrice
      refine ⟨le_trans (le_of_lt hx) h1, ⟨h1, h2⟩, Or.inr ?_⟩
      rcases h3 with h3 | ⟨r, hr, h3⟩
      · exact ⟨x, Or.inl rfl, h3⟩
      · exact ⟨r, Or.inr hr, h3⟩
    · simp only [hx, if_false]
      obtain ⟨h1, h2, h3⟩ := foldl_max_spec l a
      refine ⟨h1, ⟨le_trans (not_lt.mp hx) h1, h2⟩, ?_⟩
      rcases h3 with h3 | ⟨r, hr, h3⟩
      · exact Or.inl h3
      · exact Or.inr ⟨r, Or.inr hr, h3⟩

lemma foldl_min_spec :
    ∀ (l : List pty.BorrowRecord) (a : Int),
      l.foldl (fun latest r => if r.ExpireTime < latest then r.ExpireTime else latest) a ≤ a ∧
      (∀ r ∈ l, l.foldl (fun latest r =>
          if r.ExpireTime < latest then r.ExpireTime else latest) a ≤ r.ExpireTime) ∧
      (l.foldl (fun latest r => if r.ExpireTime < latest then r.ExpireTime else latest) a = a ∨
        ∃ r ∈ l, l.foldl (fun latest r =>
          if r.ExpireTime < latest then r.ExpireTime else latest) a = r.ExpireTime)
  | [], a => by simp
  | x :: l, a => by
    simp only [List.foldl_cons, List.mem_cons, forall_eq_or_imp]
    by_cases hx : x.ExpireTime < a
    · simp only [hx, if_true]
      obtain ⟨h1, h2, h3⟩ := foldl_min_spec l x.ExpireTime
      refine ⟨le_trans h1 (le_of_lt hx), ⟨h1, h2⟩, Or.inr ?_⟩
      rcases h3 with h3 | ⟨r, hr, h3⟩
      · exact ⟨x, Or.inl rfl, h3⟩
      · exact ⟨r, Or.inr hr, h3⟩
    · simp only [hx, if_false]
      obtain ⟨h1, h2, h3⟩ := foldl_min_spec l a
      refine ⟨h1, ⟨le_trans h1 (not_lt.mp hx), h2⟩, ?_⟩
      rcases h3 with h3 | ⟨r, hr, h3⟩
      · exact Or.inl h3
      · exact Or.inr ⟨r, Or.inr hr, h3⟩

/-- The recomputed latest liquidation price is 0 on no loans, bounds every active loan, and for
non-negative prices on a non-empty list is the price of one of the loans: the maximum. -/
lemma getLatestLiquidationPrice_spec (c : pty.Collateralize) :
    (c.BorrowRecords = [] → getLatestLiquidationPrice c = 0) ∧
    (∀ r ∈ c.BorrowRecords, r.LiquidationPrice ≤ getLatestLiquidationPrice c) ∧
    ((∀ r ∈ c.BorrowRecords, 0 ≤ r.LiquidationPrice) → c.BorrowRecords ≠ [] →
      ∃ r ∈ c.BorrowRecords, getLatestLiquidationPrice c = r.LiquidationPrice) := by
  obtain ⟨h1, h2, h3⟩ := foldl_max_spec c.BorrowRecords 0
  refine ⟨fun he => by simp [getLatestLiquidationPrice, he], h2, ?_⟩
  intro hnn hne
  rcases h3 with h3 | h3
  · obtain ⟨x, l, hl⟩ := List.exists_cons_of_ne_nil hne
    have hx : x ∈ c.BorrowRecords := by rw [hl]; exact List.mem_cons_self _ _
    refine ⟨x, hx, ?_⟩
    have := h2 x hx
    have := hnn x hx
    unfold getLatestLiquidationPrice
    linarith
  · exact h3

/-- The recomputed latest expire time is the sentinel on no loans, is below every active loan,
and for expire times within `int64` on a non-empty list is the time of one of the loans: the
minimum. -/
lemma getLatestExpireTime_spec (c : pty.Collateralize) :
    (c.BorrowRecords = [] → getLatestExpireTime c = 0x7fffffffffffffff) ∧
    (∀ r ∈ c.BorrowRecords, getLatestExpireTime c ≤ r.ExpireTime) ∧
    ((∀ r ∈ c.BorrowRecords, r.ExpireTime ≤ 0x7fffffffffffffff) → c.BorrowRecords ≠ [] →
      ∃ r ∈ c.BorrowRecords, getLatestExpireTime c = r.ExpireTime) := by
  obtain ⟨h1, h2, h3⟩ := foldl_min_spec c.BorrowRecords 0x7fffffffffffffff
  refine ⟨fun he => by simp [getLatestExpireTime, he], h2, ?_⟩
  intro hnn hne
  rcases h3 with h3 | h3
  · obtain ⟨x, l, hl⟩ := List.exists_cons_of_ne_nil hne
    have hx : x ∈ c.BorrowRecords := by rw [hl]; exact List.mem_cons_self _ _
    refine ⟨x, hx, ?_⟩
    have := h2 x hx
    have := hnn x hx
    unfold getLatestExpireTime
    linarith
  · exact h3


/-! ## Relating the vaults before and after a Feed -/

lemma feedVault_rel {X : Ext} {action : Action} {price : ℚ} {collID : String}
    {acc acc' : State × List pty.ReceiptLog} {R : pty.Collateralize → pty.Collateralize → Prop}
    (htrans : ∀ a b c, R a b → R b c → R a c)
    (hsys : ∀ st coll st' coll' logs,
      systemLiquidation X action st coll price = .ok (st', coll', logs) → R coll coll')
    (hexp : ∀ st coll st' coll' logs,
      expireLiquidation X action st coll = .ok (st', coll', logs) → R coll coll')
    (h : feedVault X action price collID acc = .ok acc') :
    ∃ coll coll', kvGet acc.1.vaults collID = some coll ∧ R coll coll' ∧
      ∀ k, kvGet acc'.1.vaults k =
        if coll.CollateralizeId = k then some coll' else kvGet acc.1.vaults k := by
  unfold feedVault at h
  cases hq : queryCollateralizeByID acc.1 collID with
  | error e => simp [hq] at h
  | ok coll =>
    simp only [hq] at h
    have hget := query_ok_iff.mp hq
    by_cases hgate : coll.LatestExpireTime - ExpireWarningTime ≤ action.blocktime
    · simp only [hgate, if_true] at h
      cases he : expireLiquidation X action acc.1 coll with
      | error e => simp [he] at h
      | ok r1 =>
        obtain ⟨st1, coll1, logs1⟩ := r1
        simp only [he] at h
        cases hs : systemLiquidation X action st1 coll1 price with
        | error e => simp [hs] at h
        | ok r2 =>
          obtain ⟨st2, coll2, logs2⟩ := r2
          simp only [hs] at h
          cases Except.ok.inj h
          obtain ⟨hd1, -, hv1⟩ := expireLiquidation_spec he
          obtain ⟨-, -, hv2⟩ := systemLiquidation_spec hs
          refine ⟨coll, coll2, hget,
            htrans _ _ _ (hexp _ _ _ _ _ he) (hsys _ _ _ _ _ hs), ?_⟩
          intro k
          show kvGet st2.vaults k = _
          rw [hv2, kvGet_kvSet, hv1, kvGet_kvSet, hd1.1]
          split_ifs <;> rfl
    · simp only [hgate, if_false] at h
      cases hs : systemLiquidation X action acc.1 coll price with
      | error e => simp [hs] at h
      | ok r2 =>
        obtain ⟨st2, coll2, logs2⟩ := r2
        simp only [hs] at h
        cases Except.ok.inj h
        obtain ⟨-, -, hv2⟩ := systemLiquidation_spec hs
        refine ⟨coll, coll2, hget, hsys _ _ _ _ _ hs, ?_⟩
        intro k
        show kvGet st2.vaults k = _
        rw [hv2, kvGet_kvSet]

lemma feedLoop_rel {X : Ext} {action : Action} {price : ℚ}
    {R : pty.Collateralize → pty.Collateralize → Prop} (hrefl : ∀ a, R a a)
    (htrans : ∀ a b c, R a b → R b c → R a c)
    (hsys : ∀ st coll st' coll' logs,
      systemLiquidation X action st coll price = .ok (st', coll', logs) → R coll coll')
    (hexp : ∀ st coll st' coll' logs,
      expireLiquidation X action st coll = .ok (st', coll', logs) → R coll coll') :
    ∀ (ids : List String) (acc acc' : State × List pty.ReceiptLog),
      feedLoop X action price ids acc = .ok acc' →
      ∀ k c', kvGet acc'.1.vaults k = some c' →
        ∃ k0 c, kvGet acc.1.vaults k0 = some c ∧ R c c'
  | [], acc, acc', h, k, c', hk => by
    cases Except.ok.inj h
    exact ⟨k, c', hk, hrefl c'⟩
  | collID :: ids, acc, acc', h, k, c', hk => by
    unfold feedLoop at h
    cases hv : feedVault X action price collID acc with
    | error e => simp [hv] at h
    | ok acc1 =>
      simp only [hv] at h
      obtain ⟨k1, c1, hk1, hstep1⟩ :=
        feedLoop_rel hrefl htrans hsys hexp ids acc1 acc' h k c' hk
      obtain ⟨coll, coll', hget, hd, hkv⟩ := feedVault_rel htrans hsys hexp hv
      rw [hkv] at hk1
      split_ifs at hk1 with hid
      · cases hk1
        exact ⟨collID, coll, hget, htrans _ _ _ hd hstep1⟩
      · exact ⟨k1, c1, hk1, hstep1⟩

/-- Every vault stored after a successful Feed comes from a vault stored before it through the
sweeps, for any reflexive and transitive relation that each sweep establishes. -/
lemma feed_rel {X : Ext} {action : Action} {localdb : Lister} {st : State}
    {feed : pty.CollateralizeFeed} {r : State × List pty.ReceiptLog}
    {R : pty.Collateralize → pty.Collateralize → Prop} (hrefl : ∀ a, R a a)
    (htrans : ∀ a b c, R a b → R b c → R a c)
    (hsys : ∀ price st coll st' coll' logs,
      systemLiquidation X action st coll price = .ok (st', coll', logs) → R coll coll')
    (hexp : ∀ st coll st' coll' logs,
      expireLiquidation X action st coll = .ok (st', coll', logs) → R coll coll')
    (h : CollateralizeFeed X action localdb st feed = .ok r) :
    ∀ k c', kvGet r.1.vaults k = some c' → ∃ k0 c, kvGet st.vaults k0 = some c ∧ R c c' := by
  obtain ⟨price, ids, acc, -, -, -, hl, hr⟩ := feed_ok_inv h
  subst hr
  intro k c' hk
  exact feedLoop_rel hrefl htrans (hsys price) hexp ids _ _ hl k c' hk

/-- A property that each sweep keeps is kept for all stored vaults by a successful Feed. -/
lemma feed_preserves {X : Ext} {action : Action} {localdb : Lister} {st : State}
    {feed : pty.CollateralizeFeed} {r : State × List pty.ReceiptLog}
    {P : pty.Collateralize → Prop}
    (hsys : ∀ price st coll st' coll' logs,
      systemLiquidation X action st coll price = .ok (st', coll', logs) → P coll → P coll')
    (hexp : ∀ st coll st' coll' logs,
      expireLiquidation X action st coll = .ok (st', coll', logs) → P coll → P coll')
    (h : CollateralizeFeed X action localdb st feed = .ok r) (hinv : AllVaults P st) :
    AllVaults P r.1 := by
  intro k c' hk
  obtain ⟨k0, c, hk0, hR⟩ :=
    @feed_rel X action localdb st feed r (fun a b => P a → P b) (fun _ h => h)
      (fun _ _ _ h1 h2 h => h2 (h1 h)) hsys hexp h k c' hk
  exact hR (hinv _ _ hk0)

lemma sweepLoop_result {st st' : State}
    {coll coll' : pty.Collateralize} {logs : List pty.ReceiptLog}
    {step : Nat → SweepMem → Except Err SweepMem}
    (h : (match sweepLoop step (List.range coll.BorrowRecords.length) (sweepInit st coll) with
          | .error e => (Except.error e : Except Err _)
          | .ok m => .ok (sweepFinish st coll m)) = .ok (st', coll', logs)) :
    ∃ m, sweepLoop step (List.range coll.BorrowRecords.length) (sweepInit st coll) = .ok m ∧
      (st', coll', logs) = sweepFinish st coll m := by
  cases hl : sweepLoop step (List.range coll.BorrowRecords.length) (sweepInit st coll) with
  | error e => simp [hl] at h
  | ok m =>
    simp only [hl] at h
    exact ⟨m, rfl, (Except.ok.inj h).symm⟩

lemma sweepFinish_caches (st : State) (coll : pty.Collateralize) (m : SweepMem) :
    PriceCacheInv (sweepFinish st coll m).2.1 ∧ ExpireCacheInv (sweepFinish st coll m).2.1 :=
  ⟨rfl, rfl⟩

lemma systemLiquidation_caches {X : Ext} {action : Action} {st st' : State}
    {coll coll' : pty.Collateralize} {price : ℚ} {logs : List pty.ReceiptLog}
    (h : systemLiquidation X action st coll price = .ok (st', coll', logs)) :
    PriceCacheInv coll' ∧ ExpireCacheInv coll' := by
  obtain ⟨m, -, hm⟩ := sweepLoop_result h
  have := sweepFinish_caches st coll m
  rw [← hm] at this
  exact this

lemma expireLiquidation_caches {X : Ext} {action : Action} {st st' : State}
    {coll coll' : pty.Collateralize} {logs : List pty.ReceiptLog}
    (h : expireLiquidation X action st coll = .ok (st', coll', logs)) :
    PriceCacheInv coll' ∧ ExpireCacheInv coll' := by
  obtain ⟨m, -, hm⟩ := sweepLoop_result h
  have := sweepFinish_caches st coll m
  rw [← hm] at this
  exact this


lemma getLatestLiquidationPrice_append (c : pty.Collateralize) (l : List pty.BorrowRecord)
    (r : pty.BorrowRecord) (h : c.BorrowRecords = l ++ [r]) :
    getLatestLiquidationPrice c =
      if r.LiquidationPrice > l.foldl (fun latest x =>
          if x.LiquidationPrice > latest then x.LiquidationPrice else latest) 0
      then r.LiquidationPrice
      else l.foldl (fun latest x =>
          if x.LiquidationPrice > latest then x.LiquidationPrice else latest) 0 := by
  simp [getLatestLiquidationPrice, h, List.foldl_append]

lemma priceCacheInv_borrowVault {X : Ext} {coll : pty.Collateralize}
    {borrow : pty.CollateralizeBorrow} {record : pty.BorrowRecord} {c : Int}
    (h : PriceCacheInv coll) : PriceCacheInv (borrowVault X coll borrow record c) := by
  have hrec := (borrowVault_fields X coll borrow record c).1
  simp only [PriceCacheInv] at h ⊢
  rw [getLatestLiquidationPrice_append _ _ _ hrec]
  have hg : getLatestLiquidationPrice coll = coll.BorrowRecords.foldl (fun latest x =>
      if x.LiquidationPrice > latest then x.LiquidationPrice else latest) 0 := rfl
  rw [← hg, ← h]
  by_cases hlt : coll.LatestLiquidationPrice < record.LiquidationPrice
  · simp [borrowVault, hlt]
  · simp [borrowVault, hlt]

lemma expireCacheInv_borrowVault (X : Ext) (coll : pty.Collateralize)
    (borrow : pty.CollateralizeBorrow) (record : pty.BorrowRecord) (c : Int) :
    ExpireCacheInv (borrowVault X coll borrow record c) := by
  by_cases hlt : coll.LatestLiquidationPrice < record.LiquidationPrice <;>
    simp [ExpireCacheInv, borrowVault, hlt, getLatestExpireTime]

lemma caches_repayVault (coll : pty.Collateralize) (index : Nat) (closed : pty.BorrowRecord) :
    PriceCacheInv (repayVault coll index closed) ∧
      ExpireCacheInv (repayVault coll index closed) :=
  ⟨rfl, rfl⟩

lemma caches_appendVault (coll : pty.Collateralize) (index : Nat) (record : pty.BorrowRecord)
    (cAppend : pty.CollateralizeAppend) :
    PriceCacheInv (appendVault coll index record cAppend) ∧
      ExpireCacheInv (appendVault coll index record cAppend) :=
  ⟨rfl, rfl⟩

lemma retrieveVault_caches (X : Ext) (action : Action) (coll : pty.Collateralize)
    (retrieve : pty.CollateralizeRetrieve) :
    (retrieveVault X action coll retrieve).LatestLiquidationPrice =
        coll.LatestLiquidationPrice ∧
    (retrieveVault X action coll retrieve).LatestExpireTime = coll.LatestExpireTime ∧
    getLatestLiquidationPrice (retrieveVault X action coll retrieve) =
        getLatestLiquidationPrice coll ∧
    getLatestExpireTime (retrieveVault X action coll retrieve) = getLatestExpireTime coll := by
  unfold retrieveVault getLatestLiquidationPrice getLatestExpireTime
  simp only
  split_ifs <;> simp

lemma priceCacheInv_createVault (X : Ext) (action : Action)
    (collcfg : pty.CollateralizeManage) (create : pty.CollateralizeCreate) :
    PriceCacheInv (createVault X action collcfg create) := by
  simp [PriceCacheInv, createVault, getLatestLiquidationPrice]

/-- C19: invariant 3, the cached `LatestLiquidationPrice` equals the recomputed one, which is 0
on no active loan, bounds the liquidation price of every active loan and, for non-negative
prices on a non-empty list, is attained by one of them (the maximum).  A new vault satisfies it,
every successful Create, Borrow, Repay, Append, Retrieve and Feed keeps it for all stored
vaults, and the incremental update of Borrow (raise the cache only if the new loan's price is
higher) gives the value of a full recomputation. -/
theorem priceCacheInv_preserved (X : Ext) :
    (∀ c, PriceCacheInv c →
      (c.BorrowRecords = [] → c.LatestLiquidationPrice = 0) ∧
      (∀ r ∈ c.BorrowRecords, r.LiquidationPrice ≤ c.LatestLiquidationPrice) ∧
      ((∀ r ∈ c.BorrowRecords, 0 ≤ r.LiquidationPrice) → c.BorrowRecords ≠ [] →
        ∃ r ∈ c.BorrowRecords, c.LatestLiquidationPrice = r.LiquidationPrice)) ∧
    (∀ action collcfg create, PriceCacheInv (createVault X action collcfg create)) ∧
    (∀ coll borrow record c, PriceCacheInv coll →
      (borrowVault X coll borrow record c).LatestLiquidationPrice =
        getLatestLiquidationPrice (borrowVault X coll borrow record c)) ∧
    (∀ action localdb st create r, CollateralizeCreate X action localdb st create = .ok r →
      AllVaults PriceCacheInv st → AllVaults PriceCacheInv r.1) ∧
    (∀ action st borrow r, CollateralizeBorrow X action st borrow = .ok r →
      AllVaults PriceCacheInv st → AllVaults PriceCacheInv r.1) ∧
    (∀ action st repay r, CollateralizeRepay X action st repay = .ok r →
      AllVaults PriceCacheInv st → AllVaults PriceCacheInv r.1) ∧
    (∀ action st cAppend r, CollateralizeAppend X action st cAppend = .ok r →
      AllVaults PriceCacheInv st → AllVaults PriceCacheInv r.1) ∧
    (∀ action st retrieve r, CollateralizeRetrieve X action st retrieve = .ok r →
      AllVaults PriceCacheInv st → AllVaults PriceCacheInv r.1) ∧
    (∀ action localdb st feed r, CollateralizeFeed X action localdb st feed = .ok r →
      AllVaults PriceCacheInv st → AllVaults PriceCacheInv r.1) := by
  obtain ⟨h1, h2, h3, h4, h5⟩ := handlers_preserve X PriceCacheInv
    (fun action collcfg create => priceCacheInv_createVault X action collcfg create)
    (fun _ _ _ h => h)
    (fun _ _ _ _ _ h => priceCacheInv_borrowVault h)
    (fun _ _ _ _ _ _ => (caches_repayVault _ _ _).1)
    (fun _ _ _ _ _ _ _ _ => (caches_appendVault _ _ _ _).1)
    (fun action coll retrieve h => by
      obtain ⟨f1, -, f3, -⟩ := retrieveVault_caches X action coll retrieve
      simp only [PriceCacheInv] at h ⊢
      rw [f1, f3, h])
  refine ⟨?_, fun action collcfg create => priceCacheInv_createVault X action collcfg create,
    fun coll borrow record c h => priceCacheInv_borrowVault h, h1, h2, h3, h4, h5, ?_⟩
  · intro c hc
    obtain ⟨g1, g2, g3⟩ := getLatestLiquidationPrice_spec c
    simp only [PriceCacheInv] at hc
    rw [hc]
    exact ⟨g1, g2, g3⟩
  · intro action localdb st feed r h hinv
    exact feed_preserves (fun _ _ _ _ _ _ hs _ => (systemLiquidation_caches hs).1)
      (fun _ _ _ _ _ he _ => (expireLiquidation_caches he).1) h hinv

theorem priceCacheInv_preserved_witness :
    AllVaults PriceCacheInv (sampleState []) ∧
    sampleBorrowResult = .ok (resultState sampleBorrowResult, resultLogs sampleBorrowResult) ∧
    AllVaults PriceCacheInv (resultState sampleBorrowResult) ∧
    AllVaults PriceCacheInv (sampleState threeLoans) ∧
    sampleFeedResult = .ok (resultState sampleFeedResult, resultLogs sampleFeedResult) ∧
    AllVaults PriceCacheInv (resultState sampleFeedResult) ∧
    PriceCacheInv (sampleVault threeLoans) ∧
    (∀ r ∈ (sampleVault threeLoans).BorrowRecords, 0 ≤ r.LiquidationPrice) ∧
    (sampleVault threeLoans).BorrowRecords ≠ [] ∧
    (∃ r ∈ (sampleVault threeLoans).BorrowRecords,
      (sampleVault threeLoans).LatestLiquidationPrice = r.LiquidationPrice) :=
  ⟨allVaults_sampleState (by decide!), by decide!,
   (priceCacheInv_preserved X0).2.2.2.2.1 (sampleAction "bob" [1]) (sampleState [])
     sampleBorrow (resultState sampleBorrowResult, resultLogs sampleBorrowResult) (by decide!)
     (allVaults_sampleState (by decide!)),
   allVaults_sampleState (by decide!), by decide!,
   (priceCacheInv_preserved X0).2.2.2.2.2.2.2.2 (sampleAction "oracle" [3]) sampleLister
     (sampleState threeLoans) sampleFeed
     (resultState sampleFeedResult, resultLogs sampleFeedResult) (by decide!)
     (allVaults_sampleState (by decide!)),
   by decide!, by decide!, by decide,
   ((priceCacheInv_preserved X0).1 (sampleVault threeLoans) (by decide!)).2.2 (by decide!)
     (by decide)⟩


/-- C18 (counterexample): `alice`, who has no vault in the index, creates a vault of 500 units;
the Create succeeds and stores the new vault with no active loan and `LatestExpireTime = 0`,
not the sentinel `0x7fffffffffffffff` that the recomputation gives on no loans. -/
theorem create_expire_cache_zero :
    sampleCreateResult = .ok (resultState sampleCreateResult, resultLogs sampleCreateResult) ∧
    (kvGet (resultState sampleCreateResult).vaults (X0.ToHex [5])).map
        (fun c => (c.BorrowRecords, c.LatestExpireTime, getLatestExpireTime c,
          decide (ExpireCacheInv c))) =
      some ([], 0, 0x7fffffffffffffff, false) := by
  refine ⟨?_, ?_⟩ <;> decide!

lemma expireCacheOrFresh_topUp {X : Ext} {action : Action} {coll : pty.Collateralize}
    {create : pty.CollateralizeCreate} (h : ExpireCacheOrFresh coll) :
    ExpireCacheOrFresh (topUpVault X action coll create) := by
  rcases h with h | ⟨h1, h2⟩
  · exact Or.inl h
  · exact Or.inr ⟨h1, h2⟩

lemma expireCacheOrFresh_retrieve {X : Ext} {action : Action} {coll : pty.Collateralize}
    {retrieve : pty.CollateralizeRetrieve} (h : ExpireCacheOrFresh coll) :
    ExpireCacheOrFresh (retrieveVault X action coll retrieve) := by
  obtain ⟨-, f2, -, f4⟩ := retrieveVault_caches X action coll retrieve
  obtain ⟨g1, -⟩ := retrieveVault_fields X action coll retrieve
  rcases h with h | ⟨h1, h2⟩
  · left
    simp only [ExpireCacheInv] at h ⊢
    rw [f2, f4, h]
  · right
    exact ⟨by rw [g1, h1], by rw [f2, h2]⟩

/-- C18 (amended): the recomputed latest expire time is the sentinel `0x7fffffffffffffff` on no
active loan, is at most the expire time of every active loan and, for expire times within
`int64` on a non-empty list, is attained by one of them (the minimum).  Every successful
Borrow, Repay and Append stores its vault with `LatestExpireTime` equal to that recomputation,
and so does each sweep of a Feed; Create of a new vault stores `LatestExpireTime = 0` with no
active loan; a top-up and a Retrieve leave `LatestExpireTime` and `BorrowRecords` as they were.
Hence after every successful Create, Borrow, Repay, Append, Retrieve and Feed every stored vault
has the recomputed minimum, or has no active loan and the 0 it was created with. -/
theorem expireCache_maintained (X : Ext) :
    (∀ c, ExpireCacheInv c →
      (c.BorrowRecords = [] → c.LatestExpireTime = 0x7fffffffffffffff) ∧
      (∀ r ∈ c.BorrowRecords, c.LatestExpireTime ≤ r.ExpireTime) ∧
      ((∀ r ∈ c.BorrowRecords, r.ExpireTime ≤ 0x7fffffffffffffff) → c.BorrowRecords ≠ [] →
        ∃ r ∈ c.BorrowRecords, c.LatestExpireTime = r.ExpireTime)) ∧
    (∀ action st borrow r, CollateralizeBorrow X action st borrow = .ok r →
      ∃ c', r.1.vaults = kvSet st.vaults c'.CollateralizeId c' ∧ ExpireCacheInv c') ∧
    (∀ action st repay r, CollateralizeRepay X action st repay = .ok r →
      ∃ c', r.1.vaults = kvSet st.vaults c'.CollateralizeId c' ∧ ExpireCacheInv c') ∧
    (∀ action st cAppend r, CollateralizeAppend X action st cAppend = .ok r →
      ∃ c', r.1.vaults = kvSet st.vaults c'.CollateralizeId c' ∧ ExpireCacheInv c') ∧
    (∀ action st coll price st' coll' logs,
      systemLiquidation X action st coll price = .ok (st', coll', logs) →
      ExpireCacheInv coll' ∧ st'.vaults = kvSet st.vaults coll.CollateralizeId coll') ∧
    (∀ action st coll st' coll' logs,
      expireLiquidation X action st coll = .ok (st', coll', logs) →
      ExpireCacheInv coll' ∧ st'.vaults = kvSet st.vaults coll.CollateralizeId coll') ∧
    (∀ action collcfg create,
      (createVault X action collcfg create).LatestExpireTime = 0 ∧
      (createVault X action collcfg create).BorrowRecords = []) ∧
    (∀ action coll create,
      (topUpVault X action coll create).LatestExpireTime = coll.LatestExpireTime ∧
      (topUpVault X action coll create).BorrowRecords = coll.BorrowRecords) ∧
    (∀ action coll retrieve,
      (retrieveVault X action coll retrieve).LatestExpireTime = coll.LatestExpireTime ∧
      (retrieveVault X action coll retrieve).BorrowRecords = coll.BorrowRecords) ∧
    (∀ action localdb st create r, CollateralizeCreate X action localdb st create = .ok r →
      AllVaults ExpireCacheOrFresh st → AllVaults ExpireCacheOrFresh r.1) ∧
    (∀ action st borrow r, CollateralizeBorrow X action st borrow = .ok r →
      AllVaults ExpireCacheOrFresh st → AllVaults ExpireCacheOrFresh r.1) ∧
    (∀ action st repay r, CollateralizeRepay X action st repay = .ok r →
      AllVaults ExpireCacheOrFresh st → AllVaults ExpireCacheOrFresh r.1) ∧
    (∀ action st cAppend r, CollateralizeAppend X action st cAppend = .ok r →
      AllVaults ExpireCacheOrFresh st → AllVaults ExpireCacheOrFresh r.1) ∧
    (∀ action st retrieve r, CollateralizeRetrieve X action st retrieve = .ok r →
      AllVaults ExpireCacheOrFresh st → AllVaults ExpireCacheOrFresh r.1) ∧
    (∀ action localdb st feed r, CollateralizeFeed X action localdb st feed = .ok r →
      AllVaults ExpireCacheOrFresh st → AllVaults ExpireCacheOrFresh r.1) := by
  obtain ⟨h1, h2, h3, h4, h5⟩ := handlers_preserve X ExpireCacheOrFresh
    (fun action collcfg create => Or.inr ⟨rfl, rfl⟩)
    (fun _ _ _ h => expireCacheOrFresh_topUp h)
    (fun _ coll borrow _ c _ => Or.inl (expireCacheInv_borrowVault X coll borrow _ c))
    (fun _ _ _ _ _ _ => Or.inl (caches_repayVault _ _ _).2)
    (fun _ _ _ _ _ _ _ _ => Or.inl (caches_appendVault _ _ _ _).2)
    (fun _ _ _ h => expireCacheOrFresh_retrieve h)
  refine ⟨?_, ?_, ?_, ?_, ?_, ?_, fun _ _ _ => ⟨rfl, rfl⟩, fun _ _ _ => ⟨rfl, rfl⟩, ?_,
    h1, h2, h3, h4, h5, ?_⟩
  · intro c hc
    obtain ⟨g1, g2, g3⟩ := getLatestExpireTime_spec c
    simp only [ExpireCacheInv] at hc
    rw [hc]
    exact ⟨g1, g2, g3⟩
  · intro action st borrow r h
    obtain ⟨coll, p, c, coins1, coins2, token1, -, -, -, -, -, -, -, -, -, -, -, hr⟩ :=
      borrow_ok_inv h
    subst hr
    exact ⟨_, rfl, expireCacheInv_borrowVault X coll borrow _ c⟩
  · intro action st repay r h
    obtain ⟨coll, index, rec, token1, token2, coins1, -, -, -, -, -, -, -, -, hr⟩ :=
      repay_ok_inv h
    subst hr
    exact ⟨_, rfl, (caches_repayVault _ _ _).2⟩
  · intro action st cAppend r h
    obtain ⟨coll, index, rec, p, coins1, coins2, -, -, -, -, -, -, -, -, -, hr⟩ :=
      append_ok_inv h
    subst hr
    exact ⟨_, rfl, (caches_appendVault _ _ _ _).2⟩
  · intro action st coll price st' coll' logs h
    exact ⟨(systemLiquidation_caches h).2, (systemLiquidation_spec h).2.2⟩
  · intro action st coll st' coll' logs h
    exact ⟨(expireLiquidation_caches h).2, (expireLiquidation_spec h).2.2⟩
  · intro action coll retrieve
    exact ⟨(retrieveVault_caches X action coll retrieve).2.1,
      (retrieveVault_fields X action coll retrieve).1⟩
  · intro action localdb st feed r h hinv
    exact feed_preserves (fun _ _ _ _ _ _ hs _ => Or.inl (systemLiquidation_caches hs).2)
      (fun _ _ _ _ _ he _ => Or.inl (expireLiquidation_caches he).2) h hinv

theorem expireCache_maintained_witness :
    sampleBorrowResult = .ok (resultState sampleBorrowResult, resultLogs sampleBorrowResult) ∧
    (∃ c', (resultState sampleBorrowResult).vaults =
        kvSet (sampleState []).vaults c'.CollateralizeId c' ∧ ExpireCacheInv c') ∧
    AllVaults ExpireCacheOrFresh (sampleState [sampleLoan "A" 1]) ∧
    sampleCreateResult = .ok (resultState sampleCreateResult, resultLogs sampleCreateResult) ∧
    AllVaults ExpireCacheOrFresh (resultState sampleCreateResult) ∧
    ExpireCacheInv (sampleVault threeLoans) ∧
    (∀ r ∈ (sampleVault threeLoans).BorrowRecords, r.ExpireTime ≤ 0x7fffffffffffffff) ∧
    (sampleVault threeLoans).BorrowRecords ≠ [] ∧
    (∃ r ∈ (sampleVault threeLoans).BorrowRecords,
      (sampleVault threeLoans).LatestExpireTime = r.ExpireTime) :=
  ⟨by decide!,
   (expireCache_maintained X0).2.1 (sampleAction "bob" [1]) (sampleState []) sampleBorrow
     (resultState sampleBorrowResult, resultLogs sampleBorrowResult) (by decide!),
   allVaults_sampleState (Or.inl (by decide!)), by decide!,
   (expireCache_maintained X0).2.2.2.2.2.2.2.2.2.1 (sampleAction "alice" [5]) emptyLister
     (sampleState [sampleLoan "A" 1]) { TotalBalance := 50000000000 }
     (resultState sampleCreateResult, resultLogs sampleCreateResult) (by decide!)
     (allVaults_sampleState (Or.inl (by decide!))),
   by decide!, by decide!, by decide,
   ((expireCache_maintained X0).1 (sampleVault threeLoans) (by decide!)).2.2 (by decide!)
     (by decide)⟩


/-! ## The vault index -/

/-- C16 (counterexample): the sample Borrow, a transaction at height 10 and position 3 (index
1,000,003) on a vault last stamped with index 5, succeeds and changes the vault (its balance
drops), yet the stored vault keeps `Index = 5` and `PreIndex = 0`. -/
theorem borrow_keeps_vault_index :
    sampleBorrowResult = .ok (resultState sampleBorrowResult, resultLogs sampleBorrowResult) ∧
    GetIndex X0 (sampleAction "bob" [1]) = 1000003 ∧
    ((sampleVault []).Index, (sampleVault []).PreIndex, (sampleVault []).Balance) =
      (5, 0, 1000000000000) ∧
    (kvGet (resultState sampleBorrowResult).vaults "v").map
        (fun c => (c.Index, c.PreIndex, c.Balance)) = some (5, 0, 900000000000) := by
  refine ⟨?_, ?_, ?_, ?_⟩ <;> decide!

lemma getIndex_lt (X : Ext) (a1 a2 : Action) (h1 : 0 ≤ a1.index)
    (h2 : a1.index < X.MaxTxsPerBlock) (h3 : 0 ≤ a2.index)
    (hlt : a1.height < a2.height ∨ (a1.height = a2.height ∧ a1.index < a2.index)) :
    GetIndex X a1 < GetIndex X a2 := by
  unfold GetIndex
  rcases hlt with hlt | ⟨he, hi⟩
  · have hM : 0 < X.MaxTxsPerBlock := lt_of_le_of_lt h1 h2
    have : (a1.height + 1) * X.MaxTxsPerBlock ≤ a2.height * X.MaxTxsPerBlock :=
      mul_le_mul_of_nonneg_right (by omega) (le_of_lt hM)
    nlinarith
  · rw [he]
    linarith

/-! ## Conservation of the configured total -/

lemma getCollBalanceLoop_spec (st : State) :
    ∀ (ids : List String) (balance balance' : Int),
      getCollBalanceLoop st ids balance = .ok balance' →
      balance' = balance - listedTotal st ids
  | [], balance, balance', h => by
    cases Except.ok.inj h
    simp [listedTotal]
  | id :: ids, balance, balance', h => by
    unfold getCollBalanceLoop at h
    cases hq : queryCollateralizeByID st id with
    | error e => simp [hq] at h
    | ok coll =>
      simp only [hq] at h
      have ih := getCollBalanceLoop_spec st ids _ _ h
      have hget := query_ok_iff.mp hq
      simp only [listedTotal, List.map_cons, List.sum_cons, hget] at ih ⊢
      linarith

lemma create_admission {X : Ext} {action : Action} {localdb : Lister} {st : State}
    {create : pty.CollateralizeCreate} {r : State × List pty.ReceiptLog}
    (h : CollateralizeCreate X action localdb st create = .ok r) :
    ∃ collcfg reBalance,
      getCollateralizeConfig st = .ok collcfg ∧
      getCollBalance X collcfg.TotalBalance localdb st = .ok reBalance ∧
      create.TotalBalance ≤ reBalance := by
  unfold CollateralizeCreate at h
  cases h0 : isSuperAddr action.fromaddr st
  · simp [h0] at h
  cases h3 : CheckExecTokenAccount st action.fromaddr create.TotalBalance false
  · exfalso
    simp only [h0, h3, Bool.not_true, Bool.not_false, Bool.false_eq_true, if_false,
      if_true] at h
    repeat' split at h
    all_goals simp at h
  simp only [h0, h3, Bool.not_true, Bool.false_eq_true, if_false] at h
  split_ifs at h with h1
  cases hc : getCollateralizeConfig st with
  | error e => simp [hc] at h
  | ok collcfg =>
    simp only [hc] at h
    cases hb : getCollBalance X collcfg.TotalBalance localdb st with
    | error e => simp [hb] at h
    | ok reBalance =>
      simp only [hb] at h
      split_ifs at h with h2
      exact ⟨collcfg, reBalance, rfl, hb, not_lt.mp h2⟩

/-- C17 (counterexample): `admin` sets the configured total balance to 1 while vault `v`, in
status Created, holds a total balance of 10,000 units: the Manage succeeds, and afterwards the
only stored vault in status Created has a total balance above the stored configuration's. -/
theorem manage_breaks_conservation :
    sampleManageResult = .ok (resultState sampleManageResult, resultLogs sampleManageResult) ∧
    (resultState sampleManageResult).config.map (fun cfg => cfg.TotalBalance) = some 1 ∧
    (resultState sampleManageResult).vaults = [("v", sampleVault [])] ∧
    (sampleVault []).Status = X0.CollateralizeStatusCreated ∧
    (sampleVault []).TotalBalance = 1000000000000 ∧
    ¬ ((sampleVault []).TotalBalance ≤ 1) := by
  refine ⟨?_, ?_, ?_, ?_, ?_, ?_⟩ <;> decide!

/-! ## The sweeps on a vault with one active loan -/

lemma sweepInit_single {st : State} {coll : pty.Collateralize} {L : pty.BorrowRecord}
    (hL : coll.BorrowRecords = [L]) :
    sweepInit st coll =
      { heap := fun p => [L].getD p default
        arr := [0]
        len := 1
        invalid := []
        CollBalance := coll.CollBalance
        coins := st.coins
        logs := [] } := by
  unfold sweepInit
  rw [hL]
  rfl

lemma sweep_single (step : Nat → SweepMem → Except Err SweepMem) (m : SweepMem) :
    sweepLoop step (List.range 1) m = step 0 m := by
  show sweepLoop step [0] m = step 0 m
  unfold sweepLoop
  cases step 0 m with
  | error e => rfl
  | ok m1 => simp [sweepLoop]

/-- C11: the price sweep on a vault whose only active loan is `L`, at fed price `P`
(`PriceWarningRate = 1.3`).  (a) If `L.liquidation_price * 1.3 < P` the sweep succeeds without
a log, `L` stays the only active loan, with status Create (and pre_status Warning) if it was
Warning and unchanged otherwise, and neither the ledger nor `coll_balance` nor
`invalid_records` changes.  (b) Else if `L.liquidation_price ≥ P`, and the guarantor lookup and
the transfer of `L.collateral_value` from the creator's frozen balance to the guarantor
succeed, the sweep succeeds with the ledger of that transfer, no active loan is left, the loan
is appended to `invalid_records` with status SystemLiquidate, pre_status and pre_index the old
status and index, liquidate_time the block time and index the transaction index,
`coll_balance` is lowered by `L.collateral_value`, and the one log is the Feed log of the
seized loan.  (c) Otherwise `L` stays the only active loan with status Warning, pre_status and
pre_index the old status and index, index the transaction index; the ledger, `coll_balance`
and `invalid_records` are unchanged and the one log is the Feed log of the warned loan. -/
theorem price_sweep_single (X : Ext) (action : Action) (st : State) (coll : pty.Collateralize)
    (L : pty.BorrowRecord) (price : ℚ) (hL : coll.BorrowRecords = [L]) :
    PriceWarningRate = 13 / 10 ∧
    (L.LiquidationPrice * PriceWarningRate < price →
      ∃ st' coll', systemLiquidation X action st coll price = .ok (st', coll', []) ∧
        coll'.BorrowRecords =
          [if L.Status = X.CollateralizeUserStatusWarning then
             { L with PreStatus := L.Status, Status := X.CollateralizeUserStatusCreate }
           else L] ∧
        coll'.InvalidRecords = coll.InvalidRecords ∧
        coll'.CollBalance = coll.CollBalance ∧
        st'.coins = st.coins ∧
        st'.vaults = kvSet st.vaults coll.CollateralizeId coll') ∧
    (¬ L.LiquidationPrice * PriceWarningRate < price → L.LiquidationPrice ≥ price →
      ∀ guarantor coins1, getGuarantorAddr st = .ok guarantor →
        X.account.ExecTransferFrozen st.coins coll.CreateAddr guarantor L.CollateralValue =
          .ok coins1 →
        ∃ st' coll' seized,
          seized =
            { L with
              LiquidateTime := action.blocktime
              PreStatus := L.Status
              Status := X.CollateralizeUserStatusSystemLiquidate
              PreIndex := L.Index
              Index := GetIndex X action } ∧
          systemLiquidation X action st coll price =
            .ok (st', coll', [GetFeedReceiptLog X coll.CollateralizeId seized]) ∧
          coll'.BorrowRecords = [] ∧
          coll'.InvalidRecords = coll.InvalidRecords ++ [seized] ∧
          coll'.CollBalance = coll.CollBalance - L.CollateralValue ∧
          st'.coins = coins1 ∧
          st'.vaults = kvSet st.vaults coll.CollateralizeId coll') ∧
    (¬ L.LiquidationPrice * PriceWarningRate < price → ¬ L.LiquidationPrice ≥ price →
      ∃ st' coll' warned,
        warned =
          { L with
            PreStatus := L.Status
            Status := X.CollateralizeUserStatusWarning
            PreIndex := L.Index
            Index := GetIndex X action } ∧
        systemLiquidation X action st coll price =
          .ok (st', coll', [GetFeedReceiptLog X coll.CollateralizeId warned]) ∧
        coll'.BorrowRecords = [warned] ∧
        coll'.InvalidRecords = coll.InvalidRecords ∧
        coll'.CollBalance = coll.CollBalance ∧
        st'.coins = st.coins ∧
        st'.vaults = kvSet st.vaults coll.CollateralizeId coll') := by
  have hlen : coll.BorrowRecords.length = 1 := by rw [hL]; rfl
  refine ⟨rfl, ?_, ?_, ?_⟩
  · intro ha
    unfold systemLiquidation
    rw [hlen, sweep_single, sweepInit_single hL]
    by_cases hw : L.Status = X.CollateralizeUserStatusWarning
    · have hw' : ([L].getD 0 default).Status = X.CollateralizeUserStatusWarning := hw
      have ha' : ([L].getD 0 default).LiquidationPrice * PriceWarningRate < price := ha
      simp only [systemLiquidationStep, List.getElem?_cons_zero, ha', hw', if_true]
      refine ⟨_, _, rfl, ?_, ?_, rfl, rfl, rfl⟩
      · simp [sweepFinish, hw]
      · simp [sweepFinish]
    · have hw' : ¬ ([L].getD 0 default).Status = X.CollateralizeUserStatusWarning := hw
      have ha' : ([L].getD 0 default).LiquidationPrice * PriceWarningRate < price := ha
      simp only [systemLiquidationStep, List.getElem?_cons_zero, ha', hw', if_true, if_false]
      refine ⟨_, _, rfl, ?_, ?_, rfl, rfl, rfl⟩
      · simp [sweepFinish, hw]
      · simp [sweepFinish]
  · intro ha hb guarantor coins1 hg ht
    unfold systemLiquidation
    rw [hlen, sweep_single, sweepInit_single hL]
    have ha' : ¬ ([L].getD 0 default).LiquidationPrice * PriceWarningRate < price := ha
    have hb' : ([L].getD 0 default).LiquidationPrice ≥ price := hb
    have ht' : X.account.ExecTransferFrozen st.coins coll.CreateAddr guarantor
        ([L].getD 0 default).CollateralValue = .ok coins1 := ht
    simp only [systemLiquidationStep, List.getElem?_cons_zero, ha', hb', if_true, if_false,
      seize, hg, ht', removeAt]
    refine ⟨_, _, _, rfl, rfl, ?_, ?_, ?_, rfl, rfl⟩
    · simp [sweepFinish]
    · simp [sweepFinish]
    · simp [sweepFinish]
  · intro ha hb
    unfold systemLiquidation
    rw [hlen, sweep_single, sweepInit_single hL]
    have ha' : ¬ ([L].getD 0 default).LiquidationPrice * PriceWarningRate < price := ha
    have hb' : ¬ ([L].getD 0 default).LiquidationPrice ≥ price := hb
    simp only [systemLiquidationStep, List.getElem?_cons_zero, ha', hb', if_false]
    refine ⟨_, _, _, rfl, rfl, ?_, ?_, rfl, rfl, rfl⟩
    · simp [sweepFinish]
    · simp [sweepFinish]

theorem price_sweep_single_witness :
    (∃ st' coll',
      systemLiquidation X0 (sampleAction "oracle" [9]) (sampleState [sampleLoan "A" (1 / 2)])
        (sampleVault [sampleLoan "A" (1 / 2)]) 1 = .ok (st', coll', []) ∧
      coll'.BorrowRecords = [sampleLoan "A" (1 / 2)] ∧
      st'.coins = (sampleState [sampleLoan "A" (1 / 2)]).coins) ∧
    (∃ st' coll' logs,
      systemLiquidation X0 (sampleAction "oracle" [9]) (sampleState [sampleLoan "A" 1])
        (sampleVault [sampleLoan "A" 1]) 1 = .ok (st', coll', logs) ∧
      coll'.BorrowRecords = [] ∧
      coll'.InvalidRecords =
        [{ sampleLoan "A" 1 with
           LiquidateTime := 1000, PreStatus := 1, Status := 3, PreIndex := 7,
           Index := 1000003 }] ∧
      coll'.CollBalance = 0 ∧
      loadExecAccount st'.coins "guard" = { Balance := 250000000000, Frozen := 0 } ∧
      loadExecAccount st'.coins "alice" = { Balance := 0, Frozen := 0 }) ∧
    (∃ st' coll' logs,
      systemLiquidation X0 (sampleAction "oracle" [9])
        (sampleState [sampleLoan "A" (9 / 10)]) (sampleVault [sampleLoan "A" (9 / 10)]) 1 =
        .ok (st', coll', logs) ∧
      coll'.BorrowRecords =
        [{ sampleLoan "A" (9 / 10) with
           PreStatus := 1, Status := 2, PreIndex := 7, Index := 1000003 }] ∧
      st'.coins = (sampleState [sampleLoan "A" (9 / 10)]).coins) := by
  refine ⟨?_, ?_, ?_⟩
  · obtain ⟨st', coll', h1, h2, -, -, h5, -⟩ :=
      (price_sweep_single X0 (sampleAction "oracle" [9]) (sampleState [sampleLoan "A" (1 / 2)])
        (sampleVault [sampleLoan "A" (1 / 2)]) (sampleLoan "A" (1 / 2)) 1 rfl).2.1
        (by decide!)
    exact ⟨st', coll', h1, h2.trans (by decide!), h5⟩
  · obtain ⟨st', coll', seized, h0, h1, h2, h3, h4, h5, -⟩ :=
      (price_sweep_single X0 (sampleAction "oracle" [9]) (sampleState [sampleLoan "A" 1])
        (sampleVault [sampleLoan "A" 1]) (sampleLoan "A" 1) 1 rfl).2.2.1
        (by decide!) (by decide!) "guard"
        (kvSet (kvSet (sampleState [sampleLoan "A" 1]).coins "alice"
          { Balance := 0, Frozen := 0 }) "guard" { Balance := 250000000000, Frozen := 0 })
        (by decide!) (by decide!)
    subst h0
    refine ⟨st', coll', _, h1, h2, h3.trans (by decide!), h4.trans (by decide!), ?_, ?_⟩
    · rw [h5]; decide!
    · rw [h5]; decide!
  · obtain ⟨st', coll', warned, h0, h1, h2, -, -, h5, -⟩ :=
      (price_sweep_single X0 (sampleAction "oracle" [9])
        (sampleState [sampleLoan "A" (9 / 10)]) (sampleVault [sampleLoan "A" (9 / 10)])
        (sampleLoan "A" (9 / 10)) 1 rfl).2.2.2 (by decide!) (by decide!)
    subst h0
    exact ⟨st', coll', _, h1, h2.trans (by decide!), h5⟩



lemma systemLiquidation_nil (X : Ext) (action : Action) (st : State) (coll : pty.Collateralize)
    (price : ℚ) (h0 : coll.BorrowRecords = []) :
    ∃ coll', systemLiquidation X action st coll price = .ok (Save coll' st, coll', []) ∧
      coll'.CollateralizeId = coll.CollateralizeId ∧
      coll'.BorrowRecords = [] ∧
      coll'.InvalidRecords = coll.InvalidRecords ∧
      coll'.CollBalance = coll.CollBalance := by
  have hlen : coll.BorrowRecords.length = 0 := by rw [h0]; rfl
  unfold systemLiquidation
  rw [hlen]
  refine ⟨_, rfl, rfl, ?_, ?_, rfl⟩
  · simp [sweepFinish, sweepInit, hlen]
  · simp [sweepFinish, sweepInit]

lemma expire_seize_single (X : Ext) (action : Action) (st : State) (coll : pty.Collateralize)
    (L : pty.BorrowRecord) (hL : coll.BorrowRecords = [L])
    (hexp : L.ExpireTime ≤ action.blocktime) (guarantor : String) (coins1 : Accounts)
    (hg : getGuarantorAddr st = .ok guarantor)
    (ht : X.account.ExecTransferFrozen st.coins coll.CreateAddr guarantor L.CollateralValue =
      .ok coins1) :
    ∃ coll',
      expireLiquidation X action st coll =
        .ok (Save coll' { st with coins := coins1 }, coll',
          [GetFeedReceiptLog X coll.CollateralizeId
            { L with
              LiquidateTime := action.blocktime
              PreStatus := L.Status
              Status := X.CollateralizeUserStatusExpireLiquidate
              PreIndex := L.Index
              Index := GetIndex X action }]) ∧
      coll'.CollateralizeId = coll.CollateralizeId ∧
      coll'.CreateAddr = coll.CreateAddr ∧
      coll'.BorrowRecords = [] ∧
      coll'.InvalidRecords = coll.InvalidRecords ++
        [{ L with
           LiquidateTime := action.blocktime
           PreStatus := L.Status
           Status := X.CollateralizeUserStatusExpireLiquidate
           PreIndex := L.Index
           Index := GetIndex X action }] ∧
      coll'.CollBalance = coll.CollBalance - L.CollateralValue := by
  have hlen : coll.BorrowRecords.length = 1 := by rw [hL]; rfl
  unfold expireLiquidation
  rw [hlen, sweep_single, sweepInit_single hL]
  have ha' : ¬ ([L].getD 0 default).ExpireTime - ExpireWarningTime > action.blocktime := by
    show ¬ L.ExpireTime - ExpireWarningTime > action.blocktime
    unfold ExpireWarningTime
    omega
  have hb' : ([L].getD 0 default).ExpireTime ≤ action.blocktime := hexp
  have ht' : X.account.ExecTransferFrozen st.coins coll.CreateAddr guarantor
      ([L].getD 0 default).CollateralValue = .ok coins1 := ht
  simp only [expireLiquidationStep, List.getElem?_cons_zero, ha', hb', if_true, if_false,
    seize, hg, ht', removeAt]
  refine ⟨_, rfl, rfl, rfl, ?_, ?_, ?_⟩
  · simp [sweepFinish]
  · simp [sweepFinish]
  · simp [sweepFinish]

/-- C12: the expiry rule on a vault whose only active loan is `L`, at block time `T`
(`ExpireWarningTime` is 10 days, 864000 seconds).  (1) If `L.expire_time ≤ T`, the vault is
the one the status index lists, its cached expiry time is not after `L.expire_time`, and the
guarantor lookup and the transfer of the collateral succeed, then a Feed that passes its
checks at any positive price succeeds: the stored vault has no active loan, `L` is the last
invalid record with status ExpireLiquidate, pre_status and pre_index the old status and index,
liquidate_time `T` and index the transaction index, `coll_balance` is lowered by
`L.collateral_value`, the ledger is that of the transfer and the one log is the Feed log of
the seized loan.  (2) If `T < L.expire_time ≤ T + 10 days`, the expiry sweep succeeds and
keeps `L` the only active loan with status Expire, pre_status and pre_index the old status
and index, and index the transaction index.  (3) If `L.expire_time - 10 days > T`, the expiry
sweep succeeds without a log and leaves `L`, the ledger, `coll_balance` and
`invalid_records` as they were. -/
theorem expire_rule_single (X : Ext) (action : Action) (st : State) (coll : pty.Collateralize)
    (L : pty.BorrowRecord) (hL : coll.BorrowRecords = [L]) :
    ExpireWarningTime = 864000 ∧
    (∀ (localdb : Lister) (feed : pty.CollateralizeFeed) (price : ℚ) (id guarantor : String)
        (coins1 : Accounts),
      ¬ (feed.Price.length = 0 ∨ feed.Price.length ≠ feed.Volume.length) →
      isRightAddr .PriceFeedKey action.fromaddr st = true →
      pricePolicy feed = .ok price → 0 < price →
      queryCollateralizeByStatus localdb X.CollateralizeStatusCreated = .ok [id] →
      queryCollateralizeByID st id = .ok coll →
      coll.LatestExpireTime ≤ L.ExpireTime →
      L.ExpireTime ≤ action.blocktime →
      getGuarantorAddr st = .ok guarantor →
      X.account.ExecTransferFrozen st.coins coll.CreateAddr guarantor L.CollateralValue =
        .ok coins1 →
      ∃ st' coll' seized,
        seized =
          { L with
            LiquidateTime := action.blocktime
            PreStatus := L.Status
            Status := X.CollateralizeUserStatusExpireLiquidate
            PreIndex := L.Index
            Index := GetIndex X action } ∧
        CollateralizeFeed X action localdb st feed =
          .ok (st', [GetFeedReceiptLog X coll.CollateralizeId seized]) ∧
        kvGet st'.vaults coll.CollateralizeId = some coll' ∧
        coll'.BorrowRecords = [] ∧
        coll'.InvalidRecords = coll.InvalidRecords ++ [seized] ∧
        coll'.CollBalance = coll.CollBalance - L.CollateralValue ∧
        st'.coins = coins1 ∧
        st'.price = some { BtyPrice := price, RecordTime := action.blocktime }) ∧
    (action.blocktime < L.ExpireTime → L.ExpireTime ≤ action.blocktime + 864000 →
      ∃ st' coll' expiring,
        expiring =
          { L with
            PreIndex := L.Index
            Index := GetIndex X action
            PreStatus := L.Status
            Status := X.CollateralizeUserStatusExpire } ∧
        expireLiquidation X action st coll =
          .ok (st', coll', [GetFeedReceiptLog X coll.CollateralizeId expiring]) ∧
        coll'.BorrowRecords = [expiring] ∧
        coll'.InvalidRecords = coll.InvalidRecords ∧
        coll'.CollBalance = coll.CollBalance ∧
        st'.coins = st.coins ∧
        st'.vaults = kvSet st.vaults coll.CollateralizeId coll') ∧
    (L.ExpireTime - 864000 > action.blocktime →
      ∃ st' coll',
        expireLiquidation X action st coll = .ok (st', coll', []) ∧
        coll'.BorrowRecords = [L] ∧
        coll'.InvalidRecords = coll.InvalidRecords ∧
        coll'.CollBalance = coll.CollBalance ∧
        st'.coins = st.coins ∧
        st'.vaults = kvSet st.vaults coll.CollateralizeId coll') := by
  have hlen : coll.BorrowRecords.length = 1 := by rw [hL]; rfl
  have hW : ExpireWarningTime = 864000 := by unfold ExpireWarningTime; norm_num
  refine ⟨hW, ?_, ?_, ?_⟩
  · intro localdb feed price id guarantor coins1 hp hr hpol hpos hids hq hcache hexp hg ht
    obtain ⟨c1, he, hid1, -, hb1, hi1, hc1⟩ :=
      expire_seize_single X action st coll L hL hexp guarantor coins1 hg ht
    obtain ⟨c2, hs, hid2, hb2, hi2, hc2⟩ :=
      systemLiquidation_nil X action (Save c1 { st with coins := coins1 }) c1 price hb1
    have hgate : coll.LatestExpireTime - ExpireWarningTime ≤ action.blocktime := by
      rw [hW]; omega
    have hfv : feedVault X action price id (st, []) =
        .ok (Save c2 (Save c1 { st with coins := coins1 }),
          [GetFeedReceiptLog X coll.CollateralizeId
            { L with
              LiquidateTime := action.blocktime
              PreStatus := L.Status
              Status := X.CollateralizeUserStatusExpireLiquidate
              PreIndex := L.Index
              Index := GetIndex X action }]) := by
      unfold feedVault
      simp only [hq, hgate, if_true, he, hs]
      simp
    refine ⟨{ Save c2 (Save c1 { st with coins := coins1 }) with
        price := some { BtyPrice := price, RecordTime := action.blocktime } },
      c2, _, rfl, ?_, ?_, hb2, ?_, ?_, ?_, ?_⟩
    · unfold CollateralizeFeed
      rw [if_neg hp]
      simp only [hr, Bool.not_true, Bool.false_eq_true, if_false, hpol, not_le.mpr hpos, hids,
        feedLoop, hfv]
    · show kvGet (kvSet _ c2.CollateralizeId c2) _ = _
      rw [hid2, hid1]
      simp [kvSet, kvGet]
    · rw [hi2, hi1]
    · rw [hc2, hc1]
    · rfl
    · rfl
  · intro h1 h2
    unfold expireLiquidation
    rw [hlen, sweep_single, sweepInit_single hL]
    have ha' : ¬ ([L].getD 0 default).ExpireTime - ExpireWarningTime > action.blocktime := by
      show ¬ L.ExpireTime - ExpireWarningTime > action.blocktime
      rw [hW]; omega
    have hb' : ¬ ([L].getD 0 default).ExpireTime ≤ action.blocktime := not_le.mpr h1
    simp only [expireLiquidationStep, List.getElem?_cons_zero, ha', hb', if_false]
    refine ⟨_, _, _, rfl, rfl, ?_, ?_, rfl, rfl, rfl⟩
    · simp [sweepFinish]
    · simp [sweepFinish]
  · intro h1
    unfold expireLiquidation
    rw [hlen, sweep_single, sweepInit_single hL]
    have ha' : ([L].getD 0 default).ExpireTime - ExpireWarningTime > action.blocktime := by
      show L.ExpireTime - ExpireWarningTime > action.blocktime
      rw [hW]; exact h1
    simp only [expireLiquidationStep, List.getElem?_cons_zero, ha', if_true]
    refine ⟨_, _, rfl, ?_, ?_, rfl, rfl, rfl⟩
    · simp [sweepFinish]
    · simp [sweepFinish]

theorem expire_rule_single_witness :
    (∃ st' coll',
      CollateralizeFeed X0 { sampleAction "oracle" [3] with blocktime := 40000000 }
        sampleLister (sampleState [sampleLoan "A" (1 / 10)]) sampleFeed =
        .ok (st', [GetFeedReceiptLog X0 "v"
          { sampleLoan "A" (1 / 10) with
            LiquidateTime := 40000000, PreStatus := 1, Status := 5, PreIndex := 7,
            Index := 1000003 }]) ∧
      kvGet st'.vaults "v" = some coll' ∧
      coll'.BorrowRecords = [] ∧
      coll'.InvalidRecords =
        [{ sampleLoan "A" (1 / 10) with
           LiquidateTime := 40000000, PreStatus := 1, Status := 5, PreIndex := 7,
           Index := 1000003 }] ∧
      coll'.CollBalance = 0 ∧
      loadExecAccount st'.coins "guard" = { Balance := 250000000000, Frozen := 0 }) ∧
    (∃ st' coll' logs,
      expireLiquidation X0 { sampleAction "oracle" [3] with blocktime := 31000000 }
        (sampleState [sampleLoan "A" (1 / 10)]) (sampleVault [sampleLoan "A" (1 / 10)]) =
        .ok (st', coll', logs) ∧
      coll'.BorrowRecords =
        [{ sampleLoan "A" (1 / 10) with
           PreStatus := 1, Status := 4, PreIndex := 7, Index := 1000003 }]) ∧
    (∃ st' coll',
      expireLiquidation X0 (sampleAction "oracle" [3])
        (sampleState [sampleLoan "A" (1 / 10)]) (sampleVault [sampleLoan "A" (1 / 10)]) =
        .ok (st', coll', []) ∧
      coll'.BorrowRecords = [sampleLoan "A" (1 / 10)]) := by
  refine ⟨?_, ?_, ?_⟩
  · obtain ⟨st', coll', seized, h0, h1, h2, h3, h4, h5, h6, -⟩ :=
      (expire_rule_single X0 { sampleAction "oracle" [3] with blocktime := 40000000 }
        (sampleState [sampleLoan "A" (1 / 10)]) (sampleVault [sampleLoan "A" (1 / 10)])
        (sampleLoan "A" (1 / 10)) rfl).2.1 sampleLister sampleFeed (1 / 2) "v" "guard"
        (kvSet (kvSet (sampleState [sampleLoan "A" (1 / 10)]).coins "alice"
          { Balance := 0, Frozen := 0 }) "guard" { Balance := 250000000000, Frozen := 0 })
        (by decide!) (by decide!) (by decide!) (by decide!) (by decide!) (by decide!)
        (by decide!) (by decide!) (by decide!) (by decide!)
    subst h0
    refine ⟨st', coll', h1, h2, h3, h4.trans (by decide!), h5.trans (by decide!), ?_⟩
    rw [h6]; decide!
  · obtain ⟨st', coll', expiring, h0, h1, h2, -⟩ :=
      (expire_rule_single X0 { sampleAction "oracle" [3] with blocktime := 31000000 }
        (sampleState [sampleLoan "A" (1 / 10)]) (sampleVault [sampleLoan "A" (1 / 10)])
        (sampleLoan "A" (1 / 10)) rfl).2.2.1 (by decide!) (by decide!)
    subst h0
    exact ⟨st', coll', _, h1, h2.trans (by decide!)⟩
  · obtain ⟨st', coll', h1, h2, -⟩ :=
      (expire_rule_single X0 (sampleAction "oracle" [3])
        (sampleState [sampleLoan "A" (1 / 10)]) (sampleVault [sampleLoan "A" (1 / 10)])
        (sampleLoan "A" (1 / 10)) rfl).2.2.2 (by decide!)
    exact ⟨st', coll', h1, h2⟩


/-! ## Logs of the sweeps -/

/-- C14 (failing input): the feed of price 0.5 on the vault whose only loan `A` (liquidation
price 0.1) is in status Warning succeeds.  The stored loan has changed status from Warning (2)
to Create (1) with pre_status Warning, its index and pre_index are the old ones (7 and 0, the
transaction index being 1000003), and the receipt has no log at all. -/
theorem feed_recovery_without_log :
    recoveryFeedResult = .ok (resultState recoveryFeedResult, []) ∧
    (kvGet (sampleState [warnedLoan]).vaults "v").map (fun c => c.BorrowRecords) =
      some [warnedLoan] ∧
    warnedLoan.Status = X0.CollateralizeUserStatusWarning ∧
    (kvGet (resultState recoveryFeedResult).vaults "v").map (fun c => c.BorrowRecords) =
      some [{ warnedLoan with
              Status := X0.CollateralizeUserStatusCreate
              PreStatus := X0.CollateralizeUserStatusWarning }] ∧
    (warnedLoan.Index, warnedLoan.PreIndex) = (7, 0) ∧
    GetIndex X0 (sampleAction "oracle" [3]) = 1000003 := by
  refine ⟨?_, ?_, ?_, ?_, ?_, ?_⟩ <;> decide!


/-! ## Ledger failures inside the sweeps -/

/-- C13 (counterexample): in the state without a guarantor key, loan `A` (liquidation price
0.9, status Create, index 7) is past its expiry time, so it is due for seizure and the
guarantor lookup fails for it.  The feed of price 1 succeeds and keeps the loan active, but
the price sweep that follows the expiry sweep gives it status Warning and the index of the
transaction, and the receipt carries a Feed log for it. -/
theorem failed_seizure_still_warned :
    getGuarantorAddr (noGuarantorState [sampleLoan "A" (9 / 10)]) = .error .ErrNotFound ∧
    (sampleLoan "A" (9 / 10)).ExpireTime ≤ 40000000 ∧
    ((sampleLoan "A" (9 / 10)).Status, (sampleLoan "A" (9 / 10)).Index) = (1, 7) ∧
    skippedSeizureResult =
      .ok (resultState skippedSeizureResult,
        [GetFeedReceiptLog X0 "v"
          { sampleLoan "A" (9 / 10) with
            PreStatus := 1, Status := 2, PreIndex := 7, Index := 1000003 }]) ∧
    (kvGet (resultState skippedSeizureResult).vaults "v").map (fun c => c.BorrowRecords) =
      some [{ sampleLoan "A" (9 / 10) with
              PreStatus := 1, Status := 2, PreIndex := 7, Index := 1000003 }] := by
  refine ⟨?_, ?_, ?_, ?_, ?_⟩ <;> decide!

lemma seize_error {X : Ext} {action : Action} {st : State} {coll : pty.Collateralize}
    {status : Int} {index p : Nat} {m : SweepMem} {e : Err}
    (h : seize X action st coll status index p m = .error e) : e = .goPanic := by
  unfold seize at h
  cases hg : getGuarantorAddr st with
  | error e1 =>
    simp only [hg] at h
    split_ifs at h
    exact (Except.error.inj h).symm
  | ok guarantor =>
    simp only [hg] at h
    cases ht : X.account.ExecTransferFrozen m.coins coll.CreateAddr guarantor
        (m.heap p).CollateralValue with
    | error e1 =>
      simp only [ht] at h
      split_ifs at h
      exact (Except.error.inj h).symm
    | ok coins1 =>
      simp only [ht] at h
      unfold removeAt at h
      split_ifs at h
      exact (Except.error.inj h).symm

lemma systemLiquidationStep_error {X : Ext} {action : Action} {st : State}
    {coll : pty.Collateralize} {price : ℚ} {index : Nat} {m : SweepMem} {e : Err}
    (h : systemLiquidationStep X action st coll price index m = .error e) : e = .goPanic := by
  unfold systemLiquidationStep at h
  cases hp : m.arr[index]? with
  | none =>
    simp only [hp] at h
    exact (Except.error.inj h).symm
  | some p =>
    simp only [hp] at h
    split_ifs at h
    exact seize_error h

lemma expireLiquidationStep_error {X : Ext} {action : Action} {st : State}
    {coll : pty.Collateralize} {index : Nat} {m : SweepMem} {e : Err}
    (h : expireLiquidationStep X action st coll index m = .error e) : e = .goPanic := by
  unfold expireLiquidationStep at h
  cases hp : m.arr[index]? with
  | none =>
    simp only [hp] at h
    exact (Except.error.inj h).symm
  | some p =>
    simp only [hp] at h
    split_ifs at h
    exact seize_error h

lemma sweepLoop_error {step : Nat → SweepMem → Except Err SweepMem}
    (hstep : ∀ index m e, step index m = .error e → e = .goPanic) :
    ∀ (range : List Nat) (m : SweepMem) (e : Err),
      sweepLoop step range m = .error e → e = .goPanic
  | [], m, e, h => by
    unfold sweepLoop at h
    cases h
  | index :: rest, m, e, h => by
    unfold sweepLoop at h
    cases hs : step index m with
    | error e1 =>
      simp only [hs] at h
      cases Except.error.inj h
      exact hstep index m _ hs
    | ok m1 =>
      simp only [hs] at h
      exact sweepLoop_error hstep rest m1 e h

lemma systemLiquidation_error {X : Ext} {action : Action} {st : State}
    {coll : pty.Collateralize} {price : ℚ} {e : Err}
    (h : systemLiquidation X action st coll price = .error e) : e = .goPanic := by
  unfold systemLiquidation at h
  cases hl : sweepLoop (systemLiquidationStep X action st coll price)
      (List.range coll.BorrowRecords.length) (sweepInit st coll) with
  | error e1 =>
    simp only [hl] at h
    cases Except.error.inj h
    exact sweepLoop_error (fun _ _ _ hs => systemLiquidationStep_error hs) _ _ _ hl
  | ok m => simp [hl] at h

lemma expireLiquidation_error {X : Ext} {action : Action} {st : State}
    {coll : pty.Collateralize} {e : Err}
    (h : expireLiquidation X action st coll = .error e) : e = .goPanic := by
  unfold expireLiquidation at h
  cases hl : sweepLoop (expireLiquidationStep X action st coll)
      (List.range coll.BorrowRecords.length) (sweepInit st coll) with
  | error e1 =>
    simp only [hl] at h
    cases Except.error.inj h
    exact sweepLoop_error (fun _ _ _ hs => expireLiquidationStep_error hs) _ _ _ hl
  | ok m => simp [hl] at h

lemma feedVault_error {X : Ext} {action : Action} {price : ℚ} {collID : String}
    {acc : State × List pty.ReceiptLog} {e : Err}
    (h : feedVault X action price collID acc = .error e) : e = .goPanic := by
  unfold feedVault at h
  cases hq : queryCollateralizeByID acc.1 collID with
  | error e1 =>
    simp only [hq] at h
    exact (Except.error.inj h).symm
  | ok coll =>
    simp only [hq] at h
    by_cases hgate : coll.LatestExpireTime - ExpireWarningTime ≤ action.blocktime
    · simp only [hgate, if_true] at h
      cases he : expireLiquidation X action acc.1 coll with
      | error e1 =>
        simp only [he] at h
        cases Except.error.inj h
        exact expireLiquidation_error he
      | ok r1 =>
        obtain ⟨st1, coll1, logs1⟩ := r1
        simp only [he] at h
        cases hs : systemLiquidation X action st1 coll1 price with
        | error e1 =>
          simp only [hs] at h
          cases Except.error.inj h
          exact systemLiquidation_error hs
        | ok r2 => simp [hs] at h
    · simp only [hgate, if_false] at h
      cases hs : systemLiquidation X action acc.1 coll price with
      | error e1 =>
        simp only [hs] at h
        cases Except.error.inj h
        exact systemLiquidation_error hs
      | ok r2 => simp [hs] at h

lemma feedLoop_error {X : Ext} {action : Action} {price : ℚ} :
    ∀ (ids : List String) (acc : State × List pty.ReceiptLog) (e : Err),
      feedLoop X action price ids acc = .error e → e = .goPanic
  | [], acc, e, h => by
    unfold feedLoop at h
    cases h
  | collID :: ids, acc, e, h => by
    unfold feedLoop at h
    cases hv : feedVault X action price collID acc with
    | error e1 =>
      simp only [hv] at h
      cases Except.error.inj h
      exact feedVault_error hv
    | ok acc1 =>
      simp only [hv] at h
      exact feedLoop_error ids acc1 e h

/-- C13 (amended): a failed guarantor lookup or collateral transfer never aborts a feed.  In
either sweep, a visit of a loan due for seizure whose lookup or transfer fails (with an error
that is not a run-time panic) returns the memory of the sweep as it was, so the loan, its
status, index and collateral, `coll_balance`, the ledger and the logs are those of before the
visit, and the loop goes on with the remaining positions.  A Feed that passes its parameter,
permission and price checks either succeeds, storing the new price with the block time as the
latest price record, or ends in a run-time panic; it never returns a ledger error. -/
theorem feed_skips_failed_seizure (X : Ext) (action : Action) (st : State) :
    (∀ (coll : pty.Collateralize) (price : ℚ) (index p : Nat) (m : SweepMem) (e : Err)
        (rest : List Nat),
      m.arr[index]? = some p →
      ¬ (m.heap p).LiquidationPrice * PriceWarningRate < price →
      (m.heap p).LiquidationPrice ≥ price →
      e ≠ .goPanic →
      (getGuarantorAddr st = .error e ∨
        ∃ guarantor, getGuarantorAddr st = .ok guarantor ∧
          X.account.ExecTransferFrozen m.coins coll.CreateAddr guarantor
            (m.heap p).CollateralValue = .error e) →
      systemLiquidationStep X action st coll price index m = .ok m ∧
      sweepLoop (systemLiquidationStep X action st coll price) (index :: rest) m =
        sweepLoop (systemLiquidationStep X action st coll price) rest m) ∧
    (∀ (coll : pty.Collateralize) (index p : Nat) (m : SweepMem) (e : Err) (rest : List Nat),
      m.arr[index]? = some p →
      (m.heap p).ExpireTime ≤ action.blocktime →
      e ≠ .goPanic →
      (getGuarantorAddr st = .error e ∨
        ∃ guarantor, getGuarantorAddr st = .ok guarantor ∧
          X.account.ExecTransferFrozen m.coins coll.CreateAddr guarantor
            (m.heap p).CollateralValue = .error e) →
      expireLiquidationStep X action st coll index m = .ok m ∧
      sweepLoop (expireLiquidationStep X action st coll) (index :: rest) m =
        sweepLoop (expireLiquidationStep X action st coll) rest m) ∧
    (∀ (localdb : Lister) (feed : pty.CollateralizeFeed) (price : ℚ),
      ¬ (feed.Price.length = 0 ∨ feed.Price.length ≠ feed.Volume.length) →
      isRightAddr .PriceFeedKey action.fromaddr st = true →
      pricePolicy feed = .ok price → 0 < price →
      (∃ st' logs, CollateralizeFeed X action localdb st feed = .ok (st', logs) ∧
        st'.price = some { BtyPrice := price, RecordTime := action.blocktime }) ∨
      CollateralizeFeed X action localdb st feed = .error .goPanic) := by
  have hseize : ∀ (coll : pty.Collateralize) (status : Int) (index p : Nat) (m : SweepMem)
      (e : Err), e ≠ .goPanic →
      (getGuarantorAddr st = .error e ∨
        ∃ guarantor, getGuarantorAddr st = .ok guarantor ∧
          X.account.ExecTransferFrozen m.coins coll.CreateAddr guarantor
            (m.heap p).CollateralValue = .error e) →
      seize X action st coll status index p m = .ok m := by
    intro coll status index p m e hne hfail
    unfold seize
    rcases hfail with hg | ⟨guarantor, hg, ht⟩
    · simp only [hg, if_neg hne]
    · simp only [hg, ht, if_neg hne]
  refine ⟨?_, ?_, ?_⟩
  · intro coll price index p m e rest hp ha hb hne hfail
    have hstep : systemLiquidationStep X action st coll price index m = .ok m := by
      unfold systemLiquidationStep
      simp only [hp, if_neg ha, if_pos hb]
      exact hseize coll _ index p m e hne hfail
    refine ⟨hstep, ?_⟩
    conv_lhs => unfold sweepLoop
    simp only [hstep]
  · intro coll index p m e rest hp hexp hne hfail
    have ha : ¬ (m.heap p).ExpireTime - ExpireWarningTime > action.blocktime := by
      unfold ExpireWarningTime
      omega
    have hstep : expireLiquidationStep X action st coll index m = .ok m := by
      unfold expireLiquidationStep
      simp only [hp, if_neg ha, if_pos hexp]
      exact hseize coll _ index p m e hne hfail
    refine ⟨hstep, ?_⟩
    conv_lhs => unfold sweepLoop
    simp only [hstep]
  · intro localdb feed price hp hr hpol hpos
    unfold CollateralizeFeed
    rw [if_neg hp]
    simp only [hr, Bool.not_true, Bool.false_eq_true, if_false, hpol, not_le.mpr hpos]
    cases hl : feedLoop X action price
        (match queryCollateralizeByStatus localdb X.CollateralizeStatusCreated with
          | .ok ids => ids
          | .error _ => []) (st, []) with
    | error e =>
      right
      rw [feedLoop_error _ _ _ hl]
    | ok acc =>
      left
      obtain ⟨st1, logs⟩ := acc
      exact ⟨_, _, rfl, rfl⟩

theorem feed_skips_failed_seizure_witness :
    (systemLiquidationStep X0 (sampleAction "oracle" [3])
        (noGuarantorState [sampleLoan "A" 1]) (sampleVault [sampleLoan "A" 1]) 1 0
        (sweepInit (noGuarantorState [sampleLoan "A" 1]) (sampleVault [sampleLoan "A" 1])) =
      .ok (sweepInit (noGuarantorState [sampleLoan "A" 1])
        (sampleVault [sampleLoan "A" 1]))) ∧
    (expireLiquidationStep X0 { sampleAction "oracle" [3] with blocktime := 40000000 }
        (noGuarantorState [sampleLoan "A" 1]) (sampleVault [sampleLoan "A" 1]) 0
        (sweepInit (noGuarantorState [sampleLoan "A" 1]) (sampleVault [sampleLoan "A" 1])) =
      .ok (sweepInit (noGuarantorState [sampleLoan "A" 1])
        (sampleVault [sampleLoan "A" 1]))) ∧
    ((∃ st' logs, skippedSeizureResult = .ok (st', logs) ∧
        st'.price = some { BtyPrice := 1, RecordTime := 40000000 }) ∨
      skippedSeizureResult = .error .goPanic) :=
  ⟨((feed_skips_failed_seizure X0 (sampleAction "oracle" [3])
        (noGuarantorState [sampleLoan "A" 1])).1 (sampleVault [sampleLoan "A" 1]) 1 0 0
        (sweepInit (noGuarantorState [sampleLoan "A" 1]) (sampleVault [sampleLoan "A" 1]))
        .ErrNotFound [] (by decide!) (by decide!) (by decide!) (by decide)
        (Or.inl (by decide!))).1,
   ((feed_skips_failed_seizure X0 { sampleAction "oracle" [3] with blocktime := 40000000 }
        (noGuarantorState [sampleLoan "A" 1])).2.1 (sampleVault [sampleLoan "A" 1]) 0 0
        (sweepInit (noGuarantorState [sampleLoan "A" 1]) (sampleVault [sampleLoan "A" 1]))
        .ErrNotFound [] (by decide!) (by decide!) (by decide)
        (Or.inl (by decide!))).1,
   (feed_skips_failed_seizure X0 { sampleAction "oracle" [3] with blocktime := 40000000 }
      (noGuarantorState [sampleLoan "A" (9 / 10)])).2.2 sampleLister unitFeed 1
      (by decide!) (by decide!) (by decide!) (by decide!)⟩


/-! ## Loan partition -/

lemma map_set_same {α β : Type} (f : α → β) :
    ∀ (l : List α) (i : Nat) (x r : α), l[i]? = some x → f r = f x →
      (l.set i r).map f = l.map f
  | [], i, x, r, h, _ => by simp at h
  | y :: l, 0, x, r, h, hf => by
    simp at h
    subst h
    simp [hf]
  | y :: l, i + 1, x, r, h, hf => by
    simp at h
    simp [map_set_same f l i x r h hf]

lemma seize_heap_id {X : Ext} {action : Action} {st : State} {coll : pty.Collateralize}
    {status : Int} {index p : Nat} {m m' : SweepMem}
    (h : seize X action st coll status index p m = .ok m') :
    ∀ q, (m'.heap q).RecordId = (m.heap q).RecordId := by
  unfold seize at h
  cases hg : getGuarantorAddr st with
  | error e =>
    simp only [hg] at h
    split_ifs at h
    cases Except.ok.inj h
    exact fun _ => rfl
  | ok guarantor =>
    simp only [hg] at h
    cases ht : X.account.ExecTransferFrozen m.coins coll.CreateAddr guarantor
        (m.heap p).CollateralValue with
    | error e =>
      simp only [ht] at h
      split_ifs at h
      cases Except.ok.inj h
      exact fun _ => rfl
    | ok coins1 =>
      simp only [ht] at h
      cases hr : removeAt m.arr m.len index with
      | error e => simp [hr] at h
      | ok res =>
        obtain ⟨arr1, len1⟩ := res
        simp only [hr] at h
        cases Except.ok.inj h
        intro q
        by_cases hq : q = p
        · subst hq
          simp
        · simp [Function.update_noteq hq]

lemma update_heap_id (m : SweepMem) (p : Nat) (r : pty.BorrowRecord)
    (hr : r.RecordId = (m.heap p).RecordId) :
    ∀ q, (Function.update m.heap p r q).RecordId = (m.heap q).RecordId := by
  intro q
  by_cases hq : q = p
  · subst hq
    simp [hr]
  · simp [Function.update_noteq hq]

lemma systemLiquidationStep_heap_id {X : Ext} {action : Action} {st : State}
    {coll : pty.Collateralize} {price : ℚ} {index : Nat} {m m' : SweepMem}
    (h : systemLiquidationStep X action st coll price index m = .ok m') :
    ∀ q, (m'.heap q).RecordId = (m.heap q).RecordId := by
  unfold systemLiquidationStep at h
  cases hp : m.arr[index]? with
  | none => simp [hp] at h
  | some p =>
    simp only [hp] at h
    split_ifs at h with h1 h2 h3
    · cases Except.ok.inj h
      exact update_heap_id m p _ rfl
    · cases Except.ok.inj h
      exact fun _ => rfl
    · exact seize_heap_id h
    · cases Except.ok.inj h
      exact update_heap_id m p _ rfl

lemma expireLiquidationStep_heap_id {X : Ext} {action : Action} {st : State}
    {coll : pty.Collateralize} {index : Nat} {m m' : SweepMem}
    (h : expireLiquidationStep X action st coll index m = .ok m') :
    ∀ q, (m'.heap q).RecordId = (m.heap q).RecordId := by
  unfold expireLiquidationStep at h
  cases hp : m.arr[index]? with
  | none => simp [hp] at h
  | some p =>
    simp only [hp] at h
    split_ifs at h with h1 h2
    · cases Except.ok.inj h
      exact fun _ => rfl
    · exact seize_heap_id h
    · cases Except.ok.inj h
      exact update_heap_id m p _ rfl

lemma sweepFinish_ids {st : State} {coll : pty.Collateralize} {m : SweepMem}
    (hm : SweepInv coll.BorrowRecords coll.CollBalance m)
    (hid : SweepIdInv coll.BorrowRecords m) :
    FeedIdStep coll (sweepFinish st coll m).2.1 := by
  refine ⟨?_, m.invalid.map m.heap, rfl⟩
  have hfun : (fun p => (m.heap p).RecordId) =
      (fun p => (coll.BorrowRecords.getD p default).RecordId) := funext hid
  have h1 : ((m.arr.take m.len ++ m.invalid).map (fun p => (m.heap p).RecordId)).Perm
      (coll.BorrowRecords.map (fun r => r.RecordId)) := by
    rw [hfun]
    have h2 := hm.perm.map (fun p => (coll.BorrowRecords.getD p default).RecordId)
    have h3 : (List.range coll.BorrowRecords.length).map
        (fun p => (coll.BorrowRecords.getD p default).RecordId) =
        coll.BorrowRecords.map (fun r => r.RecordId) := by
      conv_rhs => rw [← range_map_getD coll.BorrowRecords default]
      simp [Function.comp_def]
    rw [h3] at h2
    exact h2
  show (List.map (fun r => r.RecordId)
      ((m.arr.take m.len).map m.heap ++ (coll.InvalidRecords ++ m.invalid.map m.heap))).Perm
    (List.map (fun r => r.RecordId) (coll.BorrowRecords ++ coll.InvalidRecords))
  simp only [List.map_append, List.map_map, Function.comp_def] at h1 ⊢
  have h4 : (List.map (fun p => (m.heap p).RecordId) (m.arr.take m.len) ++
      (List.map (fun r => r.RecordId) coll.InvalidRecords ++
        List.map (fun p => (m.heap p).RecordId) m.invalid)).Perm
      ((List.map (fun p => (m.heap p).RecordId) (m.arr.take m.len) ++
        List.map (fun p => (m.heap p).RecordId) m.invalid) ++
        List.map (fun r => r.RecordId) coll.InvalidRecords) := by
    rw [List.append_assoc]
    exact List.Perm.append_left _ List.perm_append_comm
  exact h4.trans (h1.append_right _)

lemma sweep_ids {st st' : State} {coll coll' : pty.Collateralize}
    {logs : List pty.ReceiptLog} {step : Nat → SweepMem → Except Err SweepMem}
    (hinv : ∀ index m m', step index m = .ok m' →
      SweepInv coll.BorrowRecords coll.CollBalance m →
      SweepInv coll.BorrowRecords coll.CollBalance m')
    (hids : ∀ index m m', step index m = .ok m' →
      ∀ q, (m'.heap q).RecordId = (m.heap q).RecordId)
    (h : (match sweepLoop step (List.range coll.BorrowRecords.length) (sweepInit st coll) with
          | .error e => (Except.error e : Except Err _)
          | .ok m => .ok (sweepFinish st coll m)) = .ok (st', coll', logs)) :
    FeedIdStep coll coll' := by
  obtain ⟨m, hl, hm⟩ := sweepLoop_result h
  have h1 : SweepInv coll.BorrowRecords coll.CollBalance m :=
    @sweepLoop_inv _ (SweepInv coll.BorrowRecords coll.CollBalance) hinv _ _ _ hl
      (sweepInit_inv st coll)
  have h2 : SweepIdInv coll.BorrowRecords m :=
    @sweepLoop_inv _ (SweepIdInv coll.BorrowRecords)
      (fun index m m' hs hP q => (hids index m m' hs q).trans (hP q)) _ _ _ hl
      (fun _ => rfl)
  have h3 := @sweepFinish_ids st coll m h1 h2
  rw [← hm] at h3
  exact h3

lemma feedIdStep_refl (c : pty.Collateralize) : FeedIdStep c c :=
  ⟨List.Perm.refl _, [], by simp⟩

lemma feedIdStep_trans (a b c : pty.Collateralize) (h1 : FeedIdStep a b)
    (h2 : FeedIdStep b c) : FeedIdStep a c := by
  obtain ⟨p1, s1, e1⟩ := h1
  obtain ⟨p2, s2, e2⟩ := h2
  exact ⟨p2.trans p1, s1 ++ s2, by rw [e2, e1, List.append_assoc]⟩

/-! ## Create -/

lemma key_injective (X : Ext) (a b : String) (h : Key X a = Key X b) : a = b := by
  unfold Key at h
  have h1 := congrArg String.data h
  simp only [String.data_append] at h1
  exact String.ext (List.append_cancel_left h1)

lemma create_ok_branch {X : Ext} {action : Action} {localdb : Lister} {st : State}
    {create : pty.CollateralizeCreate} {r : State × List pty.ReceiptLog}
    (h : CollateralizeCreate X action localdb st create = .ok r) :
    ∃ collcfg token1,
      getCollateralizeConfig st = .ok collcfg ∧
      X.account.ExecFrozen st.token action.fromaddr create.TotalBalance = .ok token1 ∧
      ((queryCollateralizeByAddr localdb action.fromaddr X.CollateralizeStatusCreated = .ok [] ∨
          queryCollateralizeByAddr localdb action.fromaddr X.CollateralizeStatusCreated =
            .error .ErrNotFound) →
        r = (Save (createVault X action collcfg create) { st with token := token1 },
             [GetCreateReceiptLog X action (createVault X action collcfg create)])) ∧
      (∀ id0 rest,
        queryCollateralizeByAddr localdb action.fromaddr X.CollateralizeStatusCreated =
          .ok (id0 :: rest) →
        ∃ collateralize, queryCollateralizeByID st id0 = .ok collateralize ∧
          r = (Save (topUpVault X action collateralize create) { st with token := token1 },
               [GetCreateReceiptLog X action (topUpVault X action collateralize create)])) := by
  unfold CollateralizeCreate at h
  cases h0 : isSuperAddr action.fromaddr st
  · simp [h0] at h
  cases h3 : CheckExecTokenAccount st action.fromaddr create.TotalBalance false
  · exfalso
    simp only [h0, h3, Bool.not_true, Bool.not_false, Bool.false_eq_true, if_false,
      if_true] at h
    repeat' split at h
    all_goals simp at h
  simp only [h0, h3, Bool.not_true, Bool.false_eq_true, if_false] at h
  split_ifs at h with h1
  cases hc : getCollateralizeConfig st with
  | error e => simp [hc] at h
  | ok collcfg =>
    simp only [hc] at h
    cases hb : getCollBalance X collcfg.TotalBalance localdb st with
    | error e => simp [hb] at h
    | ok reBalance =>
      simp only [hb] at h
      split_ifs at h with h2
      cases hq : queryCollateralizeByAddr localdb action.fromaddr X.CollateralizeStatusCreated with
      | error e =>
        simp only [hq] at h
        by_cases he : e = .ErrNotFound
        · simp only [he, if_true] at h
          cases hf : X.account.ExecFrozen st.token action.fromaddr create.TotalBalance with
          | error e1 => simp [hf] at h
          | ok token1 =>
            simp only [hf] at h
            refine ⟨collcfg, token1, rfl, rfl, ?_, ?_⟩
            · intro _
              exact (Except.ok.inj h).symm
            · intro id0 rest hx
              cases hx
        · simp only [he, if_false] at h
          cases h
      | ok ids =>
        simp only [hq] at h
        cases hf : X.account.ExecFrozen st.token action.fromaddr create.TotalBalance with
        | error e1 => simp [hf] at h
        | ok token1 =>
          simp only [hf] at h
          cases ids with
          | nil =>
            simp only at h
            refine ⟨collcfg, token1, rfl, rfl, ?_, ?_⟩
            · intro _
              exact (Except.ok.inj h).symm
            · intro id0 rest hx
              cases Except.ok.inj hx
          | cons id0 rest =>
            simp only at h
            cases hv : queryCollateralizeByID { st with token := token1 } id0 with
            | error e1 => simp [hv] at h
            | ok collateralize =>
              simp only [hv] at h
              refine ⟨collcfg, token1, rfl, rfl, ?_, ?_⟩
              · intro hx
                rcases hx with hx | hx
                · cases Except.ok.inj hx
                · cases hx
              · intro id1 rest1 hx
                cases Except.ok.inj hx
                exact ⟨collateralize, hv, (Except.ok.inj h).symm⟩

/-- C21: a successful Create by an address for which the address index lists no vault in
status Created (an empty listing or `ErrNotFound`) writes exactly one vault, under the id
`hex(tx hash)`, whose state key is `mavl-<CollateralizeX>-<hex(tx hash)>`: `create_addr` is the
caller, `total_balance = balance = create.total_balance`, `coll_balance = 0`, no active and no
invalid record, and `debt_ceiling`, `liquidation_ratio`, `stability_fee_ratio` and `period` are
those of the stored configuration.  The CCNY ledger is the result of freezing
`create.total_balance` on the caller (under the ledger contract: the caller's active balance
falls and its frozen balance rises by that amount, no other account changes); the BTY ledger
and the configuration are unchanged, and the one log is the Create log of the new vault. -/
theorem create_new_vault (X : Ext) (action : Action) (localdb : Lister) (st : State)
    (create : pty.CollateralizeCreate) (r : State × List pty.ReceiptLog)
    (h : CollateralizeCreate X action localdb st create = .ok r)
    (hnone :
      queryCollateralizeByAddr localdb action.fromaddr X.CollateralizeStatusCreated = .ok [] ∨
      queryCollateralizeByAddr localdb action.fromaddr X.CollateralizeStatusCreated =
        .error .ErrNotFound) :
    ∃ collcfg token1 coll,
      getCollateralizeConfig st = .ok collcfg ∧
      X.account.ExecFrozen st.token action.fromaddr create.TotalBalance = .ok token1 ∧
      r = ({ st with vaults := kvSet st.vaults (X.ToHex action.txhash) coll, token := token1 },
           [GetCreateReceiptLog X action coll]) ∧
      Key X coll.CollateralizeId = "mavl-" ++ X.CollateralizeX ++ "-" ++ X.ToHex action.txhash ∧
      coll.CollateralizeId = X.ToHex action.txhash ∧
      coll.CreateAddr = action.fromaddr ∧
      coll.TotalBalance = create.TotalBalance ∧
      coll.Balance = create.TotalBalance ∧
      coll.CollBalance = 0 ∧
      coll.BorrowRecords = [] ∧
      coll.InvalidRecords = [] ∧
      coll.DebtCeiling = collcfg.DebtCeiling ∧
      coll.LiquidationRatio = collcfg.LiquidationRatio ∧
      coll.StabilityFeeRatio = collcfg.StabilityFeeRatio ∧
      coll.Period = collcfg.Period ∧
      coll.Status = X.CollateralizeActionCreate ∧
      coll.Index = GetIndex X action ∧
      (LedgerLaws X.account →
        loadExecAccount r.1.token action.fromaddr =
          { Balance := (loadExecAccount st.token action.fromaddr).Balance - create.TotalBalance,
            Frozen := (loadExecAccount st.token action.fromaddr).Frozen + create.TotalBalance } ∧
        ∀ a, a ≠ action.fromaddr → loadExecAccount r.1.token a = loadExecAccount st.token a) := by
  obtain ⟨collcfg, token1, hc, hf, hnew, -⟩ := create_ok_branch h
  have hr := hnew hnone
  subst hr
  refine ⟨collcfg, token1, createVault X action collcfg create, hc, hf, rfl, rfl, rfl, rfl, rfl,
    rfl, rfl, rfl, rfl, rfl, rfl, rfl, rfl, rfl, rfl, ?_⟩
  intro hlaws
  exact hlaws.frozen _ _ _ _ hf

theorem create_new_vault_witness :
    sampleCreateResult = .ok (resultState sampleCreateResult, resultLogs sampleCreateResult) ∧
    queryCollateralizeByAddr emptyLister "alice" X0.CollateralizeStatusCreated =
      .error .ErrNotFound ∧
    (∃ coll,
      (resultState sampleCreateResult).vaults =
        kvSet (sampleState [sampleLoan "A" 1]).vaults "0x05" coll ∧
      Key X0 coll.CollateralizeId = "mavl-collateralize-0x05" ∧
      coll.CreateAddr = "alice" ∧
      (coll.TotalBalance, coll.Balance, coll.CollBalance) = (50000000000, 50000000000, 0) ∧
      coll.DebtCeiling = 1000000000000 ∧
      loadExecAccount (resultState sampleCreateResult).token "alice" =
        { Balance := 50000000000, Frozen := 950000000000 }) := by
  refine ⟨by decide!, by decide!, ?_⟩
  obtain ⟨collcfg, token1, coll, hc, hf, hr, hk, h1, h2, h3, h4, h5, h6, h7, h8, h9, h10, h11,
      h12, h13, hl⟩ :=
    create_new_vault X0 (sampleAction "alice" [5]) emptyLister (sampleState [sampleLoan "A" 1])
      { TotalBalance := 50000000000 }
      (resultState sampleCreateResult, resultLogs sampleCreateResult) (by decide!)
      (Or.inr (by decide!))
  have hd : collcfg.DebtCeiling = 1000000000000 := by
    simp only [getCollateralizeConfig, sampleState] at hc
    cases Except.ok.inj hc
    rfl
  refine ⟨coll, ?_, ?_, h2, ?_, h8.trans hd, ?_⟩
  · have := congrArg (fun x => x.1.vaults) hr
    simpa using this
  · rw [hk]; decide
  · rw [h3, h4, h5]
  · exact ((hl (stdLedger_laws)).1).trans (by decide!)

/-- C22: a successful Create of `x` by an address for which the address index lists a vault in
status Created tops up the first vault listed: the only vault written is that vault, under its
own id (so no key is added when it is stored under its id), with `total_balance` and `balance`
each raised by `x`, `pre_index` and `pre_status` the old index and status, `index` the index of
the transaction, and id, `create_addr`, `coll_balance`, `debt_ceiling`, `liquidation_ratio`,
`stability_fee_ratio`, `period`, `borrow_records`, `invalid_records`, status and the two caches
unchanged; the configuration is not read into the vault. -/
theorem create_top_up (X : Ext) (action : Action) (localdb : Lister) (st : State)
    (create : pty.CollateralizeCreate) (r : State × List pty.ReceiptLog) (id0 : String)
    (rest : List String)
    (h : CollateralizeCreate X action localdb st create = .ok r)
    (hq : queryCollateralizeByAddr localdb action.fromaddr X.CollateralizeStatusCreated =
      .ok (id0 :: rest)) :
    ∃ coll token1 coll',
      queryCollateralizeByID st id0 = .ok coll ∧
      X.account.ExecFrozen st.token action.fromaddr create.TotalBalance = .ok token1 ∧
      r = ({ st with vaults := kvSet st.vaults coll.CollateralizeId coll', token := token1 },
           [GetCreateReceiptLog X action coll']) ∧
      coll'.TotalBalance = coll.TotalBalance + create.TotalBalance ∧
      coll'.Balance = coll.Balance + create.TotalBalance ∧
      coll'.PreIndex = coll.Index ∧
      coll'.PreStatus = coll.Status ∧
      coll'.Index = GetIndex X action ∧
      coll'.CollateralizeId = coll.CollateralizeId ∧
      coll'.CreateAddr = coll.CreateAddr ∧
      coll'.CollBalance = coll.CollBalance ∧
      coll'.DebtCeiling = coll.DebtCeiling ∧
      coll'.LiquidationRatio = coll.LiquidationRatio ∧
      coll'.StabilityFeeRatio = coll.StabilityFeeRatio ∧
      coll'.Period = coll.Period ∧
      coll'.BorrowRecords = coll.BorrowRecords ∧
      coll'.InvalidRecords = coll.InvalidRecords ∧
      coll'.Status = coll.Status ∧
      coll'.LatestLiquidationPrice = coll.LatestLiquidationPrice ∧
      coll'.LatestExpireTime = coll.LatestExpireTime ∧
      (coll.CollateralizeId = id0 →
        ∀ k, (kvGet r.1.vaults k).isSome = (kvGet st.vaults k).isSome) := by
  obtain ⟨collcfg, token1, -, hf, -, htop⟩ := create_ok_branch h
  obtain ⟨coll, hv, hr⟩ := htop id0 rest hq
  subst hr
  refine ⟨coll, token1, topUpVault X action coll create, hv, hf, rfl, rfl, rfl, rfl, rfl, rfl,
    rfl, rfl, rfl, rfl, rfl, rfl, rfl, rfl, rfl, rfl, rfl, rfl, ?_⟩
  intro hid k
  show (kvGet (kvSet st.vaults _ _) k).isSome = _
  rw [kvGet_kvSet]
  split_ifs with hk
  · have h1 : (topUpVault X action coll create).CollateralizeId = id0 := hid
    rw [h1] at hk
    subst hk
    rw [query_ok_iff.mp hv]
    rfl
  · rfl

theorem create_top_up_witness :
    sampleTopUpResult = .ok (resultState sampleTopUpResult, resultLogs sampleTopUpResult) ∧
    queryCollateralizeByAddr sampleLister "alice" X0.CollateralizeStatusCreated = .ok ["v"] ∧
    (∃ coll',
      (resultState sampleTopUpResult).vaults =
        kvSet (sampleState [sampleLoan "A" 1]).vaults "v" coll' ∧
      (coll'.TotalBalance, coll'.Balance) = (1050000000000, 950000000000) ∧
      (coll'.PreIndex, coll'.Index) = (5, 1000003) ∧
      coll'.BorrowRecords = [sampleLoan "A" 1] ∧
      ∀ k, (kvGet (resultState sampleTopUpResult).vaults k).isSome =
        (kvGet (sampleState [sampleLoan "A" 1]).vaults k).isSome) := by
  refine ⟨by decide!, by decide!, ?_⟩
  obtain ⟨coll, token1, coll', hv, hf, hr, h1, h2, h3, h4, h5, h6, h7, h8, h9, h10, h11, h12,
      h13, h14, h15, h16, h17, hk⟩ :=
    create_top_up X0 (sampleAction "alice" [5]) sampleLister (sampleState [sampleLoan "A" 1])
      { TotalBalance := 50000000000 }
      (resultState sampleTopUpResult, resultLogs sampleTopUpResult) "v" [] (by decide!)
      (by decide!)
  have hc : coll = sampleVault [sampleLoan "A" 1] := by
    have h0 : queryCollateralizeByID (sampleState [sampleLoan "A" 1]) "v" =
        .ok (sampleVault [sampleLoan "A" 1]) := by decide!
    rw [h0] at hv
    exact (Except.ok.inj hv).symm
  subst hc
  refine ⟨coll', ?_, ?_, ?_, h13, hk rfl⟩
  · have := congrArg (fun x => x.1.vaults) hr
    simpa using this
  · rw [h1, h2]
    decide!
  · rw [h3, h5]
    decide!


/-! ## Append -/

lemma appendRecord_frame (X : Ext) (action : Action) (r : pty.BorrowRecord)
    (cAppend : pty.CollateralizeAppend) (lastPrice : ℚ) :
    (appendRecord X action r cAppend lastPrice).RecordId = r.RecordId ∧
    (appendRecord X action r cAppend lastPrice).CollateralizeId = r.CollateralizeId ∧
    (appendRecord X action r cAppend lastPrice).AccountAddr = r.AccountAddr ∧
    (appendRecord X action r cAppend lastPrice).CollateralValue =
      r.CollateralValue + cAppend.CollateralValue ∧
    (appendRecord X action r cAppend lastPrice).CollateralPrice = lastPrice ∧
    (appendRecord X action r cAppend lastPrice).LiquidationPrice =
      calcLiquidationPrice X r.DebtValue (r.CollateralValue + cAppend.CollateralValue) ∧
    (appendRecord X action r cAppend lastPrice).DebtValue = r.DebtValue ∧
    (appendRecord X action r cAppend lastPrice).StartTime = r.StartTime ∧
    (appendRecord X action r cAppend lastPrice).ExpireTime = r.ExpireTime ∧
    (appendRecord X action r cAppend lastPrice).LiquidateTime = r.LiquidateTime := by
  unfold appendRecord
  simp only
  split_ifs <;> exact ⟨rfl, rfl, rfl, rfl, rfl, rfl, rfl, rfl, rfl, rfl⟩

lemma appendRecord_status (X : Ext) (action : Action) (r : pty.BorrowRecord)
    (cAppend : pty.CollateralizeAppend) (lastPrice : ℚ) :
    ((r.Status = X.CollateralizeUserStatusWarning ∧
        (appendRecord X action r cAppend lastPrice).LiquidationPrice * PriceWarningRate <
          lastPrice) →
      (appendRecord X action r cAppend lastPrice).Status = X.CollateralizeStatusCreated ∧
      (appendRecord X action r cAppend lastPrice).PreStatus =
        X.CollateralizeUserStatusWarning ∧
      (appendRecord X action r cAppend lastPrice).PreIndex = r.Index ∧
      (appendRecord X action r cAppend lastPrice).Index = GetIndex X action) ∧
    (¬ (r.Status = X.CollateralizeUserStatusWarning ∧
        (appendRecord X action r cAppend lastPrice).LiquidationPrice * PriceWarningRate <
          lastPrice) →
      (appendRecord X action r cAppend lastPrice).Status = r.Status ∧
      (appendRecord X action r cAppend lastPrice).PreStatus = r.PreStatus ∧
      (appendRecord X action r cAppend lastPrice).Index = r.Index ∧
      (appendRecord X action r cAppend lastPrice).PreIndex = r.PreIndex) := by
  rw [(appendRecord_frame X action r cAppend lastPrice).2.2.2.2.2.1]
  unfold appendRecord
  simp only
  constructor
  · rintro ⟨hs, hlt⟩
    have hlt' : calcLiquidationPrice X r.DebtValue
        (r.CollateralValue + cAppend.CollateralValue) * PriceWarningRate < lastPrice := hlt
    rw [if_pos hlt', if_pos hs]
    exact ⟨rfl, hs, rfl, rfl⟩
  · intro hn
    split_ifs with h1 h2
    · exact absurd ⟨h2, h1⟩ hn
    · exact ⟨rfl, rfl, rfl, rfl⟩
    · exact ⟨rfl, rfl, rfl, rfl⟩

/-- C24: after a successful Append (`PriceWarningRate = 1.3`), if the loan was in status
Warning and its new `liquidation_price * 1.3` is below the latest price, the loan has status
`CollateralizeStatusCreated`, `pre_status` Warning, `pre_index` its old index and `index` the
index of the transaction; in every other case its status, `pre_status`, `index` and
`pre_index` are those of before.  So, the two status codes being different, the status of the
loan changes exactly in the first case. -/
theorem append_recovery (X : Ext) (action : Action) (st : State)
    (cAppend : pty.CollateralizeAppend) (r : State × List pty.ReceiptLog)
    (h : CollateralizeAppend X action st cAppend = .ok r) :
    ∃ coll index record lastPrice coll' record',
      queryCollateralizeByID st cAppend.CollateralizeId = .ok coll ∧
      findLastRecord coll.BorrowRecords cAppend.RecordId = some index ∧
      coll.BorrowRecords[index]? = some record ∧
      getLatestPrice st = .ok lastPrice ∧
      r.1.vaults = kvSet st.vaults coll.CollateralizeId coll' ∧
      coll'.BorrowRecords = coll.BorrowRecords.set index record' ∧
      PriceWarningRate = 13 / 10 ∧
      ((record.Status = X.CollateralizeUserStatusWarning ∧
          record'.LiquidationPrice * PriceWarningRate < lastPrice) →
        record'.Status = X.CollateralizeStatusCreated ∧
        record'.PreStatus = X.CollateralizeUserStatusWarning ∧
        record'.PreIndex = record.Index ∧
        record'.Index = GetIndex X action) ∧
      (¬ (record.Status = X.CollateralizeUserStatusWarning ∧
          record'.LiquidationPrice * PriceWarningRate < lastPrice) →
        record'.Status = record.Status ∧
        record'.PreStatus = record.PreStatus ∧
        record'.Index = record.Index ∧
        record'.PreIndex = record.PreIndex) ∧
      (X.CollateralizeUserStatusWarning ≠ X.CollateralizeStatusCreated →
        (record'.Status ≠ record.Status ↔
          (record.Status = X.CollateralizeUserStatusWarning ∧
            record'.LiquidationPrice * PriceWarningRate < lastPrice))) := by
  obtain ⟨coll, index, rec, p, coins1, coins2, -, hq, -, hfind, hget, hp, -, -, -, hr⟩ :=
    append_ok_inv h
  subst hr
  obtain ⟨hyes, hno⟩ := appendRecord_status X action rec cAppend p
  refine ⟨coll, index, rec, p,
    appendVault coll index (appendRecord X action rec cAppend p) cAppend,
    appendRecord X action rec cAppend p, hq, hfind, hget, hp, rfl, rfl, rfl, hyes, hno, ?_⟩
  intro hne
  constructor
  · intro hch
    by_contra hn
    exact hch (hno hn).1
  · intro hc hsame
    have h1 := (hyes hc).1
    rw [hsame, hc.1] at h1
    exact hne h1

theorem append_recovery_witness :
    recoveryAppendResult =
      .ok (resultState recoveryAppendResult, resultLogs recoveryAppendResult) ∧
    X0.CollateralizeUserStatusWarning ≠ X0.CollateralizeStatusCreated ∧
    (∃ coll',
      (resultState recoveryAppendResult).vaults =
        kvSet (sampleState [warnedLoan]).vaults "v" coll' ∧
      coll'.BorrowRecords =
        [{ warnedLoan with
           CollateralValue := 350000000000
           CollateralPrice := 1
           LiquidationPrice := 11 / 35
           Status := 1
           PreStatus := 2
           PreIndex := 7
           Index := 1000003 }]) ∧
    (∃ coll',
      (resultState sampleAppendResult).vaults =
        kvSet (sampleState [sampleLoan "A" 1]).vaults "v" coll' ∧
      coll'.BorrowRecords.map (fun x => (x.Status, x.PreStatus, x.Index, x.PreIndex)) =
        [(1, 0, 7, 0)]) := by
  refine ⟨by decide!, by decide, ?_, ?_⟩
  · obtain ⟨coll, index, record, lastPrice, coll', record', hq, -, -, -, hv, -⟩ :=
      append_recovery X0 (sampleAction "bob" [4]) (sampleState [warnedLoan]) sampleAppend
        (resultState recoveryAppendResult, resultLogs recoveryAppendResult) (by decide!)
    have hc : coll = sampleVault [warnedLoan] := by
      have h0 : queryCollateralizeByID (sampleState [warnedLoan])
          sampleAppend.CollateralizeId = .ok (sampleVault [warnedLoan]) := by decide!
      rw [h0] at hq
      exact (Except.ok.inj hq).symm
    subst hc
    have hv' : (resultState recoveryAppendResult).vaults =
        kvSet (sampleState [warnedLoan]).vaults "v" coll' := hv
    have hget : kvGet (resultState recoveryAppendResult).vaults "v" = some coll' := by
      rw [hv']
      simp [kvSet, kvGet]
    have heval : (kvGet (resultState recoveryAppendResult).vaults "v").map
        (fun c => c.BorrowRecords) =
        some [{ warnedLoan with
                CollateralValue := 350000000000
                CollateralPrice := 1
                LiquidationPrice := 11 / 35
                Status := 1
                PreStatus := 2
                PreIndex := 7
                Index := 1000003 }] := by decide!
    rw [hget] at heval
    exact ⟨coll', hv', Option.some.inj heval⟩
  · obtain ⟨coll, index, record, lastPrice, coll', record', hq, -, -, -, hv, -⟩ :=
      append_recovery X0 (sampleAction "bob" [4]) (sampleState [sampleLoan "A" 1])
        sampleAppend (resultState sampleAppendResult, resultLogs sampleAppendResult)
        (by decide!)
    have hc : coll = sampleVault [sampleLoan "A" 1] := by
      have h0 : queryCollateralizeByID (sampleState [sampleLoan "A" 1])
          sampleAppend.CollateralizeId = .ok (sampleVault [sampleLoan "A" 1]) := by decide!
      rw [h0] at hq
      exact (Except.ok.inj hq).symm
    subst hc
    have hv' : (resultState sampleAppendResult).vaults =
        kvSet (sampleState [sampleLoan "A" 1]).vaults "v" coll' := hv
    have hget : kvGet (resultState sampleAppendResult).vaults "v" = some coll' := by
      rw [hv']
      simp [kvSet, kvGet]
    have heval : (kvGet (resultState sampleAppendResult).vaults "v").map
        (fun c => c.BorrowRecords.map (fun x => (x.Status, x.PreStatus, x.Index, x.PreIndex))) =
        some [(1, 0, 7, 0)] := by decide!
    rw [hget] at heval
    exact ⟨coll', hv', Option.some.inj heval⟩


/-! ## Manage -/

lemma isRightAddr_iff (key : ManageTable) (addr : String) (st : State) :
    isRightAddr key addr st = true ↔
      ∃ arr, getManageKey key st = .ok arr ∧ addr ∈ arr := by
  unfold isRightAddr
  cases hk : getManageKey key st with
  | error e => simp
  | ok arr =>
    simp only [List.any_eq_true, decide_eq_true_eq, Except.ok.injEq, exists_eq_left']
    constructor
    · rintro ⟨x, hx, rfl⟩
      exact hx
    · intro hx
      exact ⟨addr, hx, rfl⟩

/-- The configuration a Manage stores: each field of the payload when non-zero, else the
field of the previous configuration (the defaults when none is stored). -/
lemma manage_ok (action : Action) (st : State) (manage : pty.CollateralizeManage)
    (h1 : isRightAddr .ManageKey action.fromaddr st = true)
    (h2 : ¬ (manage.DebtCeiling < 0 ∨ manage.LiquidationRatio < 0 ∨
      manage.LiquidationRatio ≥ 1 ∨ manage.StabilityFeeRatio < 0 ∨
      manage.StabilityFeeRatio ≥ 1)) :
    ∃ cfg prev,
      CollateralizeManage action st manage = .ok ({ st with config := some cfg }, []) ∧
      prev = (match st.config with
        | some c => c
        | none =>
          { DebtCeiling := DefaultDebtCeiling, LiquidationRatio := DefaultLiquidationRatio,
            StabilityFeeRatio := DefaultStabilityFeeRation, Period := DefaultPeriod,
            TotalBalance := DefaultTotalBalance, CurrentTime := 0 }) ∧
      cfg.DebtCeiling = (if manage.DebtCeiling ≠ 0 then manage.DebtCeiling
        else prev.DebtCeiling) ∧
      cfg.LiquidationRatio = (if manage.LiquidationRatio ≠ 0 then manage.LiquidationRatio
        else prev.LiquidationRatio) ∧
      cfg.StabilityFeeRatio = (if manage.StabilityFeeRatio ≠ 0 then manage.StabilityFeeRatio
        else prev.StabilityFeeRatio) ∧
      cfg.Period = (if manage.Period ≠ 0 then manage.Period else prev.Period) ∧
      cfg.TotalBalance = (if manage.TotalBalance ≠ 0 then manage.TotalBalance
        else prev.TotalBalance) ∧
      cfg.CurrentTime = action.blocktime := by
  unfold CollateralizeManage
  have h1' : ¬ ((!isRightAddr .ManageKey action.fromaddr st) = true) := by simp [h1]
  rw [if_neg h1', if_neg h2]
  cases hc : st.config with
  | none =>
    exact ⟨_, _, rfl, rfl, by simp [getCollateralizeConfig, hc],
      by simp [getCollateralizeConfig, hc], by simp [getCollateralizeConfig, hc],
      by simp [getCollateralizeConfig, hc], by simp [getCollateralizeConfig, hc], rfl⟩
  | some c =>
    exact ⟨_, _, rfl, rfl, by simp [getCollateralizeConfig, hc],
      by simp [getCollateralizeConfig, hc], by simp [getCollateralizeConfig, hc],
      by simp [getCollateralizeConfig, hc], by simp [getCollateralizeConfig, hc], rfl⟩

/-- C25: Manage returns `ErrPermissionDeny` exactly when the caller is not in the manage-key
list (a missing list counts as empty); it returns `ErrRiskParam` exactly when the caller is in
the list and `debt_ceiling < 0`, or `liquidation_ratio < 0`, or `liquidation_ratio ≥ 1`, or
`stability_fee_ratio < 0`, or `stability_fee_ratio ≥ 1`; in every other case it succeeds,
without a log, changing nothing but the stored configuration.  A failure returns no state:
the handler fails before its only write. -/
theorem manage_rejects (action : Action) (st : State) (manage : pty.CollateralizeManage) :
    (isRightAddr .ManageKey action.fromaddr st = true ↔
      ∃ arr, st.manageKey = some arr ∧ action.fromaddr ∈ arr) ∧
    (CollateralizeManage action st manage = .error .ErrPermissionDeny ↔
      isRightAddr .ManageKey action.fromaddr st = false) ∧
    (CollateralizeManage action st manage = .error .ErrRiskParam ↔
      (isRightAddr .ManageKey action.fromaddr st = true ∧
        (manage.DebtCeiling < 0 ∨ manage.LiquidationRatio < 0 ∨ manage.LiquidationRatio ≥ 1 ∨
          manage.StabilityFeeRatio < 0 ∨ manage.StabilityFeeRatio ≥ 1))) ∧
    (isRightAddr .ManageKey action.fromaddr st = true →
      ¬ (manage.DebtCeiling < 0 ∨ manage.LiquidationRatio < 0 ∨ manage.LiquidationRatio ≥ 1 ∨
          manage.StabilityFeeRatio < 0 ∨ manage.StabilityFeeRatio ≥ 1) →
      ∃ cfg, CollateralizeManage action st manage = .ok ({ st with config := some cfg }, [])) ∧
    (∀ e, CollateralizeManage action st manage = .error e →
      e = .ErrPermissionDeny ∨ e = .ErrRiskParam) := by
  have hperm : isRightAddr .ManageKey action.fromaddr st = false →
      CollateralizeManage action st manage = .error .ErrPermissionDeny := by
    intro h
    unfold CollateralizeManage
    simp [h]
  have hrisk : isRightAddr .ManageKey action.fromaddr st = true →
      (manage.DebtCeiling < 0 ∨ manage.LiquidationRatio < 0 ∨ manage.LiquidationRatio ≥ 1 ∨
        manage.StabilityFeeRatio < 0 ∨ manage.StabilityFeeRatio ≥ 1) →
      CollateralizeManage action st manage = .error .ErrRiskParam := by
    intro h1 h2
    unfold CollateralizeManage
    have h1' : ¬ ((!isRightAddr .ManageKey action.fromaddr st) = true) := by simp [h1]
    rw [if_neg h1', if_pos h2]
  have hok : isRightAddr .ManageKey action.fromaddr st = true →
      ¬ (manage.DebtCeiling < 0 ∨ manage.LiquidationRatio < 0 ∨ manage.LiquidationRatio ≥ 1 ∨
          manage.StabilityFeeRatio < 0 ∨ manage.StabilityFeeRatio ≥ 1) →
      ∃ cfg, CollateralizeManage action st manage =
        .ok ({ st with config := some cfg }, []) := by
    intro h1 h2
    obtain ⟨cfg, prev, h, -⟩ := manage_ok action st manage h1 h2
    exact ⟨cfg, h⟩
  refine ⟨?_, ?_, ?_, hok, ?_⟩
  · rw [isRightAddr_iff]
    constructor
    · rintro ⟨arr, hk, hin⟩
      refine ⟨arr, ?_, hin⟩
      simp only [getManageKey] at hk
      cases hm : st.manageKey with
      | none => simp [hm] at hk
      | some a =>
        simp only [hm] at hk
        rw [Except.ok.inj hk]
    · rintro ⟨arr, hk, hin⟩
      exact ⟨arr, by simp [getManageKey, hk], hin⟩
  · constructor
    · intro h
      cases h1 : isRightAddr .ManageKey action.fromaddr st
      · rfl
      · exfalso
        by_cases h2 : manage.DebtCeiling < 0 ∨ manage.LiquidationRatio < 0 ∨
            manage.LiquidationRatio ≥ 1 ∨ manage.StabilityFeeRatio < 0 ∨
            manage.StabilityFeeRatio ≥ 1
        · rw [hrisk h1 h2] at h
          cases h
        · obtain ⟨cfg, hk⟩ := hok h1 h2
          rw [hk] at h
          cases h
    · exact hperm
  · constructor
    · intro h
      cases h1 : isRightAddr .ManageKey action.fromaddr st
      · rw [hperm h1] at h
        cases h
      · refine ⟨rfl, ?_⟩
        by_contra h2
        obtain ⟨cfg, hk⟩ := hok h1 h2
        rw [hk] at h
        cases h
    · rintro ⟨h1, h2⟩
      exact hrisk h1 h2
  · intro e h
    cases h1 : isRightAddr .ManageKey action.fromaddr st
    · rw [hperm h1] at h
      exact Or.inl (Except.error.inj h).symm
    · by_cases h2 : manage.DebtCeiling < 0 ∨ manage.LiquidationRatio < 0 ∨
          manage.LiquidationRatio ≥ 1 ∨ manage.StabilityFeeRatio < 0 ∨
          manage.StabilityFeeRatio ≥ 1
      · rw [hrisk h1 h2] at h
        exact Or.inr (Except.error.inj h).symm
      · obtain ⟨cfg, hk⟩ := hok h1 h2
        rw [hk] at h
        cases h

theorem manage_rejects_witness :
    isRightAddr .ManageKey "admin" (sampleState []) = true ∧
    (∃ cfg, CollateralizeManage (sampleAction "admin" [6]) (sampleState []) sampleManage =
      .ok ({ sampleState [] with config := some cfg }, [])) ∧
    CollateralizeManage (sampleAction "bob" [6]) (sampleState []) sampleManage =
      .error .ErrPermissionDeny ∧
    CollateralizeManage (sampleAction "admin" [6]) (sampleState [])
      { sampleManage with LiquidationRatio := 1 } = .error .ErrRiskParam :=
  ⟨by decide,
   (manage_rejects (sampleAction "admin" [6]) (sampleState []) sampleManage).2.2.2.1
     (by decide) (by decide!),
   (manage_rejects (sampleAction "bob" [6]) (sampleState []) sampleManage).2.1.mpr (by decide),
   (manage_rejects (sampleAction "admin" [6]) (sampleState [])
     { sampleManage with LiquidationRatio := 1 }).2.2.1.mpr ⟨by decide, by decide!⟩⟩

lemma manage_ok_inv {action : Action} {st : State} {manage : pty.CollateralizeManage}
    {r : State × List pty.ReceiptLog} (h : CollateralizeManage action st manage = .ok r) :
    isRightAddr .ManageKey action.fromaddr st = true ∧
    ¬ (manage.DebtCeiling < 0 ∨ manage.LiquidationRatio < 0 ∨ manage.LiquidationRatio ≥ 1 ∨
        manage.StabilityFeeRatio < 0 ∨ manage.StabilityFeeRatio ≥ 1) := by
  unfold CollateralizeManage at h
  by_cases h1 : (!isRightAddr .ManageKey action.fromaddr st) = true
  · rw [if_pos h1] at h
    cases h
  rw [if_neg h1] at h
  by_cases h2 : manage.DebtCeiling < 0 ∨ manage.LiquidationRatio < 0 ∨
      manage.LiquidationRatio ≥ 1 ∨ manage.StabilityFeeRatio < 0 ∨
      manage.StabilityFeeRatio ≥ 1
  · rw [if_pos h2] at h
    cases h
  exact ⟨by simpa using h1, h2⟩

/-- C26: a successful Manage stores, and changes nothing else, a configuration in which each
of `debt_ceiling`, `liquidation_ratio`, `stability_fee_ratio`, `period` and `total_balance` is
the payload's field when that field is non-zero and otherwise the field of the previously
stored configuration, a missing configuration counting as `debt_ceiling = 10,000 * 1e8`,
`liquidation_ratio = 0.4`, `stability_fee_ratio = 0.08`, `period = 365 days` and
`total_balance = 0`; the stored `current_time` is the block time. -/
theorem manage_merge (action : Action) (st : State) (manage : pty.CollateralizeManage)
    (r : State × List pty.ReceiptLog)
    (h : CollateralizeManage action st manage = .ok r) :
    ∃ cfg prev,
      r = ({ st with config := some cfg }, []) ∧
      (∀ c, st.config = some c → prev = c) ∧
      (st.config = none →
        prev.DebtCeiling = 10000 * 100000000 ∧ prev.LiquidationRatio = 4 / 10 ∧
        prev.StabilityFeeRatio = 8 / 100 ∧ prev.Period = 365 * 24 * 3600 ∧
        prev.TotalBalance = 0) ∧
      cfg.DebtCeiling = (if manage.DebtCeiling ≠ 0 then manage.DebtCeiling
        else prev.DebtCeiling) ∧
      cfg.LiquidationRatio = (if manage.LiquidationRatio ≠ 0 then manage.LiquidationRatio
        else prev.LiquidationRatio) ∧
      cfg.StabilityFeeRatio = (if manage.StabilityFeeRatio ≠ 0 then manage.StabilityFeeRatio
        else prev.StabilityFeeRatio) ∧
      cfg.Period = (if manage.Period ≠ 0 then manage.Period else prev.Period) ∧
      cfg.TotalBalance = (if manage.TotalBalance ≠ 0 then manage.TotalBalance
        else prev.TotalBalance) ∧
      cfg.CurrentTime = action.blocktime := by
  obtain ⟨h1, h2⟩ := manage_ok_inv h
  obtain ⟨cfg, prev, hk, hprev, f1, f2, f3, f4, f5, f6⟩ := manage_ok action st manage h1 h2
  rw [hk] at h
  refine ⟨cfg, prev, (Except.ok.inj h).symm, ?_, ?_, f1, f2, f3, f4, f5, f6⟩
  · intro c hc
    rw [hprev, hc]
  · intro hc
    rw [hprev, hc]
    refine ⟨?_, ?_, ?_, ?_, ?_⟩
    · show DefaultDebtCeiling = _
      unfold DefaultDebtCeiling Coin
      rfl
    · show DefaultLiquidationRatio = _
      rfl
    · show DefaultStabilityFeeRation = _
      rfl
    · show DefaultPeriod = _
      unfold DefaultPeriod
      norm_num
    · rfl

theorem manage_merge_witness :
    sampleManageResult = .ok (resultState sampleManageResult, resultLogs sampleManageResult) ∧
    (∃ cfg, resultState sampleManageResult = { sampleState [] with config := some cfg } ∧
      cfg.TotalBalance = 1 ∧ cfg.DebtCeiling = 1000000000000 ∧ cfg.LiquidationRatio = 4 / 10 ∧
      cfg.CurrentTime = 1000) ∧
    (∃ cfg,
      CollateralizeManage (sampleAction "admin" [6]) { sampleState [] with config := none }
        sampleManage = .ok ({ sampleState [] with config := some cfg }, []) ∧
      cfg.TotalBalance = 1 ∧ cfg.DebtCeiling = 1000000000000 ∧ cfg.Period = 31536000) := by
  refine ⟨by decide!, ?_, ?_⟩
  · obtain ⟨cfg, prev, hr, hp, -, f1, f2, -, -, f5, f6⟩ :=
      manage_merge (sampleAction "admin" [6]) (sampleState []) sampleManage
        (resultState sampleManageResult, resultLogs sampleManageResult) (by decide!)
    have hprev := hp _ rfl
    subst hprev
    refine ⟨cfg, congrArg Prod.fst hr, f5.trans (by decide!), f1.trans (by decide!),
      f2.trans (by decide!), f6⟩
  · have hrun : CollateralizeManage (sampleAction "admin" [6])
        { sampleState [] with config := none } sampleManage =
        .ok (resultState (CollateralizeManage (sampleAction "admin" [6])
              { sampleState [] with config := none } sampleManage),
             resultLogs (CollateralizeManage (sampleAction "admin" [6])
              { sampleState [] with config := none } sampleManage)) := by decide!
    obtain ⟨cfg, prev, hr, -, hd, f1, -, -, f4, f5, -⟩ :=
      manage_merge (sampleAction "admin" [6]) { sampleState [] with config := none }
        sampleManage _ hrun
    obtain ⟨d1, -, -, d4, -⟩ := hd rfl
    refine ⟨cfg, ?_, f5.trans (if_pos (by decide)), ?_, ?_⟩
    · rw [hrun, hr]
    · rw [f1, d1]
      decide!
    · rw [f4, d4]
      decide!

/-- C27: Manage is idempotent.  When a Manage succeeds, the same payload sent again by the
same caller at the same block time, on the state the first one left, succeeds and returns
that very state (stored configuration included) and no log. -/
theorem manage_idempotent (action action2 : Action) (st : State)
    (manage : pty.CollateralizeManage) (r : State × List pty.ReceiptLog)
    (h : CollateralizeManage action st manage = .ok r)
    (ha : action2.fromaddr = action.fromaddr) (ht : action2.blocktime = action.blocktime) :
    CollateralizeManage action2 r.1 manage = .ok r := by
  obtain ⟨h1, h2⟩ := manage_ok_inv h
  obtain ⟨cfg, prev, hk, hprev, f1, f2, f3, f4, f5, f6⟩ := manage_ok action st manage h1 h2
  rw [hk] at h
  cases Except.ok.inj h
  have h1' : isRightAddr .ManageKey action2.fromaddr { st with config := some cfg } = true := by
    rw [ha]
    exact h1
  obtain ⟨cfg2, prev2, hk2, hprev2, g1, g2, g3, g4, g5, g6⟩ :=
    manage_ok action2 { st with config := some cfg } manage h1' h2
  have hp2 : prev2 = cfg := hprev2
  subst hp2
  have e1 : cfg2.DebtCeiling = prev2.DebtCeiling := by
    rw [g1, f1]; split_ifs <;> rfl
  have e2 : cfg2.LiquidationRatio = prev2.LiquidationRatio := by
    rw [g2, f2]; split_ifs <;> rfl
  have e3 : cfg2.StabilityFeeRatio = prev2.StabilityFeeRatio := by
    rw [g3, f3]; split_ifs <;> rfl
  have e4 : cfg2.Period = prev2.Period := by
    rw [g4, f4]; split_ifs <;> rfl
  have e5 : cfg2.TotalBalance = prev2.TotalBalance := by
    rw [g5, f5]; split_ifs <;> rfl
  have e6 : cfg2.CurrentTime = prev2.CurrentTime := by
    rw [g6, f6, ht]
  have heq : cfg2 = prev2 := by
    cases cfg2
    cases prev2
    simp only at e1 e2 e3 e4 e5 e6
    simp only [e1, e2, e3, e4, e5, e6]
  rw [hk2, heq]

theorem manage_idempotent_witness :
    sampleManageResult = .ok (resultState sampleManageResult, resultLogs sampleManageResult) ∧
    secondManageResult = sampleManageResult :=
  ⟨by decide!,
   (manage_idempotent (sampleAction "admin" [6]) (sampleAction "admin" [6]) (sampleState [])
      sampleManage (resultState sampleManageResult, resultLogs sampleManageResult)
      (by decide!) rfl rfl).trans (by decide!)⟩


/-! ## Checks of Feed -/

/-- The three rejections of Feed, in the order of the source. -/
lemma feed_checks (X : Ext) (action : Action) (localdb : Lister) (st : State)
    (feed : pty.CollateralizeFeed) :
    ((feed.Price.length = 0 ∨ feed.Price.length ≠ feed.Volume.length) →
      CollateralizeFeed X action localdb st feed = .error .ErrInvalidParam) ∧
    (¬ (feed.Price.length = 0 ∨ feed.Price.length ≠ feed.Volume.length) →
      isRightAddr .PriceFeedKey action.fromaddr st = false →
      CollateralizeFeed X action localdb st feed = .error .ErrPermissionDeny) ∧
    (¬ (feed.Price.length = 0 ∨ feed.Price.length ≠ feed.Volume.length) →
      isRightAddr .PriceFeedKey action.fromaddr st = true →
      ∀ price, pricePolicy feed = .ok price → price ≤ 0 →
      CollateralizeFeed X action localdb st feed = .error .ErrPriceInvalid) := by
  refine ⟨?_, ?_, ?_⟩
  · intro h
    unfold CollateralizeFeed
    rw [if_pos h]
  · intro h hr
    unfold CollateralizeFeed
    rw [if_neg h]
    simp [hr]
  · intro h hr price hp hle
    unfold CollateralizeFeed
    rw [if_neg h]
    simp only [hr, Bool.not_true, Bool.false_eq_true, if_false, hp, if_pos hle]

/-- C28 (failing input): the feed `{price: [0.5], volume: [1]}` sent by `oracle`, on the vault
with the two loans `A` and `B` at liquidation price 1, has a non-empty price array as long as
the volume array, a caller in the price-feed-key list and the weighted price 0.5 > 0: it
passes the three checks.  It does not succeed: the second in-place removal of the price sweep
is out of bounds and the handler ends in a run-time panic, before the price record is
written. -/
theorem feed_past_checks_panics :
    ¬ (sampleFeed.Price.length = 0 ∨ sampleFeed.Price.length ≠ sampleFeed.Volume.length) ∧
    isRightAddr .PriceFeedKey (sampleAction "oracle" [3]).fromaddr (sampleState twoDueLoans) =
      true ∧
    pricePolicy sampleFeed = .ok (1 / 2) ∧
    twoDueFeedResult = .error .goPanic ∧
    systemLiquidation X0 (sampleAction "oracle" [3]) (sampleState twoDueLoans)
      (sampleVault twoDueLoans) (1 / 2) = .error .goPanic := by
  refine ⟨?_, ?_, ?_, ?_, ?_⟩ <;> decide!


/-! ## Borrow without a usable price -/

/-- C29 (counterexample): the sample Borrow of 1,000 units on vault `v` (status Created, debt
ceiling and balance 10,000 units) passes the vault, status, amount, ceiling and balance
checks; no price record is stored, and the Borrow fails with the error of the state read,
`ErrNotFound`, not with `ErrPriceInvalid`. -/
theorem borrow_without_price_not_found :
    noPriceState.price = none ∧
    queryCollateralizeByID noPriceState sampleBorrow.CollateralizeId = .ok (sampleVault []) ∧
    (sampleVault []).Status ≠ X0.CollateralizeStatusClose ∧
    0 < sampleBorrow.Value ∧ sampleBorrow.Value ≤ (sampleVault []).DebtCeiling ∧
    sampleBorrow.Value ≤ (sampleVault []).Balance ∧
    noPriceBorrowResult = .error .ErrNotFound ∧
    noPriceBorrowResult ≠ .error .ErrPriceInvalid := by
  refine ⟨?_, ?_, ?_, ?_, ?_, ?_, ?_, ?_⟩ <;> decide!

/-- C29 (amended): a Borrow that passes the vault, status, amount, ceiling and balance checks
fails with the error of the state read (`ErrNotFound`) when no price record is stored, and
with `ErrPriceInvalid` when the stored price is 0. -/
theorem borrow_price_errors (X : Ext) (action : Action) (st : State)
    (borrow : pty.CollateralizeBorrow) (coll : pty.Collateralize)
    (hq : queryCollateralizeByID st borrow.CollateralizeId = .ok coll)
    (hs : coll.Status ≠ X.CollateralizeStatusClose) (hv : 0 < borrow.Value)
    (hc : borrow.Value ≤ coll.DebtCeiling) (hb : borrow.Value ≤ coll.Balance) :
    (st.price = none → CollateralizeBorrow X action st borrow = .error .ErrNotFound) ∧
    (∀ record, st.price = some record → record.BtyPrice = 0 →
      CollateralizeBorrow X action st borrow = .error .ErrPriceInvalid) := by
  constructor
  · intro hp
    unfold CollateralizeBorrow
    simp only [hq, hs, if_false, not_le.mpr hv, not_lt.mpr hc, not_lt.mpr hb,
      getLatestPrice, hp]
  · intro record hp h0
    unfold CollateralizeBorrow
    simp only [hq, hs, if_false, not_le.mpr hv, not_lt.mpr hc, not_lt.mpr hb,
      getLatestPrice, hp, h0, getBtyNumToFrozen, if_true]

theorem borrow_price_errors_witness :
    CollateralizeBorrow X0 (sampleAction "bob" [1]) noPriceState sampleBorrow =
      .error .ErrNotFound ∧
    CollateralizeBorrow X0 (sampleAction "bob" [1])
      { sampleState [] with price := some { BtyPrice := 0, RecordTime := 0 } } sampleBorrow =
      .error .ErrPriceInvalid :=
  ⟨(borrow_price_errors X0 (sampleAction "bob" [1]) noPriceState sampleBorrow (sampleVault [])
      (by decide!) (by decide) (by decide) (by decide) (by decide)).1 rfl,
   (borrow_price_errors X0 (sampleAction "bob" [1])
      { sampleState [] with price := some { BtyPrice := 0, RecordTime := 0 } } sampleBorrow
      (sampleVault []) (by decide!) (by decide) (by decide) (by decide) (by decide)).2
      { BtyPrice := 0, RecordTime := 0 } rfl rfl⟩


/-! ## Collateral round trip -/

lemma getBtyNumToFrozen_floor (v : Int) (p r : ℚ) (hv : 0 ≤ v) (hp : 0 < p) (hr : 0 < r) :
    getBtyNumToFrozen v p r =
      .ok (⌊(((v : ℚ) / 100000000) / (p * r) + 1 / 10000000) * 10000⌋ * 10000) := by
  unfold getBtyNumToFrozen
  rw [if_neg (ne_of_gt hp)]
  have hvq : (0 : ℚ) ≤ (v : ℚ) := by exact_mod_cast hv
  have h0 : (0 : ℚ) ≤ (((v : ℚ) / 100000000) / (p * r) + 1 / 10000000) * 10000 := by
    have : (0 : ℚ) ≤ ((v : ℚ) / 100000000) / (p * r) :=
      div_nonneg (div_nonneg hvq (by norm_num)) (le_of_lt (mul_pos hp hr))
    positivity
  simp only [truncQ_of_nonneg h0]

/-- C30: for `v > 0`, `p > 0`, `0 < r < 1` and `c = getBtyNumToFrozen v p r > 0`, with
`b = (v / 1e8) / (p * r)`: the collateral in units satisfies
`b + 1e-7 - 1e-4 < c / 1e8 ≤ b + 1e-7`, and the price computed back from it,
`calcLiquidationPrice v c = (v / c) * PRE_LIQUIDATION_RATIO`, differs from the borrow-time
liquidation price `r * p * PRE_LIQUIDATION_RATIO` by a relative error below
`1e-4 / (c / 1e8)` (for a positive `PRE_LIQUIDATION_RATIO`). -/
theorem collateral_round_trip (X : Ext) (v c : Int) (p r : ℚ) (hv : 0 < v) (hp : 0 < p)
    (hr0 : 0 < r) (hr1 : r < 1) (hc : getBtyNumToFrozen v p r = .ok c) (hcpos : 0 < c)
    (hpre : 0 < X.CollateralizePreLiquidationRatio) :
    ((v : ℚ) / 100000000) / (p * r) + 1 / 10000000 - 1 / 10000 < (c : ℚ) / 100000000 ∧
    (c : ℚ) / 100000000 ≤ ((v : ℚ) / 100000000) / (p * r) + 1 / 10000000 ∧
    calcLiquidationPrice X v c = ((v : ℚ) / (c : ℚ)) * X.CollateralizePreLiquidationRatio ∧
    |calcLiquidationPrice X v c - r * p * X.CollateralizePreLiquidationRatio| /
        (r * p * X.CollateralizePreLiquidationRatio) <
      (1 / 10000) / ((c : ℚ) / 100000000) := by
  have hspec := (getBtyNumToFrozen_floor v p r (le_of_lt hv) hp hr0)
  rw [hspec] at hc
  have hceq := Except.ok.inj hc
  set b : ℚ := ((v : ℚ) / 100000000) / (p * r) with hb
  have hvq : (0 : ℚ) < (v : ℚ) := by exact_mod_cast hv
  have hcq : (0 : ℚ) < (c : ℚ) := by exact_mod_cast hcpos
  have hpr : 0 < p * r := mul_pos hp hr0
  have hbpos : 0 < b := div_pos (div_pos hvq (by norm_num)) hpr
  have hfl1 : ((⌊(b + 1 / 10000000) * 10000⌋ : Int) : ℚ) ≤ (b + 1 / 10000000) * 10000 :=
    Int.floor_le _
  have hfl2 : (b + 1 / 10000000) * 10000 < ((⌊(b + 1 / 10000000) * 10000⌋ : Int) : ℚ) + 1 :=
    Int.lt_floor_add_one _
  have hcval : (c : ℚ) = ((⌊(b + 1 / 10000000) * 10000⌋ : Int) : ℚ) * 10000 := by
    rw [← hceq]
    push_cast
    ring
  have hlow : b + 1 / 10000000 - 1 / 10000 < (c : ℚ) / 100000000 := by
    rw [hcval]
    linarith
  have hup : (c : ℚ) / 100000000 ≤ b + 1 / 10000000 := by
    rw [hcval]
    linarith
  refine ⟨hlow, hup, rfl, ?_⟩
  have hC : (0 : ℚ) < (c : ℚ) / 100000000 := div_pos hcq (by norm_num)
  have hrp : r * p = ((v : ℚ) / 100000000) / b := by
    rw [hb]
    field_simp
    ring
  have hden : 0 < r * p * X.CollateralizePreLiquidationRatio :=
    mul_pos (mul_pos hr0 hp) hpre
  have hrel : (calcLiquidationPrice X v c - r * p * X.CollateralizePreLiquidationRatio) /
      (r * p * X.CollateralizePreLiquidationRatio) =
      (b - (c : ℚ) / 100000000) / ((c : ℚ) / 100000000) := by
    unfold calcLiquidationPrice
    simp only
    rw [hrp]
    have hb0 : b ≠ 0 := ne_of_gt hbpos
    have hv0 : (v : ℚ) ≠ 0 := ne_of_gt hvq
    have hc0 : (c : ℚ) ≠ 0 := ne_of_gt hcq
    have hx0 : X.CollateralizePreLiquidationRatio ≠ 0 := ne_of_gt hpre
    field_simp
    ring
  have habs : |calcLiquidationPrice X v c - r * p * X.CollateralizePreLiquidationRatio| /
      (r * p * X.CollateralizePreLiquidationRatio) =
      |(calcLiquidationPrice X v c - r * p * X.CollateralizePreLiquidationRatio) /
        (r * p * X.CollateralizePreLiquidationRatio)| := by
    rw [abs_div, abs_of_pos hden]
  rw [habs, hrel, abs_div, abs_of_pos hC]
  apply div_lt_div_of_pos_right _ hC
  rw [abs_lt]
  constructor <;> linarith

theorem collateral_round_trip_witness :
    getBtyNumToFrozen 100000000000 1 (4 / 10) = .ok 250000000000 ∧
    ((100000000000 : Int) : ℚ) / 100000000 / (1 * (4 / 10)) + 1 / 10000000 - 1 / 10000 <
      ((250000000000 : Int) : ℚ) / 100000000 ∧
    |calcLiquidationPrice X0 100000000000 250000000000 -
        4 / 10 * 1 * X0.CollateralizePreLiquidationRatio| /
        (4 / 10 * 1 * X0.CollateralizePreLiquidationRatio) <
      (1 / 10000) / (((250000000000 : Int) : ℚ) / 100000000) :=
  have h := collateral_round_trip X0 100000000000 250000000000 1 (4 / 10) (by decide)
    (by decide!) (by decide!) (by decide!) (by decide!) (by decide) (by decide!)
  ⟨by decide!, h.1, h.2.2.2⟩


/-! ## Sweep safety -/

/-- C33 (failing input): on the vault with the two loans `A` and `B` at liquidation price 1,
the price sweep at price 0.5 seizes `A` at position 0, which leaves a slice of length 1 over
the backing array `[B, B]`; it then reads `B` at position 1, seizes it, and the removal at
position 1 of a slice of length 1 is out of range: the sweep ends in a run-time panic.  The
expiry sweep at block time 1000 does the same on two loans expired at time 500. -/
theorem sweeps_panic_on_two_seizures :
    removeAt [0, 1] 2 0 = .ok ([1, 1], 1) ∧
    removeAt [1, 1] 1 1 = .error .goPanic ∧
    systemLiquidation X0 (sampleAction "oracle" [3]) (sampleState twoDueLoans)
      (sampleVault twoDueLoans) (1 / 2) = .error .goPanic ∧
    expireLiquidation X0 (sampleAction "oracle" [3]) (sampleState twoExpiredLoans)
      (sampleVault twoExpiredLoans) = .error .goPanic := by
  refine ⟨?_, ?_, ?_, ?_⟩ <;> decide!

/-! ## Retrieve never closes a vault with loans -/

lemma fieldSum_pos_of_ne_nil (f : pty.BorrowRecord → Int) :
    ∀ (l : List pty.BorrowRecord), (∀ x ∈ l, 0 < f x) → l ≠ [] → 0 < fieldSum f l
  | [], _, h => absurd rfl h
  | x :: l, hpos, _ => by
    have hx : 0 < f x := hpos x (List.mem_cons_self _ _)
    have hl : 0 ≤ fieldSum f l := by
      by_cases hnil : l = []
      · subst hnil
        simp [fieldSum]
      · exact le_of_lt (fieldSum_pos_of_ne_nil f l
          (fun y hy => hpos y (List.mem_cons_of_mem _ hy)) hnil)
    have : fieldSum f (x :: l) = f x + fieldSum f l := by simp [fieldSum]
    rw [this]
    omega

/-- C34: a vault with outstanding loans is never closed by Retrieve.  For a vault that
satisfies `balance + Σ(active debt_value) = total_balance` with every active debt positive
and that is not closed, a successful Retrieve stores the vault with status Close only if it
has no active loan, and then its balance and total balance are both 0; with an active loan
the status is unchanged. -/
theorem retrieve_closes_only_without_loans (X : Ext) (action : Action) (st : State)
    (retrieve : pty.CollateralizeRetrieve) (r : State × List pty.ReceiptLog)
    (coll : pty.Collateralize)
    (hq : queryCollateralizeByID st retrieve.CollateralizeId = .ok coll)
    (h : CollateralizeRetrieve X action st retrieve = .ok r)
    (hinv : BalanceInv coll) (hpos : ∀ x ∈ coll.BorrowRecords, 0 < x.DebtValue)
    (hs : coll.Status ≠ X.CollateralizeStatusClose) :
    ∃ coll', r.1.vaults = kvSet st.vaults coll.CollateralizeId coll' ∧
      coll'.BorrowRecords = coll.BorrowRecords ∧
      retrieve.Balance ≤ coll.Balance ∧
      (coll'.Status = X.CollateralizeStatusClose →
        coll'.BorrowRecords = [] ∧ coll'.Balance = 0 ∧ coll'.TotalBalance = 0) ∧
      (coll.BorrowRecords ≠ [] → coll'.Status = coll.Status) := by
  obtain ⟨coll0, token1, hq0, -, hle, -, hr⟩ := retrieve_ok_inv h
  rw [hq] at hq0
  cases Except.ok.inj hq0
  subst hr
  obtain ⟨g1, -, -, -, g5⟩ := retrieveVault_stamp X action coll retrieve
  obtain ⟨f1, f2, f3, -, -⟩ := retrieveVault_fields X action coll retrieve
  have hsum : coll.BorrowRecords ≠ [] → coll.TotalBalance - retrieve.Balance ≠ 0 := by
    intro hne
    have hp := fieldSum_pos_of_ne_nil (fun x => x.DebtValue) coll.BorrowRecords hpos hne
    have hb : coll.Balance + fieldSum (fun x => x.DebtValue) coll.BorrowRecords =
        coll.TotalBalance := hinv
    omega
  refine ⟨retrieveVault X action coll retrieve, ?_, f1, hle, ?_, ?_⟩
  · show kvSet st.vaults _ _ = _
    rw [g1]
  · intro hclose
    rw [g5] at hclose
    by_cases hz : coll.TotalBalance - retrieve.Balance = 0
    · have hnil : coll.BorrowRecords = [] := by
        by_contra hne
        exact hsum hne hz
      have hb : coll.Balance + fieldSum (fun x => x.DebtValue) coll.BorrowRecords =
          coll.TotalBalance := hinv
      rw [hnil] at hb
      simp only [fieldSum, List.map_nil, List.sum_nil, add_zero] at hb
      refine ⟨f1.trans hnil, ?_, ?_⟩
      · rw [f2]; omega
      · rw [f3]; exact hz
    · rw [if_neg hz] at hclose
      exact absurd hclose hs
  · intro hne
    rw [g5, if_neg (hsum hne)]

theorem retrieve_closes_only_without_loans_witness :
    BalanceInv (sampleVault [sampleLoan "A" 1]) ∧
    (∃ r, CollateralizeRetrieve X0 (sampleAction "alice" [8]) (sampleState [sampleLoan "A" 1])
        { CollateralizeId := "v", Balance := 900000000000 } = .ok r ∧
      ∃ coll', r.1.vaults = kvSet (sampleState [sampleLoan "A" 1]).vaults "v" coll' ∧
        coll'.BorrowRecords = [sampleLoan "A" 1] ∧
        coll'.Status = X0.CollateralizeStatusCreated) := by
  refine ⟨by decide!, ?_⟩
  have hrun : CollateralizeRetrieve X0 (sampleAction "alice" [8])
      (sampleState [sampleLoan "A" 1]) { CollateralizeId := "v", Balance := 900000000000 } =
      .ok (resultState (CollateralizeRetrieve X0 (sampleAction "alice" [8])
            (sampleState [sampleLoan "A" 1])
            { CollateralizeId := "v", Balance := 900000000000 }),
           resultLogs (CollateralizeRetrieve X0 (sampleAction "alice" [8])
            (sampleState [sampleLoan "A" 1])
            { CollateralizeId := "v", Balance := 900000000000 })) := by decide!
  obtain ⟨coll', hv, hb, -, -, hkeep⟩ :=
    retrieve_closes_only_without_loans X0 (sampleAction "alice" [8])
      (sampleState [sampleLoan "A" 1]) { CollateralizeId := "v", Balance := 900000000000 } _
      (sampleVault [sampleLoan "A" 1]) (by decide!) hrun (by decide!)
      (by decide!) (by decide)
  exact ⟨_, hrun, coll', hv, hb, hkeep (by decide)⟩


/-! ## Soundness of the expiry gate -/

lemma expireLe_of_cache {c : pty.Collateralize} (h : ExpireCacheInv c) : ExpireLe c := by
  intro r hr
  have h1 : c.LatestExpireTime = getLatestExpireTime c := h
  rw [h1]
  exact (getLatestExpireTime_spec c).2.1 r hr

lemma expire_step_skip (X : Ext) (action : Action) (st : State) (coll : pty.Collateralize)
    (hall : ∀ r ∈ coll.BorrowRecords, r.ExpireTime - ExpireWarningTime > action.blocktime)
    (i : Nat) (hi : i < coll.BorrowRecords.length) :
    expireLiquidationStep X action st coll i (sweepInit st coll) = .ok (sweepInit st coll) := by
  unfold expireLiquidationStep
  have harr : (sweepInit st coll).arr[i]? = some i := by
    show (List.range coll.BorrowRecords.length)[i]? = some i
    rw [List.getElem?_range hi]
  have hheap : (sweepInit st coll).heap i ∈ coll.BorrowRecords := by
    show coll.BorrowRecords.getD i default ∈ coll.BorrowRecords
    rw [List.getD_eq_getElem _ _ hi]
    exact List.getElem_mem _
  simp only [harr, if_pos (hall _ hheap)]

lemma expire_loop_skip (X : Ext) (action : Action) (st : State) (coll : pty.Collateralize)
    (hall : ∀ r ∈ coll.BorrowRecords, r.ExpireTime - ExpireWarningTime > action.blocktime) :
    ∀ (l : List Nat), (∀ i ∈ l, i < coll.BorrowRecords.length) →
      sweepLoop (expireLiquidationStep X action st coll) l (sweepInit st coll) =
        .ok (sweepInit st coll)
  | [], _ => rfl
  | i :: l, hl => by
    unfold sweepLoop
    rw [expire_step_skip X action st coll hall i (hl i (List.mem_cons_self _ _))]
    exact expire_loop_skip X action st coll hall l
      (fun j hj => hl j (List.mem_cons_of_mem _ hj))

lemma sweepFinish_init (st : State) (coll : pty.Collateralize) :
    sweepFinish st coll (sweepInit st coll) =
      (Save (recomputeCaches coll) st, recomputeCaches coll, []) := by
  have hBR : (List.take coll.BorrowRecords.length (List.range coll.BorrowRecords.length)).map
      (fun p => coll.BorrowRecords.getD p default) = coll.BorrowRecords := by
    rw [List.take_of_length_le (by simp)]
    exact range_map_getD coll.BorrowRecords default
  simp only [sweepFinish, sweepInit, List.map_nil, List.append_nil, hBR]
  rfl

lemma expire_sweep_noop (X : Ext) (action : Action) (st : State) (coll : pty.Collateralize)
    (hall : ∀ r ∈ coll.BorrowRecords, r.ExpireTime - ExpireWarningTime > action.blocktime) :
    expireLiquidation X action st coll =
      .ok (Save (recomputeCaches coll) st, recomputeCaches coll, []) := by
  unfold expireLiquidation
  rw [expire_loop_skip X action st coll hall _ (fun i hi => List.mem_range.mp hi)]
  simp only [sweepFinish_init]

lemma price_sweep_after_noop (X : Ext) (action : Action) (st st2 : State)
    (coll c2 : pty.Collateralize) (price : ℚ) (logs2 : List pty.ReceiptLog)
    (h : systemLiquidation X action st coll price = .ok (st2, c2, logs2)) :
    systemLiquidation X action (Save (recomputeCaches coll) st) (recomputeCaches coll) price =
      .ok (Save c2 { Save (recomputeCaches coll) st with coins := st2.coins }, c2, logs2) := by
  obtain ⟨m, hl, hm⟩ := sweepLoop_result h
  have hl' : sweepLoop
      (systemLiquidationStep X action (Save (recomputeCaches coll) st) (recomputeCaches coll)
        price)
      (List.range (recomputeCaches coll).BorrowRecords.length)
      (sweepInit (Save (recomputeCaches coll) st) (recomputeCaches coll)) = .ok m := hl
  unfold systemLiquidation
  rw [hl']
  have h2 : st2 = (sweepFinish st coll m).1 := congrArg Prod.fst hm
  have h3 : c2 = (sweepFinish st coll m).2.1 := congrArg (fun x => x.2.1) hm
  have h4 : logs2 = (sweepFinish st coll m).2.2 := congrArg (fun x => x.2.2) hm
  rw [h2, h3, h4]
  rfl

lemma expireLe_handlers (X : Ext) :
    (∀ action localdb st create r, CollateralizeCreate X action localdb st create = .ok r →
      AllVaults ExpireLe st → AllVaults ExpireLe r.1) ∧
    (∀ action st borrow r, CollateralizeBorrow X action st borrow = .ok r →
      AllVaults ExpireLe st → AllVaults ExpireLe r.1) ∧
    (∀ action st repay r, CollateralizeRepay X action st repay = .ok r →
      AllVaults ExpireLe st → AllVaults ExpireLe r.1) ∧
    (∀ action st cAppend r, CollateralizeAppend X action st cAppend = .ok r →
      AllVaults ExpireLe st → AllVaults ExpireLe r.1) ∧
    (∀ action st retrieve r, CollateralizeRetrieve X action st retrieve = .ok r →
      AllVaults ExpireLe st → AllVaults ExpireLe r.1) :=
  handlers_preserve X ExpireLe
    (fun _ _ _ r hr => by cases hr)
    (fun _ _ _ h r hr => h r hr)
    (fun _ coll borrow _ c _ => expireLe_of_cache (expireCacheInv_borrowVault X coll borrow _ c))
    (fun _ coll index _ _ _ => expireLe_of_cache (caches_repayVault coll index _).2)
    (fun _ coll index _ cAppend _ _ _ =>
      expireLe_of_cache (caches_appendVault coll index _ cAppend).2)
    (fun action coll retrieve h r hr => by
      rw [(retrieveVault_caches X action coll retrieve).2.1]
      rw [(retrieveVault_fields X action coll retrieve).1] at hr
      exact h r hr)

/-- C35: soundness of the expiry gate (`ExpireWarningTime` is 10 days, 864000 seconds).
Every successful Create, Borrow, Repay, Append, Retrieve and Feed keeps, for all stored
vaults, `latest_expire_time ≤ expire_time` of every active loan.  For a vault with that
property for which the gate `latest_expire_time - 10 days ≤ blocktime` is false, no active
loan is expired or inside the warning window; the expiry sweep, if run, succeeds without a
log, without a ledger change and without changing any field of the vault but the two caches,
which it recomputes (so it returns the vault itself when the caches are exact); and the price
sweep that follows returns the same vault, logs and ledger after it as without it. -/
theorem expiry_gate_sound (X : Ext) :
    ExpireWarningTime = 864000 ∧
    (∀ action localdb st create r, CollateralizeCreate X action localdb st create = .ok r →
      AllVaults ExpireLe st → AllVaults ExpireLe r.1) ∧
    (∀ action st borrow r, CollateralizeBorrow X action st borrow = .ok r →
      AllVaults ExpireLe st → AllVaults ExpireLe r.1) ∧
    (∀ action st repay r, CollateralizeRepay X action st repay = .ok r →
      AllVaults ExpireLe st → AllVaults ExpireLe r.1) ∧
    (∀ action st cAppend r, CollateralizeAppend X action st cAppend = .ok r →
      AllVaults ExpireLe st → AllVaults ExpireLe r.1) ∧
    (∀ action st retrieve r, CollateralizeRetrieve X action st retrieve = .ok r →
      AllVaults ExpireLe st → AllVaults ExpireLe r.1) ∧
    (∀ action localdb st feed r, CollateralizeFeed X action localdb st feed = .ok r →
      AllVaults ExpireLe st → AllVaults ExpireLe r.1) ∧
    (∀ (action : Action) (st : State) (coll : pty.Collateralize), ExpireLe coll →
      ¬ (coll.LatestExpireTime - ExpireWarningTime ≤ action.blocktime) →
      (∀ r ∈ coll.BorrowRecords,
        ¬ r.ExpireTime ≤ action.blocktime ∧
        r.ExpireTime - ExpireWarningTime > action.blocktime) ∧
      expireLiquidation X action st coll =
        .ok (Save (recomputeCaches coll) st, recomputeCaches coll, []) ∧
      (PriceCacheInv coll → ExpireCacheInv coll → recomputeCaches coll = coll) ∧
      (∀ price st2 c2 logs2,
        systemLiquidation X action st coll price = .ok (st2, c2, logs2) →
        systemLiquidation X action (Save (recomputeCaches coll) st) (recomputeCaches coll)
            price =
          .ok (Save c2 { Save (recomputeCaches coll) st with coins := st2.coins }, c2,
            logs2))) := by
  obtain ⟨h1, h2, h3, h4, h5⟩ := expireLe_handlers X
  have hW : ExpireWarningTime = 864000 := by unfold ExpireWarningTime; norm_num
  refine ⟨hW, h1, h2, h3, h4, h5, ?_, ?_⟩
  · intro action localdb st feed r h hinv
    exact feed_preserves
      (fun _ _ _ _ _ _ hs _ => expireLe_of_cache (systemLiquidation_caches hs).2)
      (fun _ _ _ _ _ he _ => expireLe_of_cache (expireLiquidation_caches he).2) h hinv
  · intro action st coll hle hgate
    have hall : ∀ r ∈ coll.BorrowRecords,
        r.ExpireTime - ExpireWarningTime > action.blocktime := by
      intro r hr
      have := hle r hr
      omega
    refine ⟨?_, expire_sweep_noop X action st coll hall, ?_, ?_⟩
    · intro r hr
      have := hall r hr
      refine ⟨?_, this⟩
      rw [hW] at this
      omega
    · intro hp he
      have hp' : coll.LatestLiquidationPrice = getLatestLiquidationPrice coll := hp
      have he' : coll.LatestExpireTime = getLatestExpireTime coll := he
      unfold recomputeCaches
      rw [← hp', ← he']
    · intro price st2 c2 logs2 hs
      exact price_sweep_after_noop X action st st2 coll c2 price logs2 hs

theorem expiry_gate_sound_witness :
    AllVaults ExpireLe (sampleState [sampleLoan "A" 1]) ∧
    AllVaults ExpireLe (resultState sampleTopUpResult) ∧
    ExpireLe (sampleVault [sampleLoan "A" 1]) ∧
    ¬ ((sampleVault [sampleLoan "A" 1]).LatestExpireTime - ExpireWarningTime ≤
        (sampleAction "oracle" [3]).blocktime) ∧
    expireLiquidation X0 (sampleAction "oracle" [3]) (sampleState [sampleLoan "A" 1])
        (sampleVault [sampleLoan "A" 1]) =
      .ok (Save (recomputeCaches (sampleVault [sampleLoan "A" 1]))
            (sampleState [sampleLoan "A" 1]),
          recomputeCaches (sampleVault [sampleLoan "A" 1]), []) ∧
    recomputeCaches (sampleVault [sampleLoan "A" 1]) = sampleVault [sampleLoan "A" 1] := by
  have hv : ExpireLe (sampleVault [sampleLoan "A" 1]) := by
    intro r hr
    simp only [sampleVault, List.mem_singleton] at hr
    subst hr
    decide
  have hst : AllVaults ExpireLe (sampleState [sampleLoan "A" 1]) :=
    allVaults_sampleState hv
  have hgate : ¬ ((sampleVault [sampleLoan "A" 1]).LatestExpireTime - ExpireWarningTime ≤
      (sampleAction "oracle" [3]).blocktime) := by decide
  obtain ⟨-, h2, h3, -⟩ :=
    (expiry_gate_sound X0).2.2.2.2.2.2.2 (sampleAction "oracle" [3])
      (sampleState [sampleLoan "A" 1]) (sampleVault [sampleLoan "A" 1]) hv hgate
  exact ⟨hst,
    (expiry_gate_sound X0).2.1 (sampleAction "alice" [5]) sampleLister
      (sampleState [sampleLoan "A" 1]) { TotalBalance := 50000000000 }
      (resultState sampleTopUpResult, resultLogs sampleTopUpResult) (by decide!) hst,
    hv, hgate, h2, h3 (by decide!) (by decide!)⟩


/-! ## The index maintainer -/

lemma execLocalLoop_step {β κ : Type} (X : Ext) (O : LocalOps β κ)
    (hnodup : (collateralizeLogTags X).Nodup) (item : RawLog β) (rest : List (RawLog β))
    (kv : List κ) :
    execLocalLoop X O (item :: rest) kv =
      (match ruleItem X O item with
        | .error e => .error e
        | .ok delta => execLocalLoop X O rest (kv ++ delta)) := by
  simp only [collateralizeLogTags, List.nodup_cons, List.mem_cons, List.mem_singleton,
    List.not_mem_nil, not_or, List.nodup_nil, and_true, or_false, not_false_eq_true] at hnodup
  obtain ⟨⟨h12, h13, h14, h15, h16⟩, ⟨h23, h24, h25, h26⟩, ⟨h34, h35, h36⟩, ⟨h45, h46⟩,
    h56⟩ := hnodup
  conv_lhs => unfold execLocalLoop
  unfold ruleItem
  simp only [collateralizeLogTags, List.mem_cons, List.mem_singleton, List.not_mem_nil,
    or_false]
  by_cases hmem : item.Ty = X.TyLogCollateralizeCreate ∨ item.Ty = X.TyLogCollateralizeBorrow ∨
      item.Ty = X.TyLogCollateralizeAppend ∨ item.Ty = X.TyLogCollateralizeRepay ∨
      item.Ty = X.TyLogCollateralizeFeed ∨ item.Ty = X.TyLogCollateralizeRetrieve
  · rw [if_pos hmem, if_pos hmem]
    cases hd : O.Decode item.Log with
    | error e => rfl
    | ok log =>
      simp only
      unfold ruleDelta
      rcases hmem with h | h | h | h | h | h
      · simp [h, List.append_assoc]
      · simp [h, h12, Ne.symm h12, h26, List.append_assoc]
      · simp [h, Ne.symm h13, Ne.symm h23, h34, h35, h36]
        split_ifs <;> simp [List.append_assoc]
      · simp [h, Ne.symm h14, Ne.symm h24, Ne.symm h34, h46, List.append_assoc]
      · simp [h, Ne.symm h15, Ne.symm h25, Ne.symm h35, Ne.symm h45, h56, List.append_assoc]
      · simp [h, Ne.symm h16, Ne.symm h26, Ne.symm h36, Ne.symm h46, Ne.symm h56,
          List.append_assoc]
  · rw [if_neg hmem, if_neg hmem]
    simp

lemma execLocalLoop_rule {β κ : Type} (X : Ext) (O : LocalOps β κ)
    (hnodup : (collateralizeLogTags X).Nodup) :
    ∀ (logs : List (RawLog β)) (kv : List κ),
      execLocalLoop X O logs kv =
        (match ruleExecLocal X O logs with
          | .error e => .error e
          | .ok deltas => .ok (kv ++ deltas))
  | [], kv => by simp [execLocalLoop, ruleExecLocal]
  | item :: rest, kv => by
    rw [execLocalLoop_step X O hnodup]
    unfold ruleExecLocal
    cases hi : ruleItem X O item with
    | error e => rfl
    | ok delta =>
      simp only
      rw [execLocalLoop_rule X O hnodup rest]
      cases hr : ruleExecLocal X O rest with
      | error e => rfl
      | ok deltas => simp [List.append_assoc]

/-- C31: for pairwise different log tags, `execLocal` returns the per-log delta lists of the
index rules concatenated in log order.  A Create or Retrieve log gives delete
vault-status(pre_status, pre_index), delete vault-addr(create_addr, pre_index), add
vault-status(status, id, index), add vault-addr(create_addr, id, status, index); a Borrow log
gives add record-status and add record-addr; a Repay or Feed log gives delete
record-status(pre_status, pre_index), add record-status(status, id, record_id, index); an
Append log gives that pair when its status is Warning and nothing otherwise; a log of another
type gives nothing and is not decoded; and when a collateralize log cannot be decoded,
`execLocal` returns the decoding error instead of a delta set. -/
theorem execLocal_rules {β κ : Type} (X : Ext) (O : LocalOps β κ)
    (hnodup : (collateralizeLogTags X).Nodup) :
    (∀ logs, execLocal X O logs = ruleExecLocal X O logs) ∧
    (∀ item rest deltas, ruleExecLocal X O rest = .ok deltas →
      (∀ delta, ruleItem X O item = .ok delta →
        execLocal X O (item :: rest) = .ok (delta ++ deltas)) ∧
      (∀ e, ruleItem X O item = .error e → execLocal X O (item :: rest) = .error e)) ∧
    (∀ item log, O.Decode item.Log = .ok log →
      ((item.Ty = X.TyLogCollateralizeCreate ∨ item.Ty = X.TyLogCollateralizeRetrieve) →
        ruleItem X O item =
          .ok (O.deleteCollateralizeStatus log.PreStatus log.PreIndex ++
            O.deleteCollateralizeAddr log.CreateAddr log.PreIndex ++
            O.addCollateralizeStatus log.Status log.CollateralizeId log.Index ++
            O.addCollateralizeAddr log.CreateAddr log.CollateralizeId log.Status log.Index)) ∧
      (item.Ty = X.TyLogCollateralizeBorrow →
        ruleItem X O item =
          .ok (O.addCollateralizeRecordStatus log.Status log.CollateralizeId log.RecordId
              log.Index ++
            O.addCollateralizeRecordAddr log.AccountAddr log.CollateralizeId log.RecordId
              log.Index)) ∧
      ((item.Ty = X.TyLogCollateralizeRepay ∨ item.Ty = X.TyLogCollateralizeFeed) →
        ruleItem X O item =
          .ok (O.deleteCollateralizeRecordStatus log.PreStatus log.PreIndex ++
            O.addCollateralizeRecordStatus log.Status log.CollateralizeId log.RecordId
              log.Index)) ∧
      (item.Ty = X.TyLogCollateralizeAppend →
        log.Status = X.CollateralizeUserStatusWarning →
        ruleItem X O item =
          .ok (O.deleteCollateralizeRecordStatus log.PreStatus log.PreIndex ++
            O.addCollateralizeRecordStatus log.Status log.CollateralizeId log.RecordId
              log.Index)) ∧
      (item.Ty = X.TyLogCollateralizeAppend →
        log.Status ≠ X.CollateralizeUserStatusWarning → ruleItem X O item = .ok [])) ∧
    (∀ item, item.Ty ∉ collateralizeLogTags X → ruleItem X O item = .ok []) ∧
    (∀ item e, item.Ty ∈ collateralizeLogTags X → O.Decode item.Log = .error e →
      ruleItem X O item = .error e) := by
  have hrule : ∀ logs, execLocal X O logs = ruleExecLocal X O logs := by
    intro logs
    unfold execLocal
    rw [execLocalLoop_rule X O hnodup]
    cases ruleExecLocal X O logs with
    | error e => rfl
    | ok deltas => simp
  have hn := hnodup
  simp only [collateralizeLogTags, List.nodup_cons, List.mem_cons, List.mem_singleton,
    List.not_mem_nil, not_or, List.nodup_nil, and_true, or_false, not_false_eq_true] at hn
  obtain ⟨⟨h12, h13, h14, h15, h16⟩, ⟨h23, h24, h25, h26⟩, ⟨h34, h35, h36⟩, ⟨h45, h46⟩,
    h56⟩ := hn
  refine ⟨hrule, ?_, ?_, ?_, ?_⟩
  · intro item rest deltas hrest
    constructor
    · intro delta hd
      rw [hrule]
      simp only [ruleExecLocal, hd, hrest]
    · intro e he
      rw [hrule]
      simp only [ruleExecLocal, he]
  · intro item log hd
    refine ⟨?_, ?_, ?_, ?_, ?_⟩
    · intro h
      have hmem : item.Ty ∈ collateralizeLogTags X := by
        simp only [collateralizeLogTags, List.mem_cons, List.mem_singleton]
        rcases h with h | h
        · exact Or.inl h
        · exact Or.inr (Or.inr (Or.inr (Or.inr (Or.inr (Or.inl h)))))
      simp only [ruleItem, if_pos hmem, hd, ruleDelta, if_pos h]
    · intro h
      have hmem : item.Ty ∈ collateralizeLogTags X := by
        simp [collateralizeLogTags, h]
      simp only [ruleItem, if_pos hmem, hd, ruleDelta]
      simp [h, Ne.symm h12, h26]
    · intro h
      have hmem : item.Ty ∈ collateralizeLogTags X := by
        simp only [collateralizeLogTags, List.mem_cons, List.mem_singleton]
        rcases h with h | h
        · exact Or.inr (Or.inr (Or.inr (Or.inl h)))
        · exact Or.inr (Or.inr (Or.inr (Or.inr (Or.inl h))))
      simp only [ruleItem, if_pos hmem, hd, ruleDelta]
      rcases h with h | h
      · simp [h, Ne.symm h14, Ne.symm h24, h46]
      · simp [h, Ne.symm h15, Ne.symm h25, h56]
    · intro h hw
      have hmem : item.Ty ∈ collateralizeLogTags X := by
        simp [collateralizeLogTags, h]
      simp only [ruleItem, if_pos hmem, hd, ruleDelta]
      simp [h, Ne.symm h13, Ne.symm h23, h34, h35, h36, hw]
    · intro h hw
      have hmem : item.Ty ∈ collateralizeLogTags X := by
        simp [collateralizeLogTags, h]
      simp only [ruleItem, if_pos hmem, hd, ruleDelta]
      simp [h, Ne.symm h13, Ne.symm h23, h34, h35, h36, hw]
  · intro item h
    simp only [ruleItem, if_neg h]
  · intro item e hmem hd
    simp only [ruleItem, if_pos hmem, hd]

theorem execLocal_rules_witness :
    (collateralizeLogTags X0).Nodup ∧
    execLocal X0 specOps (rawLogs (resultLogs sampleBorrowResult)) =
      .ok [.addRecordStatus 1 "v" "0x01" 1000003, .addRecordAddr "bob" "v" "0x01" 1000003] ∧
    execLocal X0 specOps (rawLogs (resultLogs sampleRepayResult)) =
      .ok [.delRecordStatus 1 1000003, .addRecordStatus 6 "v" "0x01" 1000003] ∧
    execLocal X0 specOps (rawLogs (resultLogs recoveryAppendResult)) = .ok [] ∧
    ruleItem X0 specOps { Ty := 5, Log := default } = .ok [] :=
  ⟨by decide,
   ((execLocal_rules X0 specOps (by decide)).1 _).trans (by decide!),
   ((execLocal_rules X0 specOps (by decide)).1 _).trans (by decide!),
   ((execLocal_rules X0 specOps (by decide)).1 _).trans (by decide!),
   (execLocal_rules X0 specOps (by decide)).2.2.2.1 { Ty := 5, Log := default } (by decide)⟩


/-! ## Consistency of the record-status index -/

lemma pairIndex_consistent : IndexConsistent pairIndex (sampleVault pairLoans) := by
  constructor
  · intro r hr
    simp only [loansOf, sampleVault, pairLoans, List.append_nil, List.mem_cons,
      List.mem_singleton, List.not_mem_nil, or_false] at hr
    rcases hr with hr | hr
    · subst hr
      decide
    · subst hr
      decide
  · intro k recordId hk
    unfold pairIndex at hk
    split_ifs at hk with h1 h2
    · refine ⟨sampleLoan "A" (9 / 10), ?_, ?_, ?_⟩
      · simp [loansOf, sampleVault, pairLoans]
      · have := Option.some.inj hk
        exact (congrArg Prod.snd this)
      · rw [h1]
        rfl
    · refine ⟨{ sampleLoan "B" (9 / 10) with Index := 8 }, ?_, ?_, ?_⟩
      · simp [loansOf, sampleVault, pairLoans]
      · have := Option.some.inj hk
        exact (congrArg Prod.snd this)
      · rw [h2]
        rfl

lemma warnedIndex_consistent : IndexConsistent warnedIndex (sampleVault [warnedLoan]) := by
  constructor
  · intro r hr
    simp only [loansOf, sampleVault, List.append_nil, List.mem_singleton] at hr
    subst hr
    decide
  · intro k recordId hk
    unfold warnedIndex at hk
    split_ifs at hk with h1
    refine ⟨warnedLoan, ?_, ?_, ?_⟩
    · simp [loansOf, sampleVault]
    · have := Option.some.inj hk
      exact (congrArg Prod.snd this)
    · rw [h1]
      rfl

/-- C32 (counterexample): two transactions after which the record-status index is not
consistent with the stored vault.  (1) The index holds the entries of loans `A` and `B` under
their keys (Create, 7) and (Create, 8).  The feed of price 1 gives both loans status Warning
and the index of the transaction, 1000003; the deltas `execLocal` derives from the two Feed
logs put both entries under the one key (Warning, 1000003), so that key holds the entry of
`B` and loan `A` has no entry.  (2) The index holds the entry of the warned loan `A` under
(Warning, 7).  The sample Append lifts the warning: the stored loan has status 1 and index
1000003, the Append log carries that status, `execLocal` derives no delta from it, and the
index still holds the entry under (Warning, 7) and nothing under (1, 1000003). -/
theorem record_index_inconsistent :
    IndexConsistent pairIndex (sampleVault pairLoans) ∧
    pairFeedResult = .ok (resultState pairFeedResult, resultLogs pairFeedResult) ∧
    (kvGet (resultState pairFeedResult).vaults "v").map
        (fun c => (loansOf c).map (fun r => (r.RecordId, r.Status, r.Index))) =
      some [("A", 2, 1000003), ("B", 2, 1000003)] ∧
    execLocal X0 specOps (rawLogs (resultLogs pairFeedResult)) = .ok pairFeedDeltas ∧
    indexAfter X0 pairIndex (resultLogs pairFeedResult) =
      .ok (applyDeltas pairIndex pairFeedDeltas) ∧
    applyDeltas pairIndex pairFeedDeltas (2, 1000003) = some ("v", "B") ∧
    (∀ c, kvGet (resultState pairFeedResult).vaults "v" = some c →
      ¬ IndexConsistent (applyDeltas pairIndex pairFeedDeltas) c) ∧
    IndexConsistent warnedIndex (sampleVault [warnedLoan]) ∧
    recoveryAppendResult =
      .ok (resultState recoveryAppendResult, resultLogs recoveryAppendResult) ∧
    (kvGet (resultState recoveryAppendResult).vaults "v").map
        (fun c => (loansOf c).map (fun r => (r.RecordId, r.Status, r.Index))) =
      some [("A", 1, 1000003)] ∧
    execLocal X0 specOps (rawLogs (resultLogs recoveryAppendResult)) = .ok [] ∧
    indexAfter X0 warnedIndex (resultLogs recoveryAppendResult) = .ok warnedIndex ∧
    warnedIndex (1, 1000003) = none ∧
    (∀ c, kvGet (resultState recoveryAppendResult).vaults "v" = some c →
      ¬ IndexConsistent warnedIndex c) := by
  have hdeltas : execLocal X0 specOps (rawLogs (resultLogs pairFeedResult)) =
      .ok pairFeedDeltas := by decide!
  have hloans : (kvGet (resultState pairFeedResult).vaults "v").map
      (fun c => (loansOf c).map (fun r => (r.RecordId, r.Status, r.Index))) =
      some [("A", 2, 1000003), ("B", 2, 1000003)] := by decide!
  have hid : (kvGet (resultState pairFeedResult).vaults "v").map
      (fun c => c.CollateralizeId) = some "v" := by decide!
  have hkey : applyDeltas pairIndex pairFeedDeltas (2, 1000003) = some ("v", "B") := by
    decide
  have hdeltas2 : execLocal X0 specOps (rawLogs (resultLogs recoveryAppendResult)) =
      .ok [] := by decide!
  have hloans2 : (kvGet (resultState recoveryAppendResult).vaults "v").map
      (fun c => (loansOf c).map (fun r => (r.RecordId, r.Status, r.Index))) =
      some [("A", 1, 1000003)] := by decide!
  have hkey2 : warnedIndex (1, 1000003) = none := by decide
  refine ⟨pairIndex_consistent, by decide!, hloans, hdeltas, ?_, hkey, ?_,
    warnedIndex_consistent, by decide!, hloans2, hdeltas2, ?_, hkey2, ?_⟩
  · unfold indexAfter
    rw [hdeltas]
  · intro c hc hcons
    rw [hc] at hloans hid
    have hl : (loansOf c).map (fun r => (r.RecordId, r.Status, r.Index)) =
        [("A", 2, 1000003), ("B", 2, 1000003)] := Option.some.inj hloans
    have hcid : c.CollateralizeId = "v" := Option.some.inj hid
    cases hlo : loansOf c with
    | nil => rw [hlo] at hl; cases hl
    | cons a rest =>
      rw [hlo] at hl
      simp only [List.map_cons, List.cons.injEq, Prod.mk.injEq] at hl
      obtain ⟨⟨ha1, ha2, ha3⟩, -⟩ := hl
      have hmem : a ∈ loansOf c := by rw [hlo]; exact List.mem_cons_self _ _
      have h1 := hcons.1 a hmem
      rw [ha1, ha2, ha3, hcid, hkey] at h1
      exact absurd h1 (by decide)
  · unfold indexAfter
    rw [hdeltas2]
    rfl
  · intro c hc hcons
    rw [hc] at hloans2
    have hl : (loansOf c).map (fun r => (r.RecordId, r.Status, r.Index)) =
        [("A", 1, 1000003)] := Option.some.inj hloans2
    cases hlo : loansOf c with
    | nil => rw [hlo] at hl; cases hl
    | cons a rest =>
      rw [hlo] at hl
      simp only [List.map_cons, List.cons.injEq, Prod.mk.injEq] at hl
      obtain ⟨⟨-, ha2, ha3⟩, -⟩ := hl
      have hmem : a ∈ loansOf c := by rw [hlo]; exact List.mem_cons_self _ _
      have h1 := hcons.1 a hmem
      rw [ha2, ha3, hkey2] at h1
      cases h1

lemma indexAfter_log (X : Ext) (hnodup : (collateralizeLogTags X).Nodup)
    (idx : RecordStatusIndex) (l : pty.ReceiptLog) :
    (l.Ty = X.TyLogCollateralizeBorrow →
      indexAfter X idx [l] =
        .ok (Function.update idx (l.Log.Status, l.Log.Index)
          (some (l.Log.CollateralizeId, l.Log.RecordId)))) ∧
    ((l.Ty = X.TyLogCollateralizeRepay ∨ l.Ty = X.TyLogCollateralizeFeed ∨
        (l.Ty = X.TyLogCollateralizeAppend ∧
          l.Log.Status = X.CollateralizeUserStatusWarning)) →
      indexAfter X idx [l] =
        .ok (Function.update (Function.update idx (l.Log.PreStatus, l.Log.PreIndex) none)
          (l.Log.Status, l.Log.Index) (some (l.Log.CollateralizeId, l.Log.RecordId)))) ∧
    (l.Ty = X.TyLogCollateralizeAppend → l.Log.Status ≠ X.CollateralizeUserStatusWarning →
      indexAfter X idx [l] = .ok idx) ∧
    ((l.Ty = X.TyLogCollateralizeCreate ∨ l.Ty = X.TyLogCollateralizeRetrieve) →
      indexAfter X idx [l] = .ok idx) := by
  have hn := hnodup
  simp only [collateralizeLogTags, List.nodup_cons, List.mem_cons, List.mem_singleton,
    List.not_mem_nil, not_or, List.nodup_nil, and_true, or_false, not_false_eq_true] at hn
  obtain ⟨⟨h12, h13, h14, h15, h16⟩, ⟨h23, h24, h25, h26⟩, ⟨h34, h35, h36⟩, ⟨h45, h46⟩,
    h56⟩ := hn
  refine ⟨?_, ?_, ?_, ?_⟩
  · intro h
    simp [indexAfter, execLocal, rawLogs, execLocalLoop, specOps, h, Ne.symm h12, applyDeltas,
      applyDelta]
  · intro h
    rcases h with h | h | ⟨h, hw⟩
    · simp [indexAfter, execLocal, rawLogs, execLocalLoop, specOps, h, Ne.symm h14,
        Ne.symm h24, Ne.symm h34, applyDeltas, applyDelta]
    · simp [indexAfter, execLocal, rawLogs, execLocalLoop, specOps, h, Ne.symm h15,
        Ne.symm h25, Ne.symm h35, Ne.symm h45, applyDeltas, applyDelta]
    · simp [indexAfter, execLocal, rawLogs, execLocalLoop, specOps, h, Ne.symm h13,
        Ne.symm h23, hw, applyDeltas, applyDelta]
  · intro h hw
    simp [indexAfter, execLocal, rawLogs, execLocalLoop, specOps, h, Ne.symm h13,
      Ne.symm h23, hw, applyDeltas]
  · intro h
    rcases h with h | h
    · simp [indexAfter, execLocal, rawLogs, execLocalLoop, specOps, h, applyDeltas,
        applyDelta]
    · simp [indexAfter, execLocal, rawLogs, execLocalLoop, specOps, h, Ne.symm h16,
        Ne.symm h26, Ne.symm h36, Ne.symm h46, Ne.symm h56, applyDeltas, applyDelta]

lemma consistent_add {idx : RecordStatusIndex} {c c' : pty.Collateralize}
    {new : pty.BorrowRecord} (hcons : IndexConsistent idx c)
    (hfresh : idx (new.Status, new.Index) = none)
    (hid : c'.CollateralizeId = c.CollateralizeId)
    (hloans : ∀ r, r ∈ loansOf c' ↔ (r ∈ loansOf c ∨ r = new)) :
    IndexConsistent
      (Function.update idx (new.Status, new.Index) (some (c'.CollateralizeId, new.RecordId)))
      c' := by
  constructor
  · intro r hr
    rcases (hloans r).mp hr with hr | hr
    · have h1 := hcons.1 r hr
      have hne : (r.Status, r.Index) ≠ (new.Status, new.Index) := by
        intro heq
        rw [heq, hfresh] at h1
        cases h1
      rw [Function.update_noteq hne, h1, hid]
    · subst hr
      rw [Function.update_same]
  · intro k recordId hk
    by_cases hkey : k = (new.Status, new.Index)
    · subst hkey
      rw [Function.update_same] at hk
      have := Option.some.inj hk
      exact ⟨new, (hloans new).mpr (Or.inr rfl), congrArg Prod.snd this, rfl⟩
    · rw [Function.update_noteq hkey, hid] at hk
      obtain ⟨r, hr, h1, h2⟩ := hcons.2 k recordId hk
      exact ⟨r, (hloans r).mpr (Or.inl hr), h1, h2⟩

lemma consistent_move {idx : RecordStatusIndex} {c c' : pty.Collateralize}
    {old new : pty.BorrowRecord} (hcons : IndexConsistent idx c) (hold : old ∈ loansOf c)
    (hfresh : idx (new.Status, new.Index) = none)
    (hid : c'.CollateralizeId = c.CollateralizeId)
    (hinj : ∀ r ∈ loansOf c, r.RecordId = old.RecordId → r = old)
    (hsub : ∀ r, r ∈ loansOf c' → r = new ∨ (r ∈ loansOf c ∧ r.RecordId ≠ old.RecordId))
    (hsup : ∀ r, r ∈ loansOf c → r.RecordId ≠ old.RecordId → r ∈ loansOf c')
    (hnew : new ∈ loansOf c') :
    IndexConsistent
      (Function.update (Function.update idx (old.Status, old.Index) none)
        (new.Status, new.Index) (some (c'.CollateralizeId, new.RecordId))) c' := by
  have hkold := hcons.1 old hold
  constructor
  · intro r hr
    rcases hsub r hr with hr | ⟨hr, hne⟩
    · subst hr
      rw [Function.update_same]
    · have h1 := hcons.1 r hr
      have hn1 : (r.Status, r.Index) ≠ (new.Status, new.Index) := by
        intro heq
        rw [heq, hfresh] at h1
        cases h1
      have hn2 : (r.Status, r.Index) ≠ (old.Status, old.Index) := by
        intro heq
        rw [heq, hkold] at h1
        have := Option.some.inj h1
        exact hne (congrArg Prod.snd this).symm
      rw [Function.update_noteq hn1, Function.update_noteq hn2, h1, hid]
  · intro k recordId hk
    by_cases hkey : k = (new.Status, new.Index)
    · subst hkey
      rw [Function.update_same] at hk
      have := Option.some.inj hk
      exact ⟨new, hnew, congrArg Prod.snd this, rfl⟩
    · rw [Function.update_noteq hkey] at hk
      by_cases hkey2 : k = (old.Status, old.Index)
      · subst hkey2
        rw [Function.update_same] at hk
        cases hk
      · rw [Function.update_noteq hkey2, hid] at hk
        obtain ⟨r, hr, h1, h2⟩ := hcons.2 k recordId hk
        have hne : r.RecordId ≠ old.RecordId := by
          intro heq
          have := hinj r hr heq
          subst this
          exact hkey2 h2
        exact ⟨r, hsup r hr hne, h1, h2⟩

lemma borrow_index {X : Ext} (hnodup : (collateralizeLogTags X).Nodup) {action : Action}
    {st : State} {borrow : pty.CollateralizeBorrow} {r : State × List pty.ReceiptLog}
    {coll : pty.Collateralize} {idx : RecordStatusIndex}
    (h : CollateralizeBorrow X action st borrow = .ok r)
    (hq : queryCollateralizeByID st borrow.CollateralizeId = .ok coll)
    (hcons : IndexConsistent idx coll)
    (hfresh : idx (X.CollateralizeUserStatusCreate, GetIndex X action) = none) :
    ∃ idx' c', indexAfter X idx r.2 = .ok idx' ∧
      r.1.vaults = kvSet st.vaults coll.CollateralizeId c' ∧ IndexConsistent idx' c' := by
  obtain ⟨coll0, p, c, coins1, coins2, token1, hq0, -, -, -, -, -, -, -, -, -, -, hr⟩ :=
    borrow_ok_inv h
  rw [hq] at hq0
  cases Except.ok.inj hq0
  subst hr
  obtain ⟨f1, -, -, -, f5, -, f7, -⟩ :=
    borrowVault_fields X coll borrow (newBorrowRecord X action coll borrow p c) c
  have hlog := (indexAfter_log X hnodup idx
    (GetBorrowReceiptLog X action
      (borrowVault X coll borrow (newBorrowRecord X action coll borrow p c) c)
      (newBorrowRecord X action coll borrow p c))).1 rfl
  refine ⟨_, borrowVault X coll borrow (newBorrowRecord X action coll borrow p c) c, hlog, ?_,
    ?_⟩
  · show kvSet st.vaults _ _ = _
    rw [f7]
  · exact @consistent_add idx coll
      (borrowVault X coll borrow (newBorrowRecord X action coll borrow p c) c)
      (newBorrowRecord X action coll borrow p c) hcons hfresh f7
      (fun r => by
        simp only [loansOf, f1, f5, List.mem_append, List.mem_singleton]
        tauto)

lemma repay_index {X : Ext} (hnodup : (collateralizeLogTags X).Nodup) {action : Action}
    {st : State} {repay : pty.CollateralizeRepay} {r : State × List pty.ReceiptLog}
    {coll : pty.Collateralize} {idx : RecordStatusIndex}
    (h : CollateralizeRepay X action st repay = .ok r)
    (hq : queryCollateralizeByID st repay.CollateralizeId = .ok coll)
    (hcons : IndexConsistent idx coll) (hpart : LoanPartition coll)
    (hfresh : idx (X.CollateralizeUserStatusClose, GetIndex X action) = none) :
    ∃ idx' c', indexAfter X idx r.2 = .ok idx' ∧
      r.1.vaults = kvSet st.vaults coll.CollateralizeId c' ∧ IndexConsistent idx' c' := by
  obtain ⟨coll0, index, rec, token1, token2, coins1, hq0, -, -, hget, -, -, -, -, hr⟩ :=
    repay_ok_inv h
  rw [hq] at hq0
  cases Except.ok.inj hq0
  subst hr
  have hlog := (indexAfter_log X hnodup idx
    (GetRepayReceiptLog X action (repayVault coll index (closeRecord X action rec))
      (closeRecord X action rec))).2.1 (Or.inl rfl)
  have hperm := perm_eraseIdx_append coll.BorrowRecords index rec hget
  have hnd : (List.map (fun x => x.RecordId)
      ((coll.BorrowRecords.eraseIdx index ++ [rec]) ++ coll.InvalidRecords)).Nodup :=
    (((hperm.append_right coll.InvalidRecords).map _).nodup_iff).mpr hpart
  have hnotin : rec.RecordId ∉ List.map (fun x => x.RecordId)
      (coll.BorrowRecords.eraseIdx index ++ coll.InvalidRecords) := by
    simp only [List.map_append, List.map_cons, List.map_nil, List.append_assoc,
      List.singleton_append] at hnd
    have := (List.nodup_middle.mp hnd)
    rw [List.nodup_cons] at this
    simpa using this.1
  have hmemBR : ∀ x, x ∈ coll.BorrowRecords ↔
      (x ∈ coll.BorrowRecords.eraseIdx index ∨ x = rec) := by
    intro x
    rw [← hperm.mem_iff]
    simp
  have hloans : ∀ x, x ∈ loansOf (repayVault coll index (closeRecord X action rec)) ↔
      (x ∈ coll.BorrowRecords.eraseIdx index ∨ x ∈ coll.InvalidRecords ∨
        x = closeRecord X action rec) := by
    intro x
    show x ∈ coll.BorrowRecords.eraseIdx index ++
      (coll.InvalidRecords ++ [closeRecord X action rec]) ↔ _
    simp
  have hother : ∀ x, (x ∈ coll.BorrowRecords.eraseIdx index ∨ x ∈ coll.InvalidRecords) →
      x.RecordId ≠ rec.RecordId := by
    intro x hx heq
    apply hnotin
    rw [← heq]
    exact List.mem_map_of_mem _ (List.mem_append.mpr hx)
  refine ⟨_, repayVault coll index (closeRecord X action rec), hlog, rfl, ?_⟩
  refine @consistent_move idx coll (repayVault coll index (closeRecord X action rec)) rec
    (closeRecord X action rec) hcons ?_ hfresh rfl ?_ ?_ ?_ ?_
  · exact List.mem_append.mpr (Or.inl ((hmemBR rec).mpr (Or.inr rfl)))
  · intro x hx heq
    rcases List.mem_append.mp hx with hx | hx
    · rcases (hmemBR x).mp hx with hx | hx
      · exact absurd heq (hother x (Or.inl hx))
      · exact hx
    · exact absurd heq (hother x (Or.inr hx))
  · intro x hx
    rcases (hloans x).mp hx with hx | hx | hx
    · exact Or.inr ⟨List.mem_append.mpr (Or.inl ((hmemBR x).mpr (Or.inl hx))),
        hother x (Or.inl hx)⟩
    · exact Or.inr ⟨List.mem_append.mpr (Or.inr hx), hother x (Or.inr hx)⟩
    · exact Or.inl hx
  · intro x hx hne
    rcases List.mem_append.mp hx with hx | hx
    · rcases (hmemBR x).mp hx with hx | hx
      · exact (hloans x).mpr (Or.inl hx)
      · exact absurd (congrArg (fun y => y.RecordId) hx) hne
    · exact (hloans x).mpr (Or.inr (Or.inl hx))
  · exact (hloans _).mpr (Or.inr (Or.inr rfl))

/-- C32 (amended): how the record-status index follows the receipt logs, the six log tags
being pairwise different.  For a Borrow log `execLocal` stores the logged loan under the key
`(status, index)`; for a Repay or Feed log, and for an Append log whose status is Warning, it
deletes the key `(pre_status, pre_index)` and then stores the logged loan under
`(status, index)`; for an Append log with another status, and for a Create or Retrieve log,
it leaves the record-status index as it is.  Starting from an index consistent with a vault,
the receipt of a successful Borrow from that vault, and that of a successful Repay of one of
its loans (no record id occurring twice), yields an index consistent with the stored vault,
provided the key of the new entry was free. -/
theorem record_index_maintenance (X : Ext) (hnodup : (collateralizeLogTags X).Nodup) :
    (∀ (idx : RecordStatusIndex) (l : pty.ReceiptLog),
      (l.Ty = X.TyLogCollateralizeBorrow →
        indexAfter X idx [l] =
          .ok (Function.update idx (l.Log.Status, l.Log.Index)
            (some (l.Log.CollateralizeId, l.Log.RecordId)))) ∧
      ((l.Ty = X.TyLogCollateralizeRepay ∨ l.Ty = X.TyLogCollateralizeFeed ∨
          (l.Ty = X.TyLogCollateralizeAppend ∧
            l.Log.Status = X.CollateralizeUserStatusWarning)) →
        indexAfter X idx [l] =
          .ok (Function.update (Function.update idx (l.Log.PreStatus, l.Log.PreIndex) none)
            (l.Log.Status, l.Log.Index) (some (l.Log.CollateralizeId, l.Log.RecordId)))) ∧
      (l.Ty = X.TyLogCollateralizeAppend → l.Log.Status ≠ X.CollateralizeUserStatusWarning →
        indexAfter X idx [l] = .ok idx) ∧
      ((l.Ty = X.TyLogCollateralizeCreate ∨ l.Ty = X.TyLogCollateralizeRetrieve) →
        indexAfter X idx [l] = .ok idx)) ∧
    (∀ action st borrow r coll (idx : RecordStatusIndex),
      CollateralizeBorrow X action st borrow = .ok r →
      queryCollateralizeByID st borrow.CollateralizeId = .ok coll →
      IndexConsistent idx coll →
      idx (X.CollateralizeUserStatusCreate, GetIndex X action) = none →
      ∃ idx' c', indexAfter X idx r.2 = .ok idx' ∧
        r.1.vaults = kvSet st.vaults coll.CollateralizeId c' ∧ IndexConsistent idx' c') ∧
    (∀ action st repay r coll (idx : RecordStatusIndex),
      CollateralizeRepay X action st repay = .ok r →
      queryCollateralizeByID st repay.CollateralizeId = .ok coll →
      IndexConsistent idx coll → LoanPartition coll →
      idx (X.CollateralizeUserStatusClose, GetIndex X action) = none →
      ∃ idx' c', indexAfter X idx r.2 = .ok idx' ∧
        r.1.vaults = kvSet st.vaults coll.CollateralizeId c' ∧ IndexConsistent idx' c') :=
  ⟨fun idx l => indexAfter_log X hnodup idx l,
   fun _ _ _ _ _ _ h hq hcons hfresh => borrow_index hnodup h hq hcons hfresh,
   fun _ _ _ _ _ _ h hq hcons hpart hfresh => repay_index hnodup h hq hcons hpart hfresh⟩

theorem record_index_maintenance_witness :
    (collateralizeLogTags X0).Nodup ∧
    IndexConsistent (fun _ => none) (sampleVault []) ∧
    sampleBorrowResult = .ok (resultState sampleBorrowResult, resultLogs sampleBorrowResult) ∧
    (∃ idx' c', indexAfter X0 (fun _ => none) (resultLogs sampleBorrowResult) = .ok idx' ∧
      (resultState sampleBorrowResult).vaults =
        kvSet (sampleState []).vaults (sampleVault []).CollateralizeId c' ∧
      IndexConsistent idx' c') := by
  have hempty : IndexConsistent (fun _ => none) (sampleVault []) := by
    constructor
    · intro r hr
      simp [loansOf, sampleVault] at hr
    · intro k recordId hk
      cases hk
  exact ⟨by decide, hempty, by decide!,
    (record_index_maintenance X0 (by decide)).2.1 (sampleAction "bob" [1]) (sampleState [])
      sampleBorrow (resultState sampleBorrowResult, resultLogs sampleBorrowResult)
      (sampleVault []) (fun _ => none) (by decide!) (by decide!) hempty rfl⟩


/-! ## Append: which loan, and what changes -/

lemma findLastRecord_spec (recordId : String) :
    ∀ (l : List pty.BorrowRecord) (i : Nat), findLastRecord l recordId = some i →
      (∃ x, l[i]? = some x ∧ x.RecordId = recordId) ∧
      ∀ j y, i < j → l[j]? = some y → y.RecordId ≠ recordId
  | [], i, h => by simp [findLastRecord] at h
  | x :: l, i, h => by
    unfold findLastRecord at h
    cases hrest : findLastRecord l recordId with
    | some k =>
      simp only [hrest] at h
      cases Option.some.inj h
      obtain ⟨⟨y, hy, hid⟩, hlast⟩ := findLastRecord_spec recordId l k hrest
      refine ⟨⟨y, by simpa using hy, hid⟩, ?_⟩
      intro j z hj hz
      cases j with
      | zero => omega
      | succ j =>
        simp only [List.getElem?_cons_succ] at hz
        exact hlast j z (by omega) hz
    | none =>
      simp only [hrest] at h
      split_ifs at h with hx
      cases Option.some.inj h
      refine ⟨⟨x, by simp, hx⟩, ?_⟩
      intro j z hj hz
      cases j with
      | zero => omega
      | succ j =>
        simp only [List.getElem?_cons_succ] at hz
        intro hzid
        have hnone : ∀ (l' : List pty.BorrowRecord) (n : Nat) (w : pty.BorrowRecord),
            findLastRecord l' recordId = none → l'[n]? = some w → w.RecordId ≠ recordId := by
          intro l'
          induction l' with
          | nil => intro n w _ hw; simp at hw
          | cons a l' ih =>
            intro n w hf hw
            unfold findLastRecord at hf
            cases hr : findLastRecord l' recordId with
            | some k => simp [hr] at hf
            | none =>
              simp only [hr] at hf
              split_ifs at hf with ha
              cases n with
              | zero =>
                simp at hw
                subst hw
                exact ha
              | succ n =>
                simp only [List.getElem?_cons_succ] at hw
                exact ih n w hr hw
        exact hnone l j z hrest hz hzid

/-- C23: a successful Append of `a` has `a > 0` and rewrites, in place, the last active loan
whose record id is the one in the payload (no active loan after it has that id), and no other
loan: its `collateral_value` grows by `a`, its `collateral_price` becomes the latest price,
its `liquidation_price` becomes `(debt_value / new collateral_value) * PRE_LIQUIDATION_RATIO`,
and its `debt_value`, `start_time`, `expire_time`, record id and borrower are unchanged.  The
stored vault has `coll_balance` raised by `a`; its `balance`, `total_balance`, `index`,
`pre_index`, status and `invalid_records` are unchanged. -/
theorem append_effect (X : Ext) (action : Action) (st : State)
    (cAppend : pty.CollateralizeAppend) (r : State × List pty.ReceiptLog)
    (h : CollateralizeAppend X action st cAppend = .ok r) :
    ∃ coll index record lastPrice coll' record',
      0 < cAppend.CollateralValue ∧
      queryCollateralizeByID st cAppend.CollateralizeId = .ok coll ∧
      findLastRecord coll.BorrowRecords cAppend.RecordId = some index ∧
      coll.BorrowRecords[index]? = some record ∧
      record.RecordId = cAppend.RecordId ∧
      (∀ j other, index < j → coll.BorrowRecords[j]? = some other →
        other.RecordId ≠ cAppend.RecordId) ∧
      getLatestPrice st = .ok lastPrice ∧
      r.1.vaults = kvSet st.vaults coll.CollateralizeId coll' ∧
      coll'.BorrowRecords = coll.BorrowRecords.set index record' ∧
      (∀ j, j ≠ index → coll'.BorrowRecords[j]? = coll.BorrowRecords[j]?) ∧
      coll'.BorrowRecords[index]? = some record' ∧
      record'.CollateralValue = record.CollateralValue + cAppend.CollateralValue ∧
      record'.CollateralPrice = lastPrice ∧
      record'.LiquidationPrice =
        ((record.DebtValue : ℚ) / ((record.CollateralValue + cAppend.CollateralValue : Int) : ℚ))
          * X.CollateralizePreLiquidationRatio ∧
      record'.DebtValue = record.DebtValue ∧
      record'.StartTime = record.StartTime ∧
      record'.ExpireTime = record.ExpireTime ∧
      record'.RecordId = record.RecordId ∧
      record'.AccountAddr = record.AccountAddr ∧
      coll'.CollBalance = coll.CollBalance + cAppend.CollateralValue ∧
      coll'.Balance = coll.Balance ∧
      coll'.TotalBalance = coll.TotalBalance ∧
      coll'.Index = coll.Index ∧
      coll'.PreIndex = coll.PreIndex ∧
      coll'.Status = coll.Status ∧
      coll'.InvalidRecords = coll.InvalidRecords := by
  obtain ⟨coll, index, rec, p, coins1, coins2, hpos, hq, -, hfind, hget, hp, -, -, -, hr⟩ :=
    append_ok_inv h
  subst hr
  obtain ⟨f1, -, f3, f4, f5, f6, f7, f8, f9, -⟩ := appendRecord_frame X action rec cAppend p
  obtain ⟨⟨x, hx, hxid⟩, hlast⟩ := findLastRecord_spec cAppend.RecordId _ _ hfind
  have hrec : rec.RecordId = cAppend.RecordId := by
    rw [hget] at hx
    cases Option.some.inj hx
    exact hxid
  have hlt : index < coll.BorrowRecords.length := by
    by_contra hge
    rw [List.getElem?_eq_none (by omega)] at hget
    cases hget
  refine ⟨coll, index, rec, p,
    appendVault coll index (appendRecord X action rec cAppend p) cAppend,
    appendRecord X action rec cAppend p, hpos, hq, hfind, hget, hrec, hlast, hp, rfl, rfl,
    ?_, ?_, f4, f5, f6, f7, f8, f9, f1, f3, rfl, rfl, rfl, rfl, rfl, rfl, rfl⟩
  · intro j hj
    show (coll.BorrowRecords.set index _)[j]? = _
    rw [List.getElem?_set_ne (Ne.symm hj)]
  · show (coll.BorrowRecords.set index _)[index]? = _
    rw [List.getElem?_set_eq_of_lt _ hlt]

theorem append_effect_witness :
    middleAppendResult = .ok (resultState middleAppendResult, resultLogs middleAppendResult) ∧
    (∃ coll',
      (resultState middleAppendResult).vaults =
        kvSet (sampleState threeLoans).vaults "v" coll' ∧
      coll'.BorrowRecords =
        [sampleLoan "A" 1,
         { sampleLoan "B" 1 with
           CollateralValue := 350000000000
           CollateralPrice := 1
           LiquidationPrice := 11 / 35 },
         sampleLoan "C" (1 / 10)] ∧
      coll'.CollBalance = 850000000000 ∧
      (coll'.Balance, coll'.TotalBalance, coll'.Index, coll'.PreIndex) =
        (700000000000, 1000000000000, 5, 0)) := by
  refine ⟨by decide!, ?_⟩
  obtain ⟨coll, index, record, lastPrice, coll', record', -, hq, -, -, -, -, -, hv, -⟩ :=
    append_effect X0 (sampleAction "bob" [4]) (sampleState threeLoans) sampleAppendB
      (resultState middleAppendResult, resultLogs middleAppendResult) (by decide!)
  have hc : coll = sampleVault threeLoans := by
    have h0 : queryCollateralizeByID (sampleState threeLoans)
        sampleAppendB.CollateralizeId = .ok (sampleVault threeLoans) := by decide!
    rw [h0] at hq
    exact (Except.ok.inj hq).symm
  subst hc
  have hv' : (resultState middleAppendResult).vaults =
      kvSet (sampleState threeLoans).vaults "v" coll' := hv
  have hget : kvGet (resultState middleAppendResult).vaults "v" = some coll' := by
    rw [hv']
    simp [kvSet, kvGet]
  have heval : (kvGet (resultState middleAppendResult).vaults "v").map
      (fun c => (c.BorrowRecords, c.CollBalance, c.Balance, c.TotalBalance, c.Index,
        c.PreIndex)) =
      some ([sampleLoan "A" 1,
         { sampleLoan "B" 1 with
           CollateralValue := 350000000000
           CollateralPrice := 1
           LiquidationPrice := 11 / 35 },
         sampleLoan "C" (1 / 10)], 850000000000, 700000000000, 1000000000000, 5, 0) := by
    decide!
  rw [hget] at heval
  have he := Option.some.inj heval
  simp only [Prod.mk.injEq] at he
  obtain ⟨e1, e2, e3, e4, e5, e6⟩ := he
  exact ⟨_, hv', e1, e2, by rw [e3, e4, e5, e6]⟩


/-! ## The vaults before and after a Feed, key by key -/

lemma keysOk_save {st st1 : State} {c : pty.Collateralize} (hst : st1.vaults = st.vaults)
    (h : KeysOk st) : KeysOk (Save c st1) := by
  intro k c' hget
  simp only [Save, kvGet_kvSet, hst] at hget
  split_ifs at hget with hk
  · cases hget
    exact hk
  · exact h k c' hget

lemma keysOk_sampleState (loans : List pty.BorrowRecord) : KeysOk (sampleState loans) := by
  intro k c hget
  simp only [sampleState, kvGet] at hget
  split_ifs at hget with hk
  cases hget
  exact hk

lemma vaultsRel_refl {R : pty.Collateralize → pty.Collateralize → Prop}
    (hrefl : ∀ a, R a a) (st : State) : VaultsRel R st st := by
  intro k
  cases hk : kvGet st.vaults k with
  | none => exact Or.inl ⟨rfl, rfl⟩
  | some c => exact Or.inr ⟨c, c, rfl, rfl, hrefl c⟩

lemma vaultsRel_trans {R : pty.Collateralize → pty.Collateralize → Prop}
    (htrans : ∀ a b c, R a b → R b c → R a c) {st1 st2 st3 : State}
    (h12 : VaultsRel R st1 st2) (h23 : VaultsRel R st2 st3) : VaultsRel R st1 st3 := by
  intro k
  rcases h12 k with ⟨h1, h2⟩ | ⟨a, b, ha, hb, hab⟩
  · rcases h23 k with ⟨-, h3⟩ | ⟨b', c, hb', -, -⟩
    · exact Or.inl ⟨h1, h3⟩
    · rw [h2] at hb'
      cases hb'
  · rcases h23 k with ⟨h2, -⟩ | ⟨b', c, hb', hc, hbc⟩
    · rw [hb] at h2
      cases h2
    · rw [hb] at hb'
      cases Option.some.inj hb'
      exact Or.inr ⟨a, c, ha, hc, htrans _ _ _ hab hbc⟩

lemma systemLiquidation_frame {X : Ext} {action : Action} {st st' : State}
    {coll coll' : pty.Collateralize} {price : ℚ} {logs : List pty.ReceiptLog}
    (h : systemLiquidation X action st coll price = .ok (st', coll', logs)) :
    st'.config = st.config ∧ coll'.CollateralizeId = coll.CollateralizeId := by
  obtain ⟨m, -, hm⟩ := sweepLoop_result h
  rw [(Prod.mk.inj hm).1, (Prod.mk.inj (Prod.mk.inj hm).2).1]
  exact ⟨rfl, rfl⟩

lemma expireLiquidation_frame {X : Ext} {action : Action} {st st' : State}
    {coll coll' : pty.Collateralize} {logs : List pty.ReceiptLog}
    (h : expireLiquidation X action st coll = .ok (st', coll', logs)) :
    st'.config = st.config ∧ coll'.CollateralizeId = coll.CollateralizeId := by
  obtain ⟨m, -, hm⟩ := sweepLoop_result h
  rw [(Prod.mk.inj hm).1, (Prod.mk.inj (Prod.mk.inj hm).2).1]
  exact ⟨rfl, rfl⟩

lemma feedVault_config {X : Ext} {action : Action} {price : ℚ} {collID : String}
    {acc acc' : State × List pty.ReceiptLog}
    (h : feedVault X action price collID acc = .ok acc') : acc'.1.config = acc.1.config := by
  unfold feedVault at h
  cases hq : queryCollateralizeByID acc.1 collID with
  | error e => simp [hq] at h
  | ok coll =>
    simp only [hq] at h
    by_cases hgate : coll.LatestExpireTime - ExpireWarningTime ≤ action.blocktime
    · simp only [hgate, if_true] at h
      cases he : expireLiquidation X action acc.1 coll with
      | error e => simp [he] at h
      | ok r1 =>
        obtain ⟨st1, coll1, logs1⟩ := r1
        simp only [he] at h
        cases hs : systemLiquidation X action st1 coll1 price with
        | error e => simp [hs] at h
        | ok r2 =>
          obtain ⟨st2, coll2, logs2⟩ := r2
          simp only [hs] at h
          cases Except.ok.inj h
          exact (systemLiquidation_frame hs).1.trans (expireLiquidation_frame he).1
    · simp only [hgate, if_false] at h
      cases hs : systemLiquidation X action acc.1 coll price with
      | error e => simp [hs] at h
      | ok r2 =>
        obtain ⟨st2, coll2, logs2⟩ := r2
        simp only [hs] at h
        cases Except.ok.inj h
        exact (systemLiquidation_frame hs).1

lemma feedLoop_config {X : Ext} {action : Action} {price : ℚ} :
    ∀ (ids : List String) (acc acc' : State × List pty.ReceiptLog),
      feedLoop X action price ids acc = .ok acc' → acc'.1.config = acc.1.config
  | [], acc, acc', h => by
    cases Except.ok.inj h
    rfl
  | collID :: ids, acc, acc', h => by
    unfold feedLoop at h
    cases hv : feedVault X action price collID acc with
    | error e => simp [hv] at h
    | ok acc1 =>
      simp only [hv] at h
      exact (feedLoop_config ids acc1 acc' h).trans (feedVault_config hv)

/-- A successful Feed leaves the stored configuration as it was. -/
lemma feed_config {X : Ext} {action : Action} {localdb : Lister} {st : State}
    {feed : pty.CollateralizeFeed} {r : State × List pty.ReceiptLog}
    (h : CollateralizeFeed X action localdb st feed = .ok r) : r.1.config = st.config := by
  obtain ⟨price, ids, acc, -, -, -, hl, hr⟩ := feed_ok_inv h
  subst hr
  exact feedLoop_config ids _ _ hl

lemma feedVault_keyed {X : Ext} {action : Action} {price : ℚ} {collID : String}
    {acc acc' : State × List pty.ReceiptLog} {R : pty.Collateralize → pty.Collateralize → Prop}
    (hrefl : ∀ a, R a a) (htrans : ∀ a b c, R a b → R b c → R a c)
    (hsys : ∀ st coll st' coll' logs,
      systemLiquidation X action st coll price = .ok (st', coll', logs) → R coll coll')
    (hexp : ∀ st coll st' coll' logs,
      expireLiquidation X action st coll = .ok (st', coll', logs) → R coll coll')
    (h : feedVault X action price collID acc = .ok acc') (hk : KeysOk acc.1) :
    KeysOk acc'.1 ∧ VaultsRel R acc.1 acc'.1 := by
  obtain ⟨coll, coll', hget, ⟨hR, hid⟩, hkv⟩ :=
    @feedVault_rel X action price collID acc acc'
      (fun a b => R a b ∧ b.CollateralizeId = a.CollateralizeId)
      (fun a b c h1 h2 => ⟨htrans a b c h1.1 h2.1, h2.2.trans h1.2⟩)
      (fun st coll st' coll' logs hs =>
        ⟨hsys st coll st' coll' logs hs, (systemLiquidation_frame hs).2⟩)
      (fun st coll st' coll' logs he =>
        ⟨hexp st coll st' coll' logs he, (expireLiquidation_frame he).2⟩) h
  have hcid : coll.CollateralizeId = collID := hk _ _ hget
  constructor
  · intro k c hc
    rw [hkv] at hc
    split_ifs at hc with hck
    · cases hc
      exact hid.trans hck
    · exact hk k c hc
  · intro k
    by_cases hck : coll.CollateralizeId = k
    · refine Or.inr ⟨coll, coll', ?_, ?_, hR⟩
      · rw [← hck, hcid]
        exact hget
      · rw [hkv, if_pos hck]
    · rw [hkv, if_neg hck]
      cases hc : kvGet acc.1.vaults k with
      | none => exact Or.inl ⟨rfl, rfl⟩
      | some c => exact Or.inr ⟨c, c, rfl, rfl, hrefl c⟩

lemma feedLoop_keyed {X : Ext} {action : Action} {price : ℚ}
    {R : pty.Collateralize → pty.Collateralize → Prop}
    (hrefl : ∀ a, R a a) (htrans : ∀ a b c, R a b → R b c → R a c)
    (hsys : ∀ st coll st' coll' logs,
      systemLiquidation X action st coll price = .ok (st', coll', logs) → R coll coll')
    (hexp : ∀ st coll st' coll' logs,
      expireLiquidation X action st coll = .ok (st', coll', logs) → R coll coll') :
    ∀ (ids : List String) (acc acc' : State × List pty.ReceiptLog),
      feedLoop X action price ids acc = .ok acc' → KeysOk acc.1 →
      KeysOk acc'.1 ∧ VaultsRel R acc.1 acc'.1
  | [], acc, acc', h, hk => by
    cases Except.ok.inj h
    exact ⟨hk, vaultsRel_refl hrefl _⟩
  | collID :: ids, acc, acc', h, hk => by
    unfold feedLoop at h
    cases hv : feedVault X action price collID acc with
    | error e => simp [hv] at h
    | ok acc1 =>
      simp only [hv] at h
      obtain ⟨hk1, hr1⟩ := feedVault_keyed hrefl htrans hsys hexp hv hk
      obtain ⟨hk2, hr2⟩ := feedLoop_keyed hrefl htrans hsys hexp ids acc1 acc' h hk1
      exact ⟨hk2, vaultsRel_trans htrans hr1 hr2⟩

/-- In a store keyed by the vault ids, a successful Feed keeps the keys: under every key it
leaves no vault where there was none, and where there was one it leaves a vault that comes
from it through the sweeps, for any reflexive and transitive relation that each sweep
establishes. -/
lemma feed_keyed {X : Ext} {action : Action} {localdb : Lister} {st : State}
    {feed : pty.CollateralizeFeed} {r : State × List pty.ReceiptLog}
    {R : pty.Collateralize → pty.Collateralize → Prop} (hrefl : ∀ a, R a a)
    (htrans : ∀ a b c, R a b → R b c → R a c)
    (hsys : ∀ price st coll st' coll' logs,
      systemLiquidation X action st coll price = .ok (st', coll', logs) → R coll coll')
    (hexp : ∀ st coll st' coll' logs,
      expireLiquidation X action st coll = .ok (st', coll', logs) → R coll coll')
    (h : CollateralizeFeed X action localdb st feed = .ok r) (hk : KeysOk st) :
    KeysOk r.1 ∧ VaultsRel R st r.1 := by
  obtain ⟨price, ids, acc, -, -, -, hl, hr⟩ := feed_ok_inv h
  subst hr
  exact feedLoop_keyed hrefl htrans (hsys price) hexp ids _ _ hl hk

/-- Each of the five other handlers keeps the store keyed by the vault ids. -/
lemma keysOk_handlers (X : Ext) :
    (∀ action localdb st create r, CollateralizeCreate X action localdb st create = .ok r →
      KeysOk st → KeysOk r.1) ∧
    (∀ action st borrow r, CollateralizeBorrow X action st borrow = .ok r →
      KeysOk st → KeysOk r.1) ∧
    (∀ action st repay r, CollateralizeRepay X action st repay = .ok r →
      KeysOk st → KeysOk r.1) ∧
    (∀ action st cAppend r, CollateralizeAppend X action st cAppend = .ok r →
      KeysOk st → KeysOk r.1) ∧
    (∀ action st retrieve r, CollateralizeRetrieve X action st retrieve = .ok r →
      KeysOk st → KeysOk r.1) := by
  refine ⟨?_, ?_, ?_, ?_, ?_⟩
  · intro action localdb st create r h hinv
    obtain ⟨collcfg, token1, -, -, -, -, hr | ⟨id0, coll, hq, hr⟩⟩ := create_ok_inv h
    · subst hr
      exact keysOk_save rfl hinv
    · subst hr
      exact keysOk_save rfl hinv
  · intro action st borrow r h hinv
    obtain ⟨coll, p, c, coins1, coins2, token1, hq, -, -, -, -, -, -, -, -, -, -, hr⟩ :=
      borrow_ok_inv h
    subst hr
    exact keysOk_save rfl hinv
  · intro action st repay r h hinv
    obtain ⟨coll, index, rec, token1, token2, coins1, hq, -, -, hrec, -, -, -, -, hr⟩ :=
      repay_ok_inv h
    subst hr
    exact keysOk_save rfl hinv
  · intro action st cAppend r h hinv
    obtain ⟨coll, index, rec, p, coins1, coins2, -, hq, -, -, hrec, -, -, -, -, hr⟩ :=
      append_ok_inv h
    subst hr
    exact keysOk_save rfl hinv
  · intro action st retrieve r h hinv
    obtain ⟨coll, token1, hq, -, -, -, hr⟩ := retrieve_ok_inv h
    subst hr
    exact keysOk_save rfl hinv


/-! ## Loan partition -/

/-- C15: loan partition, with loans identified by their record id.  After a successful
Borrow the record ids of the stored vault (active and invalid records together) are those of
before plus the id of the new loan, which is the hex form of the transaction hash, and the
invalid records are unchanged; so if that id is fresh, no id occurs twice afterwards when
none did before.  After a successful Repay the record ids are those of before in another
order and the invalid records are the old ones followed by the closed loan.  After a
successful Append the record ids and the invalid records are unchanged.  After a successful
Feed every stored vault comes from a vault stored before whose record ids it carries, in some
order, and whose invalid records it extends at the end; and on a store keyed by the vault ids
the Feed keeps the keys: under a key without vault it leaves none, and under the key of a
vault it leaves a vault of the same id that carries the same record ids, in some order, and
whose invalid records are the old ones extended at the end.  In each case a vault in which no
id occurred twice is stored as a vault in which none does. -/
theorem loan_partition (X : Ext) :
    (∀ action st borrow r, CollateralizeBorrow X action st borrow = .ok r →
      ∃ coll c', queryCollateralizeByID st borrow.CollateralizeId = .ok coll ∧
        r.1.vaults = kvSet st.vaults coll.CollateralizeId c' ∧
        (recordIds c').Perm (X.ToHex action.txhash :: recordIds coll) ∧
        c'.InvalidRecords = coll.InvalidRecords ∧
        (X.ToHex action.txhash ∉ recordIds coll → LoanPartition coll → LoanPartition c')) ∧
    (∀ action st repay r, CollateralizeRepay X action st repay = .ok r →
      ∃ coll c' closed, queryCollateralizeByID st repay.CollateralizeId = .ok coll ∧
        r.1.vaults = kvSet st.vaults coll.CollateralizeId c' ∧
        (recordIds c').Perm (recordIds coll) ∧
        c'.InvalidRecords = coll.InvalidRecords ++ [closed] ∧
        closed.RecordId = repay.RecordId ∧
        (LoanPartition coll → LoanPartition c')) ∧
    (∀ action st cAppend r, CollateralizeAppend X action st cAppend = .ok r →
      ∃ coll c', queryCollateralizeByID st cAppend.CollateralizeId = .ok coll ∧
        r.1.vaults = kvSet st.vaults coll.CollateralizeId c' ∧
        recordIds c' = recordIds coll ∧
        c'.InvalidRecords = coll.InvalidRecords ∧
        (LoanPartition coll → LoanPartition c')) ∧
    (∀ action localdb st feed r, CollateralizeFeed X action localdb st feed = .ok r →
      ∀ k c', kvGet r.1.vaults k = some c' →
        ∃ k0 c, kvGet st.vaults k0 = some c ∧
          (recordIds c').Perm (recordIds c) ∧
          (∃ seized, c'.InvalidRecords = c.InvalidRecords ++ seized) ∧
          (LoanPartition c → LoanPartition c')) ∧
    (∀ action localdb st feed r, CollateralizeFeed X action localdb st feed = .ok r →
      KeysOk st →
      KeysOk r.1 ∧
      ∀ k, (kvGet st.vaults k = none ∧ kvGet r.1.vaults k = none) ∨
        ∃ c c', kvGet st.vaults k = some c ∧ kvGet r.1.vaults k = some c' ∧
          c'.CollateralizeId = c.CollateralizeId ∧
          (recordIds c').Perm (recordIds c) ∧
          (∃ seized, c'.InvalidRecords = c.InvalidRecords ++ seized) ∧
          (LoanPartition c → LoanPartition c')) := by
  refine ⟨?_, ?_, ?_, ?_, ?_⟩
  · intro action st borrow r h
    obtain ⟨coll, p, c, coins1, coins2, token1, hq, -, -, -, -, -, -, -, -, -, -, hr⟩ :=
      borrow_ok_inv h
    subst hr
    obtain ⟨f1, -, -, -, f5, -, f7, -⟩ :=
      borrowVault_fields X coll borrow (newBorrowRecord X action coll borrow p c) c
    have hperm : (recordIds
        (borrowVault X coll borrow (newBorrowRecord X action coll borrow p c) c)).Perm
        (X.ToHex action.txhash :: recordIds coll) := by
      unfold recordIds
      rw [f1, f5]
      simp only [List.map_append, List.map_cons, List.map_nil, List.append_assoc]
      have : (newBorrowRecord X action coll borrow p c).RecordId = X.ToHex action.txhash := rfl
      rw [this]
      exact (List.perm_middle).trans (List.Perm.refl _)
    refine ⟨coll, borrowVault X coll borrow (newBorrowRecord X action coll borrow p c) c,
      hq, ?_, hperm, f5, ?_⟩
    · show kvSet st.vaults _ _ = _
      rw [f7]
    · intro hfresh hnd
      unfold LoanPartition at hnd ⊢
      exact hperm.nodup_iff.mpr (List.nodup_cons.mpr ⟨hfresh, hnd⟩)
  · intro action st repay r h
    obtain ⟨coll, index, rec, token1, token2, coins1, hq, -, hfind, hget, -, -, -, -, hr⟩ :=
      repay_ok_inv h
    subst hr
    have hidrec : rec.RecordId = repay.RecordId := by
      have key : ∀ (l : List pty.BorrowRecord) (i : Nat) (x : pty.BorrowRecord),
          findRecord l repay.RecordId = some i → l[i]? = some x →
          x.RecordId = repay.RecordId := by
        intro l
        induction l with
        | nil => intro i x hf; simp [findRecord] at hf
        | cons y l ih =>
          intro i x hf hx
          unfold findRecord at hf
          split_ifs at hf with hy
          · cases hf
            simp at hx
            subst hx
            exact hy
          · cases hfr : findRecord l repay.RecordId with
            | none => simp [hfr] at hf
            | some j =>
              simp only [hfr, Option.map_some'] at hf
              cases hf
              simp at hx
              exact ih j x hfr hx
      exact key _ _ _ hfind hget
    have hperm : (recordIds (repayVault coll index (closeRecord X action rec))).Perm
        (recordIds coll) := by
      show (List.map (fun r => r.RecordId)
          (coll.BorrowRecords.eraseIdx index ++
            (coll.InvalidRecords ++ [closeRecord X action rec]))).Perm
        (List.map (fun r => r.RecordId) (coll.BorrowRecords ++ coll.InvalidRecords))
      have h1 := (perm_eraseIdx_append coll.BorrowRecords index rec hget).map
        (fun r => r.RecordId)
      simp only [List.map_append, List.map_cons, List.map_nil] at h1 ⊢
      have hc : (closeRecord X action rec).RecordId = rec.RecordId := rfl
      rw [hc]
      have h4 : (List.map (fun r => r.RecordId) (coll.BorrowRecords.eraseIdx index) ++
          (List.map (fun r => r.RecordId) coll.InvalidRecords ++ [rec.RecordId])).Perm
          ((List.map (fun r => r.RecordId) (coll.BorrowRecords.eraseIdx index) ++
            [rec.RecordId]) ++ List.map (fun r => r.RecordId) coll.InvalidRecords) := by
        rw [List.append_assoc]
        exact List.Perm.append_left _ List.perm_append_comm
      exact h4.trans (h1.append_right _)
    refine ⟨coll, repayVault coll index (closeRecord X action rec), closeRecord X action rec,
      hq, rfl, hperm, rfl, hidrec, ?_⟩
    intro hnd
    unfold LoanPartition at hnd ⊢
    exact hperm.nodup_iff.mpr hnd
  · intro action st cAppend r h
    obtain ⟨coll, index, rec, p, coins1, coins2, -, hq, -, -, hget, -, -, -, -, hr⟩ :=
      append_ok_inv h
    subst hr
    have hrid : (appendRecord X action rec cAppend p).RecordId = rec.RecordId := by
      unfold appendRecord
      simp only
      split_ifs <;> rfl
    have heq : recordIds (appendVault coll index (appendRecord X action rec cAppend p)
        cAppend) = recordIds coll := by
      show List.map (fun r => r.RecordId)
          (coll.BorrowRecords.set index (appendRecord X action rec cAppend p) ++
            coll.InvalidRecords) =
        List.map (fun r => r.RecordId) (coll.BorrowRecords ++ coll.InvalidRecords)
      rw [List.map_append, List.map_append,
        map_set_same (fun r => r.RecordId) coll.BorrowRecords index rec _ hget hrid]
    refine ⟨coll, appendVault coll index (appendRecord X action rec cAppend p) cAppend,
      hq, rfl, heq, rfl, ?_⟩
    intro hnd
    unfold LoanPartition at hnd ⊢
    rw [heq]
    exact hnd
  · intro action localdb st feed r h k c' hk
    obtain ⟨k0, c, hk0, hperm, hseized⟩ :=
      @feed_rel X action localdb st feed r FeedIdStep feedIdStep_refl feedIdStep_trans
        (fun _ _ _ _ _ _ hs =>
          sweep_ids (fun _ _ _ h1 h2 => systemLiquidationStep_inv h1 h2)
            (fun _ _ _ h1 => systemLiquidationStep_heap_id h1) hs)
        (fun _ _ _ _ _ he =>
          sweep_ids (fun _ _ _ h1 h2 => expireLiquidationStep_inv h1 h2)
            (fun _ _ _ h1 => expireLiquidationStep_heap_id h1) he) h k c' hk
    refine ⟨k0, c, hk0, hperm, hseized, ?_⟩
    intro hnd
    unfold LoanPartition at hnd ⊢
    exact hperm.nodup_iff.mpr hnd
  · intro action localdb st feed r h hk
    obtain ⟨hk', hrel⟩ :=
      @feed_keyed X action localdb st feed r
        (fun c c' => c'.CollateralizeId = c.CollateralizeId ∧ FeedIdStep c c')
        (fun c => ⟨rfl, feedIdStep_refl c⟩)
        (fun a b c h1 h2 => ⟨h2.1.trans h1.1, feedIdStep_trans a b c h1.2 h2.2⟩)
        (fun _ _ _ _ _ _ hs =>
          ⟨(systemLiquidation_frame hs).2,
            sweep_ids (fun _ _ _ h1 h2 => systemLiquidationStep_inv h1 h2)
              (fun _ _ _ h1 => systemLiquidationStep_heap_id h1) hs⟩)
        (fun _ _ _ _ _ he =>
          ⟨(expireLiquidation_frame he).2,
            sweep_ids (fun _ _ _ h1 h2 => expireLiquidationStep_inv h1 h2)
              (fun _ _ _ h1 => expireLiquidationStep_heap_id h1) he⟩) h hk
    refine ⟨hk', fun k => ?_⟩
    rcases hrel k with hnone | ⟨c, c', h1, h2, hid, hperm, hseized⟩
    · exact Or.inl hnone
    · refine Or.inr ⟨c, c', h1, h2, hid, hperm, hseized, ?_⟩
      intro hnd
      unfold LoanPartition at hnd ⊢
      exact hperm.nodup_iff.mpr hnd

theorem loan_partition_witness :
    sampleBorrowResult = .ok (resultState sampleBorrowResult, resultLogs sampleBorrowResult) ∧
    (∃ coll c',
      queryCollateralizeByID (sampleState []) sampleBorrow.CollateralizeId = .ok coll ∧
      (resultState sampleBorrowResult).vaults =
        kvSet (sampleState []).vaults coll.CollateralizeId c' ∧
      (recordIds c').Perm (X0.ToHex [1] :: recordIds coll) ∧
      c'.InvalidRecords = coll.InvalidRecords ∧
      LoanPartition c') ∧
    sampleFeedResult = .ok (resultState sampleFeedResult, resultLogs sampleFeedResult) ∧
    LoanPartition (sampleVault threeLoans) ∧
    (∀ c', kvGet (resultState sampleFeedResult).vaults "v" = some c' → LoanPartition c') ∧
    KeysOk (sampleState threeLoans) ∧
    (∃ c', kvGet (resultState sampleFeedResult).vaults "v" = some c' ∧
      c'.CollateralizeId = "v" ∧ (recordIds c').Perm ["A", "B", "C"] ∧ LoanPartition c') := by
  refine ⟨by decide!, ?_, by decide!, by unfold LoanPartition; decide!, ?_,
    keysOk_sampleState threeLoans, ?_⟩
  · obtain ⟨coll, c', hq, hv, hp, hi, hnd⟩ :=
      (loan_partition X0).1 (sampleAction "bob" [1]) (sampleState []) sampleBorrow
        (resultState sampleBorrowResult, resultLogs sampleBorrowResult) (by decide!)
    have hc : coll = sampleVault [] := by
      have h0 : queryCollateralizeByID (sampleState []) sampleBorrow.CollateralizeId =
          .ok (sampleVault []) := by decide!
      rw [h0] at hq
      exact (Except.ok.inj hq).symm
    subst hc
    exact ⟨_, c', hq, hv, hp, hi, hnd (by decide!) (by unfold LoanPartition; decide!)⟩
  · intro c' hk
    obtain ⟨k0, c, hk0, -, -, hnd⟩ :=
      (loan_partition X0).2.2.2.1 (sampleAction "oracle" [3]) sampleLister
        (sampleState threeLoans) sampleFeed
        (resultState sampleFeedResult, resultLogs sampleFeedResult) (by decide!) "v" c' hk
    have hc : c = sampleVault threeLoans := by
      simp only [sampleState, kvGet] at hk0
      split_ifs at hk0
      exact (Option.some.inj hk0).symm
    subst hc
    exact hnd (by unfold LoanPartition; decide!)
  · obtain ⟨-, hrel⟩ :=
      (loan_partition X0).2.2.2.2 (sampleAction "oracle" [3]) sampleLister
        (sampleState threeLoans) sampleFeed
        (resultState sampleFeedResult, resultLogs sampleFeedResult) (by decide!)
        (keysOk_sampleState threeLoans)
    have hv : kvGet (sampleState threeLoans).vaults "v" = some (sampleVault threeLoans) := by
      simp [sampleState, kvGet]
    rcases hrel "v" with ⟨hnone, -⟩ | ⟨c, c', h1, h2, hid, hperm, -, hnd⟩
    · rw [hv] at hnone
      cases hnone
    · rw [hv] at h1
      cases Option.some.inj h1
      exact ⟨c', h2, hid, hperm, hnd (by unfold LoanPartition; decide!)⟩


/-! ## Conservation of the configured total: what the handlers keep -/

/-- C17 (amended): what the code keeps of conservation.  A Create of `x` succeeds only when
`x + Σ(total balance of the vaults the status index lists as Created) ≤ config.total_balance`,
and stores a vault with total `x` (new vault) or the old total plus `x` (top-up), leaving the
configuration as it was.  Borrow, Repay, Append and Feed change neither the configuration nor
the total balance of any vault.  Repay and Append leave the vault's status; Borrow rejects a
vault in status Close and stores the vault with status Created; on a store keyed by the vault
ids a Feed keeps the keys, and the vault it leaves under a key has the id, the total balance
and the status of the vault that was there.  Retrieve leaves the configuration and lowers the
vault's total by the amount retrieved.  Manage leaves every vault as it was and stores the
payload's total balance when it is non-zero, without comparing it with the vaults. -/
theorem conservation_parts (X : Ext) :
    (∀ action localdb st create r, CollateralizeCreate X action localdb st create = .ok r →
      r.1.config = st.config ∧
      (∃ collcfg, st.config = some collcfg ∧
        create.TotalBalance +
          listedTotal st
            (match queryCollateralizeByStatus localdb X.CollateralizeStatusCreated with
              | .ok ids => ids
              | .error _ => []) ≤ collcfg.TotalBalance) ∧
      (∃ c', r.1.vaults = kvSet st.vaults c'.CollateralizeId c' ∧
        (c'.TotalBalance = create.TotalBalance ∨
          ∃ id0 coll, kvGet st.vaults id0 = some coll ∧
            c'.CollateralizeId = coll.CollateralizeId ∧
            c'.TotalBalance = coll.TotalBalance + create.TotalBalance))) ∧
    (∀ action st borrow r, CollateralizeBorrow X action st borrow = .ok r →
      r.1.config = st.config ∧
      ∃ coll c', queryCollateralizeByID st borrow.CollateralizeId = .ok coll ∧
        r.1.vaults = kvSet st.vaults coll.CollateralizeId c' ∧
        c'.TotalBalance = coll.TotalBalance ∧
        coll.Status ≠ X.CollateralizeStatusClose ∧
        c'.Status = X.CollateralizeStatusCreated ∧
        (coll.Status = X.CollateralizeStatusCreated → c'.Status = coll.Status)) ∧
    (∀ action st repay r, CollateralizeRepay X action st repay = .ok r →
      r.1.config = st.config ∧
      ∃ coll c', queryCollateralizeByID st repay.CollateralizeId = .ok coll ∧
        r.1.vaults = kvSet st.vaults coll.CollateralizeId c' ∧
        c'.TotalBalance = coll.TotalBalance ∧ c'.Status = coll.Status) ∧
    (∀ action st cAppend r, CollateralizeAppend X action st cAppend = .ok r →
      r.1.config = st.config ∧
      ∃ coll c', queryCollateralizeByID st cAppend.CollateralizeId = .ok coll ∧
        r.1.vaults = kvSet st.vaults coll.CollateralizeId c' ∧
        c'.TotalBalance = coll.TotalBalance ∧ c'.Status = coll.Status) ∧
    (∀ action localdb st feed r, CollateralizeFeed X action localdb st feed = .ok r →
      ∀ k c', kvGet r.1.vaults k = some c' →
        ∃ k0 c, kvGet st.vaults k0 = some c ∧ c'.TotalBalance = c.TotalBalance ∧
          c'.Status = c.Status) ∧
    (∀ action localdb st feed r, CollateralizeFeed X action localdb st feed = .ok r →
      r.1.config = st.config ∧
      (KeysOk st →
        KeysOk r.1 ∧
        ∀ k, (kvGet st.vaults k = none ∧ kvGet r.1.vaults k = none) ∨
          ∃ c c', kvGet st.vaults k = some c ∧ kvGet r.1.vaults k = some c' ∧
            c'.CollateralizeId = c.CollateralizeId ∧
            c'.TotalBalance = c.TotalBalance ∧ c'.Status = c.Status)) ∧
    (∀ action st retrieve r, CollateralizeRetrieve X action st retrieve = .ok r →
      r.1.config = st.config ∧
      ∃ coll c', queryCollateralizeByID st retrieve.CollateralizeId = .ok coll ∧
        r.1.vaults = kvSet st.vaults coll.CollateralizeId c' ∧
        c'.TotalBalance = coll.TotalBalance - retrieve.Balance) ∧
    (∀ action st manage r, CollateralizeManage action st manage = .ok r →
      r.1.vaults = st.vaults ∧
      ∃ cfg, r.1.config = some cfg ∧
        (manage.TotalBalance ≠ 0 → cfg.TotalBalance = manage.TotalBalance)) := by
  refine ⟨?_, ?_, ?_, ?_, ?_, ?_, ?_, ?_⟩
  · intro action localdb st create r h
    obtain ⟨collcfg, reBalance, hc, hb, hle⟩ := create_admission h
    have hcfg : st.config = some collcfg := by
      unfold getCollateralizeConfig at hc
      cases hcc : st.config with
      | none => simp [hcc] at hc
      | some cfg =>
        simp only [hcc] at hc
        rw [Except.ok.inj hc]
    have hsum := getCollBalanceLoop_spec st _ _ _ hb
    obtain ⟨collcfg', token1, -, -, -, -, hr | ⟨id0, coll, hq, hr⟩⟩ := create_ok_inv h
    · subst hr
      refine ⟨rfl, ⟨collcfg, hcfg, by linarith⟩, createVault X action collcfg' create, rfl,
        Or.inl rfl⟩
    · subst hr
      refine ⟨rfl, ⟨collcfg, hcfg, by linarith⟩, topUpVault X action coll create, rfl,
        Or.inr ⟨id0, coll, query_ok_iff.mp hq, rfl, rfl⟩⟩
  · intro action st borrow r h
    obtain ⟨coll, p, c, coins1, coins2, token1, hq, hst, -, -, -, -, -, -, -, -, -, hr⟩ :=
      borrow_ok_inv h
    subst hr
    obtain ⟨-, -, -, f4, -, -, f7, -⟩ :=
      borrowVault_fields X coll borrow (newBorrowRecord X action coll borrow p c) c
    have hcreated : (borrowVault X coll borrow (newBorrowRecord X action coll borrow p c)
        c).Status = X.CollateralizeStatusCreated := by
      by_cases hlt : coll.LatestLiquidationPrice
          < (newBorrowRecord X action coll borrow p c).LiquidationPrice <;>
        simp [borrowVault, hlt]
    refine ⟨rfl, coll, borrowVault X coll borrow (newBorrowRecord X action coll borrow p c) c,
      hq, ?_, f4, hst, hcreated, fun hs => hcreated.trans hs.symm⟩
    show kvSet st.vaults _ _ = _
    rw [f7]
  · intro action st repay r h
    obtain ⟨coll, index, rec, token1, token2, coins1, hq, -, -, -, -, -, -, -, hr⟩ :=
      repay_ok_inv h
    subst hr
    exact ⟨rfl, coll, _, hq, rfl, rfl, rfl⟩
  · intro action st cAppend r h
    obtain ⟨coll, index, rec, p, coins1, coins2, -, hq, -, -, -, -, -, -, -, hr⟩ :=
      append_ok_inv h
    subst hr
    exact ⟨rfl, coll, _, hq, rfl, rfl, rfl⟩
  · intro action localdb st feed r h k c' hk
    exact @feed_rel X action localdb st feed r
      (fun c c' => c'.TotalBalance = c.TotalBalance ∧ c'.Status = c.Status)
      (fun _ => ⟨rfl, rfl⟩)
      (fun _ _ _ h1 h2 => ⟨h2.1.trans h1.1, h2.2.trans h1.2⟩)
      (fun _ _ _ _ _ _ hs => by
        obtain ⟨m, -, hm⟩ := sweepLoop_result hs
        rw [(Prod.mk.inj (Prod.mk.inj hm).2).1]
        exact ⟨rfl, rfl⟩)
      (fun _ _ _ _ _ he => by
        obtain ⟨m, -, hm⟩ := sweepLoop_result he
        rw [(Prod.mk.inj (Prod.mk.inj hm).2).1]
        exact ⟨rfl, rfl⟩) h k c' hk
  · intro action localdb st feed r h
    refine ⟨feed_config h, fun hk => ?_⟩
    exact @feed_keyed X action localdb st feed r
      (fun c c' => c'.CollateralizeId = c.CollateralizeId ∧
        c'.TotalBalance = c.TotalBalance ∧ c'.Status = c.Status)
      (fun _ => ⟨rfl, rfl, rfl⟩)
      (fun _ _ _ h1 h2 => ⟨h2.1.trans h1.1, h2.2.1.trans h1.2.1, h2.2.2.trans h1.2.2⟩)
      (fun _ _ _ _ _ _ hs => by
        obtain ⟨m, -, hm⟩ := sweepLoop_result hs
        rw [(Prod.mk.inj (Prod.mk.inj hm).2).1]
        exact ⟨rfl, rfl, rfl⟩)
      (fun _ _ _ _ _ he => by
        obtain ⟨m, -, hm⟩ := sweepLoop_result he
        rw [(Prod.mk.inj (Prod.mk.inj hm).2).1]
        exact ⟨rfl, rfl, rfl⟩) h hk
  · intro action st retrieve r h
    obtain ⟨coll, token1, hq, -, -, -, hr⟩ := retrieve_ok_inv h
    subst hr
    obtain ⟨g1, -⟩ := retrieveVault_stamp X action coll retrieve
    obtain ⟨-, -, f3, -⟩ := retrieveVault_fields X action coll retrieve
    refine ⟨rfl, coll, retrieveVault X action coll retrieve, hq, ?_, f3⟩
    show kvSet st.vaults _ _ = _
    rw [g1]
  · intro action st manage r h
    unfold CollateralizeManage at h
    by_cases h1 : (!isRightAddr .ManageKey action.fromaddr st) = true
    · simp [h1] at h
    rw [if_neg h1] at h
    by_cases h2 : manage.DebtCeiling < 0 ∨ manage.LiquidationRatio < 0 ∨
        manage.LiquidationRatio ≥ 1 ∨ manage.StabilityFeeRatio < 0 ∨
        manage.StabilityFeeRatio ≥ 1
    · rw [if_pos h2] at h
      cases h
    rw [if_neg h2] at h
    cases Except.ok.inj h
    refine ⟨rfl, _, rfl, ?_⟩
    intro hne
    exact if_pos hne


theorem conservation_parts_witness :
    sampleCreateResult = .ok (resultState sampleCreateResult, resultLogs sampleCreateResult) ∧
    (∃ collcfg, (sampleState [sampleLoan "A" 1]).config = some collcfg ∧
      (50000000000 : Int) +
        listedTotal (sampleState [sampleLoan "A" 1])
          (match queryCollateralizeByStatus emptyLister X0.CollateralizeStatusCreated with
            | .ok ids => ids
            | .error _ => []) ≤ collcfg.TotalBalance) ∧
    sampleManageResult = .ok (resultState sampleManageResult, resultLogs sampleManageResult) ∧
    sampleManage.TotalBalance ≠ 0 ∧
    (∃ cfg, (resultState sampleManageResult).config = some cfg ∧
      cfg.TotalBalance = sampleManage.TotalBalance) ∧
    sampleFeedResult = .ok (resultState sampleFeedResult, resultLogs sampleFeedResult) ∧
    KeysOk (sampleState threeLoans) ∧
    (resultState sampleFeedResult).config = (sampleState threeLoans).config ∧
    (∃ c', kvGet (resultState sampleFeedResult).vaults "v" = some c' ∧
      c'.CollateralizeId = "v" ∧ c'.TotalBalance = 1000000000000 ∧ c'.Status = 1) :=
  ⟨by decide!,
   ((conservation_parts X0).1 (sampleAction "alice" [5]) emptyLister
      (sampleState [sampleLoan "A" 1]) { TotalBalance := 50000000000 }
      (resultState sampleCreateResult, resultLogs sampleCreateResult) (by decide!)).2.1,
   by decide!, by decide,
   by
    obtain ⟨-, cfg, h1, h2⟩ :=
      (conservation_parts X0).2.2.2.2.2.2.2 (sampleAction "admin" [6]) (sampleState [])
        sampleManage (resultState sampleManageResult, resultLogs sampleManageResult)
        (by decide!)
    exact ⟨cfg, h1, h2 (by decide)⟩,
   by decide!, keysOk_sampleState threeLoans,
   ((conservation_parts X0).2.2.2.2.2.1 (sampleAction "oracle" [3]) sampleLister
      (sampleState threeLoans) sampleFeed
      (resultState sampleFeedResult, resultLogs sampleFeedResult) (by decide!)).1,
   by
    obtain ⟨-, hrel⟩ :=
      ((conservation_parts X0).2.2.2.2.2.1 (sampleAction "oracle" [3]) sampleLister
        (sampleState threeLoans) sampleFeed
        (resultState sampleFeedResult, resultLogs sampleFeedResult) (by decide!)).2
        (keysOk_sampleState threeLoans)
    have hv : kvGet (sampleState threeLoans).vaults "v" = some (sampleVault threeLoans) := by
      simp [sampleState, kvGet]
    rcases hrel "v" with ⟨hnone, -⟩ | ⟨c, c', h1, h2, hid, htot, hst⟩
    · rw [hv] at hnone
      cases hnone
    · rw [hv] at h1
      cases Option.some.inj h1
      exact ⟨c', h2, hid, htot, hst⟩⟩




/-! ## Index stamps of the loan records through the sweeps -/

lemma stampRel_refl (X : Ext) (action : Action) (r : pty.BorrowRecord) :
    StampRel X action r r :=
  ⟨rfl, Or.inr ⟨rfl, rfl, Or.inl rfl⟩⟩

lemma stampRel_trans {X : Ext} {action : Action} {a b c : pty.BorrowRecord}
    (h1 : StampRel X action a b) (h2 : StampRel X action b c) : StampRel X action a c := by
  obtain ⟨i1, s1⟩ := h1
  obtain ⟨i2, s2⟩ := h2
  refine ⟨i2.trans i1, ?_⟩
  rcases s2 with s2 | ⟨e1, e2, e3⟩
  · exact Or.inl s2
  · rcases s1 with s1 | ⟨d1, d2, d3⟩
    · exact Or.inl (e1.trans s1)
    · refine Or.inr ⟨e1.trans d1, e2.trans d2, ?_⟩
      rcases e3 with e3 | e3
      · rcases d3 with d3 | d3
        · exact Or.inl (e3.trans d3)
        · exact Or.inr (e3.trans d3)
      · exact Or.inr e3

lemma stampInv_update {X : Ext} {action : Action} {recs : List pty.BorrowRecord}
    {m : SweepMem} {p : Nat} {r' : pty.BorrowRecord} {invalid' : List Nat}
    (h : SweepStampInv X action recs m) (hr : StampRel X action (m.heap p) r')
    (hinv : ∀ q ∈ invalid', q ∈ m.invalid ∨ (q = p ∧ r'.Index = GetIndex X action)) :
    (∀ q, StampRel X action (recs.getD q default) (Function.update m.heap p r' q)) ∧
    (∀ q ∈ invalid', (Function.update m.heap p r' q).Index = GetIndex X action) := by
  constructor
  · intro q
    by_cases hq : q = p
    · subst hq
      rw [Function.update_same]
      exact stampRel_trans (h.1 q) hr
    · rw [Function.update_noteq hq]
      exact h.1 q
  · intro q hmem
    by_cases hq : q = p
    · subst hq
      rw [Function.update_same]
      rcases hinv q hmem with hold | ⟨-, hnew⟩
      · rcases hr.2 with hs | ⟨hs, -, -⟩
        · exact hs
        · exact hs.trans (h.2 q hold)
      · exact hnew
    · rw [Function.update_noteq hq]
      rcases hinv q hmem with hold | ⟨hqp, -⟩
      · exact h.2 q hold
      · exact absurd hqp hq

lemma seize_stamp {X : Ext} {action : Action} {st : State} {coll : pty.Collateralize}
    {status : Int} {index p : Nat} {m m' : SweepMem} {recs : List pty.BorrowRecord}
    (h : seize X action st coll status index p m = .ok m')
    (hinv : SweepStampInv X action recs m) : SweepStampInv X action recs m' := by
  unfold seize at h
  cases hg : getGuarantorAddr st with
  | error e =>
    simp only [hg] at h
    split_ifs at h
    cases Except.ok.inj h
    exact hinv
  | ok guarantor =>
    simp only [hg] at h
    cases ht : X.account.ExecTransferFrozen m.coins coll.CreateAddr guarantor
        (m.heap p).CollateralValue with
    | error e =>
      simp only [ht] at h
      split_ifs at h
      cases Except.ok.inj h
      exact hinv
    | ok coins1 =>
      simp only [ht] at h
      cases hr : removeAt m.arr m.len index with
      | error e => simp [hr] at h
      | ok res =>
        obtain ⟨arr1, len1⟩ := res
        simp only [hr] at h
        cases Except.ok.inj h
        exact stampInv_update hinv ⟨rfl, Or.inl rfl⟩ (fun q hq => by
          rcases List.mem_append.mp hq with hq | hq
          · exact Or.inl hq
          · exact Or.inr ⟨List.mem_singleton.mp hq, rfl⟩)

lemma systemLiquidationStep_stamp {X : Ext} {action : Action} {st : State}
    {coll : pty.Collateralize} {price : ℚ} {index : Nat} {m m' : SweepMem}
    {recs : List pty.BorrowRecord}
    (h : systemLiquidationStep X action st coll price index m = .ok m')
    (hinv : SweepStampInv X action recs m) : SweepStampInv X action recs m' := by
  unfold systemLiquidationStep at h
  cases hp : m.arr[index]? with
  | none => simp [hp] at h
  | some p =>
    simp only [hp] at h
    split_ifs at h with h1 h2 h3
    · cases Except.ok.inj h
      exact stampInv_update hinv ⟨rfl, Or.inr ⟨rfl, rfl, Or.inr rfl⟩⟩
        (fun q hq => Or.inl hq)
    · cases Except.ok.inj h
      exact hinv
    · exact seize_stamp h hinv
    · cases Except.ok.inj h
      exact stampInv_update hinv ⟨rfl, Or.inl rfl⟩ (fun q hq => Or.inl hq)

lemma expireLiquidationStep_stamp {X : Ext} {action : Action} {st : State}
    {coll : pty.Collateralize} {index : Nat} {m m' : SweepMem}
    {recs : List pty.BorrowRecord}
    (h : expireLiquidationStep X action st coll index m = .ok m')
    (hinv : SweepStampInv X action recs m) : SweepStampInv X action recs m' := by
  unfold expireLiquidationStep at h
  cases hp : m.arr[index]? with
  | none => simp [hp] at h
  | some p =>
    simp only [hp] at h
    split_ifs at h with h1 h2
    · cases Except.ok.inj h
      exact hinv
    · exact seize_stamp h hinv
    · cases Except.ok.inj h
      exact stampInv_update hinv ⟨rfl, Or.inl rfl⟩ (fun q hq => Or.inl hq)

lemma sweepFinish_stamp {X : Ext} {action : Action} {st : State} {coll : pty.Collateralize}
    {m : SweepMem} (hm : SweepInv coll.BorrowRecords coll.CollBalance m)
    (hs : SweepStampInv X action coll.BorrowRecords m) :
    FeedStampStep X action coll (sweepFinish st coll m).2.1 := by
  refine ⟨rfl, rfl, m.invalid.map m.heap, rfl, ?_, ?_⟩
  · intro r' hr'
    obtain ⟨p, hp, rfl⟩ := List.mem_map.mp hr'
    exact hs.2 p hp
  · intro r' hr'
    have hr2 : r' ∈ (m.arr.take m.len ++ m.invalid).map m.heap := by
      rw [List.map_append]
      exact hr'
    obtain ⟨p, hp, rfl⟩ := List.mem_map.mp hr2
    have hrange : p ∈ List.range coll.BorrowRecords.length := hm.perm.subset hp
    have hlt : p < coll.BorrowRecords.length := List.mem_range.mp hrange
    refine ⟨coll.BorrowRecords[p], List.getElem_mem _, ?_⟩
    have := hs.1 p
    rw [List.getD_eq_getElem _ _ hlt] at this
    exact this

lemma sweep_stamp {X : Ext} {action : Action} {st st' : State} {coll coll' : pty.Collateralize}
    {logs : List pty.ReceiptLog} {step : Nat → SweepMem → Except Err SweepMem}
    (hinv : ∀ index m m', step index m = .ok m' →
      SweepInv coll.BorrowRecords coll.CollBalance m →
      SweepInv coll.BorrowRecords coll.CollBalance m')
    (hstamp : ∀ index m m', step index m = .ok m' →
      SweepStampInv X action coll.BorrowRecords m →
      SweepStampInv X action coll.BorrowRecords m')
    (h : (match sweepLoop step (List.range coll.BorrowRecords.length) (sweepInit st coll) with
          | .error e => (Except.error e : Except Err _)
          | .ok m => .ok (sweepFinish st coll m)) = .ok (st', coll', logs)) :
    FeedStampStep X action coll coll' := by
  obtain ⟨m, hl, hm⟩ := sweepLoop_result h
  have h1 : SweepInv coll.BorrowRecords coll.CollBalance m :=
    @sweepLoop_inv _ (SweepInv coll.BorrowRecords coll.CollBalance) hinv _ _ _ hl
      (sweepInit_inv st coll)
  have h2 : SweepStampInv X action coll.BorrowRecords m :=
    @sweepLoop_inv _ (SweepStampInv X action coll.BorrowRecords) hstamp _ _ _ hl
      ⟨fun p => stampRel_refl X action _, fun p hp => by simp [sweepInit] at hp⟩
  have h3 := @sweepFinish_stamp X action st coll m h1 h2
  rw [← hm] at h3
  exact h3

lemma feedStampStep_refl (X : Ext) (action : Action) (c : pty.Collateralize) :
    FeedStampStep X action c c := by
  refine ⟨rfl, rfl, [], by simp, fun r' hr' => by simp at hr', ?_⟩
  intro r' hr'
  rw [List.append_nil] at hr'
  exact ⟨r', hr', stampRel_refl X action r'⟩

lemma feedStampStep_trans {X : Ext} {action : Action} (a b c : pty.Collateralize)
    (h1 : FeedStampStep X action a b) (h2 : FeedStampStep X action b c) :
    FeedStampStep X action a c := by
  obtain ⟨i1, p1, s1, e1, g1, r1⟩ := h1
  obtain ⟨i2, p2, s2, e2, g2, r2⟩ := h2
  refine ⟨i2.trans i1, p2.trans p1, s1 ++ s2, by rw [e2, e1, List.append_assoc], ?_, ?_⟩
  · intro r' hr'
    rcases List.mem_append.mp hr' with hr' | hr'
    · exact g1 r' hr'
    · exact g2 r' hr'
  · intro r' hr'
    have hcases : r' ∈ s1 ∨ r' ∈ c.BorrowRecords ++ s2 := by
      simp only [List.mem_append] at hr' ⊢
      tauto
    rcases hcases with hin | hin
    · exact r1 r' (List.mem_append_right _ hin)
    · obtain ⟨rb, hrb, hrel2⟩ := r2 r' hin
      obtain ⟨ra, hra, hrel1⟩ := r1 rb (List.mem_append_left _ hrb)
      exact ⟨ra, hra, stampRel_trans hrel1 hrel2⟩


/-! ## Index stamps of the vaults -/

/-- C16 (amended): the index of a transaction, `height * MaxTxsPerBlock + index`, is strictly
greater than that of every earlier transaction.  A successful Create that tops up a vault and
a successful Retrieve store the vault with `Index` = index of the transaction and `PreIndex` =
its previous `Index` (so strictly greater when the vault was last stamped by an earlier
transaction).  A successful Borrow, Repay, Append and Feed store the vault with `Index` and
`PreIndex` unchanged: they stamp loan records, not the vault.  Borrow stamps the loan it
adds and Repay the loan it closes.  On a store keyed by the vault ids a Feed keeps the keys,
and the vault it leaves under a key has the id, `Index` and `PreIndex` of the vault that was
there; the loans it seized are appended to the invalid records with the index of the
transaction, and every loan of afterwards is a loan of before with the same record id that
either carries the index of the transaction or has kept its `Index` and `PreIndex`, with its
old status or with status Create. -/
theorem vault_index_stamps (X : Ext) :
    (∀ a1 a2 : Action, 0 ≤ a1.index → a1.index < X.MaxTxsPerBlock → 0 ≤ a2.index →
      (a1.height < a2.height ∨ (a1.height = a2.height ∧ a1.index < a2.index)) →
      GetIndex X a1 < GetIndex X a2) ∧
    (∀ action coll create,
      (topUpVault X action coll create).Index = GetIndex X action ∧
      (topUpVault X action coll create).PreIndex = coll.Index ∧
      (coll.Index < GetIndex X action →
        coll.Index < (topUpVault X action coll create).Index)) ∧
    (∀ action localdb st create r id0 rest,
      CollateralizeCreate X action localdb st create = .ok r →
      queryCollateralizeByAddr localdb action.fromaddr X.CollateralizeStatusCreated =
        .ok (id0 :: rest) →
      ∃ coll c', queryCollateralizeByID st id0 = .ok coll ∧
        r.1.vaults = kvSet st.vaults coll.CollateralizeId c' ∧
        c'.Index = GetIndex X action ∧ c'.PreIndex = coll.Index ∧
        (coll.Index < GetIndex X action → coll.Index < c'.Index)) ∧
    (∀ action st retrieve r, CollateralizeRetrieve X action st retrieve = .ok r →
      ∃ coll c', queryCollateralizeByID st retrieve.CollateralizeId = .ok coll ∧
        r.1.vaults = kvSet st.vaults coll.CollateralizeId c' ∧
        c'.Index = GetIndex X action ∧ c'.PreIndex = coll.Index ∧
        (coll.Index < GetIndex X action → coll.Index < c'.Index)) ∧
    (∀ action st borrow r, CollateralizeBorrow X action st borrow = .ok r →
      ∃ coll c', queryCollateralizeByID st borrow.CollateralizeId = .ok coll ∧
        r.1.vaults = kvSet st.vaults coll.CollateralizeId c' ∧
        c'.Index = coll.Index ∧ c'.PreIndex = coll.PreIndex ∧
        (∃ record ∈ c'.BorrowRecords, record.Index = GetIndex X action)) ∧
    (∀ action st repay r, CollateralizeRepay X action st repay = .ok r →
      ∃ coll c', queryCollateralizeByID st repay.CollateralizeId = .ok coll ∧
        r.1.vaults = kvSet st.vaults coll.CollateralizeId c' ∧
        c'.Index = coll.Index ∧ c'.PreIndex = coll.PreIndex ∧
        (∃ record ∈ c'.InvalidRecords, record.Index = GetIndex X action)) ∧
    (∀ action st cAppend r, CollateralizeAppend X action st cAppend = .ok r →
      ∃ coll c', queryCollateralizeByID st cAppend.CollateralizeId = .ok coll ∧
        r.1.vaults = kvSet st.vaults coll.CollateralizeId c' ∧
        c'.Index = coll.Index ∧ c'.PreIndex = coll.PreIndex) ∧
    (∀ action localdb st feed r, CollateralizeFeed X action localdb st feed = .ok r →
      ∀ k c', kvGet r.1.vaults k = some c' →
        ∃ k0 c, kvGet st.vaults k0 = some c ∧ c'.Index = c.Index ∧
          c'.PreIndex = c.PreIndex) ∧
    (∀ action localdb st feed r, CollateralizeFeed X action localdb st feed = .ok r →
      KeysOk st →
      KeysOk r.1 ∧
      ∀ k, (kvGet st.vaults k = none ∧ kvGet r.1.vaults k = none) ∨
        ∃ c c', kvGet st.vaults k = some c ∧ kvGet r.1.vaults k = some c' ∧
          c'.CollateralizeId = c.CollateralizeId ∧
          c'.Index = c.Index ∧ c'.PreIndex = c.PreIndex ∧
          ∃ seized, c'.InvalidRecords = c.InvalidRecords ++ seized ∧
            (∀ r' ∈ seized, r'.Index = GetIndex X action) ∧
            ∀ r' ∈ c'.BorrowRecords ++ seized, ∃ r0 ∈ c.BorrowRecords,
              r'.RecordId = r0.RecordId ∧
              (r'.Index = GetIndex X action ∨
                (r'.Index = r0.Index ∧ r'.PreIndex = r0.PreIndex ∧
                  (r'.Status = r0.Status ∨
                    r'.Status = X.CollateralizeUserStatusCreate)))) := by
  refine ⟨fun a1 a2 h1 h2 h3 hlt => getIndex_lt X a1 a2 h1 h2 h3 hlt,
    fun action coll create => ⟨rfl, rfl, fun h => h⟩, ?_, ?_, ?_, ?_, ?_, ?_, ?_⟩
  · intro action localdb st create r id0 rest h hlist
    obtain ⟨collcfg, token1, -, -, -, htop⟩ := create_ok_branch h
    obtain ⟨coll, hq, hr⟩ := htop id0 rest hlist
    subst hr
    exact ⟨coll, topUpVault X action coll create, hq, rfl, rfl, rfl, fun hlt => hlt⟩
  · intro action st retrieve r h
    obtain ⟨coll, token1, hq, -, -, -, hr⟩ := retrieve_ok_inv h
    subst hr
    obtain ⟨g1, -, g3, g4, -⟩ := retrieveVault_stamp X action coll retrieve
    refine ⟨coll, retrieveVault X action coll retrieve, hq, ?_, g4, g3, fun hlt => ?_⟩
    · show kvSet st.vaults _ _ = _
      rw [g1]
    · rw [g4]
      exact hlt
  · intro action st borrow r h
    obtain ⟨coll, p, c, coins1, coins2, token1, hq, -, -, -, -, -, -, -, -, -, -, hr⟩ :=
      borrow_ok_inv h
    subst hr
    obtain ⟨f1, -, -, -, -, -, f7, -⟩ :=
      borrowVault_fields X coll borrow (newBorrowRecord X action coll borrow p c) c
    refine ⟨coll, borrowVault X coll borrow (newBorrowRecord X action coll borrow p c) c, hq,
      ?_, ?_, ?_, newBorrowRecord X action coll borrow p c, ?_, rfl⟩
    · show kvSet st.vaults _ _ = _
      rw [f7]
    · by_cases hlt : coll.LatestLiquidationPrice
          < (newBorrowRecord X action coll borrow p c).LiquidationPrice <;>
        simp [borrowVault, hlt]
    · by_cases hlt : coll.LatestLiquidationPrice
          < (newBorrowRecord X action coll borrow p c).LiquidationPrice <;>
        simp [borrowVault, hlt]
    · rw [f1]
      simp
  · intro action st repay r h
    obtain ⟨coll, index, rec, token1, token2, coins1, hq, -, -, -, -, -, -, -, hr⟩ :=
      repay_ok_inv h
    subst hr
    refine ⟨coll, _, hq, rfl, rfl, rfl, closeRecord X action rec, ?_, rfl⟩
    simp [repayVault]
  · intro action st cAppend r h
    obtain ⟨coll, index, rec, p, coins1, coins2, -, hq, -, -, -, -, -, -, -, hr⟩ :=
      append_ok_inv h
    subst hr
    exact ⟨coll, _, hq, rfl, rfl, rfl⟩
  · intro action localdb st feed r h k c' hk
    exact @feed_rel X action localdb st feed r
      (fun c c' => c'.Index = c.Index ∧ c'.PreIndex = c.PreIndex) (fun _ => ⟨rfl, rfl⟩)
      (fun _ _ _ h1 h2 => ⟨h2.1.trans h1.1, h2.2.trans h1.2⟩)
      (fun _ _ _ _ _ _ hs => by
        obtain ⟨m, -, hm⟩ := sweepLoop_result hs
        rw [(Prod.mk.inj (Prod.mk.inj hm).2).1]
        exact ⟨rfl, rfl⟩)
      (fun _ _ _ _ _ he => by
        obtain ⟨m, -, hm⟩ := sweepLoop_result he
        rw [(Prod.mk.inj (Prod.mk.inj hm).2).1]
        exact ⟨rfl, rfl⟩) h k c' hk
  · intro action localdb st feed r h hk
    exact @feed_keyed X action localdb st feed r
      (fun c c' => c'.CollateralizeId = c.CollateralizeId ∧ FeedStampStep X action c c')
      (fun c => ⟨rfl, feedStampStep_refl X action c⟩)
      (fun a b c h1 h2 => ⟨h2.1.trans h1.1, feedStampStep_trans a b c h1.2 h2.2⟩)
      (fun _ _ _ _ _ _ hs =>
        ⟨(systemLiquidation_frame hs).2,
          sweep_stamp (fun _ _ _ h1 h2 => systemLiquidationStep_inv h1 h2)
            (fun _ _ _ h1 h2 => systemLiquidationStep_stamp h1 h2) hs⟩)
      (fun _ _ _ _ _ he =>
        ⟨(expireLiquidation_frame he).2,
          sweep_stamp (fun _ _ _ h1 h2 => expireLiquidationStep_inv h1 h2)
            (fun _ _ _ h1 h2 => expireLiquidationStep_stamp h1 h2) he⟩) h hk

theorem vault_index_stamps_witness :
    (0 : Int) ≤ (sampleAction "bob" [1]).index ∧
    (sampleAction "bob" [1]).index < X0.MaxTxsPerBlock ∧
    GetIndex X0 { sampleAction "bob" [1] with height := 9 } <
      GetIndex X0 (sampleAction "bob" [1]) ∧
    sampleBorrowResult = .ok (resultState sampleBorrowResult, resultLogs sampleBorrowResult) ∧
    (∃ coll c', queryCollateralizeByID (sampleState []) sampleBorrow.CollateralizeId
          = .ok coll ∧
        (resultState sampleBorrowResult).vaults =
          kvSet (sampleState []).vaults coll.CollateralizeId c' ∧
        c'.Index = coll.Index ∧ c'.PreIndex = coll.PreIndex) ∧
    sampleFeedResult = .ok (resultState sampleFeedResult, resultLogs sampleFeedResult) ∧
    KeysOk (sampleState threeLoans) ∧
    (∃ c', kvGet (resultState sampleFeedResult).vaults "v" = some c' ∧
      c'.CollateralizeId = "v" ∧ c'.Index = 5 ∧ c'.PreIndex = 0 ∧
      ∃ seized, c'.InvalidRecords = seized ∧ ∀ r' ∈ seized, r'.Index = 1000003) ∧
    sampleTopUpResult = .ok (resultState sampleTopUpResult, resultLogs sampleTopUpResult) ∧
    (∃ coll c', queryCollateralizeByID (sampleState [sampleLoan "A" 1]) "v" = .ok coll ∧
      (resultState sampleTopUpResult).vaults =
        kvSet (sampleState [sampleLoan "A" 1]).vaults coll.CollateralizeId c' ∧
      c'.Index = GetIndex X0 (sampleAction "alice" [5]) ∧ c'.PreIndex = coll.Index) :=
  ⟨by decide, by decide,
   (vault_index_stamps X0).1 { sampleAction "bob" [1] with height := 9 }
     (sampleAction "bob" [1]) (by decide) (by decide) (by decide) (Or.inl (by decide)),
   by decide!,
   by
    obtain ⟨coll, c', h1, h2, h3, h4, -⟩ :=
      (vault_index_stamps X0).2.2.2.2.1 (sampleAction "bob" [1]) (sampleState []) sampleBorrow
        (resultState sampleBorrowResult, resultLogs sampleBorrowResult) (by decide!)
    exact ⟨coll, c', h1, h2, h3, h4⟩,
   by decide!, keysOk_sampleState threeLoans,
   by
    obtain ⟨-, hrel⟩ :=
      (vault_index_stamps X0).2.2.2.2.2.2.2.2 (sampleAction "oracle" [3]) sampleLister
        (sampleState threeLoans) sampleFeed
        (resultState sampleFeedResult, resultLogs sampleFeedResult) (by decide!)
        (keysOk_sampleState threeLoans)
    have hv : kvGet (sampleState threeLoans).vaults "v" = some (sampleVault threeLoans) := by
      simp [sampleState, kvGet]
    rcases hrel "v" with ⟨hnone, -⟩ | ⟨c, c', h1, h2, hid, hi, hp, seized, hs, hstamp, -⟩
    · rw [hv] at hnone
      cases hnone
    · rw [hv] at h1
      cases Option.some.inj h1
      refine ⟨c', h2, hid, hi, hp, seized, ?_, hstamp⟩
      rw [hs]
      rfl,
   by decide!,
   by
    obtain ⟨coll, c', h1, h2, h3, h4, -⟩ :=
      (vault_index_stamps X0).2.2.1 (sampleAction "alice" [5]) sampleLister
        (sampleState [sampleLoan "A" 1]) { TotalBalance := 50000000000 }
        (resultState sampleTopUpResult, resultLogs sampleTopUpResult) "v" [] (by decide!)
        (by decide!)
    exact ⟨coll, c', h1, h2, h3, h4⟩⟩




/-! ## Range of the stored configuration -/

lemma f64_ratio_in_range (x prev : F64) (hnan : x ≠ .nan)
    (h1 : ¬ F64.lt x (.fin 0) = true) (h2 : ¬ F64.ge x (.fin 1) = true)
    (hprev : F64.lt (.fin 0) prev = true ∧ F64.lt prev (.fin 1) = true) :
    F64.lt (.fin 0) (if F64.ne x (.fin 0) = true then x else prev) = true ∧
    F64.lt (if F64.ne x (.fin 0) = true then x else prev) (.fin 1) = true := by
  cases x with
  | nan => exact absurd rfl hnan
  | inf negative =>
    cases negative
    · exact absurd rfl h2
    · exact absurd rfl h1
  | fin q =>
    simp only [F64.lt, F64.ge, decide_eq_true_eq, not_lt, ge_iff_le, not_le] at h1 h2
    by_cases hz : q = 0
    · have hne : ¬ F64.ne (.fin q) (.fin 0) = true := by simp [F64.ne, hz]
      rw [if_neg hne]
      exact hprev
    · have hne : F64.ne (.fin q) (.fin 0) = true := by simp [F64.ne, hz]
      rw [if_pos hne]
      simp only [F64.lt, decide_eq_true_eq]
      exact ⟨lt_of_le_of_ne h1 (Ne.symm hz), h2⟩

lemma manageF64_ok_inv {action : Action} {st : State} {stored : Option ManageF64}
    {manage cfg : ManageF64} (h : CollateralizeManageF64 action st stored manage = .ok cfg) :
    ¬ (manage.DebtCeiling < 0 ∨ F64.lt manage.LiquidationRatio (.fin 0) = true ∨
      F64.ge manage.LiquidationRatio (.fin 1) = true ∨
      F64.lt manage.StabilityFeeRatio (.fin 0) = true ∨
      F64.ge manage.StabilityFeeRatio (.fin 1) = true) ∧
    ∃ prev : ManageF64,
      (∀ c, stored = some c → prev = c) ∧
      (stored = none →
        prev.LiquidationRatio = .fin DefaultLiquidationRatio ∧
        prev.StabilityFeeRatio = .fin DefaultStabilityFeeRation ∧
        prev.DebtCeiling = DefaultDebtCeiling) ∧
      cfg.LiquidationRatio =
        (if F64.ne manage.LiquidationRatio (.fin 0) = true then manage.LiquidationRatio
          else prev.LiquidationRatio) ∧
      cfg.StabilityFeeRatio =
        (if F64.ne manage.StabilityFeeRatio (.fin 0) = true then manage.StabilityFeeRatio
          else prev.StabilityFeeRatio) ∧
      cfg.DebtCeiling =
        (if manage.DebtCeiling ≠ 0 then manage.DebtCeiling else prev.DebtCeiling) := by
  unfold CollateralizeManageF64 at h
  by_cases h1 : (!isRightAddr .ManageKey action.fromaddr st) = true
  · rw [if_pos h1] at h
    cases h
  rw [if_neg h1] at h
  by_cases h2 : manage.DebtCeiling < 0 ∨ F64.lt manage.LiquidationRatio (.fin 0) = true ∨
      F64.ge manage.LiquidationRatio (.fin 1) = true ∨
      F64.lt manage.StabilityFeeRatio (.fin 0) = true ∨
      F64.ge manage.StabilityFeeRatio (.fin 1) = true
  · rw [if_pos h2] at h
    cases h
  rw [if_neg h2] at h
  cases Except.ok.inj h
  refine ⟨h2, _, ?_, ?_, rfl, rfl, rfl⟩
  · intro c hc
    subst hc
    rfl
  · intro hc
    subst hc
    exact ⟨rfl, rfl, rfl⟩

lemma manageF64_in_range {action : Action} {st : State} {stored : Option ManageF64}
    {manage cfg : ManageF64} (h : CollateralizeManageF64 action st stored manage = .ok cfg)
    (hl : manage.LiquidationRatio ≠ .nan) (hs : manage.StabilityFeeRatio ≠ .nan)
    (hprev : ∀ c, stored = some c → ConfigInRange c) : ConfigInRange cfg := by
  obtain ⟨hguard, prev, hsome, hnone, f1, f2, f3⟩ := manageF64_ok_inv h
  simp only [not_or, not_lt] at hguard
  obtain ⟨q1, q2, q3, q4, q5⟩ := hguard
  have hrange : ConfigInRange prev := by
    cases hc : stored with
    | none =>
      obtain ⟨d1, d2, d3⟩ := hnone hc
      unfold ConfigInRange
      rw [d1, d2, d3]
      refine ⟨?_, ?_, ?_, ?_, ?_⟩
      · simp only [F64.lt, decide_eq_true_eq]
        unfold DefaultLiquidationRatio
        norm_num
      · simp only [F64.lt, decide_eq_true_eq]
        unfold DefaultLiquidationRatio
        norm_num
      · simp only [F64.lt, decide_eq_true_eq]
        unfold DefaultStabilityFeeRation
        norm_num
      · simp only [F64.lt, decide_eq_true_eq]
        unfold DefaultStabilityFeeRation
        norm_num
      · unfold DefaultDebtCeiling Coin
        norm_num
    | some c =>
      rw [hsome c hc]
      exact hprev c hc
  obtain ⟨p1, p2, p3, p4, p5⟩ := hrange
  have hL := f64_ratio_in_range manage.LiquidationRatio prev.LiquidationRatio hl q2 q3 ⟨p1, p2⟩
  have hS := f64_ratio_in_range manage.StabilityFeeRatio prev.StabilityFeeRatio hs q4 q5
    ⟨p3, p4⟩
  unfold ConfigInRange
  rw [f1, f2, f3]
  refine ⟨hL.1, hL.2, hS.1, hS.2, ?_⟩
  split_ifs with hz
  · exact lt_of_le_of_ne q1 (Ne.symm hz)
  · exact p5

lemma manageSeqF64_in_range (st : State) :
    ∀ (txs : List (Action × ManageF64)) (stored stored' : Option ManageF64),
      (∀ tx ∈ txs, tx.2.LiquidationRatio ≠ .nan ∧ tx.2.StabilityFeeRatio ≠ .nan) →
      (∀ c, stored = some c → ConfigInRange c) → manageSeqF64 st txs stored = .ok stored' →
      (∀ c, stored' = some c → ConfigInRange c) ∧ (txs ≠ [] → stored' ≠ none)
  | [], stored, stored', _, hprev, h => by
    cases Except.ok.inj h
    exact ⟨hprev, fun hne => absurd rfl hne⟩
  | (action, manage) :: rest, stored, stored', hnan, hprev, h => by
    unfold manageSeqF64 at h
    cases hm : CollateralizeManageF64 action st stored manage with
    | error e => simp [hm] at h
    | ok cfg =>
      simp only [hm] at h
      have hn := hnan (action, manage) (List.mem_cons_self _ _)
      have hr := manageF64_in_range hm hn.1 hn.2 hprev
      have hnext : ∀ c, some cfg = some c → ConfigInRange c := by
        intro c hc
        cases hc
        exact hr
      obtain ⟨ih1, ih2⟩ := manageSeqF64_in_range st rest (some cfg) stored'
        (fun tx htx => hnan tx (List.mem_cons_of_mem _ htx)) hnext h
      refine ⟨ih1, fun _ => ?_⟩
      by_cases hrest : rest = []
      · subst hrest
        cases Except.ok.inj h
        exact Option.some_ne_none _
      · exact ih2 hrest

/-- On numeric ratios the Manage over `float64` values is the Manage over exact numbers. -/
lemma manageF64_ofConfig (action : Action) (st : State) (manage : pty.CollateralizeManage) :
    CollateralizeManageF64 action st (st.config.map ManageF64.ofConfig)
        (ManageF64.ofConfig manage) =
      match CollateralizeManage action st manage with
      | .error e => .error e
      | .ok r => .ok (ManageF64.ofConfig (r.1.config.getD default)) := by
  unfold CollateralizeManageF64 CollateralizeManage
  by_cases h1 : (!isRightAddr .ManageKey action.fromaddr st) = true
  · rw [if_pos h1, if_pos h1]
  rw [if_neg h1, if_neg h1]
  have hguard : (manage.DebtCeiling < 0 ∨ manage.LiquidationRatio < 0 ∨
        manage.LiquidationRatio ≥ 1 ∨ manage.StabilityFeeRatio < 0 ∨
        manage.StabilityFeeRatio ≥ 1) ↔
      ((ManageF64.ofConfig manage).DebtCeiling < 0 ∨
        F64.lt (ManageF64.ofConfig manage).LiquidationRatio (.fin 0) = true ∨
        F64.ge (ManageF64.ofConfig manage).LiquidationRatio (.fin 1) = true ∨
        F64.lt (ManageF64.ofConfig manage).StabilityFeeRatio (.fin 0) = true ∨
        F64.ge (ManageF64.ofConfig manage).StabilityFeeRatio (.fin 1) = true) := by
    simp [ManageF64.ofConfig, F64.lt, F64.ge]
  by_cases h2 : manage.DebtCeiling < 0 ∨ manage.LiquidationRatio < 0 ∨
        manage.LiquidationRatio ≥ 1 ∨ manage.StabilityFeeRatio < 0 ∨
        manage.StabilityFeeRatio ≥ 1
  · rw [if_pos h2, if_pos (hguard.mp h2)]
  rw [if_neg h2, if_neg (fun h => h2 (hguard.mpr h))]
  cases hc : st.config with
  | none =>
    simp only [getCollateralizeConfig, hc, Option.map_none', Option.getD_some,
      ManageF64.ofConfig, F64.ne, ne_eq, decide_not, Bool.not_eq_true', decide_eq_false_iff_not]
    congr 1
    simp only [ManageF64.mk.injEq, true_and, and_true]
    refine ⟨?_, ?_⟩ <;> split_ifs <;> rfl
  | some c =>
    simp only [getCollateralizeConfig, hc, Option.map_some', Option.getD_some,
      ManageF64.ofConfig, F64.ne, ne_eq, decide_not, Bool.not_eq_true', decide_eq_false_iff_not]
    congr 1
    simp only [ManageF64.mk.injEq, true_and, and_true]
    refine ⟨?_, ?_⟩ <;> split_ifs <;> rfl

/-- C36 (counterexample): a Manage that stores a ratio outside the range.  No configuration is
stored; `admin`, who is in the manage-key table, sends a payload whose liquidation ratio is
NaN.  Both `NaN < 0` and `NaN >= 1` are false, so the range check passes, and `NaN != 0` is
true, so the payload's ratio is stored: the Manage succeeds and the stored liquidation ratio
is NaN, for which `0 < ratio` is false. -/
theorem manage_stores_nan :
    isRightAddr .ManageKey (sampleAction "admin" [6]).fromaddr (sampleState []) = true ∧
    F64.lt nanManage.LiquidationRatio (.fin 0) = false ∧
    F64.ge nanManage.LiquidationRatio (.fin 1) = false ∧
    F64.ne nanManage.LiquidationRatio (.fin 0) = true ∧
    (∃ cfg, CollateralizeManageF64 (sampleAction "admin" [6]) (sampleState []) none nanManage =
        .ok cfg ∧
      manageSeqF64 (sampleState []) [(sampleAction "admin" [6], nanManage)] none =
        .ok (some cfg) ∧
      cfg.LiquidationRatio = .nan ∧
      F64.lt (.fin 0) cfg.LiquidationRatio = false ∧
      ¬ ConfigInRange cfg) := by
  refine ⟨by decide, rfl, rfl, rfl,
    { DebtCeiling := DefaultDebtCeiling, LiquidationRatio := .nan,
      StabilityFeeRatio := .fin DefaultStabilityFeeRation, Period := DefaultPeriod,
      TotalBalance := DefaultTotalBalance, CurrentTime := 1000 }, ?_, ?_, rfl, rfl, ?_⟩
  · decide!
  · decide!
  · intro h
    have h1 : F64.lt (.fin 0) F64.nan = true := h.1
    cases h1

/-- C36 (amended): range of the stored configuration, with the ratios as `float64` values.
A successful Manage whose two payload ratios are not NaN, on a store without configuration or
with one in range, stores a configuration with `0 < liquidation_ratio < 1`,
`0 < stability_fee_ratio < 1` and `debt_ceiling > 0`; so after any non-empty sequence of
successful Manage transactions without a NaN ratio that starts without stored configuration,
a configuration is stored and it is in that range.  A ratio in that range is a number other
than 0, and a vault created from such a configuration has that liquidation ratio.  A payload
ratio that is NaN passes the range check and is stored as it is; a payload ratio or debt
ceiling that is 0 leaves the stored value. -/
theorem config_range_invariant (X : Ext) :
    (∀ action st stored manage cfg,
      CollateralizeManageF64 action st stored manage = .ok cfg →
      manage.LiquidationRatio ≠ .nan → manage.StabilityFeeRatio ≠ .nan →
      (∀ c, stored = some c → ConfigInRange c) → ConfigInRange cfg) ∧
    (∀ st txs stored', txs ≠ [] →
      (∀ tx ∈ txs, tx.2.LiquidationRatio ≠ .nan ∧ tx.2.StabilityFeeRatio ≠ .nan) →
      manageSeqF64 st txs none = .ok stored' →
      ∃ cfg, stored' = some cfg ∧
        F64.lt (.fin 0) cfg.LiquidationRatio = true ∧
        F64.lt cfg.LiquidationRatio (.fin 1) = true ∧
        F64.lt (.fin 0) cfg.StabilityFeeRatio = true ∧
        F64.lt cfg.StabilityFeeRatio (.fin 1) = true ∧ 0 < cfg.DebtCeiling) ∧
    (∀ cfg : ManageF64, ConfigInRange cfg →
      ∃ l s : ℚ, cfg.LiquidationRatio = .fin l ∧ 0 < l ∧ l < 1 ∧ l ≠ 0 ∧
        cfg.StabilityFeeRatio = .fin s ∧ 0 < s ∧ s < 1) ∧
    (∀ (collcfg : pty.CollateralizeManage) action create,
      ConfigInRange (ManageF64.ofConfig collcfg) →
      (createVault X action collcfg create).LiquidationRatio = collcfg.LiquidationRatio ∧
      0 < (createVault X action collcfg create).LiquidationRatio ∧
      (createVault X action collcfg create).LiquidationRatio ≠ 0) ∧
    (∀ action st stored manage cfg,
      CollateralizeManageF64 action st stored manage = .ok cfg →
      (manage.LiquidationRatio = .nan → cfg.LiquidationRatio = .nan) ∧
      (manage.StabilityFeeRatio = .nan → cfg.StabilityFeeRatio = .nan)) ∧
    (∀ action st prev manage cfg,
      CollateralizeManageF64 action st (some prev) manage = .ok cfg →
      (manage.LiquidationRatio = .fin 0 → cfg.LiquidationRatio = prev.LiquidationRatio) ∧
      (manage.StabilityFeeRatio = .fin 0 → cfg.StabilityFeeRatio = prev.StabilityFeeRatio) ∧
      (manage.DebtCeiling = 0 → cfg.DebtCeiling = prev.DebtCeiling)) := by
  refine ⟨?_, ?_, ?_, ?_, ?_, ?_⟩
  · intro action st stored manage cfg h hl hs hprev
    exact manageF64_in_range h hl hs hprev
  · intro st txs stored' hne hnan h
    obtain ⟨h1, h2⟩ := manageSeqF64_in_range st txs none stored' hnan
      (fun c hc => by cases hc) h
    cases hc : stored' with
    | none => exact absurd hc (h2 hne)
    | some cfg => exact ⟨cfg, rfl, h1 cfg hc⟩
  · intro cfg hr
    obtain ⟨p1, p2, p3, p4, -⟩ := hr
    cases hl : cfg.LiquidationRatio with
    | nan => rw [hl] at p1; cases p1
    | inf b =>
      rw [hl] at p1 p2
      cases b
      · exact absurd p2 (by simp [F64.lt])
      · exact absurd p1 (by simp [F64.lt])
    | fin l =>
      cases hs : cfg.StabilityFeeRatio with
      | nan => rw [hs] at p3; cases p3
      | inf b =>
        rw [hs] at p3 p4
        cases b
        · exact absurd p4 (by simp [F64.lt])
        · exact absurd p3 (by simp [F64.lt])
      | fin s =>
        rw [hl] at p1 p2
        rw [hs] at p3 p4
        simp only [F64.lt, decide_eq_true_eq] at p1 p2 p3 p4
        exact ⟨l, s, rfl, p1, p2, ne_of_gt p1, rfl, p3, p4⟩
  · intro collcfg action create hr
    have hpos : (0 : ℚ) < collcfg.LiquidationRatio := by
      have h1 : F64.lt (.fin 0) (.fin collcfg.LiquidationRatio) = true := hr.1
      simpa [F64.lt] using h1
    have hcopy : (createVault X action collcfg create).LiquidationRatio =
        collcfg.LiquidationRatio := rfl
    exact ⟨hcopy, by rw [hcopy]; exact hpos, by rw [hcopy]; exact ne_of_gt hpos⟩
  · intro action st stored manage cfg h
    obtain ⟨-, prev, -, -, f1, f2, -⟩ := manageF64_ok_inv h
    constructor
    · intro hn
      rw [f1, hn]
      rfl
    · intro hn
      rw [f2, hn]
      rfl
  · intro action st prev manage cfg h
    obtain ⟨-, prev', hsome, -, f1, f2, f3⟩ := manageF64_ok_inv h
    have hp : prev' = prev := hsome prev rfl
    subst hp
    refine ⟨?_, ?_, ?_⟩
    · intro hz
      rw [f1, hz]
      simp [F64.ne]
    · intro hz
      rw [f2, hz]
      simp [F64.ne]
    · intro hz
      rw [f3, hz]
      simp

theorem config_range_invariant_witness :
    (sampleManageSeq ≠ [] ∧
      ∀ tx ∈ sampleManageSeq, tx.2.LiquidationRatio ≠ .nan ∧ tx.2.StabilityFeeRatio ≠ .nan) ∧
    (∃ stored', manageSeqF64 (sampleState []) sampleManageSeq none = .ok stored' ∧
      ∃ cfg, stored' = some cfg ∧
        F64.lt (.fin 0) cfg.LiquidationRatio = true ∧
        F64.lt cfg.LiquidationRatio (.fin 1) = true ∧
        F64.lt (.fin 0) cfg.StabilityFeeRatio = true ∧
        F64.lt cfg.StabilityFeeRatio (.fin 1) = true ∧ 0 < cfg.DebtCeiling) ∧
    (manageSeqF64 (sampleState []) sampleManageSeq none).toOption.map
        (fun stored' => stored'.map (fun cfg => (cfg.LiquidationRatio, cfg.StabilityFeeRatio,
          cfg.DebtCeiling, cfg.TotalBalance))) =
      some (some (.fin (1 / 2), .fin (8 / 100), 1000000000000, 1)) := by
  have hnan : ∀ tx ∈ sampleManageSeq,
      tx.2.LiquidationRatio ≠ .nan ∧ tx.2.StabilityFeeRatio ≠ .nan := by
    intro tx htx
    simp only [sampleManageSeq, List.mem_cons, List.mem_singleton, List.not_mem_nil,
      or_false] at htx
    rcases htx with rfl | rfl
    · constructor <;> simp [ManageF64.ofConfig]
    · constructor <;> simp [ManageF64.ofConfig]
  have hne : sampleManageSeq ≠ [] := by
    unfold sampleManageSeq
    exact List.cons_ne_nil _ _
  have hsome : (manageSeqF64 (sampleState []) sampleManageSeq none).toOption.isSome = true := by
    decide!
  refine ⟨⟨hne, hnan⟩, ?_, by decide!⟩
  cases hrun : manageSeqF64 (sampleState []) sampleManageSeq none with
  | error e =>
    rw [hrun] at hsome
    cases hsome
  | ok stored' =>
    exact ⟨stored', rfl,
      (config_range_invariant X0).2.1 (sampleState []) sampleManageSeq stored' hne hnan hrun⟩

end Executor
